import Mathlib

/-!
# MAL middleware (malgo): broker matching, publication fan-out and the MAL/TCP frame codec

Shallow embedding of `mal/broker/handler.go`, `mal/transport/tcp/decoder.go` and the
list types of package `mal`.

Conventions of the embedding.

* A Go pointer `*T` is an `Option T`; `none` is the nil pointer.
* A function that can hit a run-time panic (nil dereference, index out of range) returns an
  `Option`: `none` is the panic, `some v` the normal return of `v`.
* A Go `error` result is an `Option String` (`none` is the nil error) or an `Except String`.
* Machine integers are `Nat` or `Int`; bytes are naturals below 256.
-/

namespace Malgo

/-! ## Data model (package mal) -/

/-- Go type Identifier, a string. -/
abbrev Identifier := String

/-- Go type URI, a string. -/
abbrev URI := String

/-- Go type Long, a signed 64-bit integer. -/
abbrev Long := Int

/-- Go type IdentifierList, a slice of pointers to Identifier. -/
abbrev IdentifierList := List (Option Identifier)

/-- Go type Blob, a byte slice. -/
abbrev Blob := List Nat

/-- Go type BlobList, a slice of pointers to Blob. -/
abbrev BlobList := List (Option Blob)

/-- Byte buffer of a message body, an encoder or a decoder. -/
abbrev Body := List Nat

/-- EntityKey of entitykey.go: four nullable sub-keys. -/
structure EntityKey where
  FirstSubKey : Option Identifier
  SecondSubKey : Option Long
  ThirdSubKey : Option Long
  FourthSubKey : Option Long
deriving DecidableEq, Repr

/-- EntityRequest as built in broker_test.go: a nullable sub-domain, four flags and the
list of requested keys. -/
structure EntityRequest where
  SubDomain : Option IdentifierList
  AllAreas : Bool
  AllServices : Bool
  AllOperations : Bool
  OnlyOnChange : Bool
  EntityKeys : List (Option EntityKey)
deriving DecidableEq, Repr

/-- UpdateHeader as built in broker_test.go: timestamp, source URI, update type and key. -/
structure UpdateHeader where
  Timestamp : Nat
  SourceURI : URI
  UpdateType : Nat
  Key : EntityKey
deriving DecidableEq, Repr

/-- Go type UpdateHeaderList, a slice of pointers to UpdateHeader. -/
abbrev UpdateHeaderList := List (Option UpdateHeader)

/-- Message: the fields set by TCPTransport.decode, in the order of its composite literal.
The two URIs are pointers; `Body` stands for the bytes of the body; enumerations stand for
their ordinals. -/
structure Message where
  UriFrom : Option URI
  UriTo : Option URI
  AuthenticationId : Blob
  EncodingId : Nat
  Timestamp : Nat
  QoSLevel : Nat
  Priority : Nat
  Domain : IdentifierList
  NetworkZone : Identifier
  Session : Nat
  SessionName : Identifier
  InteractionType : Nat
  InteractionStage : Nat
  TransactionId : Nat
  ServiceArea : Nat
  Service : Nat
  Operation : Nat
  AreaVersion : Nat
  IsErrorMessage : Bool
  Body : Body
deriving DecidableEq, Repr

/-! ## Broker (mal/broker/handler.go) -/

/-- BrokerSub: what the broker memorises of a subscriber registration. The field
`entities` is a pointer in Go, always set by `register` to the address of the decoded
list, hence never nil; `transaction` identifies the subscriber transaction object. -/
structure BrokerSub where
  subid : Identifier
  domain : IdentifierList
  session : Nat
  sessionName : Identifier
  serviceArea : Nat
  service : Nat
  operation : Nat
  entities : List (Option EntityRequest)
  transaction : Nat
deriving DecidableEq, Repr

/-- Function subkey of handler.go. -/
def subkey (urifrom : String) (subid : String) : String :=
  urifrom ++ "/" ++ subid

/-- Go conversion `string(v)` of an integer: the UTF-8 text of the code point `v`, and
U+FFFD for every value that is not a valid code point. -/
def runeString (v : Long) : String :=
  if (0 ≤ v ∧ v < 0xD800) ∨ (0xDFFF < v ∧ v ≤ 0x10FFFF) then
    String.singleton (Char.ofNat v.toNat)
  else "\uFFFD"

/-- Range loop of domainMatches (lines 88-93): element-wise comparison of `required`
with the start of `domain`. Both sides are dereferenced; the index is in range after the
length test of line 83. -/
def domainLoop : IdentifierList → IdentifierList → Option Bool
  | [], _ => some true
  | _ :: _, [] => none
  | name :: rest, d :: ds =>
    match name, d with
    | some n, some m => if n ≠ m then some false else domainLoop rest ds
    | _, _ => none

/-- Lines 68-81 of domainMatches: the required domain and the wildcard flag `all`.
With a sub-domain, `required[len(required)-1]` is indexed and dereferenced. -/
def requiredDomain (subDomainOfSub : IdentifierList) (subdomain : Option IdentifierList) :
    Option (IdentifierList × Bool) :=
  match subdomain with
  | none => some (subDomainOfSub, false)
  | some sd =>
    let required := subDomainOfSub ++ sd
    match required.getLast? with
    | none => none
    | some none => none
    | some (some last) =>
      if last = "*" then some (required.dropLast, true) else some (required, false)

/-- Method BrokerSub.domainMatches of handler.go. -/
def BrokerSub.domainMatches (sub : BrokerSub) (domain : IdentifierList)
    (subdomain : Option IdentifierList) : Option Bool :=
  match requiredDomain sub.domain subdomain with
  | none => none
  | some (required, all) =>
    if domain.length < required.length then some false
    else
      match domainLoop required domain with
      | none => none
      | some false => some false
      | some true => if domain.length > required.length then some all else some true

/-- Lines 150-157 of matches, for one request key: the two Debugf calls dereference the
eight sub-keys (their arguments are evaluated before the call), then the test compares
the first sub-keys as strings and the three others after conversion to string. -/
def keyTest (rkey key : EntityKey) : Option Bool :=
  match rkey.FirstSubKey, rkey.SecondSubKey, rkey.ThirdSubKey, rkey.FourthSubKey,
      key.FirstSubKey, key.SecondSubKey, key.ThirdSubKey, key.FourthSubKey with
  | some r1, some r2, some r3, some r4, some k1, some k2, some k3, some k4 =>
    some ((r1 == "*" || r1 == k1) &&
      (r2 == 0 || runeString r2 == runeString k2) &&
      (r3 == 0 || runeString r3 == runeString k3) &&
      (r4 == 0 || runeString r4 == runeString k4))
  | _, _, _, _, _, _, _, _ => none

/-- Inner loop of matches (lines 139-159) over the keys of one request. -/
def matchKeys (key : EntityKey) : List (Option EntityKey) → Option Bool
  | [] => some false
  | none :: _ => none
  | some rkey :: rest =>
    match keyTest rkey key with
    | none => none
    | some true => some true
    | some false => matchKeys key rest

/-- The four scope tests of matches on one request (lines 115-136); `none` when the
domain test panics. -/
def requestInScope (sub : BrokerSub) (msg : Message) (request : EntityRequest) : Option Bool :=
  match sub.domainMatches msg.Domain request.SubDomain with
  | none => none
  | some false => some false
  | some true =>
    if !request.AllAreas && msg.ServiceArea != sub.serviceArea then some false
    else if !request.AllServices && msg.Service != sub.service then some false
    else if !request.AllOperations && msg.Operation != sub.operation then some false
    else some true

/-- Outer loop of matches (lines 114-161) over the entity requests. -/
def matchRequests (sub : BrokerSub) (msg : Message) (key : EntityKey) :
    List (Option EntityRequest) → Option Bool
  | [] => some false
  | none :: _ => none
  | some request :: rest =>
    match requestInScope sub msg request with
    | none => none
    | some false => matchRequests sub msg key rest
    | some true =>
      match matchKeys key request.EntityKeys with
      | none => none
      | some true => some true
      | some false => matchRequests sub msg key rest

/-- Method BrokerSub.matches of handler.go. -/
def BrokerSub.matches (sub : BrokerSub) (msg : Message) (key : EntityKey) : Option Bool :=
  if msg.Session ≠ sub.session ∨ msg.SessionName ≠ sub.sessionName then some false
  else matchRequests sub msg key sub.entities

/-- BrokerPub: what the broker memorises of a publisher registration. -/
structure BrokerPub where
  domain : IdentifierList
  session : Nat
  sessionName : Identifier
  serviceArea : Nat
  Service : Nat
  operation : Nat
  keys : Option (List (Option EntityKey))
  transaction : Nat
deriving DecidableEq, Repr

/-- The element codecs reached through `handler.encoding`; their sources are not part of
the broker, so they are parameters of the model. A decoder takes the unread bytes and
returns the value with the bytes left, or an error. An encoder takes the buffer written so
far and returns the buffer after the call with the error it reports. -/
structure Encoding where
  DecodeUpdateHeaderList : Body → Except String (UpdateHeaderList × Body)
  DecodeBlobList : Body → Except String (BlobList × Body)
  EncodeIdentifier : Body → Identifier → Body × Option String
  EncodeUpdateHeaderList : Body → UpdateHeaderList → Body × Option String
  EncodeBlobList : Body → BlobList → Body × Option String

/-- BlobUpdateValueHandler: `list` is the pointer to the last decoded value list (nil in a
new handler), `values` the buffer of the values selected for the current subscription. -/
structure BlobUpdateValueHandler where
  list : Option BlobList
  values : BlobList
deriving DecidableEq, Repr

/-- Function NewBlobUpdateValueHandler: the zero value. -/
def NewBlobUpdateValueHandler : BlobUpdateValueHandler :=
  { list := none, values := [] }

/-- Method DecodeUpdateValueList: on error the handler is left as it was. Returns the
error, the handler and the bytes left in the decoder. -/
def BlobUpdateValueHandler.DecodeUpdateValueList (handler : BlobUpdateValueHandler)
    (enc : Encoding) (decoder : Body) : Option String × BlobUpdateValueHandler × Body :=
  match enc.DecodeBlobList decoder with
  | .error e => (some e, handler, decoder)
  | .ok (list, rest) => (none, { list := some list, values := [] }, rest)

/-- Method Size of the list types of package mal (identifier_list.go, uoctet_list.go,
uri_list.go): the length, and -1 on a nil pointer. BlobList, a list type of the same
package, is taken to follow them. -/
def listSize {α : Type} (list : Option (List α)) : Int :=
  match list with
  | some l => (l.length : Int)
  | none => -1

/-- Method UpdateValueListSize. -/
def BlobUpdateValueHandler.UpdateValueListSize (handler : BlobUpdateValueHandler) : Int :=
  listSize handler.list

/-- Method AppendValue: indexes the decoded list, a panic when the list is nil or the
index out of range. -/
def BlobUpdateValueHandler.AppendValue (handler : BlobUpdateValueHandler) (idx : Nat) :
    Option BlobUpdateValueHandler :=
  match handler.list with
  | none => none
  | some l =>
    match l.get? idx with
    | none => none
    | some v => some { handler with values := handler.values ++ [v] }

/-- Method EncodeUpdateValueList: the buffer of values is emptied only when the encoding
reports no error. Returns the encoder buffer, the error and the handler. -/
def BlobUpdateValueHandler.EncodeUpdateValueList (handler : BlobUpdateValueHandler)
    (enc : Encoding) (encoder : Body) : Body × Option String × BlobUpdateValueHandler :=
  match enc.EncodeBlobList encoder handler.values with
  | (buf, some e) => (buf, some e, handler)
  | (buf, none) => (buf, none, { handler with values := [] })

/-- Method ResetValues. -/
def BlobUpdateValueHandler.ResetValues (handler : BlobUpdateValueHandler) :
    BlobUpdateValueHandler :=
  { handler with values := [] }

/-- One call `sub.transaction.Notify(body, false)`. -/
structure Notify where
  transaction : Nat
  body : Body
  isError : Bool
deriving DecidableEq, Repr

/-- BrokerImpl: the update value handler and the two maps. A Go map is an association
list with distinct keys; the order of the list is the order in which `range` visits it. -/
structure BrokerImpl where
  updtHandler : BlobUpdateValueHandler
  subs : List (String × BrokerSub)
  pubs : List (String × BrokerPub)
deriving DecidableEq, Repr

/-- Inner loop of publish (lines 432-439) for one subscription: `idx` is the index of the
head of the remaining headers, `headers` the headers selected so far. -/
def filterUpdates (sub : BrokerSub) (pub : Message) :
    Nat → UpdateHeaderList → UpdateHeaderList → BlobUpdateValueHandler →
      Option (UpdateHeaderList × BlobUpdateValueHandler)
  | _, [], headers, handler => some (headers, handler)
  | _, none :: _, _, _ => none
  | idx, some hdr :: rest, headers, handler =>
    match sub.matches pub hdr.Key with
    | none => none
    | some true =>
      match handler.AppendValue idx with
      | none => none
      | some handler2 => filterUpdates sub pub (idx + 1) rest (headers ++ [some hdr]) handler2
    | some false => filterUpdates sub pub (idx + 1) rest headers handler

/-- Body of the loop of publish over the subscriptions (lines 431-451): the NOTIFY sent,
if any, and the handler afterwards; `none` on a panic. The errors returned by the three
encoding calls and by Notify (parameter `net`) are discarded, as in the source. -/
def notifySub (enc : Encoding) (net : Notify → Option String) (pub : Message)
    (uhlist : UpdateHeaderList) (sub : BrokerSub) (handler : BlobUpdateValueHandler) :
    Option (Option Notify × BlobUpdateValueHandler) :=
  match filterUpdates sub pub 0 uhlist [] handler with
  | none => none
  | some (headers, handler1) =>
    if headers.length = 0 then some (none, handler1.ResetValues)
    else
      let buf : Body := []
      let e1 := enc.EncodeIdentifier buf sub.subid
      let e2 := enc.EncodeUpdateHeaderList e1.1 headers
      let e3 := handler1.EncodeUpdateValueList enc e2.1
      let call : Notify := { transaction := sub.transaction, body := e3.1, isError := false }
      let _err := net call
      some (some call, e3.2.2)

/-- Outcome of a run of publish: `result` is `none` when the run panicked, `some none`
when it returned nil and `some (some e)` when it returned the error `e`; `sent` lists the
Notify calls made, in order; `broker` is the state reached. -/
structure PublishRun where
  result : Option (Option String)
  sent : List Notify
  broker : BrokerImpl
deriving DecidableEq, Repr

/-- Loop of publish over `handler.subs` (line 430), in the order of the list. -/
def publishLoop (enc : Encoding) (net : Notify → Option String) (pub : Message)
    (uhlist : UpdateHeaderList) :
    List (String × BrokerSub) → BlobUpdateValueHandler → List Notify →
      Option (Option String) × List Notify × BlobUpdateValueHandler
  | [], handler, sent => (some none, sent, handler)
  | (_, sub) :: rest, handler, sent =>
    match notifySub enc net pub uhlist sub handler with
    | none => (none, sent, handler)
    | some (none, handler1) => publishLoop enc net pub uhlist rest handler1 sent
    | some (some call, handler1) => publishLoop enc net pub uhlist rest handler1 (sent ++ [call])

/-- Method BrokerImpl.publish of handler.go. The value returned by DecodeUpdateValueList
is dropped (line 417), and the test of line 418 reads the error of the header decoding,
which is nil there. -/
def BrokerImpl.publish (broker : BrokerImpl) (enc : Encoding) (net : Notify → Option String)
    (pub : Message) : PublishRun :=
  match enc.DecodeUpdateHeaderList pub.Body with
  | .error e => { result := some (some e), sent := [], broker := broker }
  | .ok (uhlist, decoder) =>
    let err : Option String := none
    let d := broker.updtHandler.DecodeUpdateValueList enc decoder
    let handler := d.2.1
    match err with
    | some e => { result := some (some e), sent := [], broker := { broker with updtHandler := handler } }
    | none =>
      if (uhlist.length : Int) ≠ handler.UpdateValueListSize then
        { result := some (some "Bad header and value list lengths"), sent := [],
          broker := { broker with updtHandler := handler } }
      else
        let r := publishLoop enc net pub uhlist broker.subs handler []
        { result := r.1, sent := r.2.1, broker := { broker with updtHandler := r.2.2 } }

/-- Method BrokerImpl.OnPublish: returns what publish returns. -/
def BrokerImpl.OnPublish (broker : BrokerImpl) (enc : Encoding) (net : Notify → Option String)
    (msg : Message) : PublishRun :=
  let r := broker.publish enc net msg
  match r.result with
  | some (some e) => { r with result := some (some e) }
  | _ => r

/-! ## Reference rules and sample data used by the statements -/

/-- Domain rule of a subscription with domain `D` and request sub-domain `o`, on non-null
identifiers. With a sub-domain `t`, the required domain is `D ++ t`; when its last element
is the wildcard the rest must be a leading part of `M`, otherwise `M` must equal it. With no
sub-domain, `M` must equal `D`. -/
def domainRule (D : List Identifier) (o : Option (List Identifier)) (M : List Identifier) :
    Bool :=
  match o with
  | none => decide (M = D)
  | some t =>
    if (D ++ t).getLast? = some "*" then (D ++ t).dropLast.isPrefixOf M else decide (M = D ++ t)

/-- Domain rule in which an absent sub-domain counts as the empty sub-domain. -/
def domainRuleAbsentAsEmpty (D : List Identifier) (o : Option (List Identifier))
    (M : List Identifier) : Bool :=
  domainRule D (some (o.getD [])) M

/-- The wildcard request key: star, then three zeros. -/
def wildcardKey : EntityKey :=
  { FirstSubKey := some "*", SecondSubKey := some 0, ThirdSubKey := some 0,
    FourthSubKey := some 0 }

/-- Sub-key rule on non-null sub-keys: the first sub-keys compared as strings, the three
others as integers. -/
def subKeyRule (r1 : Identifier) (r2 r3 r4 : Long) (k1 : Identifier) (k2 k3 k4 : Long) : Prop :=
  (r1 = "*" ∨ r1 = k1) ∧ (r2 = 0 ∨ r2 = k2) ∧ (r3 = 0 ∨ r3 = k3) ∧ (r4 = 0 ∨ r4 = k4)

/-- A key with four non-null sub-keys. -/
def mkKey (k1 : Identifier) (k2 k3 k4 : Long) : EntityKey :=
  { FirstSubKey := some k1, SecondSubKey := some k2, ThirdSubKey := some k3,
    FourthSubKey := some k4 }

/-- Entity request of broker_test.go with the given keys: sub-domain `["*"]`, every flag
set. -/
def starRequest (keys : List (Option EntityKey)) : EntityRequest :=
  { SubDomain := some [some "*"], AllAreas := true, AllServices := true,
    AllOperations := true, OnlyOnChange := true, EntityKeys := keys }

/-- Subscriber of broker_test.go: domain `[spacecraft1, payload]`, subscription
"MySubscription" with the given entity requests. -/
def testSubscriber (entities : List (Option EntityRequest)) : BrokerSub :=
  { subid := "MySubscription", domain := [some "spacecraft1", some "payload"], session := 0,
    sessionName := "", serviceArea := 200, service := 1, operation := 1,
    entities := entities, transaction := 1 }

/-- A PUBLISH message of the publisher of broker_test.go: domain
`[spacecraft1, payload, camera]`, operation (200, 1, 1, 1), with the given body. -/
def testPublish (body : Body) : Message :=
  { UriFrom := some "maltcp://127.0.0.1:16002/publisher",
    UriTo := some "maltcp://127.0.0.1:16003/broker",
    AuthenticationId := [], EncodingId := 0, Timestamp := 0, QoSLevel := 0, Priority := 0,
    Domain := [some "spacecraft1", some "payload", some "camera"], NetworkZone := "",
    Session := 0, SessionName := "", InteractionType := 6, InteractionStage := 5,
    TransactionId := 1, ServiceArea := 200, Service := 1, Operation := 1, AreaVersion := 1,
    IsErrorMessage := false, Body := body }


/-- Whether the update header `h` is selected for the subscription: its key makes matches
return true. -/
def selects (sub : BrokerSub) (pub : Message) (h : Option UpdateHeader) : Bool :=
  match h with
  | some hdr => sub.matches pub hdr.Key == some true
  | none => false

/-- The updates of a publication selected for a subscription: the pairs of a header and
the value of the same index whose header is selected, in publication order. -/
def selectedUpdates (sub : BrokerSub) (pub : Message) (uhlist : UpdateHeaderList)
    (vals : BlobList) : List (Option UpdateHeader × Option Blob) :=
  (uhlist.zip vals).filter (fun p => selects sub pub p.1)

/-- Body of the NOTIFY built by lines 446-450 from a subscription identifier, a header
list and a value list: the three encodings written in that order in an empty buffer. -/
def notifyBody (enc : Encoding) (subid : Identifier) (headers : UpdateHeaderList)
    (values : BlobList) : Body :=
  (enc.EncodeBlobList
    (enc.EncodeUpdateHeaderList (enc.EncodeIdentifier [] subid).1 headers).1 values).1

/-- Sample update header of code `c`: key `(key1, 1, 1, 1)` for 1, `(key2, 1, 1, 1)` for
2, and a key whose first sub-key is NULL for any other code. -/
def sampleHeader (c : Nat) : Option UpdateHeader :=
  some { Timestamp := 0, SourceURI := "maltcp://127.0.0.1:16002/publisher", UpdateType := 1,
         Key := { FirstSubKey := if c = 1 then some "key1" else if c = 2 then some "key2" else none,
                  SecondSubKey := some 1, ThirdSubKey := some 1, FourthSubKey := some 1 } }

/-- Code of a sample update header, inverse of sampleHeader on 1 and 2. -/
def sampleHeaderCode (h : Option UpdateHeader) : Nat :=
  match h with
  | none => 0
  | some hdr =>
    if hdr.Key.FirstSubKey = some "key1" then 1
    else if hdr.Key.FirstSubKey = some "key2" then 2 else 0

/-- Reads a count byte `n` and then `n` element bytes. -/
def sampleReadList (b : Body) : Except String (List Nat × Body) :=
  match b with
  | [] => .error "no length"
  | n :: rest =>
    if rest.length < n then .error "truncated list" else .ok (rest.take n, rest.drop n)

/-- A concrete encoding for the sample runs. A list is a count byte followed by one byte
per element: the code of a sample header, or the single byte of a blob. An identifier is
written as its length. No encoder reports an error. -/
def sampleEncoding : Encoding :=
  { DecodeUpdateHeaderList := fun b =>
      match sampleReadList b with
      | .error e => .error e
      | .ok (l, rest) => .ok (l.map sampleHeader, rest)
    DecodeBlobList := fun b =>
      match sampleReadList b with
      | .error e => .error e
      | .ok (l, rest) => .ok (l.map (fun v => some [v]), rest)
    EncodeIdentifier := fun buf id => (buf ++ [id.length], none)
    EncodeUpdateHeaderList := fun buf l => (buf ++ l.length :: l.map sampleHeaderCode, none)
    EncodeBlobList := fun buf l => (buf ++ l.length :: (l.map (fun v => v.getD [])).flatten, none) }

/-- A broker holding the given subscriptions, with a new update value handler. -/
def sampleBroker (subs : List (String × BrokerSub)) : BrokerImpl :=
  { updtHandler := NewBlobUpdateValueHandler, subs := subs, pubs := [] }

/-- The subscription of broker_test.go: key `(key1, 0, 0, 0)`, stored under its subkey. -/
def key1Subscription : String × BrokerSub :=
  (subkey "maltcp://127.0.0.1:16001/subscriber" "MySubscription",
   testSubscriber [some (starRequest [some (mkKey "key1" 0 0 0)])])

/-- A Notify whose sending always succeeds. -/
def netOk : Notify → Option String := fun _ => none

/-- The NOTIFY that a subscription is due for a publication of headers `uhlist` and
values `vals`: none when no update is selected, otherwise the call on its transaction
whose body encodes its identifier, the selected headers and the values of the same
indices. -/
def expectedNotify (enc : Encoding) (sub : BrokerSub) (pub : Message)
    (uhlist : UpdateHeaderList) (vals : BlobList) : Option Notify :=
  let sel := selectedUpdates sub pub uhlist vals
  if sel.length = 0 then none
  else some { transaction := sub.transaction,
              body := notifyBody enc sub.subid (sel.map Prod.fst) (sel.map Prod.snd),
              isError := false }

/-- The matching of every update header of `uhlist` against the subscription returns: no
header pointer is nil and no call of matches panics. -/
def matchingReturns (sub : BrokerSub) (pub : Message) (uhlist : UpdateHeaderList) : Prop :=
  ∀ h ∈ uhlist, ∃ hdr b, h = some hdr ∧ sub.matches pub hdr.Key = some b


/-! ## MAL/TCP frame codec (mal/transport/tcp, mal/identifier_list.go, mal/encoder.go) -/

/-- Outcome of a call that returns a value, returns an error, or panics. -/
inductive Res (α : Type) where
  | ok : α → Res α
  | error : String → Res α
  | panic : Res α
deriving DecidableEq, Repr

/-- Sequencing of two calls: an error or a panic of the first ends the run. -/
def Res.bind {α β : Type} (x : Res α) (f : α → Res β) : Res β :=
  match x with
  | .ok v => f v
  | .error e => .error e
  | .panic => .panic

instance : Monad Res where
  pure := Res.ok
  bind := Res.bind

/-- A call returning `(value, error)` whose error is handed back to the caller. -/
def Res.ofExcept {α : Type} (x : Except String α) : Res α :=
  match x with
  | .ok v => .ok v
  | .error e => .error e

/-- The attribute primitives of the binary encoding (package encoding/binary), which are
not part of the transport: for each attribute type the bytes that the encoder appends for
a value (`none` when it reports an error) and the decoder, which takes the unread bytes and
returns the value with the bytes left. -/
structure LeafCodec where
  nullBytes : Option Body
  notNullBytes : Option Body
  uriBytes : URI → Option Body
  uintegerBytes : Nat → Option Body
  timeBytes : Nat → Option Body
  identifierBytes : Identifier → Option Body
  blobBytes : Blob → Option Body
  DecodeURI : Body → Except String (URI × Body)
  DecodeUInteger : Body → Except String (Nat × Body)
  DecodeTime : Body → Except String (Nat × Body)
  DecodeIdentifier : Body → Except String (Identifier × Body)
  DecodeNullableIdentifier : Body → Except String (Option Identifier × Body)
  DecodeBlob : Body → Except String (Blob × Body)

/-- An encoder call appending the bytes `bs` to the buffer, or reporting an error and
leaving the buffer as it is. -/
def emit (buf : Body) (bs : Option Body) : Body × Option String :=
  match bs with
  | some b => (buf ++ b, none)
  | none => (buf, some "encoding error")

/-- Method GenEncoder.EncodeNullableIdentifier of encoder.go. -/
def EncodeNullableIdentifier (codec : LeafCodec) (buf : Body) (att : Option Identifier) :
    Body × Option String :=
  match att with
  | none => emit buf codec.nullBytes
  | some v =>
    match emit buf codec.notNullBytes with
    | (buf1, some e) => (buf1, some e)
    | (buf1, none) => emit buf1 (codec.identifierBytes v)

/-- Loop of IdentifierList.Encode (lines 112-114): the error of each element is dropped. -/
def encodeIdentifiers (codec : LeafCodec) : Body → IdentifierList → Body
  | buf, [] => buf
  | buf, e :: rest => encodeIdentifiers codec (EncodeNullableIdentifier codec buf e).1 rest

/-- Method IdentifierList.Encode of identifier_list.go: the length as a UInteger
(converted to 32 bits), then the elements. -/
def IdentifierList.Encode (codec : LeafCodec) (buf : Body) (list : IdentifierList) :
    Body × Option String :=
  match emit buf (codec.uintegerBytes (list.length % 2 ^ 32)) with
  | (buf1, some e) => (buf1, some e)
  | (buf1, none) => (encodeIdentifiers codec buf1 list, none)

/-- Loop of DecodeIdentifierList (lines 134-139): `n` nullable identifiers. -/
def decodeIdentifiers (codec : LeafCodec) : Nat → Body → Except String (IdentifierList × Body)
  | 0, d => .ok ([], d)
  | n + 1, d =>
    match codec.DecodeNullableIdentifier d with
    | .error e => .error e
    | .ok (x, d1) =>
      match decodeIdentifiers codec n d1 with
      | .error e => .error e
      | .ok (l, d2) => .ok (x :: l, d2)

/-- Function DecodeIdentifierList of identifier_list.go. The allocation
`make([]*Identifier, int(*size))` of line 133 is not represented: memory is taken as
unbounded, so that an announced size that the machine cannot allocate, on which the Go
run aborts, is here read element by element until the bytes run out. -/
def DecodeIdentifierList (codec : LeafCodec) (d : Body) : Except String (IdentifierList × Body) :=
  match codec.DecodeUInteger d with
  | .error e => .error e
  | .ok (size, d1) => decodeIdentifiers codec size d1

/-- Big-endian bytes of `v` on `n` bytes. -/
def beBytes : Nat → Nat → List Nat
  | 0, _ => []
  | n + 1, v => (v / 256 ^ n) % 256 :: beBytes n v

/-- Reads `n` bytes as a big-endian number, starting from `acc`. -/
def readBE : Nat → Nat → Body → Res (Nat × Body)
  | 0, acc, d => .ok (acc, d)
  | _ + 1, _, [] => .error "EOF"
  | n + 1, acc, b :: rest => readBE n (acc * 256 + b) rest

/-- Modelled from the spec: method Read of the binary decoder, one byte of the frame, an
error at the end of the buffer. -/
def Read (d : Body) : Res (Nat × Body) := readBE 1 0 d

/-- Modelled from the spec: method DecodeUOctet of the binary decoder in fixed mode, one
byte (§4.1, area_version and encoding_id). -/
def DecodeUOctet (d : Body) : Res (Nat × Body) := readBE 1 0 d

/-- Modelled from the spec: method DecodeUShort of the binary decoder in fixed mode, two
bytes big-endian (§4.1, service_area, service and operation). -/
def DecodeUShort (d : Body) : Res (Nat × Body) := readBE 2 0 d

/-- Modelled from the spec: method DecodeULong of the binary decoder in fixed mode, eight
bytes big-endian (§4.1, transaction_id). -/
def DecodeULong (d : Body) : Res (Nat × Body) := readBE 8 0 d

/-- Modelled from the spec: method ReadUInt32 of the binary decoder, four bytes
big-endian (§4.1, variable_length). -/
def ReadUInt32 (d : Body) : Res (Nat × Body) := readBE 4 0 d

/-- Modelled from the spec: function decodeSDU, the table of §4.1 from the SDU code to
the interaction type (SEND 1, SUBMIT 2, REQUEST 3, INVOKE 4, PROGRESS 5, PUB/SUB 6) and
the stage, counted from 1 within each pattern in the order of the table. -/
def decodeSDU (sdu : Nat) : Res (Nat × Nat) :=
  if sdu = 0 then .ok (1, 1)
  else if sdu ≤ 2 then .ok (2, sdu)
  else if sdu ≤ 4 then .ok (3, sdu - 2)
  else if sdu ≤ 7 then .ok (4, sdu - 4)
  else if sdu ≤ 11 then .ok (5, sdu - 7)
  else if sdu ≤ 21 then .ok (6, sdu - 11)
  else .error "unknown SDU"

/-- Modelled from the spec: function encodeSDU, the table of §4.1 read from the
interaction type and stage to the SDU code. -/
def encodeSDU (interactionType stage : Nat) : Res Nat :=
  if interactionType = 1 ∧ stage = 1 then .ok 0
  else if interactionType = 2 ∧ 1 ≤ stage ∧ stage ≤ 2 then .ok stage
  else if interactionType = 3 ∧ 1 ≤ stage ∧ stage ≤ 2 then .ok (stage + 2)
  else if interactionType = 4 ∧ 1 ≤ stage ∧ stage ≤ 3 then .ok (stage + 4)
  else if interactionType = 5 ∧ 1 ≤ stage ∧ stage ≤ 4 then .ok (stage + 7)
  else if interactionType = 6 ∧ 1 ≤ stage ∧ stage ≤ 10 then .ok (stage + 11)
  else .error "unknown interaction stage"

/-- Modelled from the spec: function QoSLevelFromOrdinalValue. A QoS level stands for its
ordinal in the enumeration BESTEFFORT, ASSURED, QUEUED, TIMELY. -/
def QoSLevelFromOrdinalValue (oval : Nat) : Res Nat :=
  if oval ≤ 3 then .ok oval else .error "unknown QoS level"

/-- Modelled from the spec: function SessionTypeFromOrdinalValue. A session type stands
for its ordinal in the enumeration LIVE, SIMULATION, REPLAY. -/
def SessionTypeFromOrdinalValue (oval : Nat) : Res Nat :=
  if oval ≤ 2 then .ok oval else .error "unknown session type"

/-- Modelled from the spec: constant MALTCP, the scheme of the transport. -/
def MALTCP : String := "maltcp"

/-- Modelled from the spec: constant MALTCP_URI, the start of a MAL/TCP URI. -/
def MALTCP_URI : String := "maltcp://"

/-- Go function strings.HasPrefix. -/
def HasPrefix (s : String) (start : String) : Bool :=
  start.data.isPrefixOf s.data

/-- TCPTransport: the fields read by the frame codec. The byte `flags` of the Go
structure is computed from the eight presence flags and is given by `flagsByte`. The field
`optimizeURI` (tcp.go line 72) is read by the encoder only; TCPTransport.init does not
assign it. -/
structure TCPTransport where
  uri : URI
  version : Nat
  optimizeURI : Bool
  sourceFlag : Bool
  sourceId : Option URI
  destinationFlag : Bool
  destinationId : Option URI
  priorityFlag : Bool
  timestampFlag : Bool
  networkZoneFlag : Bool
  sessionNameFlag : Bool
  domainFlag : Bool
  authenticationIdFlag : Bool
  dfltPriority : Nat
  dfltNetworkZone : Identifier
  dfltSessionName : Identifier
  dfltAuthenticationId : Blob
  dfltDomain : IdentifierList
deriving DecidableEq, Repr

/-- The byte `flags` as TCPTransport.init builds it (lines 106-140). -/
def TCPTransport.flagsByte (t : TCPTransport) : Nat :=
  (if t.sourceFlag then 128 else 0) + (if t.destinationFlag then 64 else 0) +
  (if t.priorityFlag then 32 else 0) + (if t.timestampFlag then 16 else 0) +
  (if t.networkZoneFlag then 8 else 0) + (if t.sessionNameFlag then 4 else 0) +
  (if t.domainFlag then 2 else 0) + (if t.authenticationIdFlag then 1 else 0)

/-- Lines 129-145 of decode: the source URI. The Debugf call of line 132 dereferences
the pointer returned by DecodeURI before the error is tested; a failed DecodeURI returns
a nil pointer. -/
def decodeSource (codec : LeafCodec) (transport : TCPTransport) (peer : String)
    (source_flag : Bool) (d : Body) : Res (Option URI × Body) :=
  if source_flag then
    match codec.DecodeURI d with
    | .error _ => .panic
    | .ok (urifrom, d1) =>
      if !HasPrefix urifrom MALTCP then .ok (some (MALTCP_URI ++ peer ++ "/" ++ urifrom), d1)
      else .ok (some urifrom, d1)
  else .ok (transport.sourceId, d)

/-- Lines 147-163 of decode: the destination URI, with the same Debugf call before the
error test (line 150). -/
def decodeDestination (codec : LeafCodec) (transport : TCPTransport)
    (destination_flag : Bool) (d : Body) : Res (Option URI × Body) :=
  if destination_flag then
    match codec.DecodeURI d with
    | .error _ => .panic
    | .ok (urito, d1) =>
      if !HasPrefix urito MALTCP then .ok (some (transport.uri ++ "/" ++ urito), d1)
      else .ok (some urito, d1)
  else .ok (transport.destinationId, d)

/-- Lines 165-230 of decode: an optional field other than a URI, read by `dec` when its
flag is set and taken from `dflt` otherwise. -/
def decodeOptional {α : Type} (flag : Bool) (dec : Body → Except String (α × Body)) (dflt : α)
    (d : Body) : Res (α × Body) :=
  if flag then Res.ofExcept (dec d) else .ok (dflt, d)

/-- Method TCPTransport.decode of decoder.go. `now` is the value of TimeNow() and `peer`
the parameter `from`. -/
def TCPTransport.decode (codec : LeafCodec) (transport : TCPTransport) (now : Nat)
    (buf : Body) (peer : String) : Res Message := do
  let (b, d) ← Read buf
  if (b / 32) % 8 ≠ transport.version then
    Res.error "TCPTransport.decode, MAL/TCP Version incompatible"
  else
    let sdu := b % 32
    let (interactionType, interactionStage) ← decodeSDU sdu
    let (serviceArea, d) ← DecodeUShort d
    let (service, d) ← DecodeUShort d
    let (operation, d) ← DecodeUShort d
    let (areaVersion, d) ← DecodeUOctet d
    let (b, d) ← Read d
    let isError := (b / 128) % 2 == 1
    let qos ← QoSLevelFromOrdinalValue ((b / 16) % 8)
    let session ← SessionTypeFromOrdinalValue (b % 16)
    let (transactionId, d) ← DecodeULong d
    let (b, d) ← Read d
    let source_flag := (b / 128) % 2 == 1
    let destination_flag := (b / 64) % 2 == 1
    let priority_flag := (b / 32) % 2 == 1
    let timestamp_flag := (b / 16) % 2 == 1
    let network_zone_flag := (b / 8) % 2 == 1
    let session_name_flag := (b / 4) % 2 == 1
    let domain_flag := (b / 2) % 2 == 1
    let authentication_id_flag := b % 2 == 1
    let (encodingId, d) ← DecodeUOctet d
    let (_, d) ← ReadUInt32 d
    let (urifrom, d) ← decodeSource codec transport peer source_flag d
    let (urito, d) ← decodeDestination codec transport destination_flag d
    let (priority, d) ← decodeOptional priority_flag codec.DecodeUInteger transport.dfltPriority d
    let (timestamp, d) ← decodeOptional timestamp_flag codec.DecodeTime now d
    let (networkZone, d) ←
      decodeOptional network_zone_flag codec.DecodeIdentifier transport.dfltNetworkZone d
    let (sessionName, d) ←
      decodeOptional session_name_flag codec.DecodeIdentifier transport.dfltSessionName d
    let (domain, d) ←
      decodeOptional domain_flag (DecodeIdentifierList codec) transport.dfltDomain d
    let (authenticationId, d) ←
      decodeOptional authentication_id_flag codec.DecodeBlob transport.dfltAuthenticationId d
    pure
      { UriFrom := urifrom, UriTo := urito, AuthenticationId := authenticationId,
        EncodingId := encodingId, Timestamp := timestamp, QoSLevel := qos,
        Priority := priority, Domain := domain, NetworkZone := networkZone,
        Session := session, SessionName := sessionName, InteractionType := interactionType,
        InteractionStage := interactionStage, TransactionId := transactionId,
        ServiceArea := serviceArea, Service := service, Operation := operation,
        AreaVersion := areaVersion, IsErrorMessage := isError, Body := d }

/-- An encoder call of the frame encoder: appends the bytes or returns the error. -/
def put (buf : Body) (bs : Option Body) : Res Body :=
  match bs with
  | some b => .ok (buf ++ b)
  | none => .error "encoding error"

/-- Writes an optional field of the frame when its presence flag is set. -/
def putIf (flag : Bool) (buf : Body) (bs : Option Body) : Res Body :=
  if flag then put buf bs else .ok buf

/-- Writes an optional URI of the frame when its presence flag is set; the URI must then
not be nil. -/
def putURIIf (codec : LeafCodec) (flag : Bool) (buf : Body) (uri : Option URI) : Res Body :=
  if flag then
    match uri with
    | none => .panic
    | some u => put buf (codec.uriBytes u)
  else .ok buf

/-- Writes the domain of the frame with IdentifierList.Encode when its presence flag is
set. -/
def putDomainIf (codec : LeafCodec) (flag : Bool) (buf : Body) (domain : IdentifierList) :
    Res Body :=
  if flag then
    match IdentifierList.Encode codec buf domain with
    | (_, some e) => .error e
    | (buf1, none) => .ok buf1
  else .ok buf

/-- Modelled from the spec: the optimized form of a MAL/TCP URI (§4.1 and scenario S6),
the URI without its scheme and its authority: the bare path `/publisher` for
`maltcp://127.0.0.1:16002/publisher`. A URI that does not start with `maltcp://` is left
as it is. -/
def optimizedURI (u : URI) : URI :=
  if HasPrefix u MALTCP_URI then
    String.mk ((u.data.drop MALTCP_URI.length).dropWhile (fun c => c != '/'))
  else u

/-- Modelled from the spec: the URI field that the encoder writes for the URI `u`
(§4.1, scenario S6): the optimized form when the transport optimizes URIs, the URI in
full otherwise. -/
def TCPTransport.uriField (transport : TCPTransport) (u : URI) : URI :=
  if transport.optimizeURI then optimizedURI u else u

/-- Modelled from the spec: method TCPTransport.encode (encoder.go is not among the
sources). The frame of §4.1: the fixed header of 23 bytes, big-endian, with the presence
flags of the transport at offset 17 and a zero variable_length; then each optional field
whose flag is set, in the order source, destination, priority, timestamp, network zone,
session name, domain, authentication id, a field whose flag is clear being left out; then
the body. The two URIs are written as `uriField` gives them: in the optimized form of
scenario S6 when `optimizeURI` is set, in full otherwise. -/
def TCPTransport.encode (codec : LeafCodec) (transport : TCPTransport) (msg : Message) :
    Res Body := do
  let sdu ← encodeSDU msg.InteractionType msg.InteractionStage
  let buf : Body :=
    [(transport.version % 8) * 32 + sdu] ++ beBytes 2 msg.ServiceArea ++ beBytes 2 msg.Service ++
      beBytes 2 msg.Operation ++ beBytes 1 msg.AreaVersion ++
      [(if msg.IsErrorMessage then 128 else 0) + (msg.QoSLevel % 8) * 16 + msg.Session % 16] ++
      beBytes 8 msg.TransactionId ++ [transport.flagsByte] ++ beBytes 1 msg.EncodingId ++
      beBytes 4 0
  let buf ← putURIIf codec transport.sourceFlag buf (msg.UriFrom.map transport.uriField)
  let buf ← putURIIf codec transport.destinationFlag buf (msg.UriTo.map transport.uriField)
  let buf ← putIf transport.priorityFlag buf (codec.uintegerBytes msg.Priority)
  let buf ← putIf transport.timestampFlag buf (codec.timeBytes msg.Timestamp)
  let buf ← putIf transport.networkZoneFlag buf (codec.identifierBytes msg.NetworkZone)
  let buf ← putIf transport.sessionNameFlag buf (codec.identifierBytes msg.SessionName)
  let buf ← putDomainIf codec transport.domainFlag buf msg.Domain
  let buf ← putIf transport.authenticationIdFlag buf (codec.blobBytes msg.AuthenticationId)
  pure (buf ++ msg.Body)

/-- Function write32 of tcp.go: the four bytes stored for a 32-bit value. -/
def write32 (value : Nat) : List Nat :=
  [(value / 2 ^ 24) % 256, (value / 2 ^ 16) % 256, (value / 2 ^ 8) % 256, value % 256]

/-- Function read32 of tcp.go, on four bytes. -/
def read32 (b0 b1 b2 b3 : Nat) : Nat :=
  (b3 + b2 * 2 ^ 8 + b1 * 2 ^ 16 + b0 * 2 ^ 24) % 2 ^ 32

/-- Method TCPTransport.writeMessage of tcp.go, up to the call of Write: the frame handed
to the connection, which is the encoded message with the 32-bit value `len(buf) - 23`
stored at offset 19. Slicing a buffer shorter than the fixed header panics. -/
def TCPTransport.writeMessage (codec : LeafCodec) (transport : TCPTransport) (msg : Message) :
    Res Body := do
  let buf ← transport.encode codec msg
  if buf.length < 23 then Res.panic
  else pure (buf.take 19 ++ write32 ((buf.length % 2 ^ 32 + 2 ^ 32 - 23) % 2 ^ 32) ++ buf.drop 23)


/-- Bytes written for a nullable identifier by EncodeNullableIdentifier: the null mark,
or the not-null mark followed by the identifier; `none` when a call reports an error. -/
def nullableIdentifierBytes (codec : LeafCodec) (att : Option Identifier) : Option Body :=
  match att with
  | none => codec.nullBytes
  | some v =>
    match codec.notNullBytes, codec.identifierBytes v with
    | some b1, some b2 => some (b1 ++ b2)
    | _, _ => none

/-- The attribute primitives round-trip: whatever the encoder writes for a value, the
decoder reads back as that value, leaving the bytes that follow. -/
structure LeafCodec.RoundTrips (codec : LeafCodec) : Prop where
  uri : ∀ u bs rest, codec.uriBytes u = some bs → codec.DecodeURI (bs ++ rest) = .ok (u, rest)
  uinteger : ∀ v bs rest, codec.uintegerBytes v = some bs →
    codec.DecodeUInteger (bs ++ rest) = .ok (v, rest)
  time : ∀ v bs rest, codec.timeBytes v = some bs → codec.DecodeTime (bs ++ rest) = .ok (v, rest)
  identifier : ∀ v bs rest, codec.identifierBytes v = some bs →
    codec.DecodeIdentifier (bs ++ rest) = .ok (v, rest)
  blob : ∀ v bs rest, codec.blobBytes v = some bs → codec.DecodeBlob (bs ++ rest) = .ok (v, rest)
  nullable : ∀ att bs rest, nullableIdentifierBytes codec att = some bs →
    codec.DecodeNullableIdentifier (bs ++ rest) = .ok (att, rest)

/-- Well-formed message for a codec: a legal pair of interaction type and stage, header
fields within their widths, enumerations within their ranges, both URIs present and
carrying the maltcp scheme, and every optional field encodable. -/
structure Message.WellFormed (codec : LeafCodec) (m : Message) : Prop where
  stage : ∃ sdu, encodeSDU m.InteractionType m.InteractionStage = .ok sdu
  serviceArea : m.ServiceArea < 2 ^ 16
  service : m.Service < 2 ^ 16
  operation : m.Operation < 2 ^ 16
  areaVersion : m.AreaVersion < 2 ^ 8
  transactionId : m.TransactionId < 2 ^ 64
  encodingId : m.EncodingId < 2 ^ 8
  qos : m.QoSLevel ≤ 3
  session : m.Session ≤ 2
  uriFrom : ∃ u bs, m.UriFrom = some u ∧ HasPrefix u MALTCP = true ∧ codec.uriBytes u = some bs
  uriTo : ∃ u bs, m.UriTo = some u ∧ HasPrefix u MALTCP = true ∧ codec.uriBytes u = some bs
  priority : ∃ bs, codec.uintegerBytes m.Priority = some bs
  timestamp : ∃ bs, codec.timeBytes m.Timestamp = some bs
  networkZone : ∃ bs, codec.identifierBytes m.NetworkZone = some bs
  sessionName : ∃ bs, codec.identifierBytes m.SessionName = some bs
  domainLength : m.Domain.length < 2 ^ 32 ∧
    ∃ bs, codec.uintegerBytes m.Domain.length = some bs
  domain : ∀ e ∈ m.Domain, ∃ bs, nullableIdentifierBytes codec e = some bs
  authenticationId : ∃ bs, codec.blobBytes m.AuthenticationId = some bs

/-- Every optional field that the sender leaves out of the frame (presence flag clear)
holds in the message the value that the receiver substitutes: its default, and for the
timestamp its clock. -/
structure FlagsAgree (sender receiver : TCPTransport) (now : Nat) (m : Message) : Prop where
  source : sender.sourceFlag = false → m.UriFrom = receiver.sourceId
  destination : sender.destinationFlag = false → m.UriTo = receiver.destinationId
  priority : sender.priorityFlag = false → m.Priority = receiver.dfltPriority
  timestamp : sender.timestampFlag = false → m.Timestamp = now
  networkZone : sender.networkZoneFlag = false → m.NetworkZone = receiver.dfltNetworkZone
  sessionName : sender.sessionNameFlag = false → m.SessionName = receiver.dfltSessionName
  domain : sender.domainFlag = false → m.Domain = receiver.dfltDomain
  authenticationId : sender.authenticationIdFlag = false →
    m.AuthenticationId = receiver.dfltAuthenticationId

/-- Sample decoder of a counted byte string: a length byte, then that many bytes. -/
def sampleReadBytes (d : Body) : Except String (List Nat × Body) :=
  match d with
  | [] => .error "no length"
  | n :: rest => if rest.length < n then .error "truncated" else .ok (rest.take n, rest.drop n)

/-- Sample bytes of a string: its length, then its code points. -/
def sampleStringBytes (s : String) : Option Body :=
  some (s.data.length :: s.data.map Char.toNat)

/-- Sample decoder of a string. -/
def sampleReadString (d : Body) : Except String (String × Body) :=
  match sampleReadBytes d with
  | .error e => .error e
  | .ok (l, rest) => .ok (String.mk (l.map Char.ofNat), rest)

/-- Sample decoder of a number on `n` big-endian bytes. -/
def sampleReadNumber (n : Nat) (d : Body) : Except String (Nat × Body) :=
  match readBE n 0 d with
  | .ok r => .ok r
  | _ => .error "truncated"

/-- A concrete codec for the sample frames: a UInteger on four bytes, a time on eight,
a string or a blob as a length byte followed by its content, the null mark 0 and the
not-null mark 1. -/
def sampleCodec : LeafCodec :=
  { nullBytes := some [0]
    notNullBytes := some [1]
    uriBytes := sampleStringBytes
    uintegerBytes := fun v => if v < 2 ^ 32 then some (beBytes 4 v) else none
    timeBytes := fun v => if v < 2 ^ 64 then some (beBytes 8 v) else none
    identifierBytes := sampleStringBytes
    blobBytes := fun b => some (b.length :: b)
    DecodeURI := sampleReadString
    DecodeUInteger := sampleReadNumber 4
    DecodeTime := sampleReadNumber 8
    DecodeIdentifier := sampleReadString
    DecodeNullableIdentifier := fun d =>
      match d with
      | [] => .error "no mark"
      | mark :: rest => if mark = 0 then .ok (none, rest) else
        match sampleReadString rest with
        | .error e => .error e
        | .ok (s, rest1) => .ok (some s, rest1)
    DecodeBlob := sampleReadBytes }

/-- The transport configuration set by TCPTransport.init: version 1, every presence
flag set; the defaults are the zero values. The field `optimizeURI`, which init leaves as
it finds it, is clear. -/
def referenceTransport (uri : URI) : TCPTransport :=
  { uri := uri, version := 1, optimizeURI := false, sourceFlag := true, sourceId := none, destinationFlag := true,
    destinationId := none, priorityFlag := true, timestampFlag := true,
    networkZoneFlag := true, sessionNameFlag := true, domainFlag := true,
    authenticationIdFlag := true, dfltPriority := 0, dfltNetworkZone := "",
    dfltSessionName := "", dfltAuthenticationId := [], dfltDomain := [] }

/-- Bytes of the elements of an identifier list, as the loop of IdentifierList.Encode
writes them when no call reports an error. -/
def identifiersBytes (codec : LeafCodec) (l : IdentifierList) : Body :=
  (l.map (fun e => (nullableIdentifierBytes codec e).getD [])).flatten

/-- Bytes of an optional field of the frame: those of the field when its presence flag is
set, nothing otherwise. -/
def optBytes (flag : Bool) (bs : Option Body) : Body :=
  if flag then bs.getD [] else []

/-- The first 19 bytes of the frame of a message of SDU code `sdu`. -/
def fixedHeader (t : TCPTransport) (m : Message) (sdu : Nat) : Body :=
  [(t.version % 8) * 32 + sdu] ++ beBytes 2 m.ServiceArea ++ beBytes 2 m.Service ++
    beBytes 2 m.Operation ++ beBytes 1 m.AreaVersion ++
    [(if m.IsErrorMessage then 128 else 0) + (m.QoSLevel % 8) * 16 + m.Session % 16] ++
    beBytes 8 m.TransactionId ++ [t.flagsByte] ++ beBytes 1 m.EncodingId

/-- The optional fields of the frame of a message, after the fixed header. -/
def variablePart (codec : LeafCodec) (t : TCPTransport) (m : Message) : Body :=
  optBytes t.sourceFlag (m.UriFrom.bind codec.uriBytes) ++
  (optBytes t.destinationFlag (m.UriTo.bind codec.uriBytes) ++
  (optBytes t.priorityFlag (codec.uintegerBytes m.Priority) ++
  (optBytes t.timestampFlag (codec.timeBytes m.Timestamp) ++
  (optBytes t.networkZoneFlag (codec.identifierBytes m.NetworkZone) ++
  (optBytes t.sessionNameFlag (codec.identifierBytes m.SessionName) ++
  (optBytes t.domainFlag
    ((codec.uintegerBytes m.Domain.length).map (fun bs => bs ++ identifiersBytes codec m.Domain)) ++
  optBytes t.authenticationIdFlag (codec.blobBytes m.AuthenticationId)))))))


/-! ## Go maps -/

/-- Read of a Go map: the value stored under `k`, if any. -/
def mapGet {K V : Type} [DecidableEq K] : List (K × V) → K → Option V
  | [], _ => none
  | (k1, v) :: rest, k => if k1 = k then some v else mapGet rest k

/-- Go `delete(m, k)`: the entry under `k` is removed, the others stay. -/
def mapDelete {K V : Type} [DecidableEq K] (m : List (K × V)) (k : K) : List (K × V) :=
  m.filter (fun e => decide (e.1 ≠ k))

/-- Go `m[k] = v`: the entry under `k`, if any, is replaced. The new entry is put last; the
order in which `range` visits a Go map is unspecified. -/
def mapSet {K V : Type} [DecidableEq K] (m : List (K × V)) (k : K) (v : V) : List (K × V) :=
  mapDelete m k ++ [(k, v)]

/-! ## Broker registrations (mal/broker/handler.go) -/

/-- Subscription as built in broker_test.go: the identifier and the entity requests. -/
structure Subscription where
  SubscriptionId : Identifier
  Entities : List (Option EntityRequest)
deriving DecidableEq, Repr

/-- The acknowledgement methods of a transaction called by the broker. -/
inductive AckKind where
  | register
  | deregister
  | publishRegister
  | publishDeregister
deriving DecidableEq, Repr

/-- One acknowledgement call on a transaction, `transaction.AckRegister(nil, isError)` or
`transaction.AckDeregister(nil, isError)`. -/
structure Ack where
  transaction : Nat
  kind : AckKind
  isError : Bool
deriving DecidableEq, Repr

/-- Outcome of a run of a registration handler of the broker: `result` is `none` when the
run panicked, `some none` when it returned nil and `some (some e)` when it returned the
error `e`; `acks` lists the acknowledgement calls made; `broker` is the state reached. -/
structure BrokerRun where
  result : Option (Option String)
  acks : List Ack
  broker : BrokerImpl
deriving DecidableEq, Repr

/-- Method BrokerImpl.register of handler.go. `dec` is DecodeSubscription on the decoder
of the body, which is not part of the broker. Returns `none` when `*msg.UriFrom`
dereferences a nil pointer. -/
def BrokerImpl.register (broker : BrokerImpl)
    (dec : Body → Except String (Subscription × Body)) (msg : Message) (transaction : Nat) :
    Option (Option String × BrokerImpl) :=
  match dec msg.Body with
  | .error e => some (some e, broker)
  | .ok (sub, _) =>
    match msg.UriFrom with
    | none => none
    | some urifrom =>
      some (none,
        { broker with
          subs := mapSet broker.subs (subkey urifrom sub.SubscriptionId)
            { subid := sub.SubscriptionId, domain := msg.Domain, session := msg.Session,
              sessionName := msg.SessionName, serviceArea := msg.ServiceArea,
              service := msg.Service, operation := msg.Operation, entities := sub.Entities,
              transaction := transaction } })

/-- Method BrokerImpl.OnRegister of handler.go. `ackResult` is what the acknowledgement
call returns. -/
def BrokerImpl.OnRegister (broker : BrokerImpl)
    (dec : Body → Except String (Subscription × Body)) (ackResult : Ack → Option String)
    (msg : Message) (transaction : Nat) : BrokerRun :=
  match broker.register dec msg transaction with
  | none => { result := none, acks := [], broker := broker }
  | some (some _, broker1) =>
    let ack : Ack := { transaction := transaction, kind := .register, isError := true }
    { result := some (ackResult ack), acks := [ack], broker := broker1 }
  | some (none, broker1) =>
    let ack : Ack := { transaction := transaction, kind := .register, isError := false }
    { result := some (ackResult ack), acks := [ack], broker := broker1 }

/-- Loop of deregister (lines 339-344): each identifier and the source URI are
dereferenced, and the entry of their subkey is deleted. -/
def deregisterLoop (urifrom : Option URI) :
    IdentifierList → List (String × BrokerSub) → Option (List (String × BrokerSub))
  | [], subs => some subs
  | id :: rest, subs =>
    match urifrom, id with
    | some u, some i => deregisterLoop urifrom rest (mapDelete subs (subkey u i))
    | _, _ => none

/-- Method BrokerImpl.deregister of handler.go; the identifier list is read by
DecodeIdentifierList of identifier_list.go over the decoder of the body. -/
def BrokerImpl.deregister (broker : BrokerImpl) (codec : LeafCodec) (msg : Message) :
    Option (Option String × BrokerImpl) :=
  match DecodeIdentifierList codec msg.Body with
  | .error e => some (some e, broker)
  | .ok (list, _) =>
    match deregisterLoop msg.UriFrom list broker.subs with
    | none => none
    | some subs => some (none, { broker with subs := subs })

/-- Method BrokerImpl.OnDeregister of handler.go: whatever deregister returns, the
acknowledgement is `AckDeregister(nil, true)`. -/
def BrokerImpl.OnDeregister (broker : BrokerImpl) (codec : LeafCodec)
    (ackResult : Ack → Option String) (msg : Message) (transaction : Nat) : BrokerRun :=
  match broker.deregister codec msg with
  | none => { result := none, acks := [], broker := broker }
  | some (_, broker1) =>
    let ack : Ack := { transaction := transaction, kind := .deregister, isError := true }
    { result := some (ackResult ack), acks := [ack], broker := broker1 }

/-- BrokerSub stored by register for a message and a decoded subscription. -/
def registeredSub (msg : Message) (sub : Subscription) (transaction : Nat) : BrokerSub :=
  { subid := sub.SubscriptionId, domain := msg.Domain, session := msg.Session,
    sessionName := msg.SessionName, serviceArea := msg.ServiceArea, service := msg.Service,
    operation := msg.Operation, entities := sub.Entities, transaction := transaction }

/-- A REGISTER message of the subscriber of broker_test.go: domain
`[spacecraft1, payload]`, operation (200, 1, 1, 1), with the given body. -/
def testRegister (body : Body) : Message :=
  { UriFrom := some "maltcp://127.0.0.1:16001/subscriber",
    UriTo := some "maltcp://127.0.0.1:16003/broker",
    AuthenticationId := [], EncodingId := 0, Timestamp := 0, QoSLevel := 0, Priority := 0,
    Domain := [some "spacecraft1", some "payload"], NetworkZone := "",
    Session := 0, SessionName := "", InteractionType := 6, InteractionStage := 1,
    TransactionId := 1, ServiceArea := 200, Service := 1, Operation := 1, AreaVersion := 1,
    IsErrorMessage := false, Body := body }

/-- A concrete subscription decoder for the sample runs: the first byte `c` of the body
gives the subscription "MySubscription" with the request of broker_test.go on the key
`(key1, 0, 0, 0)` when `c = 1` and `(key2, 0, 0, 0)` otherwise; an empty body is an
error. -/
def sampleDecodeSubscription (b : Body) : Except String (Subscription × Body) :=
  match b with
  | [] => .error "EOF"
  | c :: rest =>
    .ok ({ SubscriptionId := "MySubscription",
           Entities := [some (starRequest [some (mkKey (if c = 1 then "key1" else "key2") 0 0 0)])] },
         rest)

/-- An acknowledgement whose sending always succeeds. -/
def ackOk : Ack → Option String := fun _ => none

/-! ## Client context (mal/api/context.go) -/

/-- Go interface OperationHandler: an outstanding operation, named by a number. The nil
interface is `none` of `Option OperationHandler`. -/
abbrev OperationHandler := Nat

/-- Go type ProviderHandler, a function: a handler, named by a number. The nil function is
`none` of `Option ProviderHandler`. -/
abbrev ProviderHandler := Nat

/-- Structure pDesc of context.go. -/
structure pDesc where
  stype : Nat
  area : Nat
  areaVersion : Nat
  service : Nat
  operation : Nat
  handler : Option ProviderHandler
deriving DecidableEq, Repr

/-- ClientContext: the URI, the two tables, the transaction counter and the concurrency
flag. A table is `none` when the Go map is nil. The values of `handlers` are the
descriptors pointed to, which registerProviderHandler allocates; the values of
`operations` are interfaces, which may be nil. -/
structure ClientContext where
  Uri : Option URI
  operations : Option (List (Nat × Option OperationHandler))
  handlers : Option (List (Nat × pDesc))
  txcounter : Nat
  concurrency : Bool
deriving DecidableEq, Repr

/-- Read `t[k]` of a Go map that may be nil: a nil map reads as an empty one. -/
def tableGet {K V : Type} [DecidableEq K] (t : Option (List (K × V))) (k : K) : Option V :=
  match t with
  | none => none
  | some m => mapGet m k

/-- Go `delete(t, k)` on a map that may be nil: a no-op on a nil map. -/
def tableDelete {K V : Type} [DecidableEq K] (t : Option (List (K × V))) (k : K) :
    Option (List (K × V)) :=
  match t with
  | none => none
  | some m => some (mapDelete m k)

/-- Method ClientContext.registerOp. Returns `none` when the assignment to an entry of a
nil map panics. -/
def ClientContext.registerOp (cctx : ClientContext) (tid : Nat)
    (handler : Option OperationHandler) : Option (Option String × ClientContext) :=
  let old := (tableGet cctx.operations tid).join
  if old ≠ none then some (some "Handler already registered for this transaction", cctx)
  else
    match cctx.operations with
    | none => none
    | some m => some (none, { cctx with operations := some (mapSet m tid handler) })

/-- Method ClientContext.deregisterOp. -/
def ClientContext.deregisterOp (cctx : ClientContext) (tid : Nat) :
    Option String × ClientContext :=
  if (tableGet cctx.operations tid).join = none then
    (some "No handler registered for this transaction", cctx)
  else (none, { cctx with operations := tableDelete cctx.operations tid })

/-- Function key of context.go, on 64-bit unsigned integers. -/
def key (area areaVersion service operation : Nat) : Nat :=
  let key := ((area % 2 ^ 64) <<< 8) % 2 ^ 64
  let key := key ||| (areaVersion % 2 ^ 64)
  let key := (key <<< 16) % 2 ^ 64
  let key := key ||| (service % 2 ^ 64)
  let key := (key <<< 16) % 2 ^ 64
  let key := key ||| (operation % 2 ^ 64)
  key

/-- Method ClientContext.registerProviderHandler. Returns `none` when the assignment to
an entry of a nil map panics. -/
def ClientContext.registerProviderHandler (cctx : ClientContext)
    (hdltype area areaVersion service operation : Nat) (handler : Option ProviderHandler) :
    Option (Option String × ClientContext) :=
  let key := key area areaVersion service operation
  let old := tableGet cctx.handlers key
  if old ≠ none then some (some "MAL handler already registered", cctx)
  else
    let desc : pDesc :=
      { stype := hdltype, area := area, areaVersion := areaVersion, service := service,
        operation := operation, handler := handler }
    match cctx.handlers with
    | none => none
    | some m => some (none, { cctx with handlers := some (mapSet m key desc) })

/-- Method ClientContext.deregisterProviderHandler; `hdltype` is not read. -/
def ClientContext.deregisterProviderHandler (cctx : ClientContext)
    (_hdltype area areaVersion service operation : Nat) : Option String × ClientContext :=
  let key := key area areaVersion service operation
  if tableGet cctx.handlers key = none then
    (some "No interface registered for this operation", cctx)
  else (none, { cctx with handlers := tableDelete cctx.handlers key })

/-- Method ClientContext.getProviderHandler: the handler of the descriptor, or the
error. -/
def ClientContext.getProviderHandler (cctx : ClientContext)
    (stype area areaVersion service operation : Nat) : Except String (Option ProviderHandler) :=
  let key := key area areaVersion service operation
  match tableGet cctx.handlers key with
  | some desc =>
    if desc.stype = stype then .ok desc.handler
    else .error "Bad handler type"
  | none => .error "MAL service not registered"

/-- Modelled from the spec: constant MAL_INTERACTIONTYPE_SEND, the first pattern of the
table of §4.1. -/
def MAL_INTERACTIONTYPE_SEND : Nat := 1

/-- Modelled from the spec: constant MAL_INTERACTIONTYPE_SUBMIT, the second pattern. -/
def MAL_INTERACTIONTYPE_SUBMIT : Nat := 2

/-- Modelled from the spec: constant MAL_INTERACTIONTYPE_REQUEST, the third pattern. -/
def MAL_INTERACTIONTYPE_REQUEST : Nat := 3

/-- Modelled from the spec: constant MAL_INTERACTIONTYPE_INVOKE, the fourth pattern. -/
def MAL_INTERACTIONTYPE_INVOKE : Nat := 4

/-- Modelled from the spec: constant MAL_INTERACTIONTYPE_PROGRESS, the fifth pattern. -/
def MAL_INTERACTIONTYPE_PROGRESS : Nat := 5

/-- Modelled from the spec: constant MAL_INTERACTIONTYPE_PUBSUB, the sixth pattern. -/
def MAL_INTERACTIONTYPE_PUBSUB : Nat := 6

/-- Modelled from the spec: constant MAL_IP_STAGE_INIT, stage 1 of §4.3. -/
def MAL_IP_STAGE_INIT : Nat := 1

/-- Modelled from the spec: constant MAL_IP_STAGE_PUBSUB_REGISTER, the first PUB/SUB stage
of the table of §4.1 (SDU 12). -/
def MAL_IP_STAGE_PUBSUB_REGISTER : Nat := 1

/-- Modelled from the spec: constant MAL_IP_STAGE_PUBSUB_REGISTER_ACK (SDU 13). -/
def MAL_IP_STAGE_PUBSUB_REGISTER_ACK : Nat := 2

/-- Modelled from the spec: constant MAL_IP_STAGE_PUBSUB_PUBLISH_REGISTER (SDU 14). -/
def MAL_IP_STAGE_PUBSUB_PUBLISH_REGISTER : Nat := 3

/-- Modelled from the spec: constant MAL_IP_STAGE_PUBSUB_PUBLISH_REGISTER_ACK (SDU 15). -/
def MAL_IP_STAGE_PUBSUB_PUBLISH_REGISTER_ACK : Nat := 4

/-- Modelled from the spec: constant MAL_IP_STAGE_PUBSUB_PUBLISH (SDU 16). -/
def MAL_IP_STAGE_PUBSUB_PUBLISH : Nat := 5

/-- Modelled from the spec: constant MAL_IP_STAGE_PUBSUB_NOTIFY (SDU 17). -/
def MAL_IP_STAGE_PUBSUB_NOTIFY : Nat := 6

/-- Modelled from the spec: constant MAL_IP_STAGE_PUBSUB_DEREGISTER (SDU 18). -/
def MAL_IP_STAGE_PUBSUB_DEREGISTER : Nat := 7

/-- Modelled from the spec: constant MAL_IP_STAGE_PUBSUB_DEREGISTER_ACK (SDU 19). -/
def MAL_IP_STAGE_PUBSUB_DEREGISTER_ACK : Nat := 8

/-- Modelled from the spec: constant MAL_IP_STAGE_PUBSUB_PUBLISH_DEREGISTER (SDU 20). -/
def MAL_IP_STAGE_PUBSUB_PUBLISH_DEREGISTER : Nat := 9

/-- Modelled from the spec: constant MAL_IP_STAGE_PUBSUB_PUBLISH_DEREGISTER_ACK
(SDU 21). -/
def MAL_IP_STAGE_PUBSUB_PUBLISH_DEREGISTER_ACK : Nat := 10

/-- The transaction types built by OnMessage. -/
inductive TransactionKind where
  | send
  | submit
  | request
  | invoke
  | progress
  | publisher
  | subscriber
deriving DecidableEq, Repr

/-- Transaction built by OnMessage: its type and the fields `uri` and `urifrom` of its
TransactionX. The context field and what `init` copies from the message are left out. -/
structure Transaction where
  kind : TransactionKind
  uri : Option URI
  urifrom : Option URI
deriving DecidableEq, Repr

/-- What OnMessage does that can be seen from outside, in order: the call of
getProviderHandler (line 264), the read of the operations table (line 324), the call of a
provider handler (lines 316 and 318, `goroutine` telling which) and the call of onMessage
on an operation (line 328). -/
inductive Event where
  | getProviderHandler (stype area areaVersion service operation : Nat)
  | readOperation (tid : Nat)
  | handler (h : ProviderHandler) (msg : Message) (transaction : Transaction) (goroutine : Bool)
  | onMessage (op : OperationHandler) (msg : Message)
deriving DecidableEq, Repr

/-- The code behind the handlers and operations, which context.go calls and does not
define: what a call makes of the client context, `none` when it panics. -/
structure Callbacks where
  handler : ProviderHandler → Message → Transaction → ClientContext → Option ClientContext
  onMessage : OperationHandler → Message → ClientContext → Option ClientContext

/-- Outcome of a run of OnMessage: whether it panicked, the events in order, and the
client context reached. -/
structure OnMessageRun where
  panicked : Bool
  trace : List Event
  cctx : ClientContext
deriving DecidableEq, Repr

/-- The switch of lines 271-312: the transaction for the message, `none` in the branches
that log and return. -/
def newTransaction (cctx : ClientContext) (msg : Message) : Option Transaction :=
  if msg.InteractionType = MAL_INTERACTIONTYPE_SEND then
    some { kind := .send, uri := cctx.Uri, urifrom := msg.UriFrom }
  else if msg.InteractionType = MAL_INTERACTIONTYPE_SUBMIT then
    some { kind := .submit, uri := cctx.Uri, urifrom := msg.UriFrom }
  else if msg.InteractionType = MAL_INTERACTIONTYPE_REQUEST then
    some { kind := .request, uri := cctx.Uri, urifrom := msg.UriFrom }
  else if msg.InteractionType = MAL_INTERACTIONTYPE_INVOKE then
    some { kind := .invoke, uri := cctx.Uri, urifrom := msg.UriFrom }
  else if msg.InteractionType = MAL_INTERACTIONTYPE_PROGRESS then
    some { kind := .progress, uri := cctx.Uri, urifrom := msg.UriFrom }
  else if msg.InteractionType = MAL_INTERACTIONTYPE_PUBSUB then
    if msg.InteractionStage = MAL_IP_STAGE_PUBSUB_PUBLISH_REGISTER then
      some { kind := .publisher, uri := cctx.Uri, urifrom := msg.UriFrom }
    else if msg.InteractionStage = MAL_IP_STAGE_PUBSUB_PUBLISH then
      some { kind := .publisher, uri := cctx.Uri, urifrom := msg.UriFrom }
    else if msg.InteractionStage = MAL_IP_STAGE_PUBSUB_PUBLISH_DEREGISTER then
      some { kind := .publisher, uri := cctx.Uri, urifrom := msg.UriFrom }
    else if msg.InteractionStage = MAL_IP_STAGE_PUBSUB_REGISTER then
      some { kind := .subscriber, uri := cctx.Uri, urifrom := msg.UriFrom }
    else if msg.InteractionStage = MAL_IP_STAGE_PUBSUB_DEREGISTER then
      some { kind := .subscriber, uri := cctx.Uri, urifrom := msg.UriFrom }
    else none
  else none

/-- Lines 313-319: the call of the handler, in a goroutine when the context is
concurrent. A nil handler panics; the goroutine runs after OnMessage has returned. -/
def callHandler (cctx : ClientContext) (cb : Callbacks) (handler : Option ProviderHandler)
    (msg : Message) (transaction : Transaction) (trace : List Event) : OnMessageRun :=
  match handler with
  | none => { panicked := true, trace := trace, cctx := cctx }
  | some h =>
    if cctx.concurrency then
      { panicked := false, trace := trace ++ [.handler h msg transaction true], cctx := cctx }
    else
      match cb.handler h msg transaction cctx with
      | none =>
        { panicked := true, trace := trace ++ [.handler h msg transaction false], cctx := cctx }
      | some cctx1 =>
        { panicked := false, trace := trace ++ [.handler h msg transaction false],
          cctx := cctx1 }

/-- The test of lines 262-263: the message goes to a provider handler. -/
def routesToHandler (msg : Message) : Bool :=
  (msg.InteractionType != MAL_INTERACTIONTYPE_PUBSUB &&
      msg.InteractionStage == MAL_IP_STAGE_INIT) ||
    (msg.InteractionType == MAL_INTERACTIONTYPE_PUBSUB &&
      (msg.InteractionStage &&& 0x1) != 0 &&
      (msg.InteractionStage != MAL_IP_STAGE_PUBSUB_PUBLISH || !msg.IsErrorMessage))

/-- Method ClientContext.OnMessage. -/
def ClientContext.OnMessage (cctx : ClientContext) (cb : Callbacks) (msg : Message) :
    OnMessageRun :=
  if routesToHandler msg then
    let trace := [Event.getProviderHandler msg.InteractionType msg.ServiceArea
      msg.AreaVersion msg.Service msg.Operation]
    match cctx.getProviderHandler msg.InteractionType msg.ServiceArea msg.AreaVersion
        msg.Service msg.Operation with
    | .error _ => { panicked := false, trace := trace, cctx := cctx }
    | .ok handler =>
      match newTransaction cctx msg with
      | none => { panicked := false, trace := trace, cctx := cctx }
      | some transaction => callHandler cctx cb handler msg transaction trace
  else
    let trace := [Event.readOperation msg.TransactionId]
    match tableGet cctx.operations msg.TransactionId with
    | some (some op) =>
      match cb.onMessage op msg cctx with
      | none => { panicked := true, trace := trace ++ [.onMessage op msg], cctx := cctx }
      | some cctx1 => { panicked := false, trace := trace ++ [.onMessage op msg], cctx := cctx1 }
    | some none => { panicked := true, trace := trace, cctx := cctx }
    | none => { panicked := false, trace := trace, cctx := cctx }

/-- Initial provider-side message by the names of the stages: a pattern other than
PUB/SUB at stage 1, or PUB/SUB at one of the stages REGISTER, DEREGISTER,
PUBLISH_REGISTER, PUBLISH and PUBLISH_DEREGISTER, a PUBLISH with the error flag
excepted. -/
def initialByName (msg : Message) : Bool :=
  (msg.InteractionType != MAL_INTERACTIONTYPE_PUBSUB && msg.InteractionStage == 1) ||
    (msg.InteractionType == MAL_INTERACTIONTYPE_PUBSUB &&
      decide (msg.InteractionStage ∈ [MAL_IP_STAGE_PUBSUB_REGISTER,
        MAL_IP_STAGE_PUBSUB_DEREGISTER, MAL_IP_STAGE_PUBSUB_PUBLISH_REGISTER,
        MAL_IP_STAGE_PUBSUB_PUBLISH, MAL_IP_STAGE_PUBSUB_PUBLISH_DEREGISTER]) &&
      !(msg.InteractionStage == MAL_IP_STAGE_PUBSUB_PUBLISH && msg.IsErrorMessage))

/-- Initial provider-side message by the parity of the stage: a pattern other than
PUB/SUB at stage 1, or PUB/SUB at an odd stage, a PUBLISH with the error flag excepted. -/
def initialByParity (msg : Message) : Bool :=
  (msg.InteractionType != MAL_INTERACTIONTYPE_PUBSUB && msg.InteractionStage == 1) ||
    (msg.InteractionType == MAL_INTERACTIONTYPE_PUBSUB && msg.InteractionStage % 2 == 1 &&
      !(msg.InteractionStage == MAL_IP_STAGE_PUBSUB_PUBLISH && msg.IsErrorMessage))

/-- The run handled the message as a provider-side initial message: the handler was
looked up by the service key of the message and the operations table was not read. -/
def handledAsInitial (msg : Message) (run : OnMessageRun) : Prop :=
  Event.getProviderHandler msg.InteractionType msg.ServiceArea msg.AreaVersion msg.Service
      msg.Operation ∈ run.trace ∧
    ∀ tid, Event.readOperation tid ∉ run.trace

/-- The run looked the message up by its transaction identifier among the outstanding
operations, and looked up no handler. -/
def handledAsContinuation (msg : Message) (run : OnMessageRun) : Prop :=
  Event.readOperation msg.TransactionId ∈ run.trace ∧
    ∀ stype area areaVersion service operation,
      Event.getProviderHandler stype area areaVersion service operation ∉ run.trace

/-- The run called no provider handler and no operation. -/
def noCall (run : OnMessageRun) : Prop :=
  ∀ ev ∈ run.trace, (∃ stype area areaVersion service operation,
      ev = Event.getProviderHandler stype area areaVersion service operation) ∨
    ∃ tid, ev = Event.readOperation tid

/-- A client context as NewClientContext makes it, with the given tables. -/
def sampleContext (operations : List (Nat × Option OperationHandler))
    (handlers : List (Nat × pDesc)) : ClientContext :=
  { Uri := some "maltcp://127.0.0.1:16100/p", operations := some operations,
    handlers := some handlers, txcounter := 0, concurrency := false }

/-- Callbacks that leave the client context as it is. -/
def idleCallbacks : Callbacks :=
  { handler := fun _ _ _ cctx => some cctx, onMessage := fun _ _ cctx => some cctx }

/-- Descriptor of a SUBMIT handler, numbered 5, for the operation (200, 1, 1, 1). -/
def sampleSubmitHandler : pDesc :=
  { stype := 2, area := 200, areaVersion := 1, service := 1, operation := 1, handler := some 5 }

/-! ## Client context: transaction identifiers and close (mal/api/context.go) -/

/-- Function NewClientContext: two empty tables, a zero counter, no concurrency. `uri` is
what ctx.NewURI returns and `registerEndPoint` what ctx.RegisterEndPoint returns, both
outside context.go. -/
def NewClientContext (uri : Option URI) (registerEndPoint : Option String) :
    Except String ClientContext :=
  let cctx : ClientContext :=
    { Uri := uri, operations := some [], handlers := some [], txcounter := 0,
      concurrency := false }
  match registerEndPoint with
  | some err => .error err
  | none => .ok cctx

/-- Method ClientContext.TransactionId: the atomic increment of the 64-bit counter, and
the new value of the counter. -/
def ClientContext.TransactionId (cctx : ClientContext) : Nat × ClientContext :=
  let v := (cctx.txcounter + 1) % 2 ^ 64
  (v, { cctx with txcounter := v })

/-- The values returned by `n` calls of TransactionId in a row, in order, and the client
context reached. -/
def callTransactionId : Nat → ClientContext → List Nat × ClientContext
  | 0, cctx => ([], cctx)
  | n + 1, cctx =>
    let r := cctx.TransactionId
    let rs := callTransactionId n r.2
    (r.1 :: rs.1, rs.2)

/-- Outcome of a run of OnClose or Close: whether it panicked, the operations on which
onClose was called, in order, the error returned (`none` for nil), and the client context
reached. -/
structure CloseRun where
  panicked : Bool
  closed : List OperationHandler
  result : Option String
  cctx : ClientContext
deriving DecidableEq, Repr

/-- Loop of cleanOps (lines 210-213) over the entries of the table: onClose is called on
each operation; the call on a nil interface panics. onClose is code of the operation,
outside context.go: the call is recorded. Returns the calls made and whether the loop
panicked. -/
def cleanOpsLoop : List (Nat × Option OperationHandler) → List OperationHandler →
    Bool × List OperationHandler
  | [], closed => (false, closed)
  | (_, none) :: _, closed => (true, closed)
  | (_, some op) :: rest, closed => cleanOpsLoop rest (closed ++ [op])

/-- Method ClientContext.cleanOps: the loop over the operations (none on a nil map), then
the table is set to nil. -/
def ClientContext.cleanOps (cctx : ClientContext) : Bool × List OperationHandler × ClientContext :=
  let r :=
    match cctx.operations with
    | none => (false, [])
    | some m => cleanOpsLoop m []
  if r.1 then (true, r.2, cctx) else (false, r.2, { cctx with operations := none })

/-- Method ClientContext.cleanHandlers. -/
def ClientContext.cleanHandlers (cctx : ClientContext) : ClientContext :=
  { cctx with handlers := none }

/-- Method ClientContext.OnClose. -/
def ClientContext.OnClose (cctx : ClientContext) : CloseRun :=
  let r := cctx.cleanOps
  if r.1 then { panicked := true, closed := r.2.1, result := none, cctx := r.2.2 }
  else { panicked := false, closed := r.2.1, result := none, cctx := r.2.2.cleanHandlers }

/-- Method ClientContext.Close. `unregisterEndPoint` is what ctx.UnregisterEndPoint
returns, outside context.go. -/
def ClientContext.Close (cctx : ClientContext) (unregisterEndPoint : Option String) : CloseRun :=
  match unregisterEndPoint with
  | some err => { panicked := false, closed := [], result := some err, cctx := cctx }
  | none =>
    let r := cctx.cleanOps
    if r.1 then { panicked := true, closed := r.2.1, result := none, cctx := r.2.2 }
    else { panicked := false, closed := r.2.1, result := none, cctx := r.2.2.cleanHandlers }

/-! ## Entity keys (mal/entitykey.go) -/

/-- One of the four blocks of EntityKey.Match (lines 214-224, 226-236, 238-248, 250-260)
on the sub-key `r` of the request key and the sub-key `k` of the update key, `wildcard`
being "*" or 0: `some false` when the block returns false, `some true` when it falls
through, and `none` when `*key.SubKey` dereferences a nil pointer. -/
def subKeyMatch {α : Type} [DecidableEq α] (wildcard : α) (r k : Option α) : Option Bool :=
  match r with
  | none => if k ≠ none then some false else some true
  | some rv =>
    if rv ≠ wildcard then
      match k with
      | none => none
      | some kv => if rv ≠ kv then some false else some true
    else some true

/-- Method EntityKey.Match of entitykey.go, on a request key and an update key that are
not nil: `none` when it panics. -/
def EntityKey.Match (rkey key : EntityKey) : Option Bool :=
  match subKeyMatch "*" rkey.FirstSubKey key.FirstSubKey with
  | none => none
  | some false => some false
  | some true =>
    match subKeyMatch 0 rkey.SecondSubKey key.SecondSubKey with
    | none => none
    | some false => some false
    | some true =>
      match subKeyMatch 0 rkey.ThirdSubKey key.ThirdSubKey with
      | none => none
      | some false => some false
      | some true =>
        match subKeyMatch 0 rkey.FourthSubKey key.FourthSubKey with
        | none => none
        | some false => some false
        | some true => some true

/-- The key whose four sub-keys are NULL. -/
def nullKey : EntityKey :=
  { FirstSubKey := none, SecondSubKey := none, ThirdSubKey := none, FourthSubKey := none }

/-! ## Reading rules of the optional fields of a frame -/

/-- Reading rule of an optional field other than a URI: with the presence bit set, the
value `v` is what the decoder reads from the bytes `d`, leaving `d1`; with the bit clear
the value is the default and no byte is consumed. -/
def fieldRead {α : Type} (flag : Bool) (dec : Body → Except String (α × Body)) (dflt : α)
    (d : Body) (v : α) (d1 : Body) : Prop :=
  if flag then dec d = .ok (v, d1) else v = dflt ∧ d1 = d

/-- Completion of a URI field on receive: a field that starts with the scheme name is
kept, any other field is put after `start` and "/". -/
def completeURI (start : String) (field : URI) : URI :=
  if HasPrefix field MALTCP then field else start ++ "/" ++ field

/-- Reading rule of a URI field: with the presence bit set, the value is the completion
of the field that DecodeURI reads from the bytes `d`, leaving `d1`; with the bit clear the
value is the default pointer and no byte is consumed. -/
def uriRead (codec : LeafCodec) (start : String) (flag : Bool) (dflt : Option URI)
    (d : Body) (v : Option URI) (d1 : Body) : Prop :=
  if flag then ∃ field, codec.DecodeURI d = .ok (field, d1) ∧ v = some (completeURI start field)
  else v = dflt ∧ d1 = d

/-- A frame of the sample codec received by the transport of the broker: the fixed header
of a PUBLISH of the operation (200, 1, 1, 1) with transaction 1, the presence flags
`flags`, a zero variable length, then the bytes `rest`. -/
def sampleFrame (flags : Nat) (rest : Body) : Body :=
  [48, 0, 200, 0, 1, 0, 1, 1, 0, 0, 0, 0, 0, 0, 0, 0, 1, flags, 0, 0, 0, 0, 0] ++ rest

/-! ## Reading a frame from a connection (mal/transport/tcp/tcp.go) -/

/-- A TCP connection seen from its reader: the address of the peer and the chunks of
bytes that the successive calls of Read deliver. When no chunk is left, Read returns an
error: the connection is closed. -/
structure Conn where
  remoteAddr : String
  chunks : List (List Nat)
deriving DecidableEq, Repr

/-- Method Read of net.Conn on a slice of `cap` bytes: the next chunk when it fits, and
otherwise its first `cap` bytes, the others staying for the next call. -/
def Conn.Read (cnx : Conn) (cap : Nat) : Except String (List Nat × Conn) :=
  match cnx.chunks with
  | [] => .error "EOF"
  | c :: rest =>
    if c.length ≤ cap then .ok (c, { cnx with chunks := rest })
    else .ok (c.take cap, { cnx with chunks := c.drop cap :: rest })

/-- The two read loops of readMessage (lines 286-298 and 309-317) on a buffer of `len`
bytes of which the bytes `filled` are set (`offset` is their number): while
`offset < len`, Read is called on the rest of the buffer and an error of Read is
returned. The calls of Read are written on the chunks of the connection: a chunk that
fits is taken whole, and a longer one fills the buffer, which ends the loop. -/
def readLoop (len : Nat) : List (List Nat) → List Nat →
    Except String (List Nat × List (List Nat))
  | [], filled => if len ≤ filled.length then .ok (filled, []) else .error "EOF"
  | c :: rest, filled =>
    if len ≤ filled.length then .ok (filled, c :: rest)
    else if c.length ≤ len - filled.length then readLoop len rest (filled ++ c)
    else .ok (filled ++ c.take (len - filled.length), c.drop (len - filled.length) :: rest)

/-- Constant FIXED_HEADER_LENGTH of tcp.go. -/
def FIXED_HEADER_LENGTH : Nat := 23

/-- Constant VARIABLE_LENGTH_OFFSET of tcp.go. -/
def VARIABLE_LENGTH_OFFSET : Nat := 19

/-- The 32-bit length computed at line 301 of readMessage from the fixed header. -/
def frameLength (buf : List Nat) : Nat :=
  (FIXED_HEADER_LENGTH +
    read32 (buf.getD VARIABLE_LENGTH_OFFSET 0) (buf.getD (VARIABLE_LENGTH_OFFSET + 1) 0)
      (buf.getD (VARIABLE_LENGTH_OFFSET + 2) 0) (buf.getD (VARIABLE_LENGTH_OFFSET + 3) 0)) %
    2 ^ 32

/-- Lines 283-317 of readMessage: the fixed header is read, the frame length is computed
on 32 bits, a buffer of that length is allocated, the header is copied into it (`copy`
stops at the shorter of the two lengths), and the rest of the buffer is read. Returns the
buffer handed to decode and the connection after the reads. -/
def readFrame (cnx : Conn) : Except String (Body × Conn) :=
  match readLoop FIXED_HEADER_LENGTH cnx.chunks [] with
  | .error e => .error e
  | .ok (buf, chunks1) =>
    let length := frameLength buf
    let newbuf := buf.take length
    match readLoop length chunks1 newbuf with
    | .error e => .error e
    | .ok (newbuf1, chunks2) => .ok (newbuf1, { cnx with chunks := chunks2 })

/-- Method TCPTransport.readMessage of tcp.go. The Debugf call of line 325 dereferences
the two URIs of the decoded message. -/
def TCPTransport.readMessage (codec : LeafCodec) (transport : TCPTransport) (now : Nat)
    (cnx : Conn) : Res (Message × Conn) :=
  match readFrame cnx with
  | .error e => .error e
  | .ok (newbuf, cnx1) =>
    match transport.decode codec now newbuf cnx.remoteAddr with
    | .error e => .error e
    | .panic => .panic
    | .ok msg =>
      match msg.UriFrom, msg.UriTo with
      | some _, some _ => .ok (msg, cnx1)
      | _, _ => .panic

/-! ## The write pump (mal/transport/tcp/tcp.go, handleOut) -/

/-- What the calls that handleOut makes outside tcp.go return: the host of a URI, or the
error of url.Parse; whether the call number `n` of net.Dial succeeds; whether the call
number `n` of writeMessage (encoding and Write on the connection) returns nil. Calls are
counted from 0. -/
structure PumpEnv where
  parseHost : URI → Except String String
  dialOk : Nat → Bool
  writeOk : Nat → Bool

/-- What handleOut does that can be seen from outside, in order: a message taken from the
channel (line 336), a call of net.Dial with the connection made, if any (line 351), the
registration of the connection (line 358), the goroutine started on it (line 360), a call
of writeMessage with its outcome (line 363), the close of a connection (line 368), its
removal (line 370) and the signal of the end (line 381). A connection is named by a
number. -/
inductive PumpEvent where
  | receive (msg : Message)
  | dial (urito : String) (cnx : Option Nat)
  | addConnection (urito : String) (cnx : Nat)
  | handleIn (cnx : Nat)
  | writeMessage (cnx : Nat) (msg : Message) (ok : Bool)
  | close (cnx : Nat)
  | delConnection (urito : String)
  | ends
deriving DecidableEq, Repr

/-- State of handleOut between two turns of its loop: the variables `msg` and `nbtry`,
the messages waiting in the channel (the channel is closed when none is left), the map of
connections, the numbers of calls of net.Dial and of writeMessage made so far, and the
events so far. -/
structure PumpState where
  msg : Option Message
  nbtry : Nat
  ch : List Message
  conns : List (String × Nat)
  dials : Nat
  writes : Nat
  trace : List PumpEvent
deriving DecidableEq, Repr

/-- Lines 362-378 of handleOut: the message is written on the connection. After a failure
`nbtry` is incremented, the connection is closed and removed, and the message is kept
while `nbtry < 3`; otherwise, and after a success, `msg` is set to nil. -/
def pumpWrite (env : PumpEnv) (s : PumpState) (msg : Message) (urito : String) (cnx : Nat) :
    PumpState :=
  if env.writeOk s.writes then
    { s with writes := s.writes + 1, trace := s.trace ++ [.writeMessage cnx msg true],
             msg := none }
  else
    let nbtry := (s.nbtry + 1) % 2 ^ 64
    let s1 : PumpState :=
      { s with writes := s.writes + 1, nbtry := nbtry, conns := mapDelete s.conns urito,
               trace := s.trace ++ [.writeMessage cnx msg false, .close cnx,
                 .delConnection urito] }
    if nbtry < 3 then s1 else { s1 with msg := none }

/-- One turn of the loop of handleOut (lines 333-383); `none` when `*msg.UriTo`
dereferences a nil pointer. -/
def handleOutStep (env : PumpEnv) (s : PumpState) : Option PumpState :=
  let s1 : PumpState :=
    match s.msg with
    | some _ => s
    | none =>
      match s.ch with
      | [] => { s with nbtry := 0 }
      | m :: rest =>
        { s with msg := some m, nbtry := 0, ch := rest, trace := s.trace ++ [.receive m] }
  match s1.msg with
  | none => some { s1 with trace := s1.trace ++ [.ends] }
  | some msg =>
    match msg.UriTo with
    | none => none
    | some uriTo =>
      match env.parseHost uriTo with
      | .error _ => some s1
      | .ok urito =>
        match mapGet s1.conns urito with
        | some cnx => some (pumpWrite env s1 msg urito cnx)
        | none =>
          if env.dialOk s1.dials then
            let cnx := s1.dials
            let s2 : PumpState :=
              { s1 with dials := s1.dials + 1, conns := mapSet s1.conns urito cnx,
                        trace := s1.trace ++ [.dial urito (some cnx),
                          .addConnection urito cnx, .handleIn cnx] }
            some (pumpWrite env s2 msg urito cnx)
          else
            some { s1 with dials := s1.dials + 1, trace := s1.trace ++ [.dial urito none] }

/-- The first `n` turns of the loop of handleOut. -/
def handleOutRun (env : PumpEnv) : Nat → PumpState → Option PumpState
  | 0, s => some s
  | n + 1, s =>
    match handleOutStep env s with
    | none => none
    | some s1 => handleOutRun env n s1

/-- Events of one attempt to write `msg` to the host `urito`: the dial, registration and
goroutine of a new connection when none is cached, the write, and after a failed write the
close and the removal of the connection. -/
def attemptEvents (urito : String) (msg : Message) (cached : Option Nat) (dials : Nat)
    (ok : Bool) : List PumpEvent :=
  (match cached with
    | some _ => []
    | none => [.dial urito (some dials), .addConnection urito dials, .handleIn dials]) ++
  [.writeMessage (cached.getD dials) msg ok] ++
  (if ok then [] else [.close (cached.getD dials), .delConnection urito])

/-- Events of successive attempts to write `msg` with the outcomes `outcomes`: after a
failed attempt no connection is cached. -/
def attemptsTrace (urito : String) (msg : Message) :
    Option Nat → Nat → List Bool → List PumpEvent
  | _, _, [] => []
  | cached, dials, ok :: rest =>
    attemptEvents urito msg cached dials ok ++
      attemptsTrace urito msg none (match cached with | some _ => dials | none => dials + 1) rest

/-- The write attempts due for one message: a success after at most two failures, or
three failures. -/
def boundedAttempts (outcomes : List Bool) : Prop :=
  outcomes = [true] ∨ outcomes = [false, true] ∨ outcomes = [false, false, true] ∨
    outcomes = [false, false, false]

/-- A sample environment of the pump: the URI of the broker of broker_test.go parses to
its host, every dial fails or every dial succeeds as `dial` says, and the writes have the
outcomes `writes`, then succeed. -/
def sampleEnv (dial : Bool) (writes : List Bool) : PumpEnv :=
  { parseHost := fun u =>
      if u = "maltcp://127.0.0.1:16003/broker" then .ok "127.0.0.1:16003" else .error "parse"
    dialOk := fun _ => dial
    writeOk := fun n => writes.getD n true }

/-- The pump before its first turn, with the given messages in the channel and no
connection. -/
def pumpStart (ch : List Message) : PumpState :=
  { msg := none, nbtry := 0, ch := ch, conns := [], dials := 0, writes := 0, trace := [] }

/-- The message and the outcome of a call of writeMessage, for the events that are one. -/
def writeOutcome (ev : PumpEvent) : Option (Message × Bool) :=
  match ev with
  | .writeMessage _ msg ok => some (msg, ok)
  | _ => none

/-- A sample environment of the pump: the URI of the broker of broker_test.go parses to
its host, the first dial succeeds and every later dial fails (the peer has gone), and
every write fails. -/
def lostPeerEnv : PumpEnv :=
  { parseHost := fun u =>
      if u = "maltcp://127.0.0.1:16003/broker" then .ok "127.0.0.1:16003" else .error "parse"
    dialOk := fun n => decide (n = 0)
    writeOk := fun _ => false }

/-! ## Wildcards of a request key -/

/-- The request key `rkey` in which each sub-key whose flag is set is replaced by its
wildcard: "*" for the first sub-key, 0 for the three others. -/
def withWildcards (w1 w2 w3 w4 : Bool) (rkey : EntityKey) : EntityKey :=
  { FirstSubKey := if w1 then some "*" else rkey.FirstSubKey
    SecondSubKey := if w2 then some 0 else rkey.SecondSubKey
    ThirdSubKey := if w3 then some 0 else rkey.ThirdSubKey
    FourthSubKey := if w4 then some 0 else rkey.FourthSubKey }

/-! ## Nullable attributes (mal/encoder.go)

The attribute types below have no source file under src/; the nullable encoding hands a
value to the encoder without looking into it, so a carrier only names its type. -/

/-- Modelled from the spec: attribute type Boolean, a truth value. -/
abbrev Boolean := Bool

/-- Modelled from the spec: attribute type Float, a 32-bit floating-point number given by its bits. -/
abbrev Float := Nat

/-- Modelled from the spec: attribute type Double, a 64-bit floating-point number given by its bits. -/
abbrev Double := Nat

/-- Modelled from the spec: attribute type Octet, a signed 8-bit integer. -/
abbrev Octet := Int

/-- Modelled from the spec: attribute type UOctet, an unsigned 8-bit integer. -/
abbrev UOctet := Nat

/-- Modelled from the spec: attribute type Short, a signed 16-bit integer. -/
abbrev Short := Int

/-- Modelled from the spec: attribute type UShort, an unsigned 16-bit integer. -/
abbrev UShort := Nat

/-- Modelled from the spec: attribute type Integer, a signed 32-bit integer. -/
abbrev Integer := Int

/-- Modelled from the spec: attribute type UInteger, an unsigned 32-bit integer. -/
abbrev UInteger := Nat

/-- Modelled from the spec: attribute type ULong, an unsigned 64-bit integer. -/
abbrev ULong := Nat

/-- Modelled from the spec: attribute type Duration, a 64-bit floating-point number given by its bits. -/
abbrev Duration := Nat

/-- Modelled from the spec: attribute type Time, an instant given by its count of milliseconds. -/
abbrev Time := Nat

/-- Modelled from the spec: attribute type FineTime, an instant given by its count of nanoseconds. -/
abbrev FineTime := Nat

/-- Interface Encoder of encoder.go, for the methods that the nullable encoding calls. An
encoder owns a state `σ` (what it has written so far); a method takes the state and
returns the state after the call with the error it reports, `none` for a nil error. An
implementation of the interface is any value of this structure. -/
structure Encoder (σ : Type) where
  EncodeNull : σ → σ × Option String
  EncodeNotNull : σ → σ × Option String
  EncodeBoolean : σ → Boolean → σ × Option String
  EncodeFloat : σ → Float → σ × Option String
  EncodeDouble : σ → Double → σ × Option String
  EncodeOctet : σ → Octet → σ × Option String
  EncodeUOctet : σ → UOctet → σ × Option String
  EncodeShort : σ → Short → σ × Option String
  EncodeUShort : σ → UShort → σ × Option String
  EncodeInteger : σ → Integer → σ × Option String
  EncodeUInteger : σ → UInteger → σ × Option String
  EncodeLong : σ → Long → σ × Option String
  EncodeULong : σ → ULong → σ × Option String
  EncodeString : σ → String → σ × Option String
  EncodeBlob : σ → Blob → σ × Option String
  EncodeIdentifier : σ → Identifier → σ × Option String
  EncodeDuration : σ → Duration → σ × Option String
  EncodeTime : σ → Time → σ × Option String
  EncodeFineTime : σ → FineTime → σ × Option String
  EncodeURI : σ → URI → σ × Option String

/-- Method GenEncoder.EncodeNullableBoolean of encoder.go (lines 228-238). -/
def GenEncoder.EncodeNullableBoolean {σ : Type} (encoder : Encoder σ) (s : σ) (att : Option Boolean) :
    σ × Option String :=
  match att with
  | none => encoder.EncodeNull s
  | some v =>
    match encoder.EncodeNotNull s with
    | (s1, some err) => (s1, some err)
    | (s1, none) => encoder.EncodeBoolean s1 v

/-- Method GenEncoder.EncodeNullableFloat of encoder.go (lines 242-252). -/
def GenEncoder.EncodeNullableFloat {σ : Type} (encoder : Encoder σ) (s : σ) (att : Option Float) :
    σ × Option String :=
  match att with
  | none => encoder.EncodeNull s
  | some v =>
    match encoder.EncodeNotNull s with
    | (s1, some err) => (s1, some err)
    | (s1, none) => encoder.EncodeFloat s1 v

/-- Method GenEncoder.EncodeNullableDouble of encoder.go (lines 256-266). -/
def GenEncoder.EncodeNullableDouble {σ : Type} (encoder : Encoder σ) (s : σ) (att : Option Double) :
    σ × Option String :=
  match att with
  | none => encoder.EncodeNull s
  | some v =>
    match encoder.EncodeNotNull s with
    | (s1, some err) => (s1, some err)
    | (s1, none) => encoder.EncodeDouble s1 v

/-- Method GenEncoder.EncodeNullableOctet of encoder.go (lines 270-280). -/
def GenEncoder.EncodeNullableOctet {σ : Type} (encoder : Encoder σ) (s : σ) (att : Option Octet) :
    σ × Option String :=
  match att with
  | none => encoder.EncodeNull s
  | some v =>
    match encoder.EncodeNotNull s with
    | (s1, some err) => (s1, some err)
    | (s1, none) => encoder.EncodeOctet s1 v

/-- Method GenEncoder.EncodeNullableUOctet of encoder.go (lines 284-294). -/
def GenEncoder.EncodeNullableUOctet {σ : Type} (encoder : Encoder σ) (s : σ) (att : Option UOctet) :
    σ × Option String :=
  match att with
  | none => encoder.EncodeNull s
  | some v =>
    match encoder.EncodeNotNull s with
    | (s1, some err) => (s1, some err)
    | (s1, none) => encoder.EncodeUOctet s1 v

/-- Method GenEncoder.EncodeNullableShort of encoder.go (lines 298-308). -/
def GenEncoder.EncodeNullableShort {σ : Type} (encoder : Encoder σ) (s : σ) (att : Option Short) :
    σ × Option String :=
  match att with
  | none => encoder.EncodeNull s
  | some v =>
    match encoder.EncodeNotNull s with
    | (s1, some err) => (s1, some err)
    | (s1, none) => encoder.EncodeShort s1 v

/-- Method GenEncoder.EncodeNullableUShort of encoder.go (lines 312-322). -/
def GenEncoder.EncodeNullableUShort {σ : Type} (encoder : Encoder σ) (s : σ) (att : Option UShort) :
    σ × Option String :=
  match att with
  | none => encoder.EncodeNull s
  | some v =>
    match encoder.EncodeNotNull s with
    | (s1, some err) => (s1, some err)
    | (s1, none) => encoder.EncodeUShort s1 v

/-- Method GenEncoder.EncodeNullableInteger of encoder.go (lines 326-336). -/
def GenEncoder.EncodeNullableInteger {σ : Type} (encoder : Encoder σ) (s : σ) (att : Option Integer) :
    σ × Option String :=
  match att with
  | none => encoder.EncodeNull s
  | some v =>
    match encoder.EncodeNotNull s with
    | (s1, some err) => (s1, some err)
    | (s1, none) => encoder.EncodeInteger s1 v

/-- Method GenEncoder.EncodeNullableUInteger of encoder.go (lines 340-350). -/
def GenEncoder.EncodeNullableUInteger {σ : Type} (encoder : Encoder σ) (s : σ) (att : Option UInteger) :
    σ × Option String :=
  match att with
  | none => encoder.EncodeNull s
  | some v =>
    match encoder.EncodeNotNull s with
    | (s1, some err) => (s1, some err)
    | (s1, none) => encoder.EncodeUInteger s1 v

/-- Method GenEncoder.EncodeNullableLong of encoder.go (lines 354-364). -/
def GenEncoder.EncodeNullableLong {σ : Type} (encoder : Encoder σ) (s : σ) (att : Option Long) :
    σ × Option String :=
  match att with
  | none => encoder.EncodeNull s
  | some v =>
    match encoder.EncodeNotNull s with
    | (s1, some err) => (s1, some err)
    | (s1, none) => encoder.EncodeLong s1 v

/-- Method GenEncoder.EncodeNullableULong of encoder.go (lines 368-378). -/
def GenEncoder.EncodeNullableULong {σ : Type} (encoder : Encoder σ) (s : σ) (att : Option ULong) :
    σ × Option String :=
  match att with
  | none => encoder.EncodeNull s
  | some v =>
    match encoder.EncodeNotNull s with
    | (s1, some err) => (s1, some err)
    | (s1, none) => encoder.EncodeULong s1 v

/-- Method GenEncoder.EncodeNullableString of encoder.go (lines 382-392). -/
def GenEncoder.EncodeNullableString {σ : Type} (encoder : Encoder σ) (s : σ) (att : Option String) :
    σ × Option String :=
  match att with
  | none => encoder.EncodeNull s
  | some v =>
    match encoder.EncodeNotNull s with
    | (s1, some err) => (s1, some err)
    | (s1, none) => encoder.EncodeString s1 v

/-- Method GenEncoder.EncodeNullableBlob of encoder.go (lines 396-406). -/
def GenEncoder.EncodeNullableBlob {σ : Type} (encoder : Encoder σ) (s : σ) (att : Option Blob) :
    σ × Option String :=
  match att with
  | none => encoder.EncodeNull s
  | some v =>
    match encoder.EncodeNotNull s with
    | (s1, some err) => (s1, some err)
    | (s1, none) => encoder.EncodeBlob s1 v

/-- Method GenEncoder.EncodeNullableIdentifier of encoder.go (lines 410-420). -/
def GenEncoder.EncodeNullableIdentifier {σ : Type} (encoder : Encoder σ) (s : σ) (att : Option Identifier) :
    σ × Option String :=
  match att with
  | none => encoder.EncodeNull s
  | some v =>
    match encoder.EncodeNotNull s with
    | (s1, some err) => (s1, some err)
    | (s1, none) => encoder.EncodeIdentifier s1 v

/-- Method GenEncoder.EncodeNullableDuration of encoder.go (lines 424-434). -/
def GenEncoder.EncodeNullableDuration {σ : Type} (encoder : Encoder σ) (s : σ) (att : Option Duration) :
    σ × Option String :=
  match att with
  | none => encoder.EncodeNull s
  | some v =>
    match encoder.EncodeNotNull s with
    | (s1, some err) => (s1, some err)
    | (s1, none) => encoder.EncodeDuration s1 v

/-- Method GenEncoder.EncodeNullableTime of encoder.go (lines 438-448). -/
def GenEncoder.EncodeNullableTime {σ : Type} (encoder : Encoder σ) (s : σ) (att : Option Time) :
    σ × Option String :=
  match att with
  | none => encoder.EncodeNull s
  | some v =>
    match encoder.EncodeNotNull s with
    | (s1, some err) => (s1, some err)
    | (s1, none) => encoder.EncodeTime s1 v

/-- Method GenEncoder.EncodeNullableFineTime of encoder.go (lines 452-462). -/
def GenEncoder.EncodeNullableFineTime {σ : Type} (encoder : Encoder σ) (s : σ) (att : Option FineTime) :
    σ × Option String :=
  match att with
  | none => encoder.EncodeNull s
  | some v =>
    match encoder.EncodeNotNull s with
    | (s1, some err) => (s1, some err)
    | (s1, none) => encoder.EncodeFineTime s1 v

/-- Method GenEncoder.EncodeNullableURI of encoder.go (lines 466-476). -/
def GenEncoder.EncodeNullableURI {σ : Type} (encoder : Encoder σ) (s : σ) (att : Option URI) :
    σ × Option String :=
  match att with
  | none => encoder.EncodeNull s
  | some v =>
    match encoder.EncodeNotNull s with
    | (s1, some err) => (s1, some err)
    | (s1, none) => encoder.EncodeURI s1 v

/-- The rule of a nullable encoding in the words of the specification, for a method
`nullable` built on the calls `null`, `notNull` and `value`: a null value is encoded by
`null` alone; a value that is not null by `notNull` followed by `value`; the first error
met is returned, and after a failed `notNull` the state is the one that `notNull` left,
no value being encoded. -/
structure NullableRule {σ α : Type} (null notNull : σ → σ × Option String)
    (value : σ → α → σ × Option String) (nullable : σ → Option α → σ × Option String) :
    Prop where
  ofNull : ∀ s, nullable s none = null s
  ofFailedMark : ∀ s v s1 err, notNull s = (s1, some err) → nullable s (some v) = (s1, some err)
  ofValue : ∀ s v s1, notNull s = (s1, none) → nullable s (some v) = value s1 v

/-- One call of a recording encoder: the name of the method is appended to the trace, and
the call reports an error when the name is listed in `failing`. -/
def recordCall (failing : List String) (name : String) (trace : List String) :
    List String × Option String :=
  (trace ++ [name], if name ∈ failing then some (name ++ " failed") else none)

/-- An encoder that records the names of the methods called on it. -/
def recordingEncoder (failing : List String) : Encoder (List String) :=
  { EncodeNull := recordCall failing "EncodeNull"
    EncodeNotNull := recordCall failing "EncodeNotNull"
    EncodeBoolean := fun t _ => recordCall failing "EncodeBoolean" t
    EncodeFloat := fun t _ => recordCall failing "EncodeFloat" t
    EncodeDouble := fun t _ => recordCall failing "EncodeDouble" t
    EncodeOctet := fun t _ => recordCall failing "EncodeOctet" t
    EncodeUOctet := fun t _ => recordCall failing "EncodeUOctet" t
    EncodeShort := fun t _ => recordCall failing "EncodeShort" t
    EncodeUShort := fun t _ => recordCall failing "EncodeUShort" t
    EncodeInteger := fun t _ => recordCall failing "EncodeInteger" t
    EncodeUInteger := fun t _ => recordCall failing "EncodeUInteger" t
    EncodeLong := fun t _ => recordCall failing "EncodeLong" t
    EncodeULong := fun t _ => recordCall failing "EncodeULong" t
    EncodeString := fun t _ => recordCall failing "EncodeString" t
    EncodeBlob := fun t _ => recordCall failing "EncodeBlob" t
    EncodeIdentifier := fun t _ => recordCall failing "EncodeIdentifier" t
    EncodeDuration := fun t _ => recordCall failing "EncodeDuration" t
    EncodeTime := fun t _ => recordCall failing "EncodeTime" t
    EncodeFineTime := fun t _ => recordCall failing "EncodeFineTime" t
    EncodeURI := fun t _ => recordCall failing "EncodeURI" t }
/-! ## Lists of attributes (mal/identifier_list.go, mal/uoctet_list.go, mal/uri_list.go) -/

/-- Go type UOctetList, a slice of pointers to UOctet. -/
abbrev UOctetList := List (Option UOctet)

/-- Go type URIList, a slice of pointers to URI. -/
abbrev URIList := List (Option URI)

/-- What GetElementAt hands back: the element of the slice wrapped as an Element (the
element is a pointer, which may be nil), the nil Element, or a run-time panic. -/
inductive Fetched (α : Type) where
  | element : α → Fetched α
  | nil : Fetched α
  | panic : Fetched α
deriving DecidableEq, Repr

/-- Index expression `(*list)[i]` of Go on a slice, `i` being an int: `none` is the panic
"index out of range", raised for a negative index and for an index that is not below the
length. -/
def sliceAt {α : Type} (l : List α) (i : Int) : Option α :=
  if 0 ≤ i then l[i.toNat]? else none

/-- Method IdentifierList.Size of identifier_list.go. -/
def IdentifierList.Size (list : Option IdentifierList) : Int :=
  match list with
  | some l => (l.length : Int)
  | none => -1

/-- Method IdentifierList.GetElementAt of identifier_list.go: the test of line 53 is
`i <= list.Size()`. -/
def IdentifierList.GetElementAt (list : Option IdentifierList) (i : Int) :
    Fetched (Option Identifier) :=
  match list with
  | some l =>
    if i ≤ IdentifierList.Size list then
      match sliceAt l i with
      | some e => .element e
      | none => .panic
    else .nil
  | none => .nil

/-- Method UOctetList.Size of uoctet_list.go. -/
def UOctetList.Size (list : Option UOctetList) : Int :=
  match list with
  | some l => (l.length : Int)
  | none => -1

/-- Method UOctetList.GetElementAt of uoctet_list.go: the test of line 53 is
`i < list.Size()`. -/
def UOctetList.GetElementAt (list : Option UOctetList) (i : Int) : Fetched (Option UOctet) :=
  match list with
  | some l =>
    if i < UOctetList.Size list then
      match sliceAt l i with
      | some e => .element e
      | none => .panic
    else .nil
  | none => .nil

/-- Method URIList.Size of uri_list.go. -/
def URIList.Size (list : Option URIList) : Int :=
  match list with
  | some l => (l.length : Int)
  | none => -1

/-- Method URIList.GetElementAt of uri_list.go: the test of line 53 is
`i < list.Size()`. -/
def URIList.GetElementAt (list : Option URIList) (i : Int) : Fetched (Option URI) :=
  match list with
  | some l =>
    if i < URIList.Size list then
      match sliceAt l i with
      | some e => .element e
      | none => .panic
    else .nil
  | none => .nil

/-- The attribute primitives of the binary encoding that the lists of UOctet and of URI
need beside those of `LeafCodec`: the bytes of a UOctet, and the decoders of a nullable
UOctet and of a nullable URI. -/
structure ListCodec extends LeafCodec where
  uoctetBytes : UOctet → Option Body
  DecodeNullableUOctet : Body → Except String (Option UOctet × Body)
  DecodeNullableURI : Body → Except String (Option URI × Body)

/-- Method GenEncoder.EncodeNullableUOctet of encoder.go, on the byte buffer of the
encoder. -/
def EncodeNullableUOctet (codec : ListCodec) (buf : Body) (att : Option UOctet) :
    Body × Option String :=
  match att with
  | none => emit buf codec.nullBytes
  | some v =>
    match emit buf codec.notNullBytes with
    | (buf1, some e) => (buf1, some e)
    | (buf1, none) => emit buf1 (codec.uoctetBytes v)

/-- Method GenEncoder.EncodeNullableURI of encoder.go, on the byte buffer of the
encoder. -/
def EncodeNullableURI (codec : ListCodec) (buf : Body) (uri : Option URI) :
    Body × Option String :=
  match uri with
  | none => emit buf codec.nullBytes
  | some v =>
    match emit buf codec.notNullBytes with
    | (buf1, some e) => (buf1, some e)
    | (buf1, none) => emit buf1 (codec.uriBytes v)

/-- Loop of UOctetList.Encode (lines 118-123): the first error of an element is
returned. -/
def encodeUOctets (codec : ListCodec) : Body → UOctetList → Body × Option String
  | buf, [] => (buf, none)
  | buf, e :: rest =>
    match EncodeNullableUOctet codec buf e with
    | (buf1, some err) => (buf1, some err)
    | (buf1, none) => encodeUOctets codec buf1 rest

/-- Method UOctetList.Encode of uoctet_list.go: the length as a UInteger (converted to 32
bits), then the elements. -/
def UOctetList.Encode (codec : ListCodec) (buf : Body) (list : UOctetList) :
    Body × Option String :=
  match emit buf (codec.uintegerBytes (list.length % 2 ^ 32)) with
  | (buf1, some e) => (buf1, some e)
  | (buf1, none) => encodeUOctets codec buf1 list

/-- Loop of DecodeUOctetList (lines 143-148): `n` nullable UOctets. -/
def decodeUOctets (codec : ListCodec) : Nat → Body → Except String (UOctetList × Body)
  | 0, d => .ok ([], d)
  | n + 1, d =>
    match codec.DecodeNullableUOctet d with
    | .error e => .error e
    | .ok (x, d1) =>
      match decodeUOctets codec n d1 with
      | .error e => .error e
      | .ok (l, d2) => .ok (x :: l, d2)

/-- Function DecodeUOctetList of uoctet_list.go. As for DecodeIdentifierList, the
allocation of line 142 is not represented: memory is taken as unbounded. -/
def DecodeUOctetList (codec : ListCodec) (d : Body) : Except String (UOctetList × Body) :=
  match codec.DecodeUInteger d with
  | .error e => .error e
  | .ok (size, d1) => decodeUOctets codec size d1

/-- Loop of URIList.Encode (lines 118-123): the first error of an element is returned. -/
def encodeURIs (codec : ListCodec) : Body → URIList → Body × Option String
  | buf, [] => (buf, none)
  | buf, e :: rest =>
    match EncodeNullableURI codec buf e with
    | (buf1, some err) => (buf1, some err)
    | (buf1, none) => encodeURIs codec buf1 rest

/-- Method URIList.Encode of uri_list.go: the length as a UInteger (converted to 32
bits), then the elements. -/
def URIList.Encode (codec : ListCodec) (buf : Body) (list : URIList) : Body × Option String :=
  match emit buf (codec.uintegerBytes (list.length % 2 ^ 32)) with
  | (buf1, some e) => (buf1, some e)
  | (buf1, none) => encodeURIs codec buf1 list

/-- Loop of DecodeURIList (lines 143-148): `n` nullable URIs. -/
def decodeURIs (codec : ListCodec) : Nat → Body → Except String (URIList × Body)
  | 0, d => .ok ([], d)
  | n + 1, d =>
    match codec.DecodeNullableURI d with
    | .error e => .error e
    | .ok (x, d1) =>
      match decodeURIs codec n d1 with
      | .error e => .error e
      | .ok (l, d2) => .ok (x :: l, d2)

/-- Function DecodeURIList of uri_list.go. As for DecodeIdentifierList, the allocation
of line 142 is not represented: memory is taken as unbounded. -/
def DecodeURIList (codec : ListCodec) (d : Body) : Except String (URIList × Body) :=
  match codec.DecodeUInteger d with
  | .error e => .error e
  | .ok (size, d1) => decodeURIs codec size d1

/-- Bytes written for a nullable UOctet by EncodeNullableUOctet; `none` when a call
reports an error. -/
def nullableUOctetBytes (codec : ListCodec) (att : Option UOctet) : Option Body :=
  match att with
  | none => codec.nullBytes
  | some v =>
    match codec.notNullBytes, codec.uoctetBytes v with
    | some b1, some b2 => some (b1 ++ b2)
    | _, _ => none

/-- Bytes written for a nullable URI by EncodeNullableURI; `none` when a call reports an
error. -/
def nullableURIBytes (codec : ListCodec) (att : Option URI) : Option Body :=
  match att with
  | none => codec.nullBytes
  | some v =>
    match codec.notNullBytes, codec.uriBytes v with
    | some b1, some b2 => some (b1 ++ b2)
    | _, _ => none

/-- The UInteger primitives round-trip on `n`: the encoder writes it, and the decoder
reads it back from what was written, leaving the bytes that follow. -/
def UIntegerRoundTrips (codec : LeafCodec) (n : Nat) : Prop :=
  ∃ bs, codec.uintegerBytes n = some bs ∧
    ∀ rest, codec.DecodeUInteger (bs ++ rest) = .ok (n, rest)

/-- The nullable Identifier primitives round-trip on the element `e`. -/
def NullableIdentifierRoundTrips (codec : LeafCodec) (e : Option Identifier) : Prop :=
  ∃ bs, nullableIdentifierBytes codec e = some bs ∧
    ∀ rest, codec.DecodeNullableIdentifier (bs ++ rest) = .ok (e, rest)

/-- The nullable UOctet primitives round-trip on the element `e`. -/
def NullableUOctetRoundTrips (codec : ListCodec) (e : Option UOctet) : Prop :=
  ∃ bs, nullableUOctetBytes codec e = some bs ∧
    ∀ rest, codec.DecodeNullableUOctet (bs ++ rest) = .ok (e, rest)

/-- The nullable URI primitives round-trip on the element `e`. -/
def NullableURIRoundTrips (codec : ListCodec) (e : Option URI) : Prop :=
  ∃ bs, nullableURIBytes codec e = some bs ∧
    ∀ rest, codec.DecodeNullableURI (bs ++ rest) = .ok (e, rest)

/-- The sample codec completed for the lists: a UOctet is one byte (a value that does not
fit a byte is refused), and a nullable value is the mark 0, or the mark 1 and the
value. -/
def sampleListCodec : ListCodec :=
  { toLeafCodec := sampleCodec
    uoctetBytes := fun v => if v < 256 then some [v] else none
    DecodeNullableUOctet := fun d =>
      match d with
      | [] => .error "no mark"
      | mark :: rest => if mark = 0 then .ok (none, rest) else
        match rest with
        | [] => .error "truncated"
        | v :: rest1 => .ok (some v, rest1)
    DecodeNullableURI := sampleCodec.DecodeNullableIdentifier }

/-- The sample codec with an encoder that refuses the empty identifier. -/
def strictCodec : ListCodec :=
  { sampleListCodec with
    identifierBytes := fun s => if s = "" then none else sampleStringBytes s }
/-! ## Publisher registrations (mal/broker/handler.go) -/

/-- Method BrokerImpl.publishRegister of handler.go. `dec` is DecodeEntityKeyList on the
decoder of the body, which is not part of the broker. Returns `none` when `*msg.UriFrom`
dereferences a nil pointer. -/
def BrokerImpl.publishRegister (broker : BrokerImpl)
    (dec : Body → Except String (List (Option EntityKey) × Body)) (msg : Message)
    (transaction : Nat) : Option (Option String × BrokerImpl) :=
  match dec msg.Body with
  | .error e => some (some e, broker)
  | .ok (list, _) =>
    match msg.UriFrom with
    | none => none
    | some pubid =>
      some (none,
        { broker with
          pubs := mapSet broker.pubs pubid
            { domain := msg.Domain, session := msg.Session, sessionName := msg.SessionName,
              serviceArea := msg.ServiceArea, Service := msg.Service,
              operation := msg.Operation, keys := some list, transaction := transaction } })

/-- Method BrokerImpl.OnPublishRegister of handler.go. -/
def BrokerImpl.OnPublishRegister (broker : BrokerImpl)
    (dec : Body → Except String (List (Option EntityKey) × Body))
    (ackResult : Ack → Option String) (msg : Message) (transaction : Nat) : BrokerRun :=
  match broker.publishRegister dec msg transaction with
  | none => { result := none, acks := [], broker := broker }
  | some (some _, broker1) =>
    let ack : Ack := { transaction := transaction, kind := .publishRegister, isError := true }
    { result := some (ackResult ack), acks := [ack], broker := broker1 }
  | some (none, broker1) =>
    let ack : Ack := { transaction := transaction, kind := .publishRegister, isError := false }
    { result := some (ackResult ack), acks := [ack], broker := broker1 }

/-- Method BrokerImpl.publishDeregister of handler.go: the source URI is dereferenced and
its entry is deleted from the publisher map; the error returned is always nil. -/
def BrokerImpl.publishDeregister (broker : BrokerImpl) (msg : Message) :
    Option (Option String × BrokerImpl) :=
  match msg.UriFrom with
  | none => none
  | some pubid => some (none, { broker with pubs := mapDelete broker.pubs pubid })

/-- Method BrokerImpl.OnPublishDeregister of handler.go: whatever publishDeregister
returns, the acknowledgement is `AckDeregister(nil, true)`. -/
def BrokerImpl.OnPublishDeregister (broker : BrokerImpl) (ackResult : Ack → Option String)
    (msg : Message) (transaction : Nat) : BrokerRun :=
  match broker.publishDeregister msg with
  | none => { result := none, acks := [], broker := broker }
  | some (_, broker1) =>
    let ack : Ack := { transaction := transaction, kind := .publishDeregister, isError := true }
    { result := some (ackResult ack), acks := [ack], broker := broker1 }

/-- A concrete decoder of entity key lists for the sample runs: an empty body is an error,
and any other body gives the list of the key `(key1, 0, 0, 0)`. -/
def sampleDecodeEntityKeyList (b : Body) : Except String (List (Option EntityKey) × Body) :=
  match b with
  | [] => .error "EOF"
  | _ :: rest => .ok ([some (mkKey "key1" 0 0 0)], rest)

/-- The DEREGISTER message of the subscriber of broker_test.go for the subscription
"MySubscription", over the sample codec. -/
def testDeregister : Message :=
  { testRegister [0, 0, 0, 1, 1, 14, 77, 121, 83, 117, 98, 115, 99, 114, 105, 112, 116, 105,
      111, 110] with InteractionStage := 7 }

/-! ## Domain matching -/

theorem domainLoop_nonnull (R M : List Identifier) (h : R.length ≤ M.length) :
    domainLoop (R.map some) (M.map some) = some (R.isPrefixOf M) := by
  induction R generalizing M with
  | nil => simp [domainLoop]
  | cons a R ih =>
    cases M with
    | nil => simp at h
    | cons b M =>
      simp only [List.map_cons, domainLoop, List.isPrefixOf]
      by_cases hab : a = b
      · subst hab
        simp only [ne_eq, not_true_eq_false, ↓reduceIte, beq_self_eq_true, Bool.true_and]
        exact ih M (by simpa using h)
      · simp [hab]

theorem isPrefixOf_length_le (R M : List Identifier) (h : R.isPrefixOf M = true) :
    R.length ≤ M.length := by
  rw [List.isPrefixOf_iff_prefix] at h
  exact h.length_le

theorem isPrefixOf_eq_of_length (R M : List Identifier) (h : M.length ≤ R.length) :
    R.isPrefixOf M = decide (M = R) := by
  by_cases hp : R.isPrefixOf M = true
  · rw [hp]
    have hp2 := List.isPrefixOf_iff_prefix.mp hp
    have := hp2.eq_of_length_le h
    simp [this]
  · have : ¬ M = R := by
      intro he; subst he; exact hp (List.isPrefixOf_iff_prefix.mpr (List.prefix_refl _))
    simp [hp, this]

theorem requiredDomain_present (D t : List Identifier) (hne : D ++ t ≠ []) :
    requiredDomain (D.map some) (some (t.map some)) =
      if (D ++ t).getLast? = some "*" then some ((D ++ t).dropLast.map some, true)
      else some ((D ++ t).map some, false) := by
  have hmap : D.map some ++ t.map some = (D ++ t).map (some : Identifier → Option Identifier) := by
    simp
  unfold requiredDomain
  simp only [hmap]
  obtain ⟨x, hx⟩ : ∃ x, (D ++ t).getLast? = some x := by
    cases h : (D ++ t).getLast? with
    | none => exact absurd (List.getLast?_eq_none_iff.mp h) hne
    | some x => exact ⟨x, rfl⟩
  rw [List.getLast?_map, hx]
  by_cases hs : x = "*"
  · subst hs; simp [List.map_dropLast]
  · simp [hs]

/-- Result of domainMatches once the required domain `R` and the flag `all` are known, on
non-null identifiers. -/
theorem domainMatches_of_required (s : BrokerSub) (o : Option IdentifierList)
    (R M : List Identifier) (all : Bool)
    (hreq : requiredDomain s.domain o = some (R.map some, all)) :
    s.domainMatches (M.map some) o =
      some (if all then R.isPrefixOf M else decide (M = R)) := by
  unfold BrokerSub.domainMatches
  rw [hreq]
  simp only [List.length_map]
  by_cases hlt : M.length < R.length
  · have hnp : R.isPrefixOf M = false := by
      by_contra hc
      have := isPrefixOf_length_le R M (by simpa using hc)
      omega
    have hne : ¬ M = R := by intro he; subst he; omega
    simp [hlt, hnp, hne]
  · rw [if_neg hlt, domainLoop_nonnull R M (by omega)]
    by_cases hp : R.isPrefixOf M = true
    · rw [hp]
      by_cases hgt : M.length > R.length
      · have hne : ¬ M = R := by intro he; subst he; omega
        cases all <;> simp [hgt, hne]
      · have : R.isPrefixOf M = decide (M = R) := isPrefixOf_eq_of_length R M (by omega)
        rw [hp] at this
        cases all <;> simp [hgt, ← this]
    · have hf : R.isPrefixOf M = false := Bool.eq_false_iff.mpr hp
      have hne : ¬ M = R := by
        intro he; subst he; exact hp (List.isPrefixOf_iff_prefix.mpr (List.prefix_refl _))
      rw [hf]
      cases all <;> simp [hne]

/-- On non-null identifiers, domainMatches computes the domain rule. -/
theorem domainMatches_eq_domainRule (s : BrokerSub) (D M : List Identifier)
    (o : Option (List Identifier)) (hD : s.domain = D.map some)
    (hne : ∀ t, o = some t → D ++ t ≠ []) :
    s.domainMatches (M.map some) (o.map (List.map some)) = some (domainRule D o M) := by
  cases o with
  | none =>
    have := domainMatches_of_required s none D M false (by rw [hD]; rfl)
    simpa [domainRule] using this
  | some t =>
    have hreq := requiredDomain_present D t (hne t rfl)
    by_cases hs : (D ++ t).getLast? = some "*"
    · rw [if_pos hs] at hreq
      have := domainMatches_of_required s (some (t.map some)) (D ++ t).dropLast M true
        (by rw [hD]; exact hreq)
      rw [Option.map_some', this]; show _ = some (if _ then _ else _); rw [if_pos hs]; rfl
    · rw [if_neg hs] at hreq
      have := domainMatches_of_required s (some (t.map some)) (D ++ t) M false
        (by rw [hD]; exact hreq)
      rw [Option.map_some', this]; show _ = some (if _ then _ else _); rw [if_neg hs]; rfl

/-- C4, amended. On non-null identifiers, and with a non-empty required domain when a
sub-domain is given, domainMatches returns the value of the domain rule: with a sub-domain
`t`, required is `D ++ t`, a trailing wildcard is dropped and `M` may extend the rest,
otherwise `M` must equal required; with no sub-domain, `M` must equal `D` element by
element and a trailing star of `D` is an ordinary identifier. -/
theorem domainMatches_rule (s : BrokerSub) (D M : List Identifier)
    (o : Option (List Identifier)) (hD : s.domain = D.map some)
    (hne : ∀ t, o = some t → D ++ t ≠ []) :
    s.domainMatches (M.map some) (o.map (List.map some)) = some (domainRule D o M) :=
  domainMatches_eq_domainRule s D M o hD hne

/-- Witness of `domainMatches_rule`: the subscriber of broker_test.go, sub-domain
`["*"]`, against the publisher's domain. -/
theorem domainMatches_rule_witness :
    (testSubscriber []).domainMatches
        (["spacecraft1", "payload", "camera"].map some) ((some ["*"]).map (List.map some)) =
      some (domainRule ["spacecraft1", "payload"] (some ["*"])
        ["spacecraft1", "payload", "camera"]) :=
  domainMatches_rule (testSubscriber []) ["spacecraft1", "payload"]
    ["spacecraft1", "payload", "camera"] (some ["*"]) rfl (by decide)

/-- C4, counterexample. Subscription domain `[a, *]`, no sub-domain, message domain
`[a, b]`: the rule that counts the absent sub-domain as empty gives true (the trailing
star is dropped and `[a]` starts `[a, b]`), domainMatches returns false (lines 71-72 do not
look for a wildcard when the sub-domain is nil). -/
theorem domainMatches_absent_subdomain_counterexample :
    ({ testSubscriber [] with domain := [some "a", some "*"] }).domainMatches
        [some "a", some "b"] none = some false ∧
      domainRuleAbsentAsEmpty ["a", "*"] none ["a", "b"] = true := by
  decide

theorem matchRequests_out_of_domain (s : BrokerSub) (msg : Message) (k : EntityKey)
    (reqs : List (Option EntityRequest))
    (h : ∀ r ∈ reqs, ∃ rq, r = some rq ∧ s.domainMatches msg.Domain rq.SubDomain = some false) :
    matchRequests s msg k reqs = some false := by
  induction reqs with
  | nil => rfl
  | cons r rest ih =>
    obtain ⟨rq, hr, hd⟩ := h r (List.mem_cons_self _ _)
    subst hr
    have hsc : requestInScope s msg rq = some false := by
      unfold requestInScope; rw [hd]
    simp only [matchRequests, hsc]
    exact ih (fun r hr => h r (List.mem_cons_of_mem _ hr))

theorem filterUpdates_no_match (s : BrokerSub) (pub : Message)
    (hno : ∀ k, s.matches pub k = some false) (uhlist : UpdateHeaderList) :
    ∀ (idx : Nat) (headers : UpdateHeaderList) (handler : BlobUpdateValueHandler),
      filterUpdates s pub idx uhlist headers handler = none ∨
        filterUpdates s pub idx uhlist headers handler = some (headers, handler) := by
  induction uhlist with
  | nil => intro idx headers handler; right; rfl
  | cons hdr rest ih =>
    intro idx headers handler
    cases hdr with
    | none => left; rfl
    | some hd =>
      simp only [filterUpdates, hno hd.Key]
      exact ih (idx + 1) headers handler

theorem notifySub_no_match (enc : Encoding) (net : Notify → Option String) (pub : Message)
    (uhlist : UpdateHeaderList) (s : BrokerSub) (handler : BlobUpdateValueHandler)
    (hno : ∀ k, s.matches pub k = some false) (call : Notify)
    (handler1 : BlobUpdateValueHandler) :
    notifySub enc net pub uhlist s handler ≠ some (some call, handler1) := by
  unfold notifySub
  rcases filterUpdates_no_match s pub hno uhlist 0 [] handler with h | h
  · rw [h]; simp
  · rw [h]; simp

theorem matches_sc2 (s : BrokerSub) (msg : Message) (k : EntityKey)
    (hD : s.domain = [some "sc2"])
    (hreq : ∀ r ∈ s.entities, ∃ rq, r = some rq ∧ rq.SubDomain = some [some "*"])
    (hM : msg.Domain = [some "spacecraft1", some "payload", some "camera"]) :
    s.matches msg k = some false := by
  have hdm : s.domainMatches msg.Domain (some [some "*"]) = some false := by
    have := domainMatches_eq_domainRule s ["sc2"] ["spacecraft1", "payload", "camera"]
      (some ["*"])
      (by rw [hD]; rfl) (by intro t ht; cases ht; simp)
    rw [hM]
    simpa [domainRule] using this
  unfold BrokerSub.matches
  split
  · rfl
  · apply matchRequests_out_of_domain
    intro r hr
    obtain ⟨rq, h1, h2⟩ := hreq r hr
    exact ⟨rq, h1, by rw [h2]; exact hdm⟩

theorem publishLoop_no_match (enc : Encoding) (net : Notify → Option String) (pub : Message)
    (uhlist : UpdateHeaderList) :
    ∀ (subs : List (String × BrokerSub)) (handler : BlobUpdateValueHandler)
      (sent : List Notify), (∀ e ∈ subs, ∀ k, e.2.matches pub k = some false) →
      (publishLoop enc net pub uhlist subs handler sent).2.1 = sent := by
  intro subs
  induction subs with
  | nil => intro handler sent _; rfl
  | cons e rest ih =>
    intro handler sent hno
    obtain ⟨key, sub⟩ := e
    have hsub : ∀ k, sub.matches pub k = some false := hno (key, sub) (List.mem_cons_self _ _)
    have hrest : ∀ e ∈ rest, ∀ k, e.2.matches pub k = some false :=
      fun e he => hno e (List.mem_cons_of_mem _ he)
    simp only [publishLoop]
    cases hn : notifySub enc net pub uhlist sub handler with
    | none => rfl
    | some r =>
      obtain ⟨n, h1⟩ := r
      cases n with
      | none => exact ih h1 sent hrest
      | some call => exact absurd hn (notifySub_no_match enc net pub uhlist sub handler hsub call h1)

theorem publish_no_match (broker : BrokerImpl) (enc : Encoding) (net : Notify → Option String)
    (pub : Message) (hno : ∀ e ∈ broker.subs, ∀ k, e.2.matches pub k = some false) :
    (broker.publish enc net pub).sent = [] := by
  unfold BrokerImpl.publish
  cases enc.DecodeUpdateHeaderList pub.Body with
  | error e => rfl
  | ok r =>
    obtain ⟨uhlist, decoder⟩ := r
    simp only
    split
    · rfl
    · exact publishLoop_no_match enc net pub uhlist broker.subs _ [] hno

/-- C5. With the sub-domain `["*"]` and non-null identifiers, domainMatches returns true
exactly when the subscription domain `D` starts the message domain `M` (`M = D`
included), and returns false otherwise. The publisher domain
`[spacecraft1, payload, camera]` matches the subscriber domain `[spacecraft1, payload]`.
A subscriber of domain `[sc2]` whose entity requests all carry the sub-domain `["*"]`
matches no key of that publisher, null sub-keys included; the publication loop sends it
no NOTIFY, and a broker whose subscribers are all of that kind sends no NOTIFY at all. -/
theorem domainMatches_star_subdomain :
    (∀ (s : BrokerSub) (D M : List Identifier), s.domain = D.map some →
      ((s.domainMatches (M.map some) (some [some "*"]) = some true ↔ D <+: M) ∧
       (s.domainMatches (M.map some) (some [some "*"]) = some false ↔ ¬ D <+: M))) ∧
    (testSubscriber []).domainMatches [some "spacecraft1", some "payload", some "camera"]
      (some [some "*"]) = some true ∧
    (∀ (s : BrokerSub) (msg : Message) (k : EntityKey), s.domain = [some "sc2"] →
      (∀ r ∈ s.entities, ∃ rq, r = some rq ∧ rq.SubDomain = some [some "*"]) →
      msg.Domain = [some "spacecraft1", some "payload", some "camera"] →
      s.matches msg k = some false) ∧
    (∀ (s : BrokerSub) (msg : Message) (enc : Encoding) (net : Notify → Option String)
      (uhlist : UpdateHeaderList) (handler : BlobUpdateValueHandler),
      s.domain = [some "sc2"] →
      (∀ r ∈ s.entities, ∃ rq, r = some rq ∧ rq.SubDomain = some [some "*"]) →
      msg.Domain = [some "spacecraft1", some "payload", some "camera"] →
      ∀ call handler1, notifySub enc net msg uhlist s handler ≠ some (some call, handler1)) ∧
    (∀ (broker : BrokerImpl) (msg : Message) (enc : Encoding) (net : Notify → Option String),
      (∀ e ∈ broker.subs, e.2.domain = [some "sc2"] ∧
        ∀ r ∈ e.2.entities, ∃ rq, r = some rq ∧ rq.SubDomain = some [some "*"]) →
      msg.Domain = [some "spacecraft1", some "payload", some "camera"] →
      (broker.publish enc net msg).sent = []) := by
  refine ⟨?_, by decide, ?_, ?_, ?_⟩
  · intro s D M hD
    have h := domainMatches_eq_domainRule s D M (some ["*"]) hD
      (by intro t ht; cases ht; simp)
    have hr : domainRule D (some ["*"]) M = D.isPrefixOf M := by
      simp [domainRule]
    rw [hr] at h
    have h2 : s.domainMatches (M.map some) (some [some "*"]) = some (D.isPrefixOf M) := h
    rw [h2]
    constructor
    · rw [← List.isPrefixOf_iff_prefix]; simp
    · rw [← List.isPrefixOf_iff_prefix]; simp [Bool.eq_false_iff]
  · intro s msg k hD hreq hM
    exact matches_sc2 s msg k hD hreq hM
  · intro s msg enc net uhlist handler hD hreq hM call handler1
    exact notifySub_no_match enc net msg uhlist s handler
      (fun k => matches_sc2 s msg k hD hreq hM) call handler1
  · intro broker msg enc net hsubs hM
    exact publish_no_match broker enc net msg
      (fun e he k => matches_sc2 e.2 msg k (hsubs e he).1 (hsubs e he).2 hM)

/-- Witness of `domainMatches_star_subdomain`: its parts at the domains of broker_test.go
and at a subscriber of domain `[sc2]`. -/
theorem domainMatches_star_subdomain_witness :
    ((testSubscriber []).domainMatches (["spacecraft1", "payload", "camera"].map some)
        (some [some "*"]) = some true ↔
      ["spacecraft1", "payload"] <+: ["spacecraft1", "payload", "camera"]) ∧
    ({ testSubscriber [some (starRequest [some (mkKey "key1" 0 0 0)])] with
        domain := [some "sc2"] }).matches (testPublish []) (mkKey "key1" 1 1 1) = some false :=
  ⟨(domainMatches_star_subdomain.1 (testSubscriber []) ["spacecraft1", "payload"]
      ["spacecraft1", "payload", "camera"] rfl).1,
   domainMatches_star_subdomain.2.2.1 _ (testPublish []) (mkKey "key1" 1 1 1) rfl
     (by intro r hr; simp [testSubscriber] at hr; exact ⟨_, hr, rfl⟩) rfl⟩


/-! ## Key matching -/

theorem keyTest_wildcard (k : EntityKey) (b : Bool) (h : keyTest wildcardKey k = some b) :
    b = true := by
  obtain ⟨k1, k2, k3, k4⟩ := k
  cases k1 <;> cases k2 <;> cases k3 <;> cases k4 <;> simp_all [keyTest, wildcardKey]

theorem matchKeys_wildcard (k : EntityKey) (keys : List (Option EntityKey))
    (hmem : some wildcardKey ∈ keys) (b : Bool) (h : matchKeys k keys = some b) : b = true := by
  induction keys with
  | nil => simp at hmem
  | cons r rest ih =>
    cases r with
    | none => simp [matchKeys] at h
    | some rkey =>
      simp only [matchKeys] at h
      cases hk : keyTest rkey k with
      | none => simp [hk] at h
      | some t =>
        cases t with
        | true => simp [hk] at h; exact h
        | false =>
          simp only [hk] at h
          have hne : rkey ≠ wildcardKey := by
            intro he; subst he
            have := keyTest_wildcard k false hk
            simp at this
          have : some wildcardKey ∈ rest := by
            rcases List.mem_cons.mp hmem with h1 | h1
            · exact absurd (Option.some.inj h1).symm hne
            · exact h1
          exact ih this h

theorem matchRequests_wildcard (s : BrokerSub) (msg : Message) (k : EntityKey)
    (reqs : List (Option EntityRequest)) (rq : EntityRequest) (hmem : some rq ∈ reqs)
    (hscope : requestInScope s msg rq = some true) (hkey : some wildcardKey ∈ rq.EntityKeys)
    (b : Bool) (h : matchRequests s msg k reqs = some b) : b = true := by
  induction reqs with
  | nil => simp at hmem
  | cons r rest ih =>
    cases r with
    | none => simp [matchRequests] at h
    | some request =>
      simp only [matchRequests] at h
      cases hsc : requestInScope s msg request with
      | none => simp [hsc] at h
      | some t =>
        cases t with
        | false =>
          simp only [hsc] at h
          have hne : request ≠ rq := by
            intro he; subst he; rw [hscope] at hsc; simp at hsc
          have : some rq ∈ rest := by
            rcases List.mem_cons.mp hmem with h1 | h1
            · exact absurd (Option.some.inj h1).symm hne
            · exact h1
          exact ih this h
        | true =>
          simp only [hsc] at h
          cases hmk : matchKeys k request.EntityKeys with
          | none => simp [hmk] at h
          | some u =>
            cases u with
            | true => simp [hmk] at h; exact h
            | false =>
              simp only [hmk] at h
              have hne : request ≠ rq := by
                intro he; subst he
                have := matchKeys_wildcard k _ hkey false hmk
                simp at this
              have : some rq ∈ rest := by
                rcases List.mem_cons.mp hmem with h1 | h1
                · exact absurd (Option.some.inj h1).symm hne
                · exact h1
              exact ih this h

/-- Wildcard law, as far as it holds: under the premises of the law, whenever matches
returns at all it returns true. -/
theorem matches_wildcard_of_returns (s : BrokerSub) (msg : Message) (k : EntityKey)
    (rq : EntityRequest) (hsess : msg.Session = s.session)
    (hname : msg.SessionName = s.sessionName) (hmem : some rq ∈ s.entities)
    (hscope : requestInScope s msg rq = some true) (hkey : some wildcardKey ∈ rq.EntityKeys)
    (b : Bool) (h : s.matches msg k = some b) : b = true := by
  unfold BrokerSub.matches at h
  rw [if_neg (by simp [hsess, hname])] at h
  exact matchRequests_wildcard s msg k s.entities rq hmem hscope hkey b h

/-- C2, evaluated at a failing input. Subscriber of broker_test.go holding one entity
request that passes the four scope tests and contains the wildcard key; update key with a
null first sub-key. The premises of the wildcard law hold, and matches does not return
true: the Debugf call of line 151 dereferences the null sub-key and the call panics. -/
theorem matches_wildcard_null_subkey_panics :
    (testPublish []).Session = (testSubscriber [some (starRequest [some wildcardKey])]).session ∧
    (testPublish []).SessionName =
      (testSubscriber [some (starRequest [some wildcardKey])]).sessionName ∧
    some (starRequest [some wildcardKey]) ∈
      (testSubscriber [some (starRequest [some wildcardKey])]).entities ∧
    requestInScope (testSubscriber [some (starRequest [some wildcardKey])]) (testPublish [])
      (starRequest [some wildcardKey]) = some true ∧
    some wildcardKey ∈ (starRequest [some wildcardKey]).EntityKeys ∧
    (testSubscriber [some (starRequest [some wildcardKey])]).matches (testPublish [])
      { FirstSubKey := none, SecondSubKey := some 1, ThirdSubKey := some 1,
        FourthSubKey := some 1 } = none := by
  decide

/-- C3. When the session or the session name of the message differs from that of the
subscription, matches returns false, whatever the entity requests and the key. -/
theorem matches_session_mismatch (s : BrokerSub) (msg : Message) (k : EntityKey)
    (h : msg.Session ≠ s.session ∨ msg.SessionName ≠ s.sessionName) :
    s.matches msg k = some false := by
  unfold BrokerSub.matches
  rw [if_pos h]

/-- Witness of `matches_session_mismatch`: a subscription of session name "other" with
the wildcard key, against a publication of empty session name. -/
theorem matches_session_mismatch_witness :
    ({ testSubscriber [some (starRequest [some wildcardKey])] with
        sessionName := "other" }).matches (testPublish []) (mkKey "key1" 1 1 1) = some false :=
  matches_session_mismatch _ (testPublish []) (mkKey "key1" 1 1 1) (Or.inr (by decide))

/-- C6, evaluated at a failing input. Request key `("k", -1, 0, 0)` and update key
`("k", -2, 7, 7)`, all sub-keys non-null: the sub-key rule fails on the second sub-key
(-1 is neither 0 nor -2), yet the test of lines 152-155 succeeds, because it compares
`string(-1)` with `string(-2)` and both conversions give U+FFFD. -/
theorem keyTest_compares_converted_strings :
    keyTest (mkKey "k" (-1) 0 0) (mkKey "k" (-2) 7 7) = some true ∧
      ¬ subKeyRule "k" (-1) 0 0 "k" (-2) 7 7 := by
  refine ⟨by decide, ?_⟩
  unfold subKeyRule
  decide

/-- The conversion to string is injective on the valid code points. -/
theorem runeString_injective_on_valid (a b : Int)
    (ha : (0 ≤ a ∧ a < 0xD800) ∨ (0xDFFF < a ∧ a ≤ 0x10FFFF))
    (hb : (0 ≤ b ∧ b < 0xD800) ∨ (0xDFFF < b ∧ b ≤ 0x10FFFF))
    (h : runeString a = runeString b) : a = b := by
  unfold runeString at h
  rw [if_pos ha, if_pos hb] at h
  have hc : Char.ofNat a.toNat = Char.ofNat b.toNat := by
    have := congrArg String.data h
    simpa [String.singleton] using this
  have hva : a.toNat.isValidChar := by
    unfold Nat.isValidChar; omega
  have hvb : b.toNat.isValidChar := by
    unfold Nat.isValidChar; omega
  have h1 : (Char.ofNat a.toNat).toNat = a.toNat := by
    rw [Char.ofNat, dif_pos hva]
    simp [Char.ofNatAux, Char.toNat, UInt32.toNat]
  have h2 : (Char.ofNat b.toNat).toNat = b.toNat := by
    rw [Char.ofNat, dif_pos hvb]
    simp [Char.ofNatAux, Char.toNat, UInt32.toNat]
  have : a.toNat = b.toNat := by rw [← h1, ← h2, hc]
  omega


/-! ## Publication fan-out -/

theorem filterUpdates_selected (s : BrokerSub) (pub : Message) (vals : BlobList) :
    ∀ (rest : UpdateHeaderList) (idx : Nat) (headers : UpdateHeaderList) (values : BlobList),
      idx + rest.length = vals.length →
      matchingReturns s pub rest →
      filterUpdates s pub idx rest headers { list := some vals, values := values } =
        some (headers ++ (selectedUpdates s pub rest (vals.drop idx)).map Prod.fst,
              { list := some vals,
                values := values ++ (selectedUpdates s pub rest (vals.drop idx)).map Prod.snd }) := by
  intro rest
  induction rest with
  | nil =>
    intro idx headers values _ _
    simp [filterUpdates, selectedUpdates]
  | cons h rest ih =>
    intro idx headers values hlen hok
    obtain ⟨hdr, b, hh, hm⟩ := hok h (List.mem_cons_self _ _)
    subst hh
    have hidx : idx < vals.length := by simp at hlen; omega
    have hdrop : vals.drop idx = vals[idx] :: vals.drop (idx + 1) := by
      rw [List.drop_eq_getElem_cons hidx]
    have hrest : matchingReturns s pub rest :=
      fun h hmem => hok h (List.mem_cons_of_mem _ hmem)
    have hlen2 : idx + 1 + rest.length = vals.length := by simp at hlen; omega
    have hget : vals.get? idx = some vals[idx] := by
      simp [List.getElem?_eq_getElem hidx]
    cases b with
    | true =>
      simp only [filterUpdates, hm, BlobUpdateValueHandler.AppendValue, hget]
      rw [ih (idx + 1) _ _ hlen2 hrest, hdrop]
      simp [selectedUpdates, selects, hm, -List.getElem_cons_drop]
    | false =>
      simp only [filterUpdates, hm]
      rw [ih (idx + 1) _ _ hlen2 hrest, hdrop]
      simp [selectedUpdates, selects, hm, -List.getElem_cons_drop]


theorem notifySub_expected (enc : Encoding) (net : Notify → Option String) (pub : Message)
    (uhlist : UpdateHeaderList) (vals : BlobList) (s : BrokerSub)
    (hlen : uhlist.length = vals.length) (hret : matchingReturns s pub uhlist)
    (henc : ∀ buf l, (enc.EncodeBlobList buf l).2 = none) :
    notifySub enc net pub uhlist s { list := some vals, values := [] } =
      some (expectedNotify enc s pub uhlist vals, { list := some vals, values := [] }) := by
  unfold notifySub
  rw [filterUpdates_selected s pub vals uhlist 0 [] [] (by simpa using hlen) hret]
  simp only [List.drop_zero, List.nil_append, List.length_map]
  unfold expectedNotify
  by_cases h0 : (selectedUpdates s pub uhlist vals).length = 0
  · simp [h0, BlobUpdateValueHandler.ResetValues]
  · simp only [h0, if_false]
    simp only [BlobUpdateValueHandler.EncodeUpdateValueList]
    generalize hb : (enc.EncodeIdentifier [] s.subid) = e1
    generalize hc : enc.EncodeUpdateHeaderList e1.1
      (List.map Prod.fst (selectedUpdates s pub uhlist vals)) = e2
    have h3 := henc e2.1 (List.map Prod.snd (selectedUpdates s pub uhlist vals))
    cases hd : enc.EncodeBlobList e2.1 (List.map Prod.snd (selectedUpdates s pub uhlist vals)) with
    | mk buf err =>
      rw [hd] at h3
      simp only at h3
      subst h3
      simp [notifyBody, hb, hc, hd]

theorem publishLoop_expected (enc : Encoding) (net : Notify → Option String) (pub : Message)
    (uhlist : UpdateHeaderList) (vals : BlobList)
    (hlen : uhlist.length = vals.length)
    (henc : ∀ buf l, (enc.EncodeBlobList buf l).2 = none) :
    ∀ (subs : List (String × BrokerSub)) (sent : List Notify),
      (∀ e ∈ subs, matchingReturns e.2 pub uhlist) →
      publishLoop enc net pub uhlist subs { list := some vals, values := [] } sent =
        (some none, sent ++ subs.filterMap (fun e => expectedNotify enc e.2 pub uhlist vals),
          { list := some vals, values := [] }) := by
  intro subs
  induction subs with
  | nil => intro sent _; simp [publishLoop]
  | cons e rest ih =>
    intro sent hret
    obtain ⟨key, sub⟩ := e
    have h1 := notifySub_expected enc net pub uhlist vals sub hlen
      (hret (key, sub) (List.mem_cons_self _ _)) henc
    have hrest : ∀ e ∈ rest, matchingReturns e.2 pub uhlist :=
      fun e he => hret e (List.mem_cons_of_mem _ he)
    simp only [publishLoop, h1]
    cases hn : expectedNotify enc sub pub uhlist vals with
    | none =>
      simp only
      rw [ih sent hrest]
      simp [List.filterMap_cons, hn]
    | some call =>
      simp only
      rw [ih (sent ++ [call]) hrest]
      simp [List.filterMap_cons, hn]

theorem notifySub_net_irrelevant (enc : Encoding) (net1 net2 : Notify → Option String)
    (pub : Message) (uhlist : UpdateHeaderList) (s : BrokerSub)
    (handler : BlobUpdateValueHandler) :
    notifySub enc net1 pub uhlist s handler = notifySub enc net2 pub uhlist s handler := rfl

theorem publishLoop_net_irrelevant (enc : Encoding) (net1 net2 : Notify → Option String)
    (pub : Message) (uhlist : UpdateHeaderList) :
    ∀ (subs : List (String × BrokerSub)) (handler : BlobUpdateValueHandler)
      (sent : List Notify),
      publishLoop enc net1 pub uhlist subs handler sent =
        publishLoop enc net2 pub uhlist subs handler sent := by
  intro subs
  induction subs with
  | nil => intro handler sent; rfl
  | cons e rest ih =>
    intro handler sent
    obtain ⟨key, sub⟩ := e
    simp only [publishLoop, notifySub_net_irrelevant enc net1 net2]
    cases notifySub enc net2 pub uhlist sub handler with
    | none => rfl
    | some r =>
      obtain ⟨n, h1⟩ := r
      cases n with
      | none => exact ih h1 sent
      | some call => exact ih h1 (sent ++ [call])

/-- The outcome of publish does not depend on what the Notify calls return. -/
theorem publish_net_irrelevant (broker : BrokerImpl) (enc : Encoding)
    (net1 net2 : Notify → Option String) (pub : Message) :
    broker.publish enc net1 pub = broker.publish enc net2 pub := by
  unfold BrokerImpl.publish
  cases enc.DecodeUpdateHeaderList pub.Body with
  | error e => rfl
  | ok r =>
    obtain ⟨uhlist, decoder⟩ := r
    simp only [publishLoop_net_irrelevant enc net1 net2]

/-- Fan-out of a publication whose two lists decode with equal lengths, when no matching
panics and the value-list encoder reports no error: publish returns nil and sends, in the
order of the subscriptions, the NOTIFY due to each subscription with a selected update. -/
theorem publish_fanout (broker : BrokerImpl) (enc : Encoding) (net : Notify → Option String)
    (pub : Message) (uhlist : UpdateHeaderList) (decoder rest : Body) (vals : BlobList)
    (hh : enc.DecodeUpdateHeaderList pub.Body = .ok (uhlist, decoder))
    (hv : enc.DecodeBlobList decoder = .ok (vals, rest))
    (hlen : uhlist.length = vals.length)
    (henc : ∀ buf l, (enc.EncodeBlobList buf l).2 = none)
    (hret : ∀ e ∈ broker.subs, matchingReturns e.2 pub uhlist) :
    broker.publish enc net pub =
      { result := some none,
        sent := broker.subs.filterMap (fun e => expectedNotify enc e.2 pub uhlist vals),
        broker := { broker with updtHandler := { list := some vals, values := [] } } } := by
  unfold BrokerImpl.publish
  simp only [hh, BlobUpdateValueHandler.DecodeUpdateValueList, hv,
    BlobUpdateValueHandler.UpdateValueListSize, listSize]
  rw [if_neg (by simp [hlen])]
  rw [publishLoop_expected enc net pub uhlist vals hlen henc broker.subs [] hret]
  simp

/-- Witness of `publish_fanout`: the first publication of broker_test.go, headers key1,
key2, key1 with values 10, 20, 30, against the key1 subscription. -/
theorem publish_fanout_witness :
    (sampleBroker [key1Subscription]).publish sampleEncoding netOk
        (testPublish [3, 1, 2, 1, 3, 10, 20, 30]) =
      { result := some none,
        sent := [key1Subscription].filterMap (fun e => expectedNotify sampleEncoding e.2
          (testPublish [3, 1, 2, 1, 3, 10, 20, 30]) [sampleHeader 1, sampleHeader 2, sampleHeader 1]
          [some [10], some [20], some [30]]),
        broker := { sampleBroker [key1Subscription] with
          updtHandler := { list := some [some [10], some [20], some [30]], values := [] } } } :=
  publish_fanout (sampleBroker [key1Subscription]) sampleEncoding netOk
    (testPublish [3, 1, 2, 1, 3, 10, 20, 30]) [sampleHeader 1, sampleHeader 2, sampleHeader 1]
    [3, 10, 20, 30] [] [some [10], some [20], some [30]] rfl rfl rfl (fun _ _ => rfl)
    (by
      intro e he
      have he2 : e = key1Subscription := by simpa [sampleBroker] using he
      subst he2
      intro h hh
      simp only [List.mem_cons, List.mem_singleton, List.not_mem_nil, or_false] at hh
      rcases hh with hh | hh | hh <;> subst hh
      · exact ⟨_, true, rfl, by decide⟩
      · exact ⟨_, false, rfl, by decide⟩
      · exact ⟨_, true, rfl, by decide⟩)

/-- Every NOTIFY due to a subscription has as body the encoding of its identifier, of
the selected headers and of the values of the same indices, two lists of equal length. -/
theorem expectedNotify_body (enc : Encoding) (s : BrokerSub) (pub : Message)
    (uhlist : UpdateHeaderList) (vals : BlobList) (call : Notify)
    (h : expectedNotify enc s pub uhlist vals = some call) :
    call.transaction = s.transaction ∧
    call.body = notifyBody enc s.subid ((selectedUpdates s pub uhlist vals).map Prod.fst)
      ((selectedUpdates s pub uhlist vals).map Prod.snd) ∧
    ((selectedUpdates s pub uhlist vals).map Prod.fst).length =
      ((selectedUpdates s pub uhlist vals).map Prod.snd).length := by
  unfold expectedNotify at h
  by_cases h0 : (selectedUpdates s pub uhlist vals).length = 0
  · simp [h0] at h
  · simp only [h0, if_false, Option.some.injEq] at h
    subst h
    simp

/-- A subscription is due a NOTIFY exactly when one update header of the publication is
selected for it. -/
theorem expectedNotify_isSome_iff (enc : Encoding) (s : BrokerSub) (pub : Message)
    (uhlist : UpdateHeaderList) (vals : BlobList) (hlen : uhlist.length = vals.length) :
    (expectedNotify enc s pub uhlist vals).isSome = true ↔
      ∃ hdr, some hdr ∈ uhlist ∧ s.matches pub hdr.Key = some true := by
  have hsel : (selectedUpdates s pub uhlist vals).length = 0 ↔
      ¬ ∃ hdr, some hdr ∈ uhlist ∧ s.matches pub hdr.Key = some true := by
    rw [List.length_eq_zero]
    unfold selectedUpdates
    rw [List.filter_eq_nil_iff]
    constructor
    · rintro h ⟨hdr, hmem, hm⟩
      obtain ⟨i, hi, hget⟩ := List.getElem_of_mem hmem
      have hi2 : i < vals.length := by omega
      have hz : (some hdr, vals[i]) ∈ uhlist.zip vals := by
        have : (uhlist.zip vals)[i]? = some (some hdr, vals[i]) := by
          simp [List.getElem?_eq_getElem, hi, hi2, hget]
        exact List.getElem?_mem this
      have := h _ hz
      simp [selects, hm] at this
    · intro h p hp hsel
      apply h
      obtain ⟨a, b⟩ := p
      have ha : a ∈ uhlist := (List.of_mem_zip hp).1
      cases a with
      | none => simp [selects] at hsel
      | some hdr =>
        refine ⟨hdr, ha, ?_⟩
        simpa [selects] using hsel
  unfold expectedNotify
  by_cases h0 : (selectedUpdates s pub uhlist vals).length = 0
  · have := hsel.mp h0
    simp [h0, this]
  · have : ∃ hdr, some hdr ∈ uhlist ∧ s.matches pub hdr.Key = some true := by
      by_contra hc
      exact h0 (hsel.mpr hc)
    simp [h0, this]

/-- The publication of broker_test.go: headers key1, key2, key1 with values 10, 20, 30
and the key1 subscription give one NOTIFY holding the identifier, the headers of
indices 0 and 2 and the values 10 and 30. -/
theorem publish_test_publication :
    ((sampleBroker [key1Subscription]).publish sampleEncoding netOk
        (testPublish [3, 1, 2, 1, 3, 10, 20, 30])).sent =
      [{ transaction := 1, body := [14, 2, 1, 1, 2, 10, 30], isError := false }] := by
  decide

/-- C7, evaluated at a failing input. One stored subscription for `(key1, 0, 0, 0)` and
a PUBLISH whose header and value lists decode with the equal lengths 2, the second update
key having a null first sub-key. The first update key matches the subscription, yet no
NOTIFY is sent: matching the second key panics (line 151) and publish does not return. -/
theorem publish_null_subkey_aborts_fanout :
    sampleEncoding.DecodeUpdateHeaderList (testPublish [2, 1, 0, 2, 10, 20]).Body =
      .ok ([sampleHeader 1, sampleHeader 0], [2, 10, 20]) ∧
    sampleEncoding.DecodeBlobList [2, 10, 20] = .ok ([some [10], some [20]], []) ∧
    key1Subscription.2.matches (testPublish [2, 1, 0, 2, 10, 20]) (mkKey "key1" 1 1 1) =
      some true ∧
    (sampleHeader 1).map (fun hdr => hdr.Key) = some (mkKey "key1" 1 1 1) ∧
    ((sampleBroker [key1Subscription]).publish sampleEncoding netOk
        (testPublish [2, 1, 0, 2, 10, 20])).result = none ∧
    ((sampleBroker [key1Subscription]).publish sampleEncoding netOk
        (testPublish [2, 1, 0, 2, 10, 20])).sent = [] := by
  refine ⟨rfl, rfl, by decide, rfl, by decide, by decide⟩

/-- C8, evaluated at a failing input. First a PUBLISH of headers key1, key2 with values
10, 20; then a PUBLISH of headers key2, key1 whose value list does not decode. The key1
subscription receives for the second publication a NOTIFY that carries the header of
index 1 with the value 20, the value of index 1 of the first publication: the list kept
by the handler is the one of the earlier publication. -/
theorem publish_notifies_stale_values :
    sampleEncoding.DecodeUpdateHeaderList (testPublish [2, 2, 1, 9]).Body =
      .ok ([sampleHeader 2, sampleHeader 1], [9]) ∧
    sampleEncoding.DecodeBlobList [9] = .error "truncated list" ∧
    ((sampleBroker [key1Subscription]).publish sampleEncoding netOk
        (testPublish [2, 1, 2, 2, 10, 20])).sent =
      [{ transaction := 1, body := [14, 1, 1, 1, 10], isError := false }] ∧
    (((sampleBroker [key1Subscription]).publish sampleEncoding netOk
        (testPublish [2, 1, 2, 2, 10, 20])).broker.publish sampleEncoding netOk
        (testPublish [2, 2, 1, 9])).sent =
      [{ transaction := 1, body := [14, 1, 1, 1, 20], isError := false }] := by
  refine ⟨rfl, rfl, by decide, by decide⟩

/-- C9. When the update header list and the update value list of a PUBLISH both decode
and their lengths differ, publish and OnPublish return the error "Bad header and value
list lengths", no Notify call is made, and the subscriber and publisher maps are the
ones before the call. -/
theorem publish_bad_lengths (broker : BrokerImpl) (enc : Encoding)
    (net : Notify → Option String) (pub : Message) (uhlist : UpdateHeaderList)
    (decoder rest : Body) (vals : BlobList)
    (hh : enc.DecodeUpdateHeaderList pub.Body = .ok (uhlist, decoder))
    (hv : enc.DecodeBlobList decoder = .ok (vals, rest))
    (hlen : uhlist.length ≠ vals.length) :
    (broker.publish enc net pub).result = some (some "Bad header and value list lengths") ∧
    (broker.publish enc net pub).sent = [] ∧
    (broker.publish enc net pub).broker.subs = broker.subs ∧
    (broker.publish enc net pub).broker.pubs = broker.pubs ∧
    (broker.OnPublish enc net pub).result = some (some "Bad header and value list lengths") ∧
    (broker.OnPublish enc net pub).sent = [] ∧
    (broker.OnPublish enc net pub).broker.subs = broker.subs ∧
    (broker.OnPublish enc net pub).broker.pubs = broker.pubs := by
  have hp : broker.publish enc net pub =
      { result := some (some "Bad header and value list lengths"), sent := [],
        broker := { broker with updtHandler := { list := some vals, values := [] } } } := by
    unfold BrokerImpl.publish
    simp only [hh, BlobUpdateValueHandler.DecodeUpdateValueList, hv,
      BlobUpdateValueHandler.UpdateValueListSize, listSize]
    rw [if_pos (by exact_mod_cast hlen)]
  have ho : broker.OnPublish enc net pub = broker.publish enc net pub := by
    unfold BrokerImpl.OnPublish
    rw [hp]
  rw [ho, hp]
  exact ⟨rfl, rfl, rfl, rfl, rfl, rfl, rfl, rfl⟩

/-- Witness of `publish_bad_lengths`: two headers and three values. -/
theorem publish_bad_lengths_witness :
    ((sampleBroker [key1Subscription]).publish sampleEncoding netOk
        (testPublish [2, 1, 2, 3, 10, 20, 30])).result =
      some (some "Bad header and value list lengths") ∧
    ((sampleBroker [key1Subscription]).publish sampleEncoding netOk
        (testPublish [2, 1, 2, 3, 10, 20, 30])).sent = [] :=
  have h := publish_bad_lengths (sampleBroker [key1Subscription]) sampleEncoding netOk
    (testPublish [2, 1, 2, 3, 10, 20, 30]) [sampleHeader 1, sampleHeader 2] [3, 10, 20, 30] []
    [some [10], some [20], some [30]] rfl rfl (by decide)
  ⟨h.1, h.2.1⟩

/-- When the update header list of a PUBLISH does not decode, publish returns the
decoding error, makes no Notify call and leaves the broker as it was. -/
theorem publish_header_decode_error (broker : BrokerImpl) (enc : Encoding)
    (net : Notify → Option String) (pub : Message) (e : String)
    (hh : enc.DecodeUpdateHeaderList pub.Body = .error e) :
    broker.publish enc net pub = { result := some (some e), sent := [], broker := broker } := by
  unfold BrokerImpl.publish
  simp only [hh]

/-- Witness of `publish_header_decode_error`: an empty body. -/
theorem publish_header_decode_error_witness :
    (sampleBroker [key1Subscription]).publish sampleEncoding netOk (testPublish []) =
      { result := some (some "no length"), sent := [],
        broker := sampleBroker [key1Subscription] } :=
  publish_header_decode_error (sampleBroker [key1Subscription]) sampleEncoding netOk
    (testPublish []) "no length" rfl

/-- C10, evaluated at a failing input. After a PUBLISH of one header and one value, a
PUBLISH of one header whose value list does not decode: publish returns nil, not an
error, and sends a NOTIFY. The value returned by DecodeUpdateValueList is dropped at line
417, and the length test passes against the value list of the earlier publication. -/
theorem publish_drops_value_decode_error :
    sampleEncoding.DecodeUpdateHeaderList (testPublish [1, 1, 5]).Body =
      .ok ([sampleHeader 1], [5]) ∧
    sampleEncoding.DecodeBlobList [5] = .error "truncated list" ∧
    (((sampleBroker [key1Subscription]).publish sampleEncoding netOk
        (testPublish [1, 1, 1, 42])).broker.publish sampleEncoding netOk
        (testPublish [1, 1, 5])).result = some none ∧
    (((sampleBroker [key1Subscription]).publish sampleEncoding netOk
        (testPublish [1, 1, 1, 42])).broker.publish sampleEncoding netOk
        (testPublish [1, 1, 5])).sent =
      [{ transaction := 1, body := [14, 1, 1, 1, 42], isError := false }] := by
  refine ⟨rfl, rfl, by decide, by decide⟩

/-- When the encoding of the selected values reports an error, EncodeUpdateValueList
returns before emptying the buffer: the handler is left as it was. -/
theorem EncodeUpdateValueList_error_keeps_values (handler : BlobUpdateValueHandler)
    (enc : Encoding) (encoder : Body) (e : String)
    (h : (enc.EncodeBlobList encoder handler.values).2 = some e) :
    (handler.EncodeUpdateValueList enc encoder).2.2 = handler := by
  unfold BlobUpdateValueHandler.EncodeUpdateValueList
  cases hr : enc.EncodeBlobList encoder handler.values with
  | mk buf err =>
    rw [hr] at h
    simp only at h
    subst h
    rfl


/-! ## MAL/TCP frame codec -/



theorem mod_pow_succ_split (v n : Nat) :
    v % 256 ^ (n + 1) = (v / 256 ^ n) % 256 * 256 ^ n + v % 256 ^ n := by
  rw [pow_succ, Nat.mod_mul, Nat.add_comm, Nat.mul_comm]

theorem readBE_beBytes (n : Nat) : ∀ (acc v : Nat) (rest : Body),
    readBE n acc (beBytes n v ++ rest) = .ok (acc * 256 ^ n + v % 256 ^ n, rest) := by
  induction n with
  | zero => intro acc v rest; simp [readBE, beBytes, Nat.mod_one]
  | succ n ih =>
    intro acc v rest
    show readBE n (acc * 256 + v / 256 ^ n % 256) (beBytes n v ++ rest) = _
    rw [ih, mod_pow_succ_split v n]
    congr 2
    ring

theorem readBE_beBytes_lt (n : Nat) (v : Nat) (rest : Body) (h : v < 256 ^ n) :
    readBE n 0 (beBytes n v ++ rest) = .ok (v, rest) := by
  rw [readBE_beBytes, Nat.mod_eq_of_lt h]; simp

theorem flagsByte_bits (t : TCPTransport) :
    ((t.flagsByte / 128) % 2 == 1) = t.sourceFlag ∧
    ((t.flagsByte / 64) % 2 == 1) = t.destinationFlag ∧
    ((t.flagsByte / 32) % 2 == 1) = t.priorityFlag ∧
    ((t.flagsByte / 16) % 2 == 1) = t.timestampFlag ∧
    ((t.flagsByte / 8) % 2 == 1) = t.networkZoneFlag ∧
    ((t.flagsByte / 4) % 2 == 1) = t.sessionNameFlag ∧
    ((t.flagsByte / 2) % 2 == 1) = t.domainFlag ∧
    (t.flagsByte % 2 == 1) = t.authenticationIdFlag := by
  unfold TCPTransport.flagsByte
  cases t.sourceFlag <;> cases t.destinationFlag <;> cases t.priorityFlag <;>
    cases t.timestampFlag <;> cases t.networkZoneFlag <;> cases t.sessionNameFlag <;>
    cases t.domainFlag <;> cases t.authenticationIdFlag <;> decide

theorem decodeSDU_encodeSDU (ty st sdu : Nat) (h : encodeSDU ty st = .ok sdu) :
    sdu < 32 ∧ decodeSDU sdu = .ok (ty, st) := by
  unfold encodeSDU at h
  split_ifs at h with h1 h2 h3 h4 h5 h6 <;> simp only [Res.ok.injEq] at h <;> subst h
  · obtain ⟨rfl, rfl⟩ := h1; exact ⟨by omega, by simp [decodeSDU]⟩
  · obtain ⟨rfl, ha, hb⟩ := h2
    refine ⟨by omega, ?_⟩
    unfold decodeSDU
    rw [if_neg (by omega), if_pos (by omega)]
  · obtain ⟨rfl, ha, hb⟩ := h3
    refine ⟨by omega, ?_⟩
    unfold decodeSDU
    rw [if_neg (by omega), if_neg (by omega), if_pos (by omega)]
    simp
  · obtain ⟨rfl, ha, hb⟩ := h4
    refine ⟨by omega, ?_⟩
    unfold decodeSDU
    rw [if_neg (by omega), if_neg (by omega), if_neg (by omega), if_pos (by omega)]
    simp
  · obtain ⟨rfl, ha, hb⟩ := h5
    refine ⟨by omega, ?_⟩
    unfold decodeSDU
    rw [if_neg (by omega), if_neg (by omega), if_neg (by omega), if_neg (by omega),
      if_pos (by omega)]
    simp
  · obtain ⟨rfl, ha, hb⟩ := h6
    refine ⟨by omega, ?_⟩
    unfold decodeSDU
    rw [if_neg (by omega), if_neg (by omega), if_neg (by omega), if_neg (by omega),
      if_neg (by omega), if_pos (by omega)]
    simp




theorem EncodeNullableIdentifier_ok (codec : LeafCodec) (buf : Body) (att : Option Identifier)
    (bs : Body) (h : nullableIdentifierBytes codec att = some bs) :
    EncodeNullableIdentifier codec buf att = (buf ++ bs, none) := by
  cases att with
  | none =>
    simp only [nullableIdentifierBytes] at h
    simp [EncodeNullableIdentifier, h, emit]
  | some v =>
    simp only [nullableIdentifierBytes] at h
    cases h1 : codec.notNullBytes with
    | none => simp [h1] at h
    | some b1 =>
      cases h2 : codec.identifierBytes v with
      | none => simp [h1, h2] at h
      | some b2 =>
        simp only [h1, h2, Option.some.injEq] at h
        subst h
        simp [EncodeNullableIdentifier, h1, h2, emit]

theorem encodeIdentifiers_ok (codec : LeafCodec) (l : IdentifierList) :
    ∀ (buf : Body), (∀ e ∈ l, ∃ bs, nullableIdentifierBytes codec e = some bs) →
      encodeIdentifiers codec buf l = buf ++ identifiersBytes codec l := by
  induction l with
  | nil => intro buf _; simp [encodeIdentifiers, identifiersBytes]
  | cons e rest ih =>
    intro buf h
    obtain ⟨bs, hbs⟩ := h e (List.mem_cons_self _ _)
    simp only [encodeIdentifiers, EncodeNullableIdentifier_ok codec buf e bs hbs]
    rw [ih _ (fun x hx => h x (List.mem_cons_of_mem _ hx))]
    simp [identifiersBytes, hbs]

theorem decodeIdentifiers_ok (codec : LeafCodec) (hc : codec.RoundTrips) (l : IdentifierList) :
    ∀ (rest : Body), (∀ e ∈ l, ∃ bs, nullableIdentifierBytes codec e = some bs) →
      decodeIdentifiers codec l.length (identifiersBytes codec l ++ rest) = .ok (l, rest) := by
  induction l with
  | nil => intro rest _; simp [decodeIdentifiers, identifiersBytes]
  | cons e tl ih =>
    intro rest h
    obtain ⟨bs, hbs⟩ := h e (List.mem_cons_self _ _)
    have hsplit : identifiersBytes codec (e :: tl) ++ rest =
        bs ++ (identifiersBytes codec tl ++ rest) := by
      simp [identifiersBytes, hbs]
    rw [hsplit]
    simp only [List.length_cons, decodeIdentifiers, hc.nullable e bs _ hbs]
    rw [ih rest (fun x hx => h x (List.mem_cons_of_mem _ hx))]

theorem DecodeIdentifierList_ok (codec : LeafCodec) (hc : codec.RoundTrips) (l : IdentifierList)
    (lenBytes rest : Body) (hlen : codec.uintegerBytes l.length = some lenBytes)
    (h : ∀ e ∈ l, ∃ bs, nullableIdentifierBytes codec e = some bs) :
    DecodeIdentifierList codec (lenBytes ++ identifiersBytes codec l ++ rest) = .ok (l, rest) := by
  unfold DecodeIdentifierList
  rw [List.append_assoc, hc.uinteger l.length lenBytes _ hlen]
  exact decodeIdentifiers_ok codec hc l rest h

theorem IdentifierList_Encode_ok (codec : LeafCodec) (buf : Body) (l : IdentifierList)
    (lenBytes : Body) (hlt : l.length < 2 ^ 32)
    (hlen : codec.uintegerBytes l.length = some lenBytes)
    (h : ∀ e ∈ l, ∃ bs, nullableIdentifierBytes codec e = some bs) :
    IdentifierList.Encode codec buf l = (buf ++ lenBytes ++ identifiersBytes codec l, none) := by
  unfold IdentifierList.Encode
  rw [Nat.mod_eq_of_lt hlt, hlen]
  simp only [emit]
  rw [encodeIdentifiers_ok codec l _ h]

theorem putIf_some (flag : Bool) (buf bs : Body) :
    putIf flag buf (some bs) = Res.ok (buf ++ optBytes flag (some bs)) := by
  cases flag <;> simp [putIf, put, optBytes]

theorem putURIIf_some (codec : LeafCodec) (flag : Bool) (buf bs : Body) (u : URI)
    (h : codec.uriBytes u = some bs) :
    putURIIf codec flag buf (some u) = Res.ok (buf ++ optBytes flag (some bs)) := by
  cases flag <;> simp [putURIIf, put, optBytes, h]

theorem putDomainIf_ok (codec : LeafCodec) (flag : Bool) (buf : Body) (l : IdentifierList)
    (lenBytes : Body) (hlt : l.length < 2 ^ 32)
    (hlen : codec.uintegerBytes l.length = some lenBytes)
    (h : ∀ e ∈ l, ∃ bs, nullableIdentifierBytes codec e = some bs) :
    putDomainIf codec flag buf l =
      Res.ok (buf ++ optBytes flag (some (lenBytes ++ identifiersBytes codec l))) := by
  cases flag
  · simp [putDomainIf, optBytes]
  · simp [putDomainIf, optBytes, IdentifierList_Encode_ok codec buf l lenBytes hlt hlen h]

theorem uriField_full (t : TCPTransport) (u : URI) (hopt : t.optimizeURI = false) :
    t.uriField u = u := by
  simp [TCPTransport.uriField, hopt]

theorem encode_eq (codec : LeafCodec) (t : TCPTransport) (hopt : t.optimizeURI = false)
    (m : Message) (hwf : m.WellFormed codec) (sdu : Nat)
    (hsdu : encodeSDU m.InteractionType m.InteractionStage = .ok sdu) :
    t.encode codec m =
      .ok (fixedHeader t m sdu ++ beBytes 4 0 ++ variablePart codec t m ++ m.Body) := by
  obtain ⟨uf, bf, huf, -, hbf⟩ := hwf.uriFrom
  obtain ⟨ut, bt, hut, -, hbt⟩ := hwf.uriTo
  obtain ⟨bp, hbp⟩ := hwf.priority
  obtain ⟨bti, hbti⟩ := hwf.timestamp
  obtain ⟨bnz, hbnz⟩ := hwf.networkZone
  obtain ⟨bsn, hbsn⟩ := hwf.sessionName
  obtain ⟨hdl, bdl, hbdl⟩ := hwf.domainLength
  obtain ⟨ba, hba⟩ := hwf.authenticationId
  unfold TCPTransport.encode variablePart
  simp only [hsdu, huf, hut, Option.map_some', uriField_full t _ hopt, hbp, hbti, hbnz, hbsn,
    hba, bind, Res.bind, putIf_some,
    putURIIf_some codec _ _ bf uf hbf, putURIIf_some codec _ _ bt ut hbt,
    putDomainIf_ok codec _ _ m.Domain bdl hdl hbdl hwf.domain]
  simp only [fixedHeader, Option.bind, hbf, hbt, hbdl, Option.map, pure, List.append_assoc]


theorem beBytes_length (n v : Nat) : (beBytes n v).length = n := by
  induction n with
  | zero => rfl
  | succ n ih => simp [beBytes, ih]

theorem fixedHeader_length (t : TCPTransport) (m : Message) (sdu : Nat) :
    (fixedHeader t m sdu).length = 19 := by
  simp [fixedHeader, beBytes_length]

theorem write32_eq_beBytes (v : Nat) : write32 v = beBytes 4 v := by
  simp [write32, beBytes]

/-- The frame that writeMessage hands to the connection for a well-formed message. -/
theorem writeMessage_eq (codec : LeafCodec) (t : TCPTransport) (hopt : t.optimizeURI = false)
    (m : Message) (hwf : m.WellFormed codec) (sdu : Nat)
    (hsdu : encodeSDU m.InteractionType m.InteractionStage = .ok sdu) :
    ∃ len, t.writeMessage codec m =
      .ok (fixedHeader t m sdu ++ (beBytes 4 len ++ (variablePart codec t m ++ m.Body))) := by
  unfold TCPTransport.writeMessage
  rw [encode_eq codec t hopt m hwf sdu hsdu]
  simp only [bind, Res.bind]
  have hlen : ¬ (fixedHeader t m sdu ++ beBytes 4 0 ++ variablePart codec t m ++ m.Body).length
      < 23 := by
    simp only [List.length_append, fixedHeader_length, beBytes_length]
    omega
  rw [if_neg hlen]
  refine ⟨((fixedHeader t m sdu ++ beBytes 4 0 ++ variablePart codec t m ++ m.Body).length
    % 2 ^ 32 + 2 ^ 32 - 23) % 2 ^ 32, ?_⟩
  have h19 : (fixedHeader t m sdu ++ beBytes 4 0 ++ variablePart codec t m ++ m.Body).take 19 =
      fixedHeader t m sdu := by
    rw [List.append_assoc, List.append_assoc, List.take_left' (fixedHeader_length t m sdu)]
  have h23 : (fixedHeader t m sdu ++ beBytes 4 0 ++ variablePart codec t m ++ m.Body).drop 23 =
      variablePart codec t m ++ m.Body := by
    rw [List.append_assoc (fixedHeader t m sdu ++ beBytes 4 0)]
    rw [List.drop_left' (by simp [fixedHeader_length, beBytes_length])]
  rw [h19, h23, write32_eq_beBytes]
  simp only [pure, List.append_assoc]

theorem decodeSource_ok (codec : LeafCodec) (hc : codec.RoundTrips) (tr : TCPTransport)
    (peer : String) (flag : Bool) (m : Message) (u : URI) (bs rest : Body)
    (hu : m.UriFrom = some u) (hp : HasPrefix u MALTCP = true) (hb : codec.uriBytes u = some bs)
    (hd : flag = false → m.UriFrom = tr.sourceId) :
    decodeSource codec tr peer flag (optBytes flag (some bs) ++ rest) = .ok (m.UriFrom, rest) := by
  cases flag
  · simp [decodeSource, optBytes, hd rfl]
  · simp [decodeSource, optBytes, hc.uri u bs rest hb, hp, hu]

theorem decodeDestination_ok (codec : LeafCodec) (hc : codec.RoundTrips) (tr : TCPTransport)
    (flag : Bool) (m : Message) (u : URI) (bs rest : Body)
    (hu : m.UriTo = some u) (hp : HasPrefix u MALTCP = true) (hb : codec.uriBytes u = some bs)
    (hd : flag = false → m.UriTo = tr.destinationId) :
    decodeDestination codec tr flag (optBytes flag (some bs) ++ rest) = .ok (m.UriTo, rest) := by
  cases flag
  · simp [decodeDestination, optBytes, hd rfl]
  · simp [decodeDestination, optBytes, hc.uri u bs rest hb, hp, hu]

theorem decodeOptional_ok {α : Type} (flag : Bool) (dec : Body → Except String (α × Body))
    (dflt v : α) (bs rest : Body) (hdec : dec (bs ++ rest) = .ok (v, rest))
    (hd : flag = false → v = dflt) :
    decodeOptional flag dec dflt (optBytes flag (some bs) ++ rest) = .ok (v, rest) := by
  cases flag
  · simp [decodeOptional, optBytes, hd rfl]
  · simp [decodeOptional, optBytes, hdec, Res.ofExcept]


theorem Read_cons (b : Nat) (rest : Body) : Read (b :: rest) = .ok (b, rest) := by
  simp [Read, readBE]

theorem DecodeUOctet_be (v : Nat) (rest : Body) (h : v < 2 ^ 8) :
    DecodeUOctet (beBytes 1 v ++ rest) = .ok (v, rest) :=
  readBE_beBytes_lt 1 v rest (by simpa using h)

theorem DecodeUShort_be (v : Nat) (rest : Body) (h : v < 2 ^ 16) :
    DecodeUShort (beBytes 2 v ++ rest) = .ok (v, rest) :=
  readBE_beBytes_lt 2 v rest (by norm_num at h ⊢; exact h)

theorem DecodeULong_be (v : Nat) (rest : Body) (h : v < 2 ^ 64) :
    DecodeULong (beBytes 8 v ++ rest) = .ok (v, rest) :=
  readBE_beBytes_lt 8 v rest (by norm_num at h ⊢; exact h)

theorem ReadUInt32_be (v : Nat) (rest : Body) :
    ReadUInt32 (beBytes 4 v ++ rest) = .ok (v % 256 ^ 4, rest) := by
  unfold ReadUInt32
  rw [readBE_beBytes]; simp

theorem Res.ok_bind {α β : Type} (v : α) (f : α → Res β) : (Res.ok v >>= f) = f v := rfl

/-- Decoding the frame of a well-formed message gives the message back. -/
theorem decode_frame (codec : LeafCodec) (hc : codec.RoundTrips) (ts tr : TCPTransport)
    (hver : tr.version = ts.version % 8) (now : Nat) (peer : String) (m : Message)
    (hwf : m.WellFormed codec) (hf : FlagsAgree ts tr now m) (sdu len : Nat)
    (hsdu : encodeSDU m.InteractionType m.InteractionStage = .ok sdu) :
    tr.decode codec now
      (fixedHeader ts m sdu ++ (beBytes 4 len ++ (variablePart codec ts m ++ m.Body))) peer =
      .ok m := by
  obtain ⟨uf, bf, huf, hpf, hbf⟩ := hwf.uriFrom
  obtain ⟨ut, bt, hut, hpt, hbt⟩ := hwf.uriTo
  obtain ⟨bp, hbp⟩ := hwf.priority
  obtain ⟨bti, hbti⟩ := hwf.timestamp
  obtain ⟨bnz, hbnz⟩ := hwf.networkZone
  obtain ⟨bsn, hbsn⟩ := hwf.sessionName
  obtain ⟨hdl, bdl, hbdl⟩ := hwf.domainLength
  obtain ⟨ba, hba⟩ := hwf.authenticationId
  obtain ⟨hsdu32, hdsdu⟩ := decodeSDU_encodeSDU _ _ _ hsdu
  obtain ⟨f1, f2, f3, f4, f5, f6, f7, f8⟩ := flagsByte_bits ts
  have hb0a : ((ts.version % 8 * 32 + sdu) / 32) % 8 = tr.version := by rw [hver]; omega
  have hb0b : (ts.version % 8 * 32 + sdu) % 32 = sdu := by omega
  have hq := hwf.qos
  have hs := hwf.session
  have hx1 : ((((if m.IsErrorMessage = true then 128 else 0) + m.QoSLevel % 8 * 16 +
      m.Session % 16) / 128) % 2 == 1) = m.IsErrorMessage := by
    cases m.IsErrorMessage
    · simp only [Bool.false_eq_true, if_false, beq_eq_false_iff_ne, ne_eq]; omega
    · simp only [if_true, beq_iff_eq]; omega
  have hx2 : (((if m.IsErrorMessage = true then 128 else 0) + m.QoSLevel % 8 * 16 +
      m.Session % 16) / 16) % 8 = m.QoSLevel := by
    cases m.IsErrorMessage
    · simp only [Bool.false_eq_true, if_false]; omega
    · simp only [if_true]; omega
  have hx3 : ((if m.IsErrorMessage = true then 128 else 0) + m.QoSLevel % 8 * 16 +
      m.Session % 16) % 16 = m.Session := by
    cases m.IsErrorMessage
    · simp only [Bool.false_eq_true, if_false]; omega
    · simp only [if_true]; omega
  have hqos : QoSLevelFromOrdinalValue m.QoSLevel = .ok m.QoSLevel := by
    simp [QoSLevelFromOrdinalValue, hq]
  have hses : SessionTypeFromOrdinalValue m.Session = .ok m.Session := by
    simp [SessionTypeFromOrdinalValue, hs]
  unfold TCPTransport.decode fixedHeader variablePart
  simp only [List.append_assoc, List.singleton_append, List.cons_append, List.nil_append]
  simp only [Read_cons, Res.ok_bind]
  simp only [hb0a, hb0b, ne_eq, not_true_eq_false, if_false]
  rw [hdsdu]
  simp only [Res.ok_bind]
  rw [DecodeUShort_be _ _ hwf.serviceArea]
  simp only [Res.ok_bind]
  rw [DecodeUShort_be _ _ hwf.service]
  simp only [Res.ok_bind]
  rw [DecodeUShort_be _ _ hwf.operation]
  simp only [Res.ok_bind]
  rw [DecodeUOctet_be _ _ hwf.areaVersion]
  simp only [Res.ok_bind]
  rw [Read_cons]
  simp only [Res.ok_bind, hx1, hx2, hx3]
  rw [hqos]
  simp only [Res.ok_bind]
  rw [hses]
  simp only [Res.ok_bind]
  rw [DecodeULong_be _ _ hwf.transactionId]
  simp only [Res.ok_bind]
  rw [Read_cons]
  simp only [Res.ok_bind, f1, f2, f3, f4, f5, f6, f7, f8]
  rw [DecodeUOctet_be _ _ hwf.encodingId]
  simp only [Res.ok_bind]
  rw [ReadUInt32_be]
  simp only [Res.ok_bind]
  simp only [huf, hut, Option.bind, hbf, hbt, hbp, hbti, hbnz, hbsn, hbdl, hba, Option.map]
  rw [decodeSource_ok codec hc tr peer ts.sourceFlag m uf bf _ huf hpf hbf hf.source]
  simp only [Res.ok_bind]
  rw [decodeDestination_ok codec hc tr ts.destinationFlag m ut bt _ hut hpt hbt hf.destination]
  simp only [Res.ok_bind]
  rw [decodeOptional_ok ts.priorityFlag codec.DecodeUInteger tr.dfltPriority m.Priority bp _
    (hc.uinteger _ _ _ hbp) hf.priority]
  simp only [Res.ok_bind]
  rw [decodeOptional_ok ts.timestampFlag codec.DecodeTime now m.Timestamp bti _
    (hc.time _ _ _ hbti) hf.timestamp]
  simp only [Res.ok_bind]
  rw [decodeOptional_ok ts.networkZoneFlag codec.DecodeIdentifier tr.dfltNetworkZone
    m.NetworkZone bnz _ (hc.identifier _ _ _ hbnz) hf.networkZone]
  simp only [Res.ok_bind]
  rw [decodeOptional_ok ts.sessionNameFlag codec.DecodeIdentifier tr.dfltSessionName
    m.SessionName bsn _ (hc.identifier _ _ _ hbsn) hf.sessionName]
  simp only [Res.ok_bind]
  rw [decodeOptional_ok ts.domainFlag (DecodeIdentifierList codec) tr.dfltDomain
    m.Domain (bdl ++ identifiersBytes codec m.Domain) _
    (DecodeIdentifierList_ok codec hc m.Domain bdl _ hbdl hwf.domain) hf.domain]
  simp only [Res.ok_bind]
  rw [decodeOptional_ok ts.authenticationIdFlag codec.DecodeBlob tr.dfltAuthenticationId
    m.AuthenticationId ba _ (hc.blob _ _ _ hba) hf.authenticationId]
  simp only [Res.ok_bind]
  rfl




theorem sampleReadBytes_ok (l rest : List Nat) :
    sampleReadBytes (l.length :: (l ++ rest)) = .ok (l, rest) := by
  simp [sampleReadBytes]

theorem sampleReadString_ok (s : String) (bs rest : Body) (h : sampleStringBytes s = some bs) :
    sampleReadString (bs ++ rest) = .ok (s, rest) := by
  simp only [sampleStringBytes, Option.some.injEq] at h
  subst h
  have hl : s.data.length = (s.data.map Char.toNat).length := by simp
  unfold sampleReadString
  rw [List.cons_append, hl, sampleReadBytes_ok]
  simp only [List.map_map]
  have : (Char.ofNat ∘ Char.toNat) = id := by
    funext c; simp [Char.ofNat_toNat]
  rw [this, List.map_id]

theorem sampleReadNumber_ok (n v : Nat) (rest : Body) (h : v < 256 ^ n) :
    sampleReadNumber n (beBytes n v ++ rest) = .ok (v, rest) := by
  unfold sampleReadNumber
  rw [readBE_beBytes_lt n v rest h]

theorem sampleCodec_roundTrips : sampleCodec.RoundTrips where
  uri := fun u bs rest h => sampleReadString_ok u bs rest h
  uinteger := by
    intro v bs rest h
    simp only [sampleCodec] at h
    split_ifs at h with hv
    simp only [Option.some.injEq] at h
    subst h
    exact sampleReadNumber_ok 4 v rest (by norm_num at hv ⊢; exact hv)
  time := by
    intro v bs rest h
    simp only [sampleCodec] at h
    split_ifs at h with hv
    simp only [Option.some.injEq] at h
    subst h
    exact sampleReadNumber_ok 8 v rest (by norm_num at hv ⊢; exact hv)
  identifier := fun u bs rest h => sampleReadString_ok u bs rest h
  blob := by
    intro v bs rest h
    simp only [sampleCodec, Option.some.injEq] at h
    subst h
    exact sampleReadBytes_ok v rest
  nullable := by
    intro att bs rest h
    cases att with
    | none =>
      simp only [nullableIdentifierBytes, sampleCodec, Option.some.injEq] at h
      subst h
      simp [sampleCodec]
    | some v =>
      simp only [nullableIdentifierBytes, sampleCodec, sampleStringBytes, Option.some.injEq] at h
      subst h
      have h1 := sampleReadString_ok v _ rest rfl
      have h2 : sampleReadString (String.length v :: (List.map Char.toNat v.data ++ rest)) =
          .ok (v, rest) := h1
      simp [sampleCodec, h2]




theorem testPublish_wellFormed (body : Body) (p : Nat) (hp : p < 2 ^ 32) :
    ({ testPublish body with Priority := p }).WellFormed sampleCodec where
  stage := ⟨16, rfl⟩
  serviceArea := by norm_num [testPublish]
  service := by norm_num [testPublish]
  operation := by norm_num [testPublish]
  areaVersion := by norm_num [testPublish]
  transactionId := by norm_num [testPublish]
  encodingId := by norm_num [testPublish]
  qos := by norm_num [testPublish]
  session := by norm_num [testPublish]
  uriFrom := ⟨_, _, rfl, by decide, rfl⟩
  uriTo := ⟨_, _, rfl, by decide, rfl⟩
  priority := ⟨beBytes 4 p, by simp only [sampleCodec]; rw [if_pos hp]⟩
  timestamp := ⟨_, rfl⟩
  networkZone := ⟨_, rfl⟩
  sessionName := ⟨_, rfl⟩
  domainLength := ⟨by norm_num [testPublish], _, rfl⟩
  domain := by
    intro e he
    simp only [testPublish, List.mem_cons, List.mem_singleton, List.not_mem_nil, or_false] at he
    rcases he with he | he | he <;> subst he <;> exact ⟨_, rfl⟩
  authenticationId := ⟨_, rfl⟩

/-- Frame round trip between a sender and a receiver. -/
theorem writeMessage_decode (codec : LeafCodec) (hc : codec.RoundTrips)
    (sender receiver : TCPTransport) (hopt : sender.optimizeURI = false)
    (hver : receiver.version = sender.version % 8)
    (now : Nat) (peer : String) (m : Message) (hwf : m.WellFormed codec)
    (hf : FlagsAgree sender receiver now m) :
    ∃ frame, sender.writeMessage codec m = .ok frame ∧
      receiver.decode codec now frame peer = .ok m := by
  obtain ⟨sdu, hsdu⟩ := hwf.stage
  obtain ⟨len, hw⟩ := writeMessage_eq codec sender hopt m hwf sdu hsdu
  exact ⟨_, hw, decode_frame codec hc sender receiver hver now peer m hwf hf sdu len hsdu⟩

/-- C1, amended. Frame round trip: for a codec whose attribute primitives round-trip, a
sender that writes its URIs in full (`optimizeURI` clear) and a receiver of the same
version, and a well-formed message in which every optional field left out by the sender
(presence flag clear) holds the value that the receiver substitutes, writeMessage produces
a frame and decode of that frame returns the message. With every presence flag set, as
TCPTransport.init sets them, the last condition holds for every message. -/
theorem decode_writeMessage_roundtrip (codec : LeafCodec) (hc : codec.RoundTrips)
    (sender receiver : TCPTransport) (hopt : sender.optimizeURI = false)
    (hver : receiver.version = sender.version % 8)
    (now : Nat) (peer : String) (m : Message) (hwf : m.WellFormed codec)
    (hf : FlagsAgree sender receiver now m) :
    ∃ frame, sender.writeMessage codec m = .ok frame ∧
      receiver.decode codec now frame peer = .ok m :=
  writeMessage_decode codec hc sender receiver hopt hver now peer m hwf hf

theorem flagsAgree_init (sender receiver : TCPTransport) (now : Nat) (m : Message)
    (h1 : sender.sourceFlag = true) (h2 : sender.destinationFlag = true)
    (h3 : sender.priorityFlag = true) (h4 : sender.timestampFlag = true)
    (h5 : sender.networkZoneFlag = true) (h6 : sender.sessionNameFlag = true)
    (h7 : sender.domainFlag = true) (h8 : sender.authenticationIdFlag = true) :
    FlagsAgree sender receiver now m where
  source := by intro h; rw [h1] at h; cases h
  destination := by intro h; rw [h2] at h; cases h
  priority := by intro h; rw [h3] at h; cases h
  timestamp := by intro h; rw [h4] at h; cases h
  networkZone := by intro h; rw [h5] at h; cases h
  sessionName := by intro h; rw [h6] at h; cases h
  domain := by intro h; rw [h7] at h; cases h
  authenticationId := by intro h; rw [h8] at h; cases h

theorem flagsAgree_reference (uri : URI) (receiver : TCPTransport) (now : Nat) (m : Message) :
    FlagsAgree (referenceTransport uri) receiver now m :=
  flagsAgree_init _ receiver now m rfl rfl rfl rfl rfl rfl rfl rfl

/-- Witness of `decode_writeMessage_roundtrip`: the PUBLISH message of broker_test.go sent
from the publisher's transport to the broker's, both in the configuration of
TCPTransport.init with `optimizeURI` clear, over the sample codec. -/
theorem decode_writeMessage_roundtrip_witness :
    ∃ frame, (referenceTransport "maltcp://127.0.0.1:16002").writeMessage sampleCodec
        { testPublish [1, 2, 3] with Priority := 5 } = .ok frame ∧
      (referenceTransport "maltcp://127.0.0.1:16003").decode sampleCodec 0 frame
        "127.0.0.1:16002" = .ok { testPublish [1, 2, 3] with Priority := 5 } :=
  decode_writeMessage_roundtrip sampleCodec sampleCodec_roundTrips
    (referenceTransport "maltcp://127.0.0.1:16002") (referenceTransport "maltcp://127.0.0.1:16003")
    rfl (by decide) 0 "127.0.0.1:16002" _ (testPublish_wellFormed [1, 2, 3] 5 (by decide))
    (flagsAgree_reference _ _ _ _)

/-- Frame round trip in the configuration of TCPTransport.init: with the eight presence
flags set and URIs written in full, every well-formed message is decoded as it was sent,
whatever the URIs, the versions apart, and the defaults of the two transports. -/
theorem writeMessage_decode_init (codec : LeafCodec) (hc : codec.RoundTrips)
    (sender receiver : TCPTransport) (hopt : sender.optimizeURI = false)
    (hver : receiver.version = sender.version % 8)
    (h1 : sender.sourceFlag = true) (h2 : sender.destinationFlag = true)
    (h3 : sender.priorityFlag = true) (h4 : sender.timestampFlag = true)
    (h5 : sender.networkZoneFlag = true) (h6 : sender.sessionNameFlag = true)
    (h7 : sender.domainFlag = true) (h8 : sender.authenticationIdFlag = true)
    (now : Nat) (peer : String) (m : Message) (hwf : m.WellFormed codec) :
    ∃ frame, sender.writeMessage codec m = .ok frame ∧
      receiver.decode codec now frame peer = .ok m :=
  writeMessage_decode codec hc sender receiver hopt hver now peer m hwf
    (flagsAgree_init sender receiver now m h1 h2 h3 h4 h5 h6 h7 h8)

theorem encode_priority_irrelevant (codec : LeafCodec) (t : TCPTransport) (m : Message)
    (p : Nat) (h : t.priorityFlag = false) :
    t.encode codec { m with Priority := p } = t.encode codec m := by
  unfold TCPTransport.encode
  simp only [h, putIf]
  rfl

/-- A sender whose priority flag is clear, everything else as in TCPTransport.init, and
the well-formed PUBLISH message of broker_test.go with priority 5: the frame leaves the
priority out, decode substitutes the default priority 0, and the decoded message is not
the one sent. TCPTransport.init sets the eight flags, so that no transport it has
initialized is in this configuration. -/
theorem decode_writeMessage_priority_flag_clear :
    ({ testPublish [1, 2, 3] with Priority := 5 }).WellFormed sampleCodec ∧
    ∃ frame, ({ referenceTransport "maltcp://127.0.0.1:16002" with
          priorityFlag := false }).writeMessage sampleCodec
        { testPublish [1, 2, 3] with Priority := 5 } = .ok frame ∧
      (referenceTransport "maltcp://127.0.0.1:16003").decode sampleCodec 0 frame
        "127.0.0.1:16002" = .ok (testPublish [1, 2, 3]) ∧
      (referenceTransport "maltcp://127.0.0.1:16003").decode sampleCodec 0 frame
        "127.0.0.1:16002" ≠ .ok { testPublish [1, 2, 3] with Priority := 5 } := by
  refine ⟨testPublish_wellFormed [1, 2, 3] 5 (by decide), ?_⟩
  have hwf : (testPublish [1, 2, 3]).WellFormed sampleCodec :=
    testPublish_wellFormed [1, 2, 3] 0 (by decide)
  obtain ⟨frame, hw, hd⟩ := writeMessage_decode sampleCodec sampleCodec_roundTrips
    ({ referenceTransport "maltcp://127.0.0.1:16002" with priorityFlag := false })
    (referenceTransport "maltcp://127.0.0.1:16003") rfl (by decide) 0 "127.0.0.1:16002"
    (testPublish [1, 2, 3]) hwf
    { source := by intro h; cases h
      destination := by intro h; cases h
      priority := by intro _; rfl
      timestamp := by intro h; cases h
      networkZone := by intro h; cases h
      sessionName := by intro h; cases h
      domain := by intro h; cases h
      authenticationId := by intro h; cases h }
  refine ⟨frame, ?_, hd, ?_⟩
  · rw [← hw]
    unfold TCPTransport.writeMessage
    rw [encode_priority_irrelevant sampleCodec _ (testPublish [1, 2, 3]) 5 rfl]
  · rw [hd]
    intro h
    have := congrArg (fun r => match r with | Res.ok m => m.Priority | _ => 0) h
    simp [testPublish] at this

/-- The optimized form of the two URIs of the publication of broker_test.go. -/
theorem optimizedURI_sample :
    optimizedURI "maltcp://127.0.0.1:16002/publisher" = "/publisher" ∧
      optimizedURI "maltcp://127.0.0.1:16003/broker" = "/broker" ∧
      optimizedURI "/publisher" = "/publisher" := by
  decide

/-- C1, counterexample. The optimized URI round trip of scenario S6: a sender in the
configuration of TCPTransport.init (the eight presence flags set) that optimizes its URIs
sends the well-formed PUBLISH message of broker_test.go, from the publisher at
127.0.0.1:16002 to the broker. The source URI field of the frame is `/publisher`; decode
puts `maltcp://`, the address of the peer and a slash before it (decoder.go line 139), and
the URI of the receiver and a slash before the destination field (line 157): the decoded
message carries `maltcp://127.0.0.1:16002//publisher` and
`maltcp://127.0.0.1:16003//broker`, and is not the message sent. -/
theorem decode_writeMessage_optimized_uri_counterexample :
    (testPublish [1, 2, 3]).WellFormed sampleCodec ∧
    ∃ frame, ({ referenceTransport "maltcp://127.0.0.1:16002" with
          optimizeURI := true }).writeMessage sampleCodec (testPublish [1, 2, 3]) = .ok frame ∧
      (frame.drop 23).take 11 = [10, 47, 112, 117, 98, 108, 105, 115, 104, 101, 114] ∧
      (referenceTransport "maltcp://127.0.0.1:16003").decode sampleCodec 0 frame
        "127.0.0.1:16002" =
          .ok { testPublish [1, 2, 3] with
                UriFrom := some "maltcp://127.0.0.1:16002//publisher"
                UriTo := some "maltcp://127.0.0.1:16003//broker" } ∧
      (referenceTransport "maltcp://127.0.0.1:16003").decode sampleCodec 0 frame
        "127.0.0.1:16002" ≠ .ok (testPublish [1, 2, 3]) :=
  ⟨testPublish_wellFormed [1, 2, 3] 0 (by decide), _, rfl, by decide, by decide, by decide⟩

/-! ## Lemmas on Go maps -/

theorem mapGet_eq_none_iff {K V : Type} [DecidableEq K] (m : List (K × V)) (k : K) :
    mapGet m k = none ↔ ∀ e ∈ m, e.1 ≠ k := by
  induction m with
  | nil => simp [mapGet]
  | cons e rest ih =>
    obtain ⟨k1, v⟩ := e
    by_cases h : k1 = k
    · simp [mapGet, h]
    · simp [mapGet, h, ih]

theorem mapDelete_of_absent {K V : Type} [DecidableEq K] (m : List (K × V)) (k : K)
    (h : mapGet m k = none) : mapDelete m k = m := by
  rw [mapGet_eq_none_iff] at h
  unfold mapDelete
  rw [List.filter_eq_self]
  intro e he
  simpa using h e he

theorem mapGet_mapDelete_self {K V : Type} [DecidableEq K] (m : List (K × V)) (k : K) :
    mapGet (mapDelete m k) k = none := by
  rw [mapGet_eq_none_iff]
  intro e he
  unfold mapDelete at he
  simpa using (List.mem_filter.mp he).2

theorem mapGet_mapDelete_of_ne {K V : Type} [DecidableEq K] (m : List (K × V)) (k k1 : K)
    (h : k1 ≠ k) : mapGet (mapDelete m k) k1 = mapGet m k1 := by
  induction m with
  | nil => rfl
  | cons e rest ih =>
    obtain ⟨k2, v⟩ := e
    unfold mapDelete at ih ⊢
    by_cases h2 : k2 = k
    · subst h2
      have h3 : ¬ k2 = k1 := fun h4 => h h4.symm
      rw [List.filter_cons_of_neg (by simp), ih]
      simp [mapGet, h3]
    · rw [List.filter_cons_of_pos (by simpa using h2)]
      by_cases h3 : k2 = k1
      · simp [mapGet, h3]
      · simp only [mapGet, if_neg h3, ih]

theorem mapGet_append {K V : Type} [DecidableEq K] (m1 m2 : List (K × V)) (k : K) :
    mapGet (m1 ++ m2) k = (mapGet m1 k).orElse (fun _ => mapGet m2 k) := by
  induction m1 with
  | nil => simp [mapGet]
  | cons e rest ih =>
    obtain ⟨k1, v⟩ := e
    by_cases h : k1 = k
    · simp [mapGet, h]
    · simp [mapGet, h, ih]

theorem mapGet_mapSet_self {K V : Type} [DecidableEq K] (m : List (K × V)) (k : K) (v : V) :
    mapGet (mapSet m k v) k = some v := by
  unfold mapSet
  rw [mapGet_append, mapGet_mapDelete_self]
  simp [mapGet]

theorem mapGet_mapSet_of_ne {K V : Type} [DecidableEq K] (m : List (K × V)) (k k1 : K) (v : V)
    (h : k1 ≠ k) : mapGet (mapSet m k v) k1 = mapGet m k1 := by
  unfold mapSet
  rw [mapGet_append, mapGet_mapDelete_of_ne m k k1 h]
  have h2 : ¬ k = k1 := fun h3 => h h3.symm
  cases mapGet m k1 <;> simp [mapGet, h2]

theorem mapSet_filter_key {K V : Type} [DecidableEq K] (m : List (K × V)) (k : K) (v : V) :
    (mapSet m k v).filter (fun e => decide (e.1 = k)) = [(k, v)] := by
  unfold mapSet mapDelete
  rw [List.filter_append, List.filter_filter]
  simp

theorem mapSet_filter_others {K V : Type} [DecidableEq K] (m : List (K × V)) (k : K) (v : V) :
    (mapSet m k v).filter (fun e => decide (e.1 ≠ k)) = m.filter (fun e => decide (e.1 ≠ k)) := by
  unfold mapSet mapDelete
  rw [List.filter_append, List.filter_filter]
  simp

theorem mapSet_mapSet {K V : Type} [DecidableEq K] (m : List (K × V)) (k : K) (v w : V) :
    mapSet (mapSet m k v) k w = mapSet m k w := by
  unfold mapSet mapDelete
  rw [List.filter_append, List.filter_filter]
  simp

theorem mapDelete_mapSet_of_absent {K V : Type} [DecidableEq K] (m : List (K × V)) (k : K)
    (v : V) (h : mapGet m k = none) : mapDelete (mapSet m k v) k = m := by
  unfold mapSet
  rw [mapDelete_of_absent m k h]
  unfold mapDelete
  rw [List.filter_append]
  have h2 := mapDelete_of_absent m k h
  unfold mapDelete at h2
  rw [h2]
  simp

/-! ## Registration and deregistration of subscribers -/

theorem register_ok (broker : BrokerImpl) (dec : Body → Except String (Subscription × Body))
    (msg : Message) (t : Nat) (U : URI) (s : Subscription) (rest : Body)
    (hu : msg.UriFrom = some U) (hd : dec msg.Body = .ok (s, rest)) :
    broker.register dec msg t =
      some (none, { broker with
        subs := mapSet broker.subs (subkey U s.SubscriptionId) (registeredSub msg s t) }) := by
  simp only [BrokerImpl.register, hd, hu, registeredSub]

theorem OnRegister_ok (broker : BrokerImpl) (dec : Body → Except String (Subscription × Body))
    (ackResult : Ack → Option String) (msg : Message) (t : Nat) (U : URI) (s : Subscription)
    (rest : Body) (hu : msg.UriFrom = some U) (hd : dec msg.Body = .ok (s, rest)) :
    broker.OnRegister dec ackResult msg t =
      { result := some (ackResult { transaction := t, kind := .register, isError := false }),
        acks := [{ transaction := t, kind := .register, isError := false }],
        broker := { broker with
          subs := mapSet broker.subs (subkey U s.SubscriptionId) (registeredSub msg s t) } } := by
  simp only [BrokerImpl.OnRegister, register_ok broker dec msg t U s rest hu hd]

theorem matchingReturns_of_mapSet (subs : List (String × BrokerSub)) (k : String)
    (sub : BrokerSub) (pub : Message) (uhlist : UpdateHeaderList)
    (ho : ∀ e ∈ subs, e.1 ≠ k → matchingReturns e.2 pub uhlist)
    (hn : matchingReturns sub pub uhlist) :
    ∀ e ∈ mapSet subs k sub, matchingReturns e.2 pub uhlist := by
  intro e he
  unfold mapSet mapDelete at he
  rcases List.mem_append.mp he with h | h
  · have h2 := List.mem_filter.mp h
    exact ho e h2.1 (by simpa using h2.2)
  · have h2 : e = (k, sub) := by simpa using h
    rw [h2]
    exact hn

/-- C11. Two successful REGISTERs from the same subscriber URI with the same subscription
identifier leave exactly one entry under their subkey, the subscription of the second
REGISTER (its entity requests, its scoping fields and its transaction); every entry of
another key is unchanged, as are the publishers and the update value handler, so that a
later publication is notified to the other subscriptions and to the second subscription,
never to the first. -/
theorem register_twice_replaces (broker : BrokerImpl)
    (dec : Body → Except String (Subscription × Body)) (ackResult : Ack → Option String)
    (m1 m2 : Message) (t1 t2 : Nat) (U : URI) (s1 s2 : Subscription) (rest1 rest2 : Body)
    (hu1 : m1.UriFrom = some U) (hu2 : m2.UriFrom = some U)
    (hd1 : dec m1.Body = .ok (s1, rest1)) (hd2 : dec m2.Body = .ok (s2, rest2))
    (hid : s1.SubscriptionId = s2.SubscriptionId) :
    (broker.OnRegister dec ackResult m1 t1).acks =
        [{ transaction := t1, kind := .register, isError := false }] ∧
      ((broker.OnRegister dec ackResult m1 t1).broker.OnRegister dec ackResult m2 t2).acks =
        [{ transaction := t2, kind := .register, isError := false }] ∧
      ((broker.OnRegister dec ackResult m1 t1).broker.OnRegister dec ackResult m2 t2).broker =
        { broker with
          subs := mapSet broker.subs (subkey U s2.SubscriptionId) (registeredSub m2 s2 t2) } ∧
      (((broker.OnRegister dec ackResult m1 t1).broker.OnRegister dec ackResult m2
          t2).broker.subs.filter (fun e => decide (e.1 = subkey U s2.SubscriptionId)) =
        [(subkey U s2.SubscriptionId, registeredSub m2 s2 t2)]) ∧
      (((broker.OnRegister dec ackResult m1 t1).broker.OnRegister dec ackResult m2
          t2).broker.subs.filter (fun e => decide (e.1 ≠ subkey U s2.SubscriptionId)) =
        broker.subs.filter (fun e => decide (e.1 ≠ subkey U s2.SubscriptionId))) ∧
      (∀ (enc : Encoding) (net : Notify → Option String) (pub : Message)
          (uhlist : UpdateHeaderList) (decoder rest : Body) (vals : BlobList),
        enc.DecodeUpdateHeaderList pub.Body = .ok (uhlist, decoder) →
        enc.DecodeBlobList decoder = .ok (vals, rest) →
        uhlist.length = vals.length →
        (∀ buf l, (enc.EncodeBlobList buf l).2 = none) →
        (∀ e ∈ broker.subs, e.1 ≠ subkey U s2.SubscriptionId →
          matchingReturns e.2 pub uhlist) →
        matchingReturns (registeredSub m2 s2 t2) pub uhlist →
        (((broker.OnRegister dec ackResult m1 t1).broker.OnRegister dec ackResult m2
            t2).broker.publish enc net pub).sent =
          (broker.subs.filter (fun e => decide (e.1 ≠ subkey U s2.SubscriptionId))).filterMap
              (fun e => expectedNotify enc e.2 pub uhlist vals) ++
            (expectedNotify enc (registeredSub m2 s2 t2) pub uhlist vals).toList) := by
  have h1 := OnRegister_ok broker dec ackResult m1 t1 U s1 rest1 hu1 hd1
  have h2 := OnRegister_ok (broker.OnRegister dec ackResult m1 t1).broker dec ackResult m2 t2 U
    s2 rest2 hu2 hd2
  have h3 : ((broker.OnRegister dec ackResult m1 t1).broker.OnRegister dec ackResult m2
      t2).broker = { broker with
        subs := mapSet broker.subs (subkey U s2.SubscriptionId) (registeredSub m2 s2 t2) } := by
    rw [h2, h1, hid]
    simp only [mapSet_mapSet]
  refine ⟨by rw [h1], by rw [h2], h3, ?_, ?_, ?_⟩
  · rw [h3]
    exact mapSet_filter_key _ _ _
  · rw [h3]
    exact mapSet_filter_others _ _ _
  · intro enc net pub uhlist decoder rest vals hh hv hlen henc ho hn
    rw [h3, publish_fanout _ enc net pub uhlist decoder rest vals hh hv hlen henc
      (matchingReturns_of_mapSet broker.subs _ _ pub uhlist ho hn)]
    show List.filterMap _ (mapSet _ _ _) = _
    unfold mapSet mapDelete
    rw [List.filterMap_append]
    congr 1

/-- Witness of `register_twice_replaces`: the subscriber of broker_test.go registers
"MySubscription" on key1, then again on key2, at a broker that holds the key1 subscription
of another consumer. -/
theorem register_twice_replaces_witness :
    ((sampleBroker [("other/MySubscription", key1Subscription.2)]).OnRegister
        sampleDecodeSubscription ackOk (testRegister [1]) 7).acks =
        [{ transaction := 7, kind := .register, isError := false }] ∧
      (((sampleBroker [("other/MySubscription", key1Subscription.2)]).OnRegister
        sampleDecodeSubscription ackOk (testRegister [1]) 7).broker.OnRegister
          sampleDecodeSubscription ackOk (testRegister [2]) 8).broker.subs =
        [("other/MySubscription", key1Subscription.2),
         (subkey "maltcp://127.0.0.1:16001/subscriber" "MySubscription",
          { testSubscriber [some (starRequest [some (mkKey "key2" 0 0 0)])] with
            transaction := 8 })] :=
  ⟨(register_twice_replaces (sampleBroker [("other/MySubscription", key1Subscription.2)])
      sampleDecodeSubscription ackOk (testRegister [1]) (testRegister [2]) 7 8
      "maltcp://127.0.0.1:16001/subscriber" _ _ [] [] rfl rfl rfl rfl rfl).1,
   by
    rw [(register_twice_replaces (sampleBroker [("other/MySubscription", key1Subscription.2)])
      sampleDecodeSubscription ackOk (testRegister [1]) (testRegister [2]) 7 8
      "maltcp://127.0.0.1:16001/subscriber" _ _ [] [] rfl rfl rfl rfl rfl).2.2.1]
    decide⟩

/-- Scenario S5 on the sample encoding: after the registration on key1 and the
registration on key2 under the same subscription identifier, a publication of key1 sends
no NOTIFY and a publication of key2 sends one, on the transaction of the second REGISTER. -/
theorem register_twice_scenario :
    ((((sampleBroker []).OnRegister sampleDecodeSubscription ackOk (testRegister [1])
        7).broker.OnRegister sampleDecodeSubscription ackOk (testRegister [2])
        8).broker.publish sampleEncoding netOk (testPublish [1, 1, 1, 10])).sent = [] ∧
      ((((sampleBroker []).OnRegister sampleDecodeSubscription ackOk (testRegister [1])
        7).broker.OnRegister sampleDecodeSubscription ackOk (testRegister [2])
        8).broker.publish sampleEncoding netOk (testPublish [1, 2, 1, 20])).sent =
        [{ transaction := 8, body := [14, 1, 2, 1, 20], isError := false }] := by
  constructor <;> decide

/-- C12. OnRegister makes an acknowledgement with the error flag set exactly when the
Subscription fails to decode from the body; the broker, its subscriber map included, is
then left as it was and that acknowledgement is the only one. When the source URI is
present exactly one acknowledgement is made, whatever the body. -/
theorem OnRegister_error_ack_iff_decode_fails (broker : BrokerImpl)
    (dec : Body → Except String (Subscription × Body)) (ackResult : Ack → Option String)
    (msg : Message) (t : Nat) :
    ((∃ a ∈ (broker.OnRegister dec ackResult msg t).acks, a.isError = true) ↔
        ∃ e, dec msg.Body = .error e) ∧
      ((∃ e, dec msg.Body = .error e) →
        (broker.OnRegister dec ackResult msg t).acks =
            [{ transaction := t, kind := .register, isError := true }] ∧
          (broker.OnRegister dec ackResult msg t).broker = broker ∧
          (broker.OnRegister dec ackResult msg t).broker.subs = broker.subs) ∧
      (msg.UriFrom ≠ none → ∃ flag, (broker.OnRegister dec ackResult msg t).acks =
        [{ transaction := t, kind := .register, isError := flag }]) := by
  cases hd : dec msg.Body with
  | error e =>
    have h : broker.OnRegister dec ackResult msg t =
        { result := some (ackResult { transaction := t, kind := .register, isError := true }),
          acks := [{ transaction := t, kind := .register, isError := true }],
          broker := broker } := by
      simp only [BrokerImpl.OnRegister, BrokerImpl.register, hd]
    rw [h]
    exact ⟨⟨fun _ => ⟨e, rfl⟩, fun _ => ⟨_, List.mem_singleton.mpr rfl, rfl⟩⟩,
      fun _ => ⟨rfl, rfl, rfl⟩, fun _ => ⟨true, rfl⟩⟩
  | ok v =>
    obtain ⟨s, rest⟩ := v
    cases hu : msg.UriFrom with
    | none =>
      have h : broker.OnRegister dec ackResult msg t =
          { result := none, acks := [], broker := broker } := by
        simp only [BrokerImpl.OnRegister, BrokerImpl.register, hd, hu]
      rw [h]
      refine ⟨⟨?_, ?_⟩, ?_, ?_⟩
      · rintro ⟨a, ha, _⟩
        simp at ha
      · rintro ⟨e, he⟩
        simp at he
      · rintro ⟨e, he⟩
        simp at he
      · intro hn
        exact absurd rfl hn
    | some U =>
      rw [OnRegister_ok broker dec ackResult msg t U s rest hu hd]
      refine ⟨⟨?_, ?_⟩, ?_, ?_⟩
      · rintro ⟨a, ha, hf⟩
        have h2 := List.mem_singleton.mp ha
        rw [h2] at hf
        simp at hf
      · rintro ⟨e, he⟩
        simp at he
      · rintro ⟨e, he⟩
        simp at he
      · intro _
        exact ⟨false, rfl⟩

/-- The loop of deregister over non-null identifiers keeps the entries of no listed
subkey. -/
theorem deregisterLoop_eq (U : URI) (ids : List Identifier) (subs : List (String × BrokerSub)) :
    deregisterLoop (some U) (ids.map some) subs =
      some (subs.filter (fun e => decide (e.1 ∉ ids.map (subkey U)))) := by
  induction ids generalizing subs with
  | nil => simp [deregisterLoop]
  | cons id rest ih =>
    simp only [List.map_cons, deregisterLoop, ih, mapDelete, List.filter_filter]
    congr 2
    funext e
    rw [Bool.and_comm]
    simp [List.mem_cons, not_or]

/-- C13. For a DEREGISTER from URI `U` whose body decodes to the non-null identifiers
`ids`, OnDeregister keeps exactly the entries whose key is the subkey of `U` and no listed
identifier: no entry is left under a listed subkey, every other key reads as before, the
rest of the broker is unchanged, and exactly one acknowledgement is made, the call
`AckDeregister(nil, true)` of the code, whether or not a listed identifier was
registered. -/
theorem OnDeregister_removes_listed (broker : BrokerImpl) (codec : LeafCodec)
    (ackResult : Ack → Option String) (msg : Message) (t : Nat) (U : URI)
    (ids : List Identifier) (rest : Body)
    (hu : msg.UriFrom = some U)
    (hd : DecodeIdentifierList codec msg.Body = .ok (ids.map some, rest)) :
    (broker.OnDeregister codec ackResult msg t).broker =
        { broker with
          subs := broker.subs.filter (fun e => decide (e.1 ∉ ids.map (subkey U))) } ∧
      (∀ id ∈ ids, mapGet (broker.OnDeregister codec ackResult msg t).broker.subs
        (subkey U id) = none) ∧
      (∀ k, k ∉ ids.map (subkey U) →
        mapGet (broker.OnDeregister codec ackResult msg t).broker.subs k =
          mapGet broker.subs k) ∧
      (broker.OnDeregister codec ackResult msg t).acks =
        [{ transaction := t, kind := .deregister, isError := true }] ∧
      (broker.OnDeregister codec ackResult msg t).result =
        some (ackResult { transaction := t, kind := .deregister, isError := true }) := by
  have h : broker.OnDeregister codec ackResult msg t =
      { result := some (ackResult { transaction := t, kind := .deregister, isError := true }),
        acks := [{ transaction := t, kind := .deregister, isError := true }],
        broker := { broker with
          subs := broker.subs.filter (fun e => decide (e.1 ∉ ids.map (subkey U))) } } := by
    simp only [BrokerImpl.OnDeregister, BrokerImpl.deregister, hd, hu, deregisterLoop_eq]
  rw [h]
  refine ⟨rfl, ?_, ?_, rfl, rfl⟩
  · intro id hid
    rw [mapGet_eq_none_iff]
    intro e he h2
    have h3 := (List.mem_filter.mp he).2
    simp only [decide_eq_true_eq] at h3
    exact h3 (h2 ▸ List.mem_map_of_mem _ hid)
  · intro k hk
    show mapGet (List.filter _ broker.subs) k = _
    induction broker.subs with
    | nil => rfl
    | cons e tl ih =>
      obtain ⟨k1, v⟩ := e
      by_cases h1 : k1 = k
      · subst h1
        rw [List.filter_cons_of_pos (by simpa using hk)]
        simp [mapGet]
      · by_cases h2 : k1 ∈ ids.map (subkey U)
        · rw [List.filter_cons_of_neg (by simpa using h2), ih]
          simp [mapGet, h1]
        · rw [List.filter_cons_of_pos (by simpa using h2)]
          simp only [mapGet, if_neg h1, ih]

/-- The body of the sample DEREGISTER decodes to the identifiers "X" and
"MySubscription". -/
theorem testDeregister_decodes :
    DecodeIdentifierList sampleCodec
        [0, 0, 0, 2, 1, 1, 88, 1, 14, 77, 121, 83, 117, 98, 115, 99, 114, 105, 112, 116, 105,
          111, 110] = .ok (["X", "MySubscription"].map some, []) := by
  rfl

/-- Witness of `OnDeregister_removes_listed`: the subscriber of broker_test.go cancels
"X", which is not registered, and "MySubscription"; the subscription of the other
consumer stays. -/
theorem OnDeregister_removes_listed_witness :
    ((sampleBroker [key1Subscription, ("other/MySubscription", key1Subscription.2)]).OnDeregister
        sampleCodec ackOk
        { testRegister [0, 0, 0, 2, 1, 1, 88, 1, 14, 77, 121, 83, 117, 98, 115, 99, 114, 105,
            112, 116, 105, 111, 110] with InteractionStage := 7 } 9).broker =
        sampleBroker [("other/MySubscription", key1Subscription.2)] ∧
      ((sampleBroker [key1Subscription, ("other/MySubscription", key1Subscription.2)]).OnDeregister
        sampleCodec ackOk
        { testRegister [0, 0, 0, 2, 1, 1, 88, 1, 14, 77, 121, 83, 117, 98, 115, 99, 114, 105,
            112, 116, 105, 111, 110] with InteractionStage := 7 } 9).acks =
        [{ transaction := 9, kind := .deregister, isError := true }] :=
  ⟨by
    rw [(OnDeregister_removes_listed
      (sampleBroker [key1Subscription, ("other/MySubscription", key1Subscription.2)])
      sampleCodec ackOk
      { testRegister [0, 0, 0, 2, 1, 1, 88, 1, 14, 77, 121, 83, 117, 98, 115, 99, 114, 105,
          112, 116, 105, 111, 110] with InteractionStage := 7 } 9
      "maltcp://127.0.0.1:16001/subscriber" ["X", "MySubscription"] [] rfl
      testDeregister_decodes).1]
    decide,
   (OnDeregister_removes_listed
      (sampleBroker [key1Subscription, ("other/MySubscription", key1Subscription.2)])
      sampleCodec ackOk
      { testRegister [0, 0, 0, 2, 1, 1, 88, 1, 14, 77, 121, 83, 117, 98, 115, 99, 114, 105,
          112, 116, 105, 111, 110] with InteractionStage := 7 } 9
      "maltcp://127.0.0.1:16001/subscriber" ["X", "MySubscription"] [] rfl
      testDeregister_decodes).2.2.2.1⟩

/-- C14. The subscription key is not unique per (subscriber URI, subscription
identifier): the consumer "maltcp://127.0.0.1:16001/subscriber" with the identifier "a/b"
and the consumer "maltcp://127.0.0.1:16001/subscriber/a" with the identifier "b" have the
same subkey, so the REGISTER of the second replaces the subscription of the first in the
subscriber map. -/
theorem subkey_collision :
    subkey "maltcp://127.0.0.1:16001/subscriber" "a/b" =
        subkey "maltcp://127.0.0.1:16001/subscriber/a" "b" ∧
      ("maltcp://127.0.0.1:16001/subscriber", "a/b") ≠
        (("maltcp://127.0.0.1:16001/subscriber/a", "b") : String × String) ∧
      (((sampleBroker []).OnRegister
          (fun b => .ok ({ SubscriptionId := "a/b", Entities := [] }, b)) ackOk
          { testRegister [] with UriFrom := some "maltcp://127.0.0.1:16001/subscriber" }
          1).broker.OnRegister
          (fun b => .ok ({ SubscriptionId := "b", Entities := [] }, b)) ackOk
          { testRegister [] with UriFrom := some "maltcp://127.0.0.1:16001/subscriber/a" }
          2).broker.subs.map (fun e => (e.1, e.2.subid, e.2.transaction)) =
        [("maltcp://127.0.0.1:16001/subscriber/a/b", "b", 2)] := by
  refine ⟨by decide, by decide, by decide⟩

/-- For one consumer URI, different subscription identifiers have different subkeys. -/
theorem subkey_injective_same_uri (u id1 id2 : String) (h : subkey u id1 = subkey u id2) :
    id1 = id2 := by
  unfold subkey at h
  have h2 := congrArg String.data h
  simp only [String.data_append] at h2
  have h3 := List.append_cancel_left h2
  exact String.ext h3

/-- Among subscription identifiers without the separator "/", equal subkeys come from
the same URI and the same identifier. -/
theorem subkey_injective_no_slash (u1 u2 id1 id2 : String)
    (h1 : '/' ∉ id1.data) (h2 : '/' ∉ id2.data) (h : subkey u1 id1 = subkey u2 id2) :
    u1 = u2 ∧ id1 = id2 := by
  unfold subkey at h
  have h3 := congrArg String.data h
  simp only [String.data_append] at h3
  rw [List.append_assoc, List.append_assoc] at h3
  have h5 := congrArg List.reverse h3
  simp only [List.reverse_append, List.reverse_cons, List.reverse_nil, List.nil_append,
    List.append_assoc, List.singleton_append] at h5
  have key : ∀ (a b c d : List Char), '/' ∉ a → '/' ∉ b →
      a ++ '/' :: c = b ++ '/' :: d → a = b ∧ c = d := by
    intro a
    induction a with
    | nil =>
      intro b c d _ hb hab
      cases b with
      | nil => exact ⟨rfl, by simpa using hab⟩
      | cons x b1 =>
        simp only [List.nil_append, List.cons_append, List.cons.injEq] at hab
        exact absurd (hab.1 ▸ List.mem_cons_self _ _) hb
    | cons x a1 ih =>
      intro b c d ha hb hab
      cases b with
      | nil =>
        simp only [List.nil_append, List.cons_append, List.cons.injEq] at hab
        exact absurd (hab.1 ▸ List.mem_cons_self _ _) ha
      | cons y b1 =>
        simp only [List.cons_append, List.cons.injEq] at hab
        have h6 := ih b1 c d (fun hm => ha (List.mem_cons_of_mem _ hm))
          (fun hm => hb (List.mem_cons_of_mem _ hm)) hab.2
        exact ⟨by rw [hab.1, h6.1], h6.2⟩
  have h6 := key id1.data.reverse id2.data.reverse u1.data.reverse u2.data.reverse
    (by simpa using h1) (by simpa using h2) h5
  exact ⟨String.ext (List.reverse_injective h6.2), String.ext (List.reverse_injective h6.1)⟩

/-! ## Service key -/

theorem shiftLeft_or (x y n : Nat) : (x ||| y) <<< n = x <<< n ||| y <<< n := by
  apply Nat.eq_of_testBit_eq
  intro i
  simp only [Nat.testBit_shiftLeft, Nat.testBit_or, Bool.and_or_distrib_left]

theorem shiftLeft_lt (x n m : Nat) (h : x < 2 ^ m) : x <<< n < 2 ^ (m + n) := by
  rw [Nat.shiftLeft_eq, pow_add]
  exact Nat.mul_lt_mul_of_pos_right h (Nat.two_pow_pos n)

theorem shiftLeft_or_eq_add (x y n : Nat) (hy : y < 2 ^ n) : x <<< n ||| y = 2 ^ n * x + y := by
  rw [Nat.shiftLeft_eq, Nat.mul_comm]
  exact (Nat.mul_add_lt_is_or hy x).symm

/-- Without the reductions modulo 2^64, which change nothing on operands of 16, 8, 16 and
16 bits, key is the chain of shifts and ors of the source. -/
theorem key_eq_chain (area areaVersion service operation : Nat)
    (ha : area < 2 ^ 16) (hv : areaVersion < 2 ^ 8) (hs : service < 2 ^ 16)
    (ho : operation < 2 ^ 16) :
    key area areaVersion service operation =
      ((area <<< 8 ||| areaVersion) <<< 16 ||| service) <<< 16 ||| operation := by
  have h1 : area <<< 8 < 2 ^ 24 := shiftLeft_lt area 8 16 ha
  have h2 : area <<< 8 ||| areaVersion < 2 ^ 24 :=
    Nat.or_lt_two_pow h1 (lt_of_lt_of_le hv (by norm_num))
  have h3 : (area <<< 8 ||| areaVersion) <<< 16 < 2 ^ 40 := shiftLeft_lt _ 16 24 h2
  have h4 : (area <<< 8 ||| areaVersion) <<< 16 ||| service < 2 ^ 40 :=
    Nat.or_lt_two_pow h3 (lt_of_lt_of_le hs (by norm_num))
  have h5 : ((area <<< 8 ||| areaVersion) <<< 16 ||| service) <<< 16 < 2 ^ 56 :=
    shiftLeft_lt _ 16 40 h4
  have b : ∀ {x n : Nat}, x < 2 ^ n → n ≤ 64 → x % 2 ^ 64 = x := fun hx hn =>
    Nat.mod_eq_of_lt (lt_of_lt_of_le hx (Nat.pow_le_pow_right (by decide) hn))
  unfold key
  simp only [b ha (by decide), b hv (by decide), b hs (by decide), b ho (by decide),
    b h1 (by decide), b h3 (by decide), b h5 (by decide)]

/-- Arithmetic value of key on operands within their widths. -/
theorem key_eq_sum (area areaVersion service operation : Nat)
    (ha : area < 2 ^ 16) (hv : areaVersion < 2 ^ 8) (hs : service < 2 ^ 16)
    (ho : operation < 2 ^ 16) :
    key area areaVersion service operation =
      area * 2 ^ 40 + areaVersion * 2 ^ 32 + service * 2 ^ 16 + operation := by
  rw [key_eq_chain area areaVersion service operation ha hv hs ho]
  rw [shiftLeft_or_eq_add area areaVersion 8 hv, shiftLeft_or_eq_add _ service 16 hs,
    shiftLeft_or_eq_add _ operation 16 ho]
  ring

/-- The service key is injective on operands within their widths. -/
theorem key_injective (a1 v1 s1 o1 a2 v2 s2 o2 : Nat)
    (ha1 : a1 < 2 ^ 16) (hv1 : v1 < 2 ^ 8) (hs1 : s1 < 2 ^ 16) (ho1 : o1 < 2 ^ 16)
    (ha2 : a2 < 2 ^ 16) (hv2 : v2 < 2 ^ 8) (hs2 : s2 < 2 ^ 16) (ho2 : o2 < 2 ^ 16)
    (h : key a1 v1 s1 o1 = key a2 v2 s2 o2) : a1 = a2 ∧ v1 = v2 ∧ s1 = s2 ∧ o1 = o2 := by
  rw [key_eq_sum a1 v1 s1 o1 ha1 hv1 hs1 ho1, key_eq_sum a2 v2 s2 o2 ha2 hv2 hs2 ho2] at h
  norm_num at ha1 hv1 hs1 ho1 ha2 hv2 hs2 ho2 h
  omega

/-- C18. For every area and service and operation of 16 bits and every version of 8
bits, key is `(area << 40) | (version << 32) | (service << 16) | operation`, a value that
fits 64 bits (it is below 2^56), so that no shift of the code loses a bit. -/
theorem key_layout (area areaVersion service operation : Nat)
    (ha : area < 2 ^ 16) (hv : areaVersion < 2 ^ 8) (hs : service < 2 ^ 16)
    (ho : operation < 2 ^ 16) :
    key area areaVersion service operation =
        (area <<< 40) ||| (areaVersion <<< 32) ||| (service <<< 16) ||| operation ∧
      key area areaVersion service operation =
        ((area <<< 40) ||| (areaVersion <<< 32) ||| (service <<< 16) ||| operation) % 2 ^ 64 ∧
      key area areaVersion service operation < 2 ^ 64 := by
  have h1 : key area areaVersion service operation =
      (area <<< 40) ||| (areaVersion <<< 32) ||| (service <<< 16) ||| operation := by
    rw [key_eq_chain area areaVersion service operation ha hv hs ho]
    simp only [shiftLeft_or, ← Nat.shiftLeft_add]
  have h2 : key area areaVersion service operation < 2 ^ 64 := by
    rw [key_eq_sum area areaVersion service operation ha hv hs ho]
    norm_num at ha hv hs ho ⊢
    omega
  exact ⟨h1, by rw [← h1, Nat.mod_eq_of_lt h2], h2⟩

/-- Witness of `key_layout`: the operation (200, 1, 1, 1) of broker_test.go. -/
theorem key_layout_witness :
    key 200 1 1 1 = (200 <<< 40) ||| (1 <<< 32) ||| (1 <<< 16) ||| 1 ∧
      key 200 1 1 1 = ((200 <<< 40) ||| (1 <<< 32) ||| (1 <<< 16) ||| 1) % 2 ^ 64 ∧
      key 200 1 1 1 < 2 ^ 64 :=
  key_layout 200 1 1 1 (by decide) (by decide) (by decide) (by decide)

/-! ## Client context tables -/

/-- C17. getProviderHandler returns a handler exactly when a descriptor is stored under
the key of (area, version, service, operation) with the interaction type asked for, and
the handler returned is the one of that descriptor; it fails with "Bad handler type" when
the descriptor stored under the key has another type, and with the different error
"MAL service not registered" when nothing is stored under the key. -/
theorem getProviderHandler_cases (cctx : ClientContext)
    (stype area areaVersion service operation : Nat) :
    (∀ h, cctx.getProviderHandler stype area areaVersion service operation = .ok h ↔
        ∃ desc, tableGet cctx.handlers (key area areaVersion service operation) = some desc ∧
          desc.stype = stype ∧ desc.handler = h) ∧
      (cctx.getProviderHandler stype area areaVersion service operation =
          .error "Bad handler type" ↔
        ∃ desc, tableGet cctx.handlers (key area areaVersion service operation) = some desc ∧
          desc.stype ≠ stype) ∧
      (cctx.getProviderHandler stype area areaVersion service operation =
          .error "MAL service not registered" ↔
        tableGet cctx.handlers (key area areaVersion service operation) = none) ∧
      ("Bad handler type" ≠ "MAL service not registered") := by
  cases hg : tableGet cctx.handlers (key area areaVersion service operation) with
  | none => simp [ClientContext.getProviderHandler, hg]
  | some desc =>
    by_cases ht : desc.stype = stype
    · simp [ClientContext.getProviderHandler, hg, ht]
    · simp [ClientContext.getProviderHandler, hg, ht]

theorem registerProviderHandler_present (cctx : ClientContext)
    (hdltype area areaVersion service operation : Nat) (handler : Option ProviderHandler)
    (old : pDesc)
    (hp : tableGet cctx.handlers (key area areaVersion service operation) = some old) :
    cctx.registerProviderHandler hdltype area areaVersion service operation handler =
      some (some "MAL handler already registered", cctx) := by
  simp [ClientContext.registerProviderHandler, hp]

theorem registerProviderHandler_absent (cctx : ClientContext)
    (hdltype area areaVersion service operation : Nat) (handler : Option ProviderHandler)
    (m : List (Nat × pDesc)) (hm : cctx.handlers = some m)
    (ha : tableGet cctx.handlers (key area areaVersion service operation) = none) :
    cctx.registerProviderHandler hdltype area areaVersion service operation handler =
      some (none, { cctx with
        handlers := some (mapSet m (key area areaVersion service operation)
          { stype := hdltype, area := area, areaVersion := areaVersion, service := service,
            operation := operation, handler := handler }) }) := by
  rw [hm] at ha
  unfold ClientContext.registerProviderHandler
  simp only [hm, ha, ne_eq, not_true_eq_false, if_false]

theorem registerProviderHandler_nil (cctx : ClientContext)
    (hdltype area areaVersion service operation : Nat) (handler : Option ProviderHandler)
    (hm : cctx.handlers = none) :
    cctx.registerProviderHandler hdltype area areaVersion service operation handler = none := by
  unfold ClientContext.registerProviderHandler
  simp [hm, tableGet]

/-- After a successful registerProviderHandler, getProviderHandler with the same
interaction type and operands returns the handler registered. -/
theorem getProviderHandler_registered (cctx cctx1 : ClientContext)
    (stype area areaVersion service operation : Nat) (handler : Option ProviderHandler)
    (h : cctx.registerProviderHandler stype area areaVersion service operation handler =
      some (none, cctx1)) :
    cctx1.getProviderHandler stype area areaVersion service operation = .ok handler := by
  cases hg : tableGet cctx.handlers (key area areaVersion service operation) with
  | some old =>
    rw [registerProviderHandler_present cctx _ _ _ _ _ handler old hg] at h
    simp at h
  | none =>
    cases hm : cctx.handlers with
    | none =>
      rw [registerProviderHandler_nil cctx _ _ _ _ _ handler hm] at h
      simp at h
    | some m =>
      rw [registerProviderHandler_absent cctx _ _ _ _ _ handler m hm hg] at h
      simp only [Option.some.injEq, Prod.mk.injEq, true_and] at h
      subst h
      simp [ClientContext.getProviderHandler, tableGet, mapGet_mapSet_self]

theorem deregisterProviderHandler_absent (cctx : ClientContext)
    (hdltype area areaVersion service operation : Nat)
    (ha : tableGet cctx.handlers (key area areaVersion service operation) = none) :
    cctx.deregisterProviderHandler hdltype area areaVersion service operation =
      (some "No interface registered for this operation", cctx) := by
  simp [ClientContext.deregisterProviderHandler, ha]

theorem deregisterProviderHandler_present (cctx : ClientContext)
    (hdltype area areaVersion service operation : Nat) (old : pDesc)
    (hp : tableGet cctx.handlers (key area areaVersion service operation) = some old) :
    cctx.deregisterProviderHandler hdltype area areaVersion service operation =
      (none, { cctx with
        handlers := tableDelete cctx.handlers (key area areaVersion service operation) }) := by
  simp [ClientContext.deregisterProviderHandler, hp]

theorem tableGet_tableDelete_self {K V : Type} [DecidableEq K] (t : Option (List (K × V)))
    (k : K) : tableGet (tableDelete t k) k = none := by
  cases t with
  | none => rfl
  | some m => exact mapGet_mapDelete_self m k

theorem tableGet_tableDelete_of_ne {K V : Type} [DecidableEq K] (t : Option (List (K × V)))
    (k k1 : K) (h : k1 ≠ k) : tableGet (tableDelete t k) k1 = tableGet t k1 := by
  cases t with
  | none => rfl
  | some m => exact mapGet_mapDelete_of_ne m k k1 h

/-- What a successful registerProviderHandler makes of the client context. -/
theorem registerProviderHandler_ok (cctx c1 : ClientContext)
    (hdltype area areaVersion service operation : Nat) (handler : Option ProviderHandler)
    (h : cctx.registerProviderHandler hdltype area areaVersion service operation handler =
      some (none, c1)) :
    ∃ m, cctx.handlers = some m ∧
      mapGet m (key area areaVersion service operation) = none ∧
      c1 = { cctx with
        handlers := some (mapSet m (key area areaVersion service operation)
          { stype := hdltype, area := area, areaVersion := areaVersion, service := service,
            operation := operation, handler := handler }) } := by
  cases hg : tableGet cctx.handlers (key area areaVersion service operation) with
  | some old =>
    rw [registerProviderHandler_present cctx _ _ _ _ _ handler old hg] at h
    simp at h
  | none =>
    cases hm : cctx.handlers with
    | none =>
      rw [registerProviderHandler_nil cctx _ _ _ _ _ handler hm] at h
      simp at h
    | some m =>
      rw [registerProviderHandler_absent cctx _ _ _ _ _ handler m hm hg] at h
      simp only [Option.some.injEq, Prod.mk.injEq, true_and] at h
      rw [hm] at hg
      exact ⟨m, rfl, hg, h.symm⟩

/-- The errors of registerProviderHandler and of deregisterProviderHandler, and what a
successful call makes of the table: registerProviderHandler returns an error exactly when
a handler is registered under the key, and the client context is then unchanged; a
successful registration changes no other key; deregisterProviderHandler returns an error
exactly when none is registered under the key, and otherwise removes that entry alone; a
successful registration followed by a deregistration restores the client context. -/
theorem handlerTable_errors_and_effects (cctx : ClientContext)
    (hdltype hdltype2 area areaVersion service operation : Nat)
    (handler : Option ProviderHandler) :
    ((∃ e c, cctx.registerProviderHandler hdltype area areaVersion service operation handler =
          some (some e, c)) ↔
        tableGet cctx.handlers (key area areaVersion service operation) ≠ none) ∧
      (tableGet cctx.handlers (key area areaVersion service operation) ≠ none →
        cctx.registerProviderHandler hdltype area areaVersion service operation handler =
          some (some "MAL handler already registered", cctx)) ∧
      (∀ c1, cctx.registerProviderHandler hdltype area areaVersion service operation handler =
          some (none, c1) →
        tableGet c1.handlers (key area areaVersion service operation) =
            some { stype := hdltype, area := area, areaVersion := areaVersion,
                   service := service, operation := operation, handler := handler } ∧
          (∀ k, k ≠ key area areaVersion service operation →
            tableGet c1.handlers k = tableGet cctx.handlers k) ∧
          (∀ a v s o, a < 2 ^ 16 → v < 2 ^ 8 → s < 2 ^ 16 → o < 2 ^ 16 →
            area < 2 ^ 16 → areaVersion < 2 ^ 8 → service < 2 ^ 16 → operation < 2 ^ 16 →
            (a, v, s, o) ≠ (area, areaVersion, service, operation) →
            tableGet c1.handlers (key a v s o) = tableGet cctx.handlers (key a v s o)) ∧
          c1.deregisterProviderHandler hdltype2 area areaVersion service operation =
            (none, cctx)) ∧
      ((cctx.deregisterProviderHandler hdltype area areaVersion service operation).1 ≠ none ↔
        tableGet cctx.handlers (key area areaVersion service operation) = none) ∧
      (tableGet cctx.handlers (key area areaVersion service operation) = none →
        cctx.deregisterProviderHandler hdltype area areaVersion service operation =
          (some "No interface registered for this operation", cctx)) ∧
      (tableGet cctx.handlers (key area areaVersion service operation) ≠ none →
        (cctx.deregisterProviderHandler hdltype area areaVersion service operation).2 =
            { cctx with
              handlers := tableDelete cctx.handlers (key area areaVersion service operation) } ∧
          tableGet (cctx.deregisterProviderHandler hdltype area areaVersion service
            operation).2.handlers (key area areaVersion service operation) = none ∧
          ∀ k, k ≠ key area areaVersion service operation →
            tableGet (cctx.deregisterProviderHandler hdltype area areaVersion service
              operation).2.handlers k = tableGet cctx.handlers k) := by
  cases hg : tableGet cctx.handlers (key area areaVersion service operation) with
  | some old =>
    rw [registerProviderHandler_present cctx _ _ _ _ _ handler old hg,
      deregisterProviderHandler_present cctx _ _ _ _ _ old hg]
    refine ⟨⟨fun _ => by simp, fun _ => ⟨_, _, rfl⟩⟩, fun _ => rfl, ?_, by simp, by simp, ?_⟩
    · intro c1 h
      simp at h
    · intro _
      exact ⟨rfl, tableGet_tableDelete_self _ _, fun k hk => tableGet_tableDelete_of_ne _ _ k hk⟩
  | none =>
    rw [deregisterProviderHandler_absent cctx _ _ _ _ _ hg]
    refine ⟨⟨?_, fun h => absurd rfl h⟩, fun h => absurd rfl h, ?_, by simp, fun _ => rfl,
      fun h => absurd rfl h⟩
    · rintro ⟨e, c, h⟩
      cases hm : cctx.handlers with
      | none =>
        rw [registerProviderHandler_nil cctx _ _ _ _ _ handler hm] at h
        simp at h
      | some m =>
        rw [registerProviderHandler_absent cctx _ _ _ _ _ handler m hm hg] at h
        simp at h
    · intro c1 h
      obtain ⟨m, hm, hab, hc⟩ := registerProviderHandler_ok cctx c1 _ _ _ _ _ handler h
      obtain ⟨uri, ops, hdl, tx, conc⟩ := cctx
      simp only at hm
      subst hm
      subst hc
      have hget : ∀ k, k ≠ key area areaVersion service operation →
          mapGet (mapSet m (key area areaVersion service operation)
            ({ stype := hdltype, area := area, areaVersion := areaVersion,
               service := service, operation := operation, handler := handler } : pDesc)) k =
            mapGet m k := fun k hk => mapGet_mapSet_of_ne m _ k _ hk
      refine ⟨mapGet_mapSet_self m _ _, hget, ?_, ?_⟩
      · intro a v s o ha hv hs ho ha2 hv2 hs2 ho2 hne
        apply hget
        intro hk
        have h4 := key_injective a v s o area areaVersion service operation ha hv hs ho ha2
          hv2 hs2 ho2 hk
        exact hne (by rw [h4.1, h4.2.1, h4.2.2.1, h4.2.2.2])
      · have hp : tableGet (ClientContext.mk uri ops
            (some (mapSet m (key area areaVersion service operation)
              (pDesc.mk hdltype area areaVersion service operation handler))) tx conc).handlers
            (key area areaVersion service operation) =
              some (pDesc.mk hdltype area areaVersion service operation handler) :=
          mapGet_mapSet_self m _ _
        rw [deregisterProviderHandler_present _ hdltype2 _ _ _ _ _ hp]
        simp only [tableDelete, mapDelete_mapSet_of_absent m _ _ hab]

theorem registerOp_present (cctx : ClientContext) (tid : Nat)
    (handler : Option OperationHandler) (old : OperationHandler)
    (hp : (tableGet cctx.operations tid).join = some old) :
    cctx.registerOp tid handler =
      some (some "Handler already registered for this transaction", cctx) := by
  show (if (tableGet cctx.operations tid).join ≠ none then _ else _) = _
  rw [if_pos (by rw [hp]; simp)]

theorem registerOp_absent (cctx : ClientContext) (tid : Nat)
    (handler : Option OperationHandler) (m : List (Nat × Option OperationHandler))
    (hm : cctx.operations = some m) (ha : (tableGet cctx.operations tid).join = none) :
    cctx.registerOp tid handler =
      some (none, { cctx with operations := some (mapSet m tid handler) }) := by
  rw [hm] at ha
  unfold ClientContext.registerOp
  simp only [hm, ha, ne_eq, not_true_eq_false, if_false]

theorem registerOp_nil (cctx : ClientContext) (tid : Nat) (handler : Option OperationHandler)
    (hm : cctx.operations = none) : cctx.registerOp tid handler = none := by
  unfold ClientContext.registerOp
  simp [hm, tableGet]

theorem deregisterOp_absent (cctx : ClientContext) (tid : Nat)
    (ha : (tableGet cctx.operations tid).join = none) :
    cctx.deregisterOp tid = (some "No handler registered for this transaction", cctx) := by
  show (if (tableGet cctx.operations tid).join = none then _ else _) = _
  rw [if_pos ha]

theorem deregisterOp_present (cctx : ClientContext) (tid : Nat) (old : OperationHandler)
    (hp : (tableGet cctx.operations tid).join = some old) :
    cctx.deregisterOp tid =
      (none, { cctx with operations := tableDelete cctx.operations tid }) := by
  show (if (tableGet cctx.operations tid).join = none then _ else _) = _
  rw [if_neg (by rw [hp]; simp)]

/-- The errors of registerOp and of deregisterOp, and what a successful call makes of the
table: registerOp returns an error exactly when an operation is registered under `tid`,
and the client context is then unchanged; when it succeeds, the operation given is the one
registered under `tid` and every other identifier reads as before; deregisterOp returns an
error exactly when no operation is registered under `tid`, and otherwise deletes the entry
of `tid` and no other. -/
theorem opTable_errors_and_effects (cctx : ClientContext) (tid : Nat) (h : OperationHandler) :
    ((∃ e c, cctx.registerOp tid (some h) = some (some e, c)) ↔
        (tableGet cctx.operations tid).join ≠ none) ∧
      ((tableGet cctx.operations tid).join ≠ none →
        cctx.registerOp tid (some h) =
          some (some "Handler already registered for this transaction", cctx)) ∧
      (∀ c1, cctx.registerOp tid (some h) = some (none, c1) →
        (tableGet c1.operations tid).join = some h ∧
          (∀ tid2, tid2 ≠ tid → tableGet c1.operations tid2 = tableGet cctx.operations tid2) ∧
          c1.handlers = cctx.handlers) ∧
      ((cctx.deregisterOp tid).1 ≠ none ↔ (tableGet cctx.operations tid).join = none) ∧
      ((tableGet cctx.operations tid).join = none →
        cctx.deregisterOp tid =
          (some "No handler registered for this transaction", cctx)) ∧
      ((tableGet cctx.operations tid).join ≠ none →
        (cctx.deregisterOp tid).2 =
            { cctx with operations := tableDelete cctx.operations tid } ∧
          tableGet (cctx.deregisterOp tid).2.operations tid = none ∧
          ∀ tid2, tid2 ≠ tid →
            tableGet (cctx.deregisterOp tid).2.operations tid2 =
              tableGet cctx.operations tid2) := by
  cases hg : (tableGet cctx.operations tid).join with
  | some old =>
    rw [registerOp_present cctx tid (some h) old hg, deregisterOp_present cctx tid old hg]
    refine ⟨⟨fun _ => by simp, fun _ => ⟨_, _, rfl⟩⟩, fun _ => rfl, ?_, by simp, by simp, ?_⟩
    · intro c1 h1
      simp at h1
    · intro _
      exact ⟨rfl, tableGet_tableDelete_self _ _, fun k hk => tableGet_tableDelete_of_ne _ _ k hk⟩
  | none =>
    rw [deregisterOp_absent cctx tid hg]
    refine ⟨⟨?_, fun h1 => absurd rfl h1⟩, fun h1 => absurd rfl h1, ?_, by simp, fun _ => rfl,
      fun h1 => absurd rfl h1⟩
    · rintro ⟨e, c, h1⟩
      cases hm : cctx.operations with
      | none =>
        rw [registerOp_nil cctx tid (some h) hm] at h1
        simp at h1
      | some m =>
        rw [registerOp_absent cctx tid (some h) m hm hg] at h1
        simp at h1
    · intro c1 h1
      cases hm : cctx.operations with
      | none =>
        rw [registerOp_nil cctx tid (some h) hm] at h1
        simp at h1
      | some m =>
        rw [registerOp_absent cctx tid (some h) m hm hg] at h1
        simp only [Option.some.injEq, Prod.mk.injEq, true_and] at h1
        subst h1
        refine ⟨?_, fun tid2 h2 => mapGet_mapSet_of_ne m tid tid2 _ h2, rfl⟩
        show (mapGet (mapSet m tid (some h)) tid).join = some h
        rw [mapGet_mapSet_self]
        rfl

/-! ## Registration on a free key -/

theorem registerProviderHandler_succeeds_iff (cctx : ClientContext)
    (hdltype area areaVersion service operation : Nat) (handler : Option ProviderHandler) :
    (∃ c1, cctx.registerProviderHandler hdltype area areaVersion service operation handler =
        some (none, c1)) ↔
      cctx.handlers ≠ none ∧
        tableGet cctx.handlers (key area areaVersion service operation) = none := by
  constructor
  · rintro ⟨c1, h⟩
    obtain ⟨m, hm, hab, _⟩ := registerProviderHandler_ok cctx c1 _ _ _ _ _ handler h
    exact ⟨by rw [hm]; simp, by rw [hm]; exact hab⟩
  · rintro ⟨hn, ha⟩
    cases hm : cctx.handlers with
    | none => exact absurd hm hn
    | some m => exact ⟨_, registerProviderHandler_absent cctx _ _ _ _ _ handler m hm ha⟩

/-- C19. The provider handler table is a partial map on the service key. On a table that
is not nil, which is how NewClientContext makes it, registerProviderHandler succeeds when
no handler is registered under the key of (area, version, service, operation): it returns
nil and the table holds the new descriptor under the key; it succeeds in no other case. It
returns an error exactly when a handler is registered under the key, and the client
context, the earlier handler included, is then unchanged; a successful registration
changes no other key, and the key of another operation within the field widths is another
key. deregisterProviderHandler returns an error exactly when none is registered under the
key, and the client context is then unchanged; otherwise it removes that entry alone. A
successful registration followed by a deregistration of the same operation, whatever the
interaction type given, restores the client context. -/
theorem providerHandler_table (cctx : ClientContext)
    (hdltype hdltype2 area areaVersion service operation : Nat)
    (handler : Option ProviderHandler) :
    (∀ m, cctx.handlers = some m →
        tableGet cctx.handlers (key area areaVersion service operation) = none →
        cctx.registerProviderHandler hdltype area areaVersion service operation handler =
          some (none, { cctx with
            handlers := some (mapSet m (key area areaVersion service operation)
              { stype := hdltype, area := area, areaVersion := areaVersion,
                service := service, operation := operation, handler := handler }) })) ∧
      ((∃ c1, cctx.registerProviderHandler hdltype area areaVersion service operation handler =
          some (none, c1)) ↔
        cctx.handlers ≠ none ∧
          tableGet cctx.handlers (key area areaVersion service operation) = none) ∧
      ((∃ e c, cctx.registerProviderHandler hdltype area areaVersion service operation handler =
          some (some e, c)) ↔
        tableGet cctx.handlers (key area areaVersion service operation) ≠ none) ∧
      (tableGet cctx.handlers (key area areaVersion service operation) ≠ none →
        cctx.registerProviderHandler hdltype area areaVersion service operation handler =
          some (some "MAL handler already registered", cctx)) ∧
      (∀ c1, cctx.registerProviderHandler hdltype area areaVersion service operation handler =
          some (none, c1) →
        tableGet c1.handlers (key area areaVersion service operation) =
            some { stype := hdltype, area := area, areaVersion := areaVersion,
                   service := service, operation := operation, handler := handler } ∧
          (∀ k, k ≠ key area areaVersion service operation →
            tableGet c1.handlers k = tableGet cctx.handlers k) ∧
          (∀ a v s o, a < 2 ^ 16 → v < 2 ^ 8 → s < 2 ^ 16 → o < 2 ^ 16 →
            area < 2 ^ 16 → areaVersion < 2 ^ 8 → service < 2 ^ 16 → operation < 2 ^ 16 →
            (a, v, s, o) ≠ (area, areaVersion, service, operation) →
            tableGet c1.handlers (key a v s o) = tableGet cctx.handlers (key a v s o)) ∧
          c1.deregisterProviderHandler hdltype2 area areaVersion service operation =
            (none, cctx)) ∧
      ((cctx.deregisterProviderHandler hdltype area areaVersion service operation).1 ≠ none ↔
        tableGet cctx.handlers (key area areaVersion service operation) = none) ∧
      (tableGet cctx.handlers (key area areaVersion service operation) = none →
        cctx.deregisterProviderHandler hdltype area areaVersion service operation =
          (some "No interface registered for this operation", cctx)) ∧
      (tableGet cctx.handlers (key area areaVersion service operation) ≠ none →
        (cctx.deregisterProviderHandler hdltype area areaVersion service operation).2 =
            { cctx with
              handlers := tableDelete cctx.handlers (key area areaVersion service operation) } ∧
          tableGet (cctx.deregisterProviderHandler hdltype area areaVersion service
            operation).2.handlers (key area areaVersion service operation) = none ∧
          ∀ k, k ≠ key area areaVersion service operation →
            tableGet (cctx.deregisterProviderHandler hdltype area areaVersion service
              operation).2.handlers k = tableGet cctx.handlers k) :=
  ⟨fun m hm ha => registerProviderHandler_absent cctx _ _ _ _ _ handler m hm ha,
    registerProviderHandler_succeeds_iff cctx _ _ _ _ _ handler,
    handlerTable_errors_and_effects cctx hdltype hdltype2 area areaVersion service operation handler⟩

/-- Witness of `providerHandler_table`: on a new client context the SUBMIT handler 5 is
registered for the operation (200, 1, 1, 1) of broker_test.go; a second registration under
the same key is refused and leaves the first; the deregistration restores the empty
table. -/
theorem providerHandler_table_witness :
    (sampleContext [] []).registerProviderHandler 2 200 1 1 1 (some 5) =
        some (none, sampleContext [] [(key 200 1 1 1, sampleSubmitHandler)]) ∧
      (sampleContext [] [(key 200 1 1 1, sampleSubmitHandler)]).registerProviderHandler 3 200 1
          1 1 (some 6) =
        some (some "MAL handler already registered",
          sampleContext [] [(key 200 1 1 1, sampleSubmitHandler)]) ∧
      (sampleContext [] [(key 200 1 1 1, sampleSubmitHandler)]).deregisterProviderHandler 2 200
          1 1 1 = (none, sampleContext [] []) :=
  ⟨(providerHandler_table (sampleContext [] []) 2 2 200 1 1 1 (some 5)).1 [] rfl rfl,
    (providerHandler_table (sampleContext [] [(key 200 1 1 1, sampleSubmitHandler)]) 3 2
      200 1 1 1 (some 6)).2.2.2.1 (by decide),
    ((providerHandler_table (sampleContext [] []) 2 2 200 1 1 1 (some 5)).2.2.2.2.1
      (sampleContext [] [(key 200 1 1 1, sampleSubmitHandler)]) rfl).2.2.2⟩

theorem registerOp_succeeds_iff (cctx : ClientContext) (tid : Nat) (h : OperationHandler) :
    (∃ c1, cctx.registerOp tid (some h) = some (none, c1)) ↔
      cctx.operations ≠ none ∧ (tableGet cctx.operations tid).join = none := by
  constructor
  · rintro ⟨c1, h1⟩
    cases hg : (tableGet cctx.operations tid).join with
    | some old =>
      rw [registerOp_present cctx tid (some h) old hg] at h1
      simp at h1
    | none =>
      cases hm : cctx.operations with
      | none =>
        rw [registerOp_nil cctx tid (some h) hm] at h1
        simp at h1
      | some m => exact ⟨by simp, rfl⟩
  · rintro ⟨hn, ha⟩
    cases hm : cctx.operations with
    | none => exact absurd hm hn
    | some m => exact ⟨_, registerOp_absent cctx tid (some h) m hm ha⟩

/-- C20. The outstanding-operation table is keyed by the transaction identifier alone. On
a table that is not nil, which is how NewClientContext makes it, registerOp with an
operation `h` succeeds when no operation is registered under `tid`: it returns nil and the
table holds `h` under `tid`; it succeeds in no other case. It returns an error exactly
when an operation is registered under `tid`, and the client context is then unchanged;
when it succeeds, `h` is the operation registered under `tid`, and every other identifier
reads as before. deregisterOp returns an error exactly when no operation is registered
under `tid`, and the client context is then unchanged; otherwise it deletes the entry of
`tid` and no other. -/
theorem operation_table (cctx : ClientContext) (tid : Nat) (h : OperationHandler) :
    (∀ m, cctx.operations = some m → (tableGet cctx.operations tid).join = none →
        cctx.registerOp tid (some h) =
          some (none, { cctx with operations := some (mapSet m tid (some h)) })) ∧
      ((∃ c1, cctx.registerOp tid (some h) = some (none, c1)) ↔
        cctx.operations ≠ none ∧ (tableGet cctx.operations tid).join = none) ∧
      ((∃ e c, cctx.registerOp tid (some h) = some (some e, c)) ↔
        (tableGet cctx.operations tid).join ≠ none) ∧
      ((tableGet cctx.operations tid).join ≠ none →
        cctx.registerOp tid (some h) =
          some (some "Handler already registered for this transaction", cctx)) ∧
      (∀ c1, cctx.registerOp tid (some h) = some (none, c1) →
        (tableGet c1.operations tid).join = some h ∧
          (∀ tid2, tid2 ≠ tid → tableGet c1.operations tid2 = tableGet cctx.operations tid2) ∧
          c1.handlers = cctx.handlers) ∧
      ((cctx.deregisterOp tid).1 ≠ none ↔ (tableGet cctx.operations tid).join = none) ∧
      ((tableGet cctx.operations tid).join = none →
        cctx.deregisterOp tid =
          (some "No handler registered for this transaction", cctx)) ∧
      ((tableGet cctx.operations tid).join ≠ none →
        (cctx.deregisterOp tid).2 =
            { cctx with operations := tableDelete cctx.operations tid } ∧
          tableGet (cctx.deregisterOp tid).2.operations tid = none ∧
          ∀ tid2, tid2 ≠ tid →
            tableGet (cctx.deregisterOp tid).2.operations tid2 =
              tableGet cctx.operations tid2) :=
  ⟨fun m hm ha => registerOp_absent cctx tid (some h) m hm ha,
    registerOp_succeeds_iff cctx tid h, opTable_errors_and_effects cctx tid h⟩

/-- Witness of `operation_table`: on a new client context the operation 7 is registered
under the transaction 1; a second registration under the transaction 1 is refused and
leaves the first; the deregistration of the transaction 1 empties the table, and that of
the transaction 2, which holds nothing, is refused. -/
theorem operation_table_witness :
    (sampleContext [] []).registerOp 1 (some 7) =
        some (none, sampleContext [(1, some 7)] []) ∧
      (sampleContext [(1, some 7)] []).registerOp 1 (some 8) =
        some (some "Handler already registered for this transaction",
          sampleContext [(1, some 7)] []) ∧
      (sampleContext [(1, some 7)] []).deregisterOp 2 =
        (some "No handler registered for this transaction", sampleContext [(1, some 7)] []) :=
  ⟨(operation_table (sampleContext [] []) 1 7).1 [] rfl rfl,
    (operation_table (sampleContext [(1, some 7)] []) 1 8).2.2.2.1 (by decide),
    (operation_table (sampleContext [(1, some 7)] []) 2 7).2.2.2.2.2.2.1 rfl⟩

/-! ## Routing of inbound messages -/

/-- The test of OnMessage is the parity rule. -/
theorem routesToHandler_eq_initialByParity (msg : Message) :
    routesToHandler msg = initialByParity msg := by
  unfold routesToHandler initialByParity
  rw [Nat.and_one_is_mod]
  have h2 : msg.InteractionStage % 2 = 0 ∨ msg.InteractionStage % 2 = 1 := by omega
  cases msg.IsErrorMessage <;> rcases h2 with h | h <;>
    simp [h, bne, MAL_IP_STAGE_INIT, MAL_INTERACTIONTYPE_PUBSUB, MAL_IP_STAGE_PUBSUB_PUBLISH]

/-- Among the ten PUB/SUB stages the odd ones are REGISTER, PUBLISH_REGISTER, PUBLISH,
DEREGISTER and PUBLISH_DEREGISTER, so that the parity rule and the rule by names agree on
every message whose PUB/SUB stage is one of the ten. -/
theorem initialByParity_eq_initialByName (msg : Message)
    (hs : msg.InteractionType = MAL_INTERACTIONTYPE_PUBSUB →
      1 ≤ msg.InteractionStage ∧ msg.InteractionStage ≤ 10) :
    initialByParity msg = initialByName msg := by
  unfold initialByParity initialByName
  by_cases ht : msg.InteractionType = MAL_INTERACTIONTYPE_PUBSUB
  · have h := hs ht
    have h2 : msg.InteractionStage = 1 ∨ msg.InteractionStage = 2 ∨ msg.InteractionStage = 3 ∨
        msg.InteractionStage = 4 ∨ msg.InteractionStage = 5 ∨ msg.InteractionStage = 6 ∨
        msg.InteractionStage = 7 ∨ msg.InteractionStage = 8 ∨ msg.InteractionStage = 9 ∨
        msg.InteractionStage = 10 := by omega
    rcases h2 with h3 | h3 | h3 | h3 | h3 | h3 | h3 | h3 | h3 | h3 <;>
      simp [ht, h3, MAL_IP_STAGE_PUBSUB_REGISTER, MAL_IP_STAGE_PUBSUB_DEREGISTER,
        MAL_IP_STAGE_PUBSUB_PUBLISH_REGISTER, MAL_IP_STAGE_PUBSUB_PUBLISH,
        MAL_IP_STAGE_PUBSUB_PUBLISH_DEREGISTER]
  · have hb : (msg.InteractionType == MAL_INTERACTIONTYPE_PUBSUB) = false := by simpa using ht
    simp [hb]

/-- The trace of a run of OnMessage on a message that passes the test of lines 262-263:
the handler lookup, then at most the call of a handler. -/
theorem OnMessage_trace_handler (cctx : ClientContext) (cb : Callbacks) (msg : Message)
    (h : routesToHandler msg = true) :
    ∃ rest, (cctx.OnMessage cb msg).trace =
        Event.getProviderHandler msg.InteractionType msg.ServiceArea msg.AreaVersion
          msg.Service msg.Operation :: rest ∧
      ∀ ev ∈ rest, ∃ hd t g, ev = Event.handler hd msg t g := by
  unfold ClientContext.OnMessage
  rw [if_pos h]
  cases cctx.getProviderHandler msg.InteractionType msg.ServiceArea msg.AreaVersion
      msg.Service msg.Operation with
  | error e => exact ⟨[], rfl, by simp⟩
  | ok handler =>
    cases newTransaction cctx msg with
    | none => exact ⟨[], rfl, by simp⟩
    | some t =>
      cases handler with
      | none => exact ⟨[], rfl, by simp⟩
      | some hd =>
        by_cases hc : cctx.concurrency = true
        · refine ⟨[.handler hd msg t true], ?_, by simp⟩
          simp [callHandler, hc]
        · refine ⟨[.handler hd msg t false], ?_, by simp⟩
          cases hcb : cb.handler hd msg t cctx <;> simp [callHandler, hc, hcb]

/-- The trace of a run of OnMessage on a message that fails the test of lines 262-263:
the read of the operations table, then at most the call of an operation. -/
theorem OnMessage_trace_operation (cctx : ClientContext) (cb : Callbacks) (msg : Message)
    (h : routesToHandler msg = false) :
    ∃ rest, (cctx.OnMessage cb msg).trace = Event.readOperation msg.TransactionId :: rest ∧
      ∀ ev ∈ rest, ∃ op, ev = Event.onMessage op msg := by
  unfold ClientContext.OnMessage
  rw [if_neg (by simp [h])]
  cases tableGet cctx.operations msg.TransactionId with
  | none => exact ⟨[], rfl, by simp⟩
  | some o =>
    cases o with
    | none => exact ⟨[], rfl, by simp⟩
    | some op =>
      refine ⟨[.onMessage op msg], ?_, by simp⟩
      cases hcb : cb.onMessage op msg cctx <;> simp [hcb]

theorem handledAsInitial_iff (cctx : ClientContext) (cb : Callbacks) (msg : Message) :
    handledAsInitial msg (cctx.OnMessage cb msg) ↔ routesToHandler msg = true := by
  cases h : routesToHandler msg with
  | true =>
    obtain ⟨rest, ht, hr⟩ := OnMessage_trace_handler cctx cb msg h
    simp only [handledAsInitial, ht, iff_true]
    refine ⟨List.mem_cons_self _ _, ?_⟩
    intro tid hm
    rcases List.mem_cons.mp hm with h1 | h1
    · cases h1
    · obtain ⟨hd, t, g, h2⟩ := hr _ h1
      cases h2
  | false =>
    obtain ⟨rest, ht, hr⟩ := OnMessage_trace_operation cctx cb msg h
    simp only [handledAsInitial, ht, Bool.false_eq_true, iff_false, not_and, not_forall,
      not_not]
    intro _
    exact ⟨msg.TransactionId, List.mem_cons_self _ _⟩

theorem handledAsContinuation_of_not_routes (cctx : ClientContext) (cb : Callbacks)
    (msg : Message) (h : routesToHandler msg = false) :
    handledAsContinuation msg (cctx.OnMessage cb msg) := by
  obtain ⟨rest, ht, hr⟩ := OnMessage_trace_operation cctx cb msg h
  simp only [handledAsContinuation, ht]
  refine ⟨List.mem_cons_self _ _, ?_⟩
  intro a b c d e hm
  rcases List.mem_cons.mp hm with h1 | h1
  · cases h1
  · obtain ⟨op, h2⟩ := hr _ h1
    cases h2

/-- C15. Inbound classification by OnMessage. For every message whose stage, when its
pattern is PUB/SUB, is one of the ten PUB/SUB stages, which is every message of a legal
pair of interaction type and stage and every message that decode delivers (third part of
the statement): the message is handled as a provider-side initial message (handler lookup
by service key, outstanding operations not read) if and only if either its pattern is not
PUB/SUB and its stage is 1, or its pattern is PUB/SUB, its stage is one of REGISTER,
DEREGISTER, PUBLISH_REGISTER, PUBLISH and PUBLISH_DEREGISTER and it is not a PUBLISH with
the error flag set; every other message, an error PUBLISH included, is looked up by its
transaction identifier among the outstanding operations and no handler is looked up. The
first two parts give the test that the code makes on any message whatever: it reads the
parity of the PUB/SUB stage, and the odd stages among the ten are the five named ones. -/
theorem OnMessage_classification (cctx : ClientContext) (cb : Callbacks) (msg : Message) :
    (handledAsInitial msg (cctx.OnMessage cb msg) ↔ initialByParity msg = true) ∧
      (initialByParity msg = false → handledAsContinuation msg (cctx.OnMessage cb msg)) ∧
      ((msg.InteractionType = MAL_INTERACTIONTYPE_PUBSUB →
          1 ≤ msg.InteractionStage ∧ msg.InteractionStage ≤ 10) →
        (handledAsInitial msg (cctx.OnMessage cb msg) ↔ initialByName msg = true) ∧
          (initialByName msg = false →
            handledAsContinuation msg (cctx.OnMessage cb msg))) := by
  have h1 := handledAsInitial_iff cctx cb msg
  rw [routesToHandler_eq_initialByParity] at h1
  have h2 : initialByParity msg = false → handledAsContinuation msg (cctx.OnMessage cb msg) :=
    fun h => handledAsContinuation_of_not_routes cctx cb msg
      (by rw [routesToHandler_eq_initialByParity]; exact h)
  refine ⟨h1, h2, ?_⟩
  intro hs
  rw [← initialByParity_eq_initialByName msg hs]
  exact ⟨h1, h2⟩

/-- Outside the legal stages the test of OnMessage reads the parity of the stage: a
PUB/SUB message of stage 11, which no frame can carry (the SDU table has no code for it),
is handled as a provider-side initial message though its stage is none of the five named
ones. -/
theorem OnMessage_stage_eleven_by_parity :
    ¬ (handledAsInitial { testRegister [] with InteractionStage := 11 }
          ((sampleContext [] []).OnMessage idleCallbacks
            { testRegister [] with InteractionStage := 11 }) ↔
        initialByName { testRegister [] with InteractionStage := 11 } = true) := by
  have h1 : initialByName { testRegister [] with InteractionStage := 11 } = false := by decide
  have h2 : ((sampleContext [] []).OnMessage idleCallbacks
      { testRegister [] with InteractionStage := 11 }).trace =
        [Event.getProviderHandler 6 200 1 1 1] := by decide
  intro h
  have h3 : handledAsInitial { testRegister [] with InteractionStage := 11 }
      ((sampleContext [] []).OnMessage idleCallbacks
        { testRegister [] with InteractionStage := 11 }) := by
    unfold handledAsInitial
    rw [h2]
    exact ⟨by decide, fun tid => by simp⟩
  rw [h1] at h
  exact absurd (h.mp h3) (by decide)

/-- A PUB/SUB message that passes the test of OnMessage at a stage that is none of the
five named ones gets no transaction: the switch logs and returns. -/
theorem newTransaction_none_of_not_named (cctx : ClientContext) (msg : Message)
    (hr : routesToHandler msg = true) (hn : initialByName msg = false) :
    newTransaction cctx msg = none := by
  rw [routesToHandler_eq_initialByParity] at hr
  unfold initialByParity at hr
  unfold initialByName at hn
  unfold newTransaction
  by_cases ht : msg.InteractionType = MAL_INTERACTIONTYPE_PUBSUB
  · simp only [ht, MAL_INTERACTIONTYPE_PUBSUB, MAL_INTERACTIONTYPE_SEND,
      MAL_INTERACTIONTYPE_SUBMIT, MAL_INTERACTIONTYPE_REQUEST, MAL_INTERACTIONTYPE_INVOKE,
      MAL_INTERACTIONTYPE_PROGRESS, MAL_IP_STAGE_PUBSUB_REGISTER,
      MAL_IP_STAGE_PUBSUB_DEREGISTER, MAL_IP_STAGE_PUBSUB_PUBLISH_REGISTER,
      MAL_IP_STAGE_PUBSUB_PUBLISH, MAL_IP_STAGE_PUBSUB_PUBLISH_DEREGISTER] at hr hn ⊢
    by_cases h1 : msg.InteractionStage = 1
    · simp [h1] at hn
    · by_cases h3 : msg.InteractionStage = 3
      · simp [h3] at hn
      · by_cases h5 : msg.InteractionStage = 5
        · cases he : msg.IsErrorMessage <;> simp [h5, he] at hn hr
        · by_cases h7 : msg.InteractionStage = 7
          · simp [h7] at hn
          · by_cases h9 : msg.InteractionStage = 9
            · simp [h9] at hn
            · simp [h1, h3, h5, h7, h9]
  · have hb : (msg.InteractionType == MAL_INTERACTIONTYPE_PUBSUB) = false := by simpa using ht
    simp [hb] at hr hn
    exact absurd hr.2 (hn hr.1)

/-- The run of OnMessage when the handler lookup fails. -/
theorem OnMessage_lookup_error (cctx : ClientContext) (cb : Callbacks) (msg : Message)
    (e : String) (hr : routesToHandler msg = true)
    (he : cctx.getProviderHandler msg.InteractionType msg.ServiceArea msg.AreaVersion
      msg.Service msg.Operation = .error e) :
    cctx.OnMessage cb msg =
      { panicked := false,
        trace := [Event.getProviderHandler msg.InteractionType msg.ServiceArea
          msg.AreaVersion msg.Service msg.Operation],
        cctx := cctx } := by
  unfold ClientContext.OnMessage
  rw [if_pos hr]
  simp only [he]

/-- The run of OnMessage when the switch builds no transaction. -/
theorem OnMessage_no_transaction (cctx : ClientContext) (cb : Callbacks) (msg : Message)
    (hr : routesToHandler msg = true) (hn : newTransaction cctx msg = none) :
    cctx.OnMessage cb msg =
      { panicked := false,
        trace := [Event.getProviderHandler msg.InteractionType msg.ServiceArea
          msg.AreaVersion msg.Service msg.Operation],
        cctx := cctx } := by
  unfold ClientContext.OnMessage
  rw [if_pos hr]
  cases cctx.getProviderHandler msg.InteractionType msg.ServiceArea msg.AreaVersion
      msg.Service msg.Operation with
  | error e => rfl
  | ok handler => simp only [hn]

/-- The run of OnMessage when the operations table has no entry for the transaction. -/
theorem OnMessage_unknown_transaction (cctx : ClientContext) (cb : Callbacks) (msg : Message)
    (hr : routesToHandler msg = false)
    (ho : tableGet cctx.operations msg.TransactionId = none) :
    cctx.OnMessage cb msg =
      { panicked := false, trace := [Event.readOperation msg.TransactionId], cctx := cctx } := by
  unfold ClientContext.OnMessage
  rw [if_neg (by simp [hr])]
  simp only [ho]

/-- C16. Unroutable messages are dropped. If the message is a continuation (by the names
of the stages, or by the test of the code) and the operations table has no entry for its
transaction identifier, or if it is an initial message and the handlers table has no
entry for its service key or an entry of another interaction type, then OnMessage
returns without calling a provider handler or an operation, and the client context, its
two tables included, is as before. -/
theorem OnMessage_drops_unroutable (cctx : ClientContext) (cb : Callbacks) (msg : Message)
    (h : ((initialByName msg = false ∨ routesToHandler msg = false) ∧
          tableGet cctx.operations msg.TransactionId = none) ∨
        ((initialByName msg = true ∨ routesToHandler msg = true) ∧
          (tableGet cctx.handlers
              (key msg.ServiceArea msg.AreaVersion msg.Service msg.Operation) = none ∨
            ∃ desc, tableGet cctx.handlers
                (key msg.ServiceArea msg.AreaVersion msg.Service msg.Operation) = some desc ∧
              desc.stype ≠ msg.InteractionType))) :
    noCall (cctx.OnMessage cb msg) ∧ (cctx.OnMessage cb msg).cctx = cctx ∧
      (cctx.OnMessage cb msg).cctx.operations = cctx.operations ∧
      (cctx.OnMessage cb msg).cctx.handlers = cctx.handlers ∧
      (cctx.OnMessage cb msg).panicked = false := by
  have hA : ∀ run : OnMessageRun,
      run = { panicked := false,
              trace := [Event.getProviderHandler msg.InteractionType msg.ServiceArea
                msg.AreaVersion msg.Service msg.Operation],
              cctx := cctx } →
      noCall run ∧ run.cctx = cctx ∧ run.cctx.operations = cctx.operations ∧
        run.cctx.handlers = cctx.handlers ∧ run.panicked = false := by
    intro run hrun
    subst hrun
    refine ⟨?_, rfl, rfl, rfl, rfl⟩
    intro ev hev
    exact Or.inl ⟨_, _, _, _, _, List.mem_singleton.mp hev⟩
  have hB : ∀ run : OnMessageRun,
      run = { panicked := false, trace := [Event.readOperation msg.TransactionId],
              cctx := cctx } →
      noCall run ∧ run.cctx = cctx ∧ run.cctx.operations = cctx.operations ∧
        run.cctx.handlers = cctx.handlers ∧ run.panicked = false := by
    intro run hrun
    subst hrun
    refine ⟨?_, rfl, rfl, rfl, rfl⟩
    intro ev hev
    exact Or.inr ⟨_, List.mem_singleton.mp hev⟩
  have hnamed : initialByName msg = true → routesToHandler msg = true := by
    intro hn
    rw [routesToHandler_eq_initialByParity]
    unfold initialByName at hn
    unfold initialByParity
    simp only [Bool.or_eq_true, Bool.and_eq_true, decide_eq_true_eq, List.mem_cons,
      List.mem_singleton, List.not_mem_nil, or_false, MAL_IP_STAGE_PUBSUB_REGISTER,
      MAL_IP_STAGE_PUBSUB_DEREGISTER, MAL_IP_STAGE_PUBSUB_PUBLISH_REGISTER,
      MAL_IP_STAGE_PUBSUB_PUBLISH, MAL_IP_STAGE_PUBSUB_PUBLISH_DEREGISTER] at hn ⊢
    rcases hn with hn | ⟨⟨ht, hst⟩, hp⟩
    · exact Or.inl hn
    · refine Or.inr ⟨⟨ht, ?_⟩, hp⟩
      rcases hst with h1 | h1 | h1 | h1 | h1 <;> simp [h1]
  cases hr : routesToHandler msg with
  | true =>
    rcases h with ⟨hc, ho⟩ | ⟨_, hh⟩
    · rcases hc with hc | hc
      · exact hA _ (OnMessage_no_transaction cctx cb msg hr
          (newTransaction_none_of_not_named cctx msg hr hc))
      · rw [hr] at hc
        cases hc
    · have he : ∃ e, cctx.getProviderHandler msg.InteractionType msg.ServiceArea
          msg.AreaVersion msg.Service msg.Operation = .error e := by
        rcases hh with hh | ⟨desc, hd, hne⟩
        · exact ⟨"MAL service not registered",
            by simp only [ClientContext.getProviderHandler, hh]⟩
        · exact ⟨"Bad handler type",
            by simp only [ClientContext.getProviderHandler, hd, if_neg hne]⟩
      obtain ⟨e, he⟩ := he
      exact hA _ (OnMessage_lookup_error cctx cb msg e hr he)
  | false =>
    rcases h with ⟨_, ho⟩ | ⟨hc, _⟩
    · exact hB _ (OnMessage_unknown_transaction cctx cb msg hr ho)
    · rcases hc with hc | hc
      · rw [hnamed hc] at hr
        cases hr
      · rw [hr] at hc
        cases hc

/-- Witness of `OnMessage_drops_unroutable`: a REQUEST of stage 1 for the operation
(200, 1, 1, 1), where the only handler registered under that key is a SUBMIT handler. -/
theorem OnMessage_drops_unroutable_witness :
    noCall ((sampleContext [(7, some 1)] [(key 200 1 1 1, sampleSubmitHandler)]).OnMessage
        idleCallbacks { testRegister [] with InteractionType := 3 }) ∧
      ((sampleContext [(7, some 1)] [(key 200 1 1 1, sampleSubmitHandler)]).OnMessage
        idleCallbacks { testRegister [] with InteractionType := 3 }).cctx =
        sampleContext [(7, some 1)] [(key 200 1 1 1, sampleSubmitHandler)] :=
  ⟨(OnMessage_drops_unroutable (sampleContext [(7, some 1)] [(key 200 1 1 1, sampleSubmitHandler)])
      idleCallbacks { testRegister [] with InteractionType := 3 }
      (Or.inr ⟨Or.inl (by decide), Or.inr ⟨sampleSubmitHandler, by decide, by decide⟩⟩)).1,
   (OnMessage_drops_unroutable (sampleContext [(7, some 1)] [(key 200 1 1 1, sampleSubmitHandler)])
      idleCallbacks { testRegister [] with InteractionType := 3 }
      (Or.inr ⟨Or.inl (by decide), Or.inr ⟨sampleSubmitHandler, by decide, by decide⟩⟩)).2.1⟩

/-! ## Transaction identifiers -/

theorem callTransactionId_getElem (n : Nat) : ∀ (cctx : ClientContext) (k : Nat), k < n →
    (callTransactionId n cctx).1[k]? = some ((cctx.txcounter + (k + 1)) % 2 ^ 64) := by
  induction n with
  | zero => intro cctx k hk; omega
  | succ n ih =>
    intro cctx k hk
    cases k with
    | zero => simp [callTransactionId, ClientContext.TransactionId]
    | succ k =>
      have h := ih cctx.TransactionId.2 k (by omega)
      simp only [callTransactionId, List.getElem?_cons_succ]
      rw [h]
      simp only [ClientContext.TransactionId, Option.some.injEq]
      omega

theorem callTransactionId_length (n : Nat) : ∀ (cctx : ClientContext),
    (callTransactionId n cctx).1.length = n := by
  induction n with
  | zero => intro cctx; rfl
  | succ n ih => intro cctx; simp [callTransactionId, ih]

/-- C21. On a client context made by NewClientContext, the call number k of
TransactionId (counted from 1) returns k modulo 2^64, so the first call returns 1; and of
two calls among the first 2^64 - 1, the later one returns the greater identifier, so that
the identifiers of different calls are different. -/
theorem TransactionId_kth (uri : Option URI) (cctx : ClientContext) (n : Nat)
    (hnew : NewClientContext uri none = .ok cctx) :
    (callTransactionId n cctx).1.length = n ∧
      (∀ k, 1 ≤ k → k ≤ n → (callTransactionId n cctx).1[k - 1]? = some (k % 2 ^ 64)) ∧
      (∀ i j a b, 1 ≤ i → i < j → j ≤ n → j ≤ 2 ^ 64 - 1 →
        (callTransactionId n cctx).1[i - 1]? = some a →
        (callTransactionId n cctx).1[j - 1]? = some b → a < b) := by
  have h0 : cctx.txcounter = 0 := by
    simp only [NewClientContext, Except.ok.injEq] at hnew
    rw [← hnew]
  have hk : ∀ k, 1 ≤ k → k ≤ n →
      (callTransactionId n cctx).1[k - 1]? = some (k % 2 ^ 64) := by
    intro k h1 h2
    rw [callTransactionId_getElem n cctx (k - 1) (by omega), h0]
    congr 2
    omega
  refine ⟨callTransactionId_length n cctx, hk, ?_⟩
  intro i j a b hi hij hjn hj ha hb
  rw [hk i hi (by omega)] at ha
  rw [hk j (by omega) hjn] at hb
  simp only [Option.some.injEq] at ha hb
  rw [← ha, ← hb, Nat.mod_eq_of_lt (by omega), Nat.mod_eq_of_lt (by omega)]
  exact hij

/-- Witness of `TransactionId_kth`: three calls on a new client context. -/
theorem TransactionId_kth_witness :
    (callTransactionId 3
        { Uri := some "maltcp://127.0.0.1:16101/c", operations := some [],
          handlers := some [], txcounter := 0, concurrency := false }).1 = [1, 2, 3] ∧
      (callTransactionId 3
        { Uri := some "maltcp://127.0.0.1:16101/c", operations := some [],
          handlers := some [], txcounter := 0, concurrency := false }).1[1]? = some (2 % 2 ^ 64) :=
  ⟨by decide,
   (TransactionId_kth (some "maltcp://127.0.0.1:16101/c") _ 3 rfl).2.1 2 (by decide)
     (by decide)⟩

/-- The counter wraps: the call number 2^64 returns 0, below the identifier 1 of the
first call. -/
theorem TransactionId_wraps (cctx : ClientContext) (h : cctx.txcounter = 2 ^ 64 - 1) :
    cctx.TransactionId.1 = 0 := by
  simp [ClientContext.TransactionId, h]

/-! ## Endpoint close -/

/-- The loop of cleanOps on a table whose entries all hold an operation: one call per
entry, in the order of the table, and no panic. -/
theorem cleanOpsLoop_all (m : List (Nat × Option OperationHandler))
    (hm : ∀ e ∈ m, e.2 ≠ none) (closed : List OperationHandler) :
    cleanOpsLoop m closed = (false, closed ++ m.filterMap (fun e => e.2)) := by
  induction m generalizing closed with
  | nil => simp [cleanOpsLoop]
  | cons e rest ih =>
    obtain ⟨tid, op⟩ := e
    cases op with
    | none => exact absurd rfl (hm (tid, none) (List.mem_cons_self _ _))
    | some o =>
      simp only [cleanOpsLoop, List.filterMap_cons]
      rw [ih (fun e he => hm e (List.mem_cons_of_mem _ he))]
      simp

/-- The operations on which onClose is due: those held by the entries of the table, in
the order of the table, none when the table is nil. -/
theorem cleanOps_all (cctx : ClientContext)
    (hm : ∀ m, cctx.operations = some m → ∀ e ∈ m, e.2 ≠ none) :
    cctx.cleanOps =
      (false, ((cctx.operations.getD []).filterMap (fun e => e.2)),
        { cctx with operations := none }) := by
  unfold ClientContext.cleanOps
  cases ho : cctx.operations with
  | none => simp
  | some m =>
    simp only [cleanOpsLoop_all m (hm m ho) [], List.nil_append, Option.getD_some]
    simp

/-- C22. Endpoint close. For every client context whose table of operations holds an
operation in every entry, OnClose calls onClose once for each entry of the table, on the
operation of that entry, and on nothing else; afterwards both tables are nil, so that no
operation and no provider handler is registered, and it returns nil. Close does the same
when unregistering the endpoint succeeds; when unregistering fails it returns the error,
calls nothing and leaves the client context as it was. -/
theorem OnClose_closes_all (cctx : ClientContext) (err : String)
    (hm : ∀ m, cctx.operations = some m → ∀ e ∈ m, e.2 ≠ none) :
    cctx.OnClose =
        { panicked := false,
          closed := (cctx.operations.getD []).filterMap (fun e => e.2),
          result := none,
          cctx := { cctx with operations := none, handlers := none } } ∧
      (∀ tid, tableGet cctx.OnClose.cctx.operations tid = none) ∧
      (∀ k, tableGet cctx.OnClose.cctx.handlers k = none) ∧
      (cctx.OnClose.closed.length = (cctx.operations.getD []).length) ∧
      (∀ op, op ∈ cctx.OnClose.closed ↔ ∃ tid, (tid, some op) ∈ cctx.operations.getD []) ∧
      cctx.Close none = cctx.OnClose ∧
      cctx.Close (some err) =
        { panicked := false, closed := [], result := some err, cctx := cctx } := by
  have h : cctx.OnClose =
      { panicked := false,
        closed := (cctx.operations.getD []).filterMap (fun e => e.2),
        result := none,
        cctx := { cctx with operations := none, handlers := none } } := by
    simp only [ClientContext.OnClose, cleanOps_all cctx hm, ClientContext.cleanHandlers]
    simp
  refine ⟨h, ?_, ?_, ?_, ?_, rfl, rfl⟩
  · intro tid
    rw [h]
    rfl
  · intro k
    rw [h]
    rfl
  · rw [h]
    show (List.filterMap _ _).length = _
    cases ho : cctx.operations with
    | none => rfl
    | some m =>
      have hm2 := hm m ho
      simp only [Option.getD_some]
      clear ho h hm
      induction m with
      | nil => rfl
      | cons e rest ih =>
        obtain ⟨tid, op⟩ := e
        cases op with
        | none => exact absurd rfl (hm2 (tid, none) (List.mem_cons_self _ _))
        | some o =>
          simp only [List.filterMap_cons, List.length_cons]
          rw [ih (fun e he => hm2 e (List.mem_cons_of_mem _ he))]
  · intro op
    rw [h]
    show op ∈ List.filterMap _ _ ↔ _
    simp only [List.mem_filterMap]
    constructor
    · rintro ⟨⟨tid, o⟩, he, ho⟩
      simp only at ho
      subst ho
      exact ⟨tid, he⟩
    · rintro ⟨tid, he⟩
      exact ⟨(tid, some op), he, rfl⟩

/-- Witness of `OnClose_closes_all`: a client context with the operations 11 and 12
outstanding under the transactions 1 and 2 and one provider handler. -/
theorem OnClose_closes_all_witness :
    (sampleContext [(1, some 11), (2, some 12)] [(key 200 1 1 1, sampleSubmitHandler)]).OnClose =
      { panicked := false, closed := [11, 12], result := none,
        cctx := { sampleContext [] [] with operations := none, handlers := none } } :=
  (OnClose_closes_all
    (sampleContext [(1, some 11), (2, some 12)] [(key 200 1 1 1, sampleSubmitHandler)]) ""
    (by
      intro m hm e he
      have h2 : m = [(1, some 11), (2, some 12)] := by
        simp only [sampleContext, Option.some.injEq] at hm
        exact hm.symm
      subst h2
      simp only [List.mem_cons, List.mem_singleton, List.not_mem_nil, or_false] at he
      rcases he with he | he <;> subst he <;> simp)).1

/-- A table entry that holds the nil interface makes cleanOps panic at the call of
onClose, and the tables are not cleared. -/
theorem OnClose_nil_entry_panics :
    (sampleContext [(1, some 11), (2, none)] []).OnClose =
      { panicked := true, closed := [11], result := none,
        cctx := sampleContext [(1, some 11), (2, none)] [] } := by
  decide

/-! ## Entity keys -/

theorem subKeyMatch_null {α : Type} [DecidableEq α] (wildcard : α) (k : Option α) :
    subKeyMatch wildcard none k = some (decide (k = none)) := by
  cases k <;> simp [subKeyMatch]

theorem subKeyMatch_true_of_null {α : Type} [DecidableEq α] (wildcard : α) (r k : Option α)
    (h : subKeyMatch wildcard r k = some true) (hr : r = none) : k = none := by
  subst hr
  rw [subKeyMatch_null] at h
  simpa using h

/-- What a true result of Match says of the four blocks. -/
theorem Match_true_iff (rkey key : EntityKey) :
    rkey.Match key = some true ↔
      subKeyMatch "*" rkey.FirstSubKey key.FirstSubKey = some true ∧
        subKeyMatch 0 rkey.SecondSubKey key.SecondSubKey = some true ∧
        subKeyMatch 0 rkey.ThirdSubKey key.ThirdSubKey = some true ∧
        subKeyMatch 0 rkey.FourthSubKey key.FourthSubKey = some true := by
  unfold EntityKey.Match
  rcases h1 : subKeyMatch "*" rkey.FirstSubKey key.FirstSubKey with _ | _ | _ <;>
    rcases h2 : subKeyMatch 0 rkey.SecondSubKey key.SecondSubKey with _ | _ | _ <;>
    rcases h3 : subKeyMatch 0 rkey.ThirdSubKey key.ThirdSubKey with _ | _ | _ <;>
    rcases h4 : subKeyMatch 0 rkey.FourthSubKey key.FourthSubKey with _ | _ | _ <;>
    simp

/-- C30. The NULL rule of EntityKey.Match. When Match returns true, each sub-key of the
update key that faces a NULL sub-key of the request key is NULL. The request key whose
four sub-keys are NULL is matched against every update key without a panic, and the
result is true exactly for the update key whose four sub-keys are NULL. -/
theorem Match_null_rule (rkey key : EntityKey) :
    (rkey.Match key = some true →
        (rkey.FirstSubKey = none → key.FirstSubKey = none) ∧
        (rkey.SecondSubKey = none → key.SecondSubKey = none) ∧
        (rkey.ThirdSubKey = none → key.ThirdSubKey = none) ∧
        (rkey.FourthSubKey = none → key.FourthSubKey = none)) ∧
      nullKey.Match key = some (decide (key = nullKey)) := by
  constructor
  · intro h
    obtain ⟨h1, h2, h3, h4⟩ := (Match_true_iff rkey key).mp h
    exact ⟨subKeyMatch_true_of_null _ _ _ h1, subKeyMatch_true_of_null _ _ _ h2,
      subKeyMatch_true_of_null _ _ _ h3, subKeyMatch_true_of_null _ _ _ h4⟩
  · obtain ⟨k1, k2, k3, k4⟩ := key
    cases k1 <;> cases k2 <;> cases k3 <;> cases k4 <;>
      simp [EntityKey.Match, nullKey, subKeyMatch]

/-! ## Frame decoding: fixed header, optional fields and faults -/

theorem Res.bind_eq_ok {α β : Type} {x : Res α} {f : α → Res β} {r : β}
    (h : (x >>= f) = .ok r) : ∃ v, x = .ok v ∧ f v = .ok r := by
  cases x with
  | ok v => exact ⟨v, rfl, h⟩
  | error e => cases h
  | panic => cases h

theorem decode_ok_inv (codec : LeafCodec) (t : TCPTransport) (now : Nat) (buf : Body)
    (peer : String) (m : Message) (h : t.decode codec now buf peer = .ok m) :
    ∃ b0 d0 it st sa d1 sv d2 op d3 av d4 b8 d5 qos session tid d6 b17 d7 enc d8 vl d9
      uf d10 ut d11 pr d12 ts d13 nz d14 sn d15 dom d16 auth d17,
      Read buf = .ok (b0, d0) ∧ (b0 / 32) % 8 = t.version ∧ decodeSDU (b0 % 32) = .ok (it, st) ∧
      DecodeUShort d0 = .ok (sa, d1) ∧ DecodeUShort d1 = .ok (sv, d2) ∧
      DecodeUShort d2 = .ok (op, d3) ∧ DecodeUOctet d3 = .ok (av, d4) ∧
      Read d4 = .ok (b8, d5) ∧ QoSLevelFromOrdinalValue ((b8 / 16) % 8) = .ok qos ∧
      SessionTypeFromOrdinalValue (b8 % 16) = .ok session ∧
      DecodeULong d5 = .ok (tid, d6) ∧ Read d6 = .ok (b17, d7) ∧
      DecodeUOctet d7 = .ok (enc, d8) ∧ ReadUInt32 d8 = .ok (vl, d9) ∧
      decodeSource codec t peer ((b17 / 128) % 2 == 1) d9 = .ok (uf, d10) ∧
      decodeDestination codec t ((b17 / 64) % 2 == 1) d10 = .ok (ut, d11) ∧
      decodeOptional ((b17 / 32) % 2 == 1) codec.DecodeUInteger t.dfltPriority d11 =
        .ok (pr, d12) ∧
      decodeOptional ((b17 / 16) % 2 == 1) codec.DecodeTime now d12 = .ok (ts, d13) ∧
      decodeOptional ((b17 / 8) % 2 == 1) codec.DecodeIdentifier t.dfltNetworkZone d13 =
        .ok (nz, d14) ∧
      decodeOptional ((b17 / 4) % 2 == 1) codec.DecodeIdentifier t.dfltSessionName d14 =
        .ok (sn, d15) ∧
      decodeOptional ((b17 / 2) % 2 == 1) (DecodeIdentifierList codec) t.dfltDomain d15 =
        .ok (dom, d16) ∧
      decodeOptional (b17 % 2 == 1) codec.DecodeBlob t.dfltAuthenticationId d16 =
        .ok (auth, d17) ∧
      m = { UriFrom := uf, UriTo := ut, AuthenticationId := auth, EncodingId := enc,
            Timestamp := ts, QoSLevel := qos, Priority := pr, Domain := dom,
            NetworkZone := nz, Session := session, SessionName := sn,
            InteractionType := it, InteractionStage := st, TransactionId := tid,
            ServiceArea := sa, Service := sv, Operation := op, AreaVersion := av,
            IsErrorMessage := ((b8 / 128) % 2 == 1), Body := d17 } := by
  unfold TCPTransport.decode at h
  obtain ⟨⟨b0, d0⟩, h0, h⟩ := Res.bind_eq_ok h
  dsimp only at h
  by_cases hv : (b0 / 32) % 8 = t.version
  · rw [if_neg (not_not.mpr hv)] at h
    obtain ⟨⟨it, st⟩, h1, h⟩ := Res.bind_eq_ok h
    dsimp only at h
    obtain ⟨⟨sa, d1⟩, h2, h⟩ := Res.bind_eq_ok h
    dsimp only at h
    obtain ⟨⟨sv, d2⟩, h3, h⟩ := Res.bind_eq_ok h
    dsimp only at h
    obtain ⟨⟨op, d3⟩, h4, h⟩ := Res.bind_eq_ok h
    dsimp only at h
    obtain ⟨⟨av, d4⟩, h5, h⟩ := Res.bind_eq_ok h
    dsimp only at h
    obtain ⟨⟨b8, d5⟩, h6, h⟩ := Res.bind_eq_ok h
    dsimp only at h
    obtain ⟨qos, h7, h⟩ := Res.bind_eq_ok h
    obtain ⟨session, h8, h⟩ := Res.bind_eq_ok h
    obtain ⟨⟨tid, d6⟩, h9, h⟩ := Res.bind_eq_ok h
    dsimp only at h
    obtain ⟨⟨b17, d7⟩, h10, h⟩ := Res.bind_eq_ok h
    dsimp only at h
    obtain ⟨⟨enc, d8⟩, h11, h⟩ := Res.bind_eq_ok h
    dsimp only at h
    obtain ⟨⟨vl, d9⟩, h12, h⟩ := Res.bind_eq_ok h
    dsimp only at h
    obtain ⟨⟨uf, d10⟩, h13, h⟩ := Res.bind_eq_ok h
    dsimp only at h
    obtain ⟨⟨ut, d11⟩, h14, h⟩ := Res.bind_eq_ok h
    dsimp only at h
    obtain ⟨⟨pr, d12⟩, h15, h⟩ := Res.bind_eq_ok h
    dsimp only at h
    obtain ⟨⟨ts, d13⟩, h16, h⟩ := Res.bind_eq_ok h
    dsimp only at h
    obtain ⟨⟨nz, d14⟩, h17, h⟩ := Res.bind_eq_ok h
    dsimp only at h
    obtain ⟨⟨sn, d15⟩, h18, h⟩ := Res.bind_eq_ok h
    dsimp only at h
    obtain ⟨⟨dom, d16⟩, h19, h⟩ := Res.bind_eq_ok h
    dsimp only at h
    obtain ⟨⟨auth, d17⟩, h20, h⟩ := Res.bind_eq_ok h
    dsimp only at h
    have hm : Res.ok _ = Res.ok m := h
    exact ⟨b0, d0, it, st, sa, d1, sv, d2, op, d3, av, d4, b8, d5, qos, session, tid, d6,
      b17, d7, enc, d8, vl, d9, uf, d10, ut, d11, pr, d12, ts, d13, nz, d14, sn, d15, dom,
      d16, auth, d17, h0, hv, h1, h2, h3, h4, h5, h6, h7, h8, h9, h10, h11, h12, h13, h14,
      h15, h16, h17, h18, h19, h20, (Res.ok.inj hm).symm⟩
  · rw [if_pos hv] at h
    cases h

theorem readBE_one_inv (d d1 : Body) (v : Nat) (h : readBE 1 0 d = .ok (v, d1)) :
    d = v :: d1 := by
  rcases d with _ | ⟨x, r⟩
  · simp [readBE] at h
  · simp only [readBE, Res.ok.injEq, Prod.mk.injEq] at h
    obtain ⟨h1, h2⟩ := h
    subst h2
    have : x = v := by omega
    rw [this]

theorem readBE_two_inv (d d1 : Body) (v : Nat) (h : readBE 2 0 d = .ok (v, d1)) :
    ∃ x y, d = x :: y :: d1 ∧ v = x * 256 + y := by
  rcases d with _ | ⟨x, _ | ⟨y, r⟩⟩
  · simp [readBE] at h
  · simp [readBE] at h
  · simp only [readBE, Res.ok.injEq, Prod.mk.injEq] at h
    obtain ⟨h1, h2⟩ := h
    subst h2
    exact ⟨x, y, rfl, by omega⟩

theorem readBE_four_inv (d d1 : Body) (v : Nat) (h : readBE 4 0 d = .ok (v, d1)) :
    ∃ x1 x2 x3 x4, d = x1 :: x2 :: x3 :: x4 :: d1 ∧
      v = [x1, x2, x3, x4].foldl (fun a b => a * 256 + b) 0 := by
  rcases d with _ | ⟨x1, _ | ⟨x2, _ | ⟨x3, _ | ⟨x4, r⟩⟩⟩⟩
  · simp [readBE] at h
  · simp [readBE] at h
  · simp [readBE] at h
  · simp [readBE] at h
  · simp only [readBE, Res.ok.injEq, Prod.mk.injEq] at h
    obtain ⟨h1, h2⟩ := h
    subst h2
    exact ⟨x1, x2, x3, x4, rfl, by simp only [List.foldl]; omega⟩

theorem readBE_eight_inv (d d1 : Body) (v : Nat) (h : readBE 8 0 d = .ok (v, d1)) :
    ∃ x1 x2 x3 x4 x5 x6 x7 x8, d = x1 :: x2 :: x3 :: x4 :: x5 :: x6 :: x7 :: x8 :: d1 ∧
      v = [x1, x2, x3, x4, x5, x6, x7, x8].foldl (fun a b => a * 256 + b) 0 := by
  rcases d with _ | ⟨x1, _ | ⟨x2, _ | ⟨x3, _ | ⟨x4, _ | ⟨x5, _ | ⟨x6, _ | ⟨x7, _ | ⟨x8, r⟩⟩⟩⟩⟩⟩⟩⟩
  · simp [readBE] at h
  · simp [readBE] at h
  · simp [readBE] at h
  · simp [readBE] at h
  · simp [readBE] at h
  · simp [readBE] at h
  · simp [readBE] at h
  · simp [readBE] at h
  · simp only [readBE, Res.ok.injEq, Prod.mk.injEq] at h
    obtain ⟨h1, h2⟩ := h
    subst h2
    exact ⟨x1, x2, x3, x4, x5, x6, x7, x8, rfl, by simp only [List.foldl]; omega⟩

/-- The ten reads of the fixed header take the first 23 bytes of the buffer: byte 0, the
two bytes of the service area, of the service and of the operation, the area version, the
byte of the error flag, QoS level and session, the eight bytes of the transaction
identifier, the presence flags, the encoding identifier and the four bytes of the
variable length. -/
theorem header_bytes (buf d0 d1 d2 d3 d4 d5 d6 d7 d8 d9 : Body)
    (b0 sa sv op av b8 tid b17 enc vl : Nat)
    (h0 : Read buf = .ok (b0, d0)) (h2 : DecodeUShort d0 = .ok (sa, d1))
    (h3 : DecodeUShort d1 = .ok (sv, d2)) (h4 : DecodeUShort d2 = .ok (op, d3))
    (h5 : DecodeUOctet d3 = .ok (av, d4)) (h6 : Read d4 = .ok (b8, d5))
    (h9 : DecodeULong d5 = .ok (tid, d6)) (h10 : Read d6 = .ok (b17, d7))
    (h11 : DecodeUOctet d7 = .ok (enc, d8)) (h12 : ReadUInt32 d8 = .ok (vl, d9)) :
    ∃ b1 b2 b3 b4 b5 b6 b9 b10 b11 b12 b13 b14 b15 b16 b19 b20 b21 b22,
      buf = b0 :: b1 :: b2 :: b3 :: b4 :: b5 :: b6 :: av :: b8 :: b9 :: b10 :: b11 :: b12 ::
        b13 :: b14 :: b15 :: b16 :: b17 :: enc :: b19 :: b20 :: b21 :: b22 :: d9 ∧
      sa = b1 * 256 + b2 ∧ sv = b3 * 256 + b4 ∧ op = b5 * 256 + b6 ∧
      tid = [b9, b10, b11, b12, b13, b14, b15, b16].foldl (fun a b => a * 256 + b) 0 ∧
      vl = [b19, b20, b21, b22].foldl (fun a b => a * 256 + b) 0 := by
  have e0 := readBE_one_inv _ _ _ h0
  obtain ⟨b1, b2, e1, hsa⟩ := readBE_two_inv _ _ _ h2
  obtain ⟨b3, b4, e2, hsv⟩ := readBE_two_inv _ _ _ h3
  obtain ⟨b5, b6, e3, hop⟩ := readBE_two_inv _ _ _ h4
  have e4 := readBE_one_inv _ _ _ h5
  have e5 := readBE_one_inv _ _ _ h6
  obtain ⟨b9, b10, b11, b12, b13, b14, b15, b16, e6, htid⟩ := readBE_eight_inv _ _ _ h9
  have e7 := readBE_one_inv _ _ _ h10
  have e8 := readBE_one_inv _ _ _ h11
  obtain ⟨b19, b20, b21, b22, e9, hvl⟩ := readBE_four_inv _ _ _ h12
  refine ⟨b1, b2, b3, b4, b5, b6, b9, b10, b11, b12, b13, b14, b15, b16, b19, b20, b21, b22,
    ?_, hsa, hsv, hop, htid, hvl⟩
  rw [e0, e1, e2, e3, e4, e5, e6, e7, e8, e9]

theorem Res.bind_eq_panic {α β : Type} {x : Res α} {f : α → Res β}
    (h : (x >>= f) = .panic) : x = .panic ∨ ∃ v, x = .ok v ∧ f v = .panic := by
  cases x with
  | ok v => exact Or.inr ⟨v, rfl, h⟩
  | error e => cases h
  | panic => exact Or.inl rfl

theorem readBE_ne_panic (n : Nat) : ∀ (acc : Nat) (d : Body), readBE n acc d ≠ .panic := by
  induction n with
  | zero => intro acc d h; simp [readBE] at h
  | succ n ih =>
    intro acc d
    cases d with
    | nil => intro h; simp [readBE] at h
    | cons b rest => exact ih _ rest

theorem decodeSDU_ne_panic (sdu : Nat) : decodeSDU sdu ≠ .panic := by
  unfold decodeSDU
  split_ifs <;> simp

theorem QoSLevelFromOrdinalValue_ne_panic (v : Nat) : QoSLevelFromOrdinalValue v ≠ .panic := by
  unfold QoSLevelFromOrdinalValue
  split_ifs <;> simp

theorem SessionTypeFromOrdinalValue_ne_panic (v : Nat) :
    SessionTypeFromOrdinalValue v ≠ .panic := by
  unfold SessionTypeFromOrdinalValue
  split_ifs <;> simp

theorem decodeOptional_ne_panic {α : Type} (flag : Bool)
    (dec : Body → Except String (α × Body)) (dflt : α) (d : Body) :
    decodeOptional flag dec dflt d ≠ .panic := by
  unfold decodeOptional
  cases flag
  · simp
  · cases dec d <;> simp [Res.ofExcept]

/-- The source URI panics exactly when its presence flag is set and DecodeURI fails: the
pointer it returns is then nil and line 132 dereferences it. -/
theorem decodeSource_panic_iff (codec : LeafCodec) (t : TCPTransport) (peer : String)
    (flag : Bool) (d : Body) :
    decodeSource codec t peer flag d = .panic ↔ flag = true ∧ ∃ e, codec.DecodeURI d = .error e := by
  unfold decodeSource
  cases flag
  · simp
  · cases h : codec.DecodeURI d with
    | error e => simp
    | ok v =>
      obtain ⟨u, d1⟩ := v
      by_cases hp : HasPrefix u MALTCP = true <;> simp [hp]

/-- The destination URI panics exactly when its presence flag is set and DecodeURI fails
(line 150). -/
theorem decodeDestination_panic_iff (codec : LeafCodec) (t : TCPTransport) (flag : Bool)
    (d : Body) :
    decodeDestination codec t flag d = .panic ↔
      flag = true ∧ ∃ e, codec.DecodeURI d = .error e := by
  unfold decodeDestination
  cases flag
  · simp
  · cases h : codec.DecodeURI d with
    | error e => simp
    | ok v =>
      obtain ⟨u, d1⟩ := v
      by_cases hp : HasPrefix u MALTCP = true <;> simp [hp]

/-- A run of decode that panics has read the 23 bytes of the fixed header and panics in
the source URI or in the destination URI. Memory is taken as unbounded: the abort of the
Go run on a domain whose announced size cannot be allocated is not a panic of this
embedding. -/
theorem decode_panic_inv (codec : LeafCodec) (t : TCPTransport) (now : Nat) (buf : Body)
    (peer : String) (h : t.decode codec now buf peer = .panic) :
    ∃ b0 d0 sa d1 sv d2 op d3 av d4 b8 d5 tid d6 b17 d7 enc d8 vl d9,
      Read buf = .ok (b0, d0) ∧ DecodeUShort d0 = .ok (sa, d1) ∧
      DecodeUShort d1 = .ok (sv, d2) ∧ DecodeUShort d2 = .ok (op, d3) ∧
      DecodeUOctet d3 = .ok (av, d4) ∧ Read d4 = .ok (b8, d5) ∧
      DecodeULong d5 = .ok (tid, d6) ∧ Read d6 = .ok (b17, d7) ∧
      DecodeUOctet d7 = .ok (enc, d8) ∧ ReadUInt32 d8 = .ok (vl, d9) ∧
      (decodeSource codec t peer ((b17 / 128) % 2 == 1) d9 = .panic ∨
        ∃ uf d10, decodeSource codec t peer ((b17 / 128) % 2 == 1) d9 = .ok (uf, d10) ∧
          decodeDestination codec t ((b17 / 64) % 2 == 1) d10 = .panic) := by
  unfold TCPTransport.decode at h
  rcases Res.bind_eq_panic h with hp | ⟨⟨b0, d0⟩, h0, h⟩
  · exact absurd hp (readBE_ne_panic _ _ _)
  dsimp only at h
  by_cases hv : (b0 / 32) % 8 = t.version
  swap
  · rw [if_pos hv] at h
    cases h
  rw [if_neg (not_not.mpr hv)] at h
  rcases Res.bind_eq_panic h with hp | ⟨⟨it, st⟩, h1, h⟩
  · exact absurd hp (decodeSDU_ne_panic _)
  dsimp only at h
  rcases Res.bind_eq_panic h with hp | ⟨⟨sa, d1⟩, h2, h⟩
  · exact absurd hp (readBE_ne_panic _ _ _)
  dsimp only at h
  rcases Res.bind_eq_panic h with hp | ⟨⟨sv, d2⟩, h3, h⟩
  · exact absurd hp (readBE_ne_panic _ _ _)
  dsimp only at h
  rcases Res.bind_eq_panic h with hp | ⟨⟨op, d3⟩, h4, h⟩
  · exact absurd hp (readBE_ne_panic _ _ _)
  dsimp only at h
  rcases Res.bind_eq_panic h with hp | ⟨⟨av, d4⟩, h5, h⟩
  · exact absurd hp (readBE_ne_panic _ _ _)
  dsimp only at h
  rcases Res.bind_eq_panic h with hp | ⟨⟨b8, d5⟩, h6, h⟩
  · exact absurd hp (readBE_ne_panic _ _ _)
  dsimp only at h
  rcases Res.bind_eq_panic h with hp | ⟨qos, h7, h⟩
  · exact absurd hp (QoSLevelFromOrdinalValue_ne_panic _)
  rcases Res.bind_eq_panic h with hp | ⟨session, h8, h⟩
  · exact absurd hp (SessionTypeFromOrdinalValue_ne_panic _)
  rcases Res.bind_eq_panic h with hp | ⟨⟨tid, d6⟩, h9, h⟩
  · exact absurd hp (readBE_ne_panic _ _ _)
  dsimp only at h
  rcases Res.bind_eq_panic h with hp | ⟨⟨b17, d7⟩, h10, h⟩
  · exact absurd hp (readBE_ne_panic _ _ _)
  dsimp only at h
  rcases Res.bind_eq_panic h with hp | ⟨⟨enc, d8⟩, h11, h⟩
  · exact absurd hp (readBE_ne_panic _ _ _)
  dsimp only at h
  rcases Res.bind_eq_panic h with hp | ⟨⟨vl, d9⟩, h12, h⟩
  · exact absurd hp (readBE_ne_panic _ _ _)
  dsimp only at h
  refine ⟨b0, d0, sa, d1, sv, d2, op, d3, av, d4, b8, d5, tid, d6, b17, d7, enc, d8, vl, d9,
    h0, h2, h3, h4, h5, h6, h9, h10, h11, h12, ?_⟩
  rcases Res.bind_eq_panic h with hp | ⟨⟨uf, d10⟩, h13, h⟩
  · exact Or.inl hp
  dsimp only at h
  rcases Res.bind_eq_panic h with hp | ⟨⟨ut, d11⟩, h14, h⟩
  · exact Or.inr ⟨uf, d10, h13, hp⟩
  dsimp only at h
  rcases Res.bind_eq_panic h with hp | ⟨⟨pr, d12⟩, h15, h⟩
  · exact absurd hp (decodeOptional_ne_panic _ _ _ _)
  dsimp only at h
  rcases Res.bind_eq_panic h with hp | ⟨⟨ts, d13⟩, h16, h⟩
  · exact absurd hp (decodeOptional_ne_panic _ _ _ _)
  dsimp only at h
  rcases Res.bind_eq_panic h with hp | ⟨⟨nz, d14⟩, h17, h⟩
  · exact absurd hp (decodeOptional_ne_panic _ _ _ _)
  dsimp only at h
  rcases Res.bind_eq_panic h with hp | ⟨⟨sn, d15⟩, h18, h⟩
  · exact absurd hp (decodeOptional_ne_panic _ _ _ _)
  dsimp only at h
  rcases Res.bind_eq_panic h with hp | ⟨⟨dom, d16⟩, h19, h⟩
  · exact absurd hp (decodeOptional_ne_panic _ _ _ _)
  dsimp only at h
  rcases Res.bind_eq_panic h with hp | ⟨⟨auth, d17⟩, h20, h⟩
  · exact absurd hp (decodeOptional_ne_panic _ _ _ _)
  dsimp only at h
  cases h

/-- A buffer shorter than the fixed header of 23 bytes makes decode return an error. -/
theorem decode_short_error (codec : LeafCodec) (t : TCPTransport) (now : Nat) (buf : Body)
    (peer : String) (hlen : buf.length < 23) :
    ∃ e, t.decode codec now buf peer = .error e := by
  cases h : t.decode codec now buf peer with
  | error e => exact ⟨e, rfl⟩
  | ok m =>
    obtain ⟨b0, d0, it, st, sa, d1, hrest⟩ := decode_ok_inv codec t now buf peer m h
    obtain ⟨sv, d2, op, d3, av, d4, hrest⟩ := hrest
    obtain ⟨b8, d5, qos, session, tid, d6, hrest⟩ := hrest
    obtain ⟨b17, d7, enc, d8, vl, d9, hrest⟩ := hrest
    obtain ⟨uf, d10, ut, d11, pr, d12, hrest⟩ := hrest
    obtain ⟨ts, d13, nz, d14, sn, d15, hrest⟩ := hrest
    obtain ⟨dom, d16, auth, d17, h0, hv, hrest⟩ := hrest
    obtain ⟨h1, h2, h3, h4, h5, h6, hrest⟩ := hrest
    obtain ⟨h7, h8, h9, h10, h11, h12, hrest⟩ := hrest
    obtain ⟨h13, h14, h15, h16, h17, h18, hrest⟩ := hrest
    obtain ⟨h19, h20, hm⟩ := hrest
    obtain ⟨b1, b2, b3, b4, b5, b6, hrest⟩ :=
      header_bytes buf d0 d1 d2 d3 d4 d5 d6 d7 d8 d9 b0 sa sv op av b8 tid b17 enc vl h0 h2 h3
        h4 h5 h6 h9 h10 h11 h12
    obtain ⟨b9, b10, b11, b12, b13, b14, hrest⟩ := hrest
    obtain ⟨b15, b16, b19, b20, b21, b22, hrest⟩ := hrest
    obtain ⟨hb, hsa, hsv, hop, htid, hvl⟩ := hrest
    rw [hb] at hlen
    simp only [List.length_cons] at hlen
    omega
  | panic =>
    obtain ⟨b0, d0, sa, d1, sv, d2, hrest⟩ := decode_panic_inv codec t now buf peer h
    obtain ⟨op, d3, av, d4, b8, d5, hrest⟩ := hrest
    obtain ⟨tid, d6, b17, d7, enc, d8, hrest⟩ := hrest
    obtain ⟨vl, d9, h0, h2, h3, h4, hrest⟩ := hrest
    obtain ⟨h5, h6, h9, h10, h11, h12, hrest⟩ := hrest
    clear hrest
    obtain ⟨b1, b2, b3, b4, b5, b6, hrest⟩ :=
      header_bytes buf d0 d1 d2 d3 d4 d5 d6 d7 d8 d9 b0 sa sv op av b8 tid b17 enc vl h0 h2 h3
        h4 h5 h6 h9 h10 h11 h12
    obtain ⟨b9, b10, b11, b12, b13, b14, hrest⟩ := hrest
    obtain ⟨b15, b16, b19, b20, b21, b22, hrest⟩ := hrest
    obtain ⟨hb, hsa, hsv, hop, htid, hvl⟩ := hrest
    rw [hb] at hlen
    simp only [List.length_cons] at hlen
    omega

theorem decodeOptional_ok_iff {α : Type} (flag : Bool) (dec : Body → Except String (α × Body))
    (dflt : α) (d : Body) (v : α) (d1 : Body) :
    decodeOptional flag dec dflt d = .ok (v, d1) ↔ fieldRead flag dec dflt d v d1 := by
  unfold decodeOptional fieldRead
  cases flag
  · simp only [Bool.false_eq_true, if_false, Res.ok.injEq, Prod.mk.injEq]
    constructor
    · rintro ⟨h1, h2⟩
      exact ⟨h1.symm, h2.symm⟩
    · rintro ⟨h1, h2⟩
      exact ⟨h1.symm, h2.symm⟩
  · simp only [if_true]
    cases h : dec d with
    | error e => simp [Res.ofExcept]
    | ok r => simp [Res.ofExcept]

theorem decodeSource_ok_iff (codec : LeafCodec) (t : TCPTransport) (peer : String) (flag : Bool)
    (d : Body) (v : Option URI) (d1 : Body) :
    decodeSource codec t peer flag d = .ok (v, d1) ↔
      uriRead codec (MALTCP_URI ++ peer) flag t.sourceId d v d1 := by
  unfold decodeSource uriRead completeURI
  cases flag
  · simp only [Bool.false_eq_true, if_false, Res.ok.injEq, Prod.mk.injEq]
    constructor
    · rintro ⟨h1, h2⟩
      exact ⟨h1.symm, h2.symm⟩
    · rintro ⟨h1, h2⟩
      exact ⟨h1.symm, h2.symm⟩
  · simp only [if_true]
    cases h : codec.DecodeURI d with
    | error e => simp
    | ok r =>
      obtain ⟨u, d2⟩ := r
      by_cases hp : HasPrefix u MALTCP = true
      · simp only [hp, Bool.not_true, Bool.false_eq_true, if_false, Res.ok.injEq,
          Prod.mk.injEq, Except.ok.injEq, if_true]
        constructor
        · rintro ⟨h1, h2⟩
          exact ⟨u, ⟨rfl, h2⟩, by rw [if_pos hp]; exact h1.symm⟩
        · rintro ⟨f, ⟨h1, h2⟩, h3⟩
          subst h1
          rw [if_pos hp] at h3
          exact ⟨h3.symm, h2⟩
      · simp only [hp, Bool.not_false, if_true, Res.ok.injEq, Prod.mk.injEq, Except.ok.injEq,
          Bool.false_eq_true, if_false]
        constructor
        · rintro ⟨h1, h2⟩
          exact ⟨u, ⟨rfl, h2⟩, by rw [if_neg hp]; exact h1.symm⟩
        · rintro ⟨f, ⟨h1, h2⟩, h3⟩
          subst h1
          rw [if_neg hp] at h3
          exact ⟨h3.symm, h2⟩

theorem decodeDestination_ok_iff (codec : LeafCodec) (t : TCPTransport) (flag : Bool)
    (d : Body) (v : Option URI) (d1 : Body) :
    decodeDestination codec t flag d = .ok (v, d1) ↔
      uriRead codec t.uri flag t.destinationId d v d1 := by
  unfold decodeDestination uriRead completeURI
  cases flag
  · simp only [Bool.false_eq_true, if_false, Res.ok.injEq, Prod.mk.injEq]
    constructor
    · rintro ⟨h1, h2⟩
      exact ⟨h1.symm, h2.symm⟩
    · rintro ⟨h1, h2⟩
      exact ⟨h1.symm, h2.symm⟩
  · simp only [if_true]
    cases h : codec.DecodeURI d with
    | error e => simp
    | ok r =>
      obtain ⟨u, d2⟩ := r
      by_cases hp : HasPrefix u MALTCP = true
      · simp only [hp, Bool.not_true, Bool.false_eq_true, if_false, Res.ok.injEq,
          Prod.mk.injEq, Except.ok.injEq, if_true]
        constructor
        · rintro ⟨h1, h2⟩
          exact ⟨u, ⟨rfl, h2⟩, by rw [if_pos hp]; exact h1.symm⟩
        · rintro ⟨f, ⟨h1, h2⟩, h3⟩
          subst h1
          rw [if_pos hp] at h3
          exact ⟨h3.symm, h2⟩
      · simp only [hp, Bool.not_false, if_true, Res.ok.injEq, Prod.mk.injEq, Except.ok.injEq,
          Bool.false_eq_true, if_false]
        constructor
        · rintro ⟨h1, h2⟩
          exact ⟨u, ⟨rfl, h2⟩, by rw [if_neg hp]; exact h1.symm⟩
        · rintro ⟨f, ⟨h1, h2⟩, h3⟩
          subst h1
          rw [if_neg hp] at h3
          exact ⟨h3.symm, h2⟩

/-- What an accepted frame says of the fixed header and of the optional fields, in wire
order; `f` is byte 17 of the buffer. -/
theorem decode_ok_fields (codec : LeafCodec) (t : TCPTransport) (now : Nat) (buf : Body)
    (peer : String) (m : Message) (h : t.decode codec now buf peer = .ok m) :
    ∃ b0 b1 b2 b3 b4 b5 b6 b7 b8 b9 b10 b11 b12 b13 b14 b15 b16 f b18 b19 b20 b21 b22 rest,
      buf = b0 :: b1 :: b2 :: b3 :: b4 :: b5 :: b6 :: b7 :: b8 :: b9 :: b10 :: b11 :: b12 ::
        b13 :: b14 :: b15 :: b16 :: f :: b18 :: b19 :: b20 :: b21 :: b22 :: rest ∧
      (b0 / 32) % 8 = t.version ∧
      decodeSDU (b0 % 32) = .ok (m.InteractionType, m.InteractionStage) ∧
      m.ServiceArea = b1 * 256 + b2 ∧ m.Service = b3 * 256 + b4 ∧
      m.Operation = b5 * 256 + b6 ∧ m.AreaVersion = b7 ∧
      m.IsErrorMessage = ((b8 / 128) % 2 == 1) ∧ m.QoSLevel = (b8 / 16) % 8 ∧
      m.Session = b8 % 16 ∧
      m.TransactionId =
        [b9, b10, b11, b12, b13, b14, b15, b16].foldl (fun a b => a * 256 + b) 0 ∧
      m.EncodingId = b18 ∧
      ∃ d1 d2 d3 d4 d5 d6 d7,
        uriRead codec (MALTCP_URI ++ peer) ((f / 128) % 2 == 1) t.sourceId rest m.UriFrom d1 ∧
        uriRead codec t.uri ((f / 64) % 2 == 1) t.destinationId d1 m.UriTo d2 ∧
        fieldRead ((f / 32) % 2 == 1) codec.DecodeUInteger t.dfltPriority d2 m.Priority d3 ∧
        fieldRead ((f / 16) % 2 == 1) codec.DecodeTime now d3 m.Timestamp d4 ∧
        fieldRead ((f / 8) % 2 == 1) codec.DecodeIdentifier t.dfltNetworkZone d4
          m.NetworkZone d5 ∧
        fieldRead ((f / 4) % 2 == 1) codec.DecodeIdentifier t.dfltSessionName d5
          m.SessionName d6 ∧
        fieldRead ((f / 2) % 2 == 1) (DecodeIdentifierList codec) t.dfltDomain d6 m.Domain d7 ∧
        fieldRead (f % 2 == 1) codec.DecodeBlob t.dfltAuthenticationId d7 m.AuthenticationId
          m.Body := by
  obtain ⟨b0, d0, it, st, sa, d1, hrest⟩ := decode_ok_inv codec t now buf peer m h
  obtain ⟨sv, d2, op, d3, av, d4, hrest⟩ := hrest
  obtain ⟨b8, d5, qos, session, tid, d6, hrest⟩ := hrest
  obtain ⟨b17, d7, enc, d8, vl, d9, hrest⟩ := hrest
  obtain ⟨uf, d10, ut, d11, pr, d12, hrest⟩ := hrest
  obtain ⟨ts, d13, nz, d14, sn, d15, hrest⟩ := hrest
  obtain ⟨dom, d16, auth, d17, h0, hv, hrest⟩ := hrest
  obtain ⟨h1, h2, h3, h4, h5, h6, hrest⟩ := hrest
  obtain ⟨h7, h8, h9, h10, h11, h12, hrest⟩ := hrest
  obtain ⟨h13, h14, h15, h16, h17, h18, hrest⟩ := hrest
  obtain ⟨h19, h20, hm⟩ := hrest
  obtain ⟨b1, b2, b3, b4, b5, b6, hrest⟩ :=
    header_bytes buf d0 d1 d2 d3 d4 d5 d6 d7 d8 d9 b0 sa sv op av b8 tid b17 enc vl h0 h2 h3
      h4 h5 h6 h9 h10 h11 h12
  obtain ⟨b9, b10, b11, b12, b13, b14, hrest⟩ := hrest
  obtain ⟨b15, b16, b19, b20, b21, b22, hrest⟩ := hrest
  obtain ⟨hb, hsa, hsv, hop, htid, hvl⟩ := hrest
  have hq : qos = (b8 / 16) % 8 := by
    unfold QoSLevelFromOrdinalValue at h7
    split_ifs at h7
    · exact (Res.ok.inj h7).symm
  have hs : session = b8 % 16 := by
    unfold SessionTypeFromOrdinalValue at h8
    split_ifs at h8
    · exact (Res.ok.inj h8).symm
  subst hm
  refine ⟨b0, b1, b2, b3, b4, b5, b6, av, b8, b9, b10, b11, b12, b13, b14, b15, b16, b17, enc,
    b19, b20, b21, b22, d9, hb, hv, h1, hsa, hsv, hop, rfl, rfl, hq, hs, htid, rfl,
    d10, d11, d12, d13, d14, d15, d16, ?_⟩
  exact ⟨(decodeSource_ok_iff _ _ _ _ _ _ _).mp h13,
    (decodeDestination_ok_iff _ _ _ _ _ _).mp h14,
    (decodeOptional_ok_iff _ _ _ _ _ _).mp h15, (decodeOptional_ok_iff _ _ _ _ _ _).mp h16,
    (decodeOptional_ok_iff _ _ _ _ _ _).mp h17, (decodeOptional_ok_iff _ _ _ _ _ _).mp h18,
    (decodeOptional_ok_iff _ _ _ _ _ _).mp h19, (decodeOptional_ok_iff _ _ _ _ _ _).mp h20⟩

theorem decode_version_mismatch (codec : LeafCodec) (t : TCPTransport) (now : Nat) (b0 : Nat)
    (rest : Body) (peer : String) (h : (b0 / 32) % 8 ≠ t.version) :
    t.decode codec now (b0 :: rest) peer =
      .error "TCPTransport.decode, MAL/TCP Version incompatible" := by
  unfold TCPTransport.decode
  rw [Read_cons]
  simp only [Res.ok_bind]
  rw [if_pos h]

/-- C23. Fixed header layout. For every buffer that decode accepts, the buffer starts
with 23 bytes b0 .. b22 and the message returned has service_area = bytes 1-2, service =
bytes 3-4, operation = bytes 5-6 and transaction_id = bytes 9-16 read big-endian,
area_version = byte 7, is_error_message = bit 7 of byte 8, qos_level = bits 6..4 of byte
8, session = bits 3..0 of byte 8 and encoding_id = byte 18. decode rejects every buffer
whose byte 0 does not carry in its top three bits the version of the transport, which
TCPTransport.init sets to 1, and the empty buffer. -/
theorem decode_fixed_header_layout (codec : LeafCodec) (t : TCPTransport) (now : Nat)
    (buf : Body) (peer : String) :
    (∀ m, t.decode codec now buf peer = .ok m →
      ∃ b0 b1 b2 b3 b4 b5 b6 b7 b8 b9 b10 b11 b12 b13 b14 b15 b16 b17 b18 b19 b20 b21 b22 rest,
        buf = b0 :: b1 :: b2 :: b3 :: b4 :: b5 :: b6 :: b7 :: b8 :: b9 :: b10 :: b11 :: b12 ::
          b13 :: b14 :: b15 :: b16 :: b17 :: b18 :: b19 :: b20 :: b21 :: b22 :: rest ∧
        (b0 / 32) % 8 = t.version ∧
        m.ServiceArea = b1 * 256 + b2 ∧ m.Service = b3 * 256 + b4 ∧
        m.Operation = b5 * 256 + b6 ∧
        m.TransactionId =
          ((((((b9 * 256 + b10) * 256 + b11) * 256 + b12) * 256 + b13) * 256 + b14) * 256 +
            b15) * 256 + b16 ∧
        m.AreaVersion = b7 ∧ m.IsErrorMessage = ((b8 / 128) % 2 == 1) ∧
        m.QoSLevel = (b8 / 16) % 8 ∧ m.Session = b8 % 16 ∧ m.EncodingId = b18) ∧
      (∀ b0 rest, buf = b0 :: rest → (b0 / 32) % 8 ≠ t.version →
        t.decode codec now buf peer =
          .error "TCPTransport.decode, MAL/TCP Version incompatible") ∧
      (t.version = 1 → ∀ b0 rest, buf = b0 :: rest → (b0 / 32) % 8 ≠ 1 →
        ∃ e, t.decode codec now buf peer = .error e) ∧
      (buf = [] → ∃ e, t.decode codec now buf peer = .error e) := by
  refine ⟨?_, ?_, ?_, ?_⟩
  · intro m h
    obtain ⟨b0, b1, b2, b3, b4, b5, hrest⟩ := decode_ok_fields codec t now buf peer m h
    obtain ⟨b6, b7, b8, b9, b10, b11, hrest⟩ := hrest
    obtain ⟨b12, b13, b14, b15, b16, f, hrest⟩ := hrest
    obtain ⟨b18, b19, b20, b21, b22, rest, hrest⟩ := hrest
    obtain ⟨hb, hv, hsdu, hsa, hsv, hop, hrest⟩ := hrest
    obtain ⟨hav, herr, hq, hs, htid, henc, hrest⟩ := hrest
    obtain ⟨d1, d2, d3, d4, d5, d6, hrest⟩ := hrest
    obtain ⟨d7, r1, r2, r3, r4, r5, hrest⟩ := hrest
    obtain ⟨r6, r7, r8⟩ := hrest
    refine ⟨b0, b1, b2, b3, b4, b5, b6, b7, b8, b9, b10, b11, b12, b13, b14, b15, b16, f, b18,
      b19, b20, b21, b22, rest, hb, hv, hsa, hsv, hop, ?_, hav, herr, hq, hs, henc⟩
    rw [htid]
    simp only [List.foldl]
    omega
  · intro b0 rest hb hv
    rw [hb]
    exact decode_version_mismatch codec t now b0 rest peer hv
  · intro h1 b0 rest hb hv
    rw [hb]
    exact ⟨_, decode_version_mismatch codec t now b0 rest peer (by rw [h1]; exact hv)⟩
  · intro hb
    exact decode_short_error codec t now buf peer (by rw [hb]; decide)

/-- The optional fields of an accepted frame, from byte 17 and the bytes after the fixed
header. -/
theorem decode_ok_optional (codec : LeafCodec) (t : TCPTransport) (now : Nat)
    (buf : Body) (peer : String) (m : Message) (h : t.decode codec now buf peer = .ok m) :
    ∃ f d1 d2 d3 d4 d5 d6 d7,
      23 ≤ buf.length ∧ buf[17]? = some f ∧
      uriRead codec (MALTCP_URI ++ peer) ((f / 128) % 2 == 1) t.sourceId (buf.drop 23)
        m.UriFrom d1 ∧
      uriRead codec t.uri ((f / 64) % 2 == 1) t.destinationId d1 m.UriTo d2 ∧
      fieldRead ((f / 32) % 2 == 1) codec.DecodeUInteger t.dfltPriority d2 m.Priority d3 ∧
      fieldRead ((f / 16) % 2 == 1) codec.DecodeTime now d3 m.Timestamp d4 ∧
      fieldRead ((f / 8) % 2 == 1) codec.DecodeIdentifier t.dfltNetworkZone d4 m.NetworkZone
        d5 ∧
      fieldRead ((f / 4) % 2 == 1) codec.DecodeIdentifier t.dfltSessionName d5 m.SessionName
        d6 ∧
      fieldRead ((f / 2) % 2 == 1) (DecodeIdentifierList codec) t.dfltDomain d6 m.Domain d7 ∧
      fieldRead (f % 2 == 1) codec.DecodeBlob t.dfltAuthenticationId d7 m.AuthenticationId
        m.Body := by
  obtain ⟨b0, b1, b2, b3, b4, b5, hrest⟩ := decode_ok_fields codec t now buf peer m h
  obtain ⟨b6, b7, b8, b9, b10, b11, hrest⟩ := hrest
  obtain ⟨b12, b13, b14, b15, b16, f, hrest⟩ := hrest
  obtain ⟨b18, b19, b20, b21, b22, rest, hrest⟩ := hrest
  obtain ⟨hb, hv, hsdu, hsa, hsv, hop, hrest⟩ := hrest
  obtain ⟨hav, herr, hq, hs, htid, henc, hrest⟩ := hrest
  obtain ⟨d1, d2, d3, d4, d5, d6, hrest⟩ := hrest
  obtain ⟨d7, r1, r2, r3, r4, r5, hrest⟩ := hrest
  obtain ⟨r6, r7, r8⟩ := hrest
  refine ⟨f, d1, d2, d3, d4, d5, d6, d7, ?_, ?_, ?_, r2, r3, r4, r5, r6, r7, r8⟩
  · rw [hb]
    simp only [List.length_cons]
    omega
  · rw [hb]
    rfl
  · rw [hb]
    exact r1

/-- C24. Optional fields on decode. For every accepted frame, with `f` its byte 17 and
starting from the bytes that follow the 23 bytes of the fixed header, each of source
(bit 7), destination (bit 6), priority (bit 5), timestamp (bit 4), network zone (bit 3),
session name (bit 2), domain (bit 1) and authentication id (bit 0), in that order, is read
by its decoder from the bytes left by the field before when its bit is set, and when its
bit is clear consumes no byte and is the default of the transport (the value of TimeNow
for the timestamp). The bytes left after the last field are the body. -/
theorem decode_optional_fields (codec : LeafCodec) (t : TCPTransport) (now : Nat)
    (buf : Body) (peer : String) (m : Message) (h : t.decode codec now buf peer = .ok m) :
    ∃ f d1 d2 d3 d4 d5 d6 d7,
      23 ≤ buf.length ∧ buf[17]? = some f ∧
      uriRead codec (MALTCP_URI ++ peer) ((f / 128) % 2 == 1) t.sourceId (buf.drop 23)
        m.UriFrom d1 ∧
      uriRead codec t.uri ((f / 64) % 2 == 1) t.destinationId d1 m.UriTo d2 ∧
      fieldRead ((f / 32) % 2 == 1) codec.DecodeUInteger t.dfltPriority d2 m.Priority d3 ∧
      fieldRead ((f / 16) % 2 == 1) codec.DecodeTime now d3 m.Timestamp d4 ∧
      fieldRead ((f / 8) % 2 == 1) codec.DecodeIdentifier t.dfltNetworkZone d4 m.NetworkZone
        d5 ∧
      fieldRead ((f / 4) % 2 == 1) codec.DecodeIdentifier t.dfltSessionName d5 m.SessionName
        d6 ∧
      fieldRead ((f / 2) % 2 == 1) (DecodeIdentifierList codec) t.dfltDomain d6 m.Domain d7 ∧
      fieldRead (f % 2 == 1) codec.DecodeBlob t.dfltAuthenticationId d7 m.AuthenticationId
        m.Body :=
  decode_ok_optional codec t now buf peer m h

/-- Witness of `decode_optional_fields`: a frame whose presence flags are 64 + 32, the
destination "broker" and the priority 5, then the body 1, 2, 3. -/
theorem decode_optional_fields_witness :
    ∃ f d1 d2 d3 d4 d5 d6 d7,
      23 ≤ (sampleFrame 96 [6, 98, 114, 111, 107, 101, 114, 0, 0, 0, 5, 1, 2, 3]).length ∧
      (sampleFrame 96 [6, 98, 114, 111, 107, 101, 114, 0, 0, 0, 5, 1, 2, 3])[17]? = some f ∧
      uriRead sampleCodec (MALTCP_URI ++ "127.0.0.1:16002") ((f / 128) % 2 == 1)
        (referenceTransport "maltcp://127.0.0.1:16003").sourceId
        ((sampleFrame 96 [6, 98, 114, 111, 107, 101, 114, 0, 0, 0, 5, 1, 2, 3]).drop 23)
        none d1 ∧
      uriRead sampleCodec (referenceTransport "maltcp://127.0.0.1:16003").uri
        ((f / 64) % 2 == 1) (referenceTransport "maltcp://127.0.0.1:16003").destinationId d1
        (some "maltcp://127.0.0.1:16003/broker") d2 ∧
      fieldRead ((f / 32) % 2 == 1) sampleCodec.DecodeUInteger
        (referenceTransport "maltcp://127.0.0.1:16003").dfltPriority d2 5 d3 ∧
      fieldRead ((f / 16) % 2 == 1) sampleCodec.DecodeTime 7 d3 7 d4 ∧
      fieldRead ((f / 8) % 2 == 1) sampleCodec.DecodeIdentifier
        (referenceTransport "maltcp://127.0.0.1:16003").dfltNetworkZone d4 "" d5 ∧
      fieldRead ((f / 4) % 2 == 1) sampleCodec.DecodeIdentifier
        (referenceTransport "maltcp://127.0.0.1:16003").dfltSessionName d5 "" d6 ∧
      fieldRead ((f / 2) % 2 == 1) (DecodeIdentifierList sampleCodec)
        (referenceTransport "maltcp://127.0.0.1:16003").dfltDomain d6 [] d7 ∧
      fieldRead (f % 2 == 1) sampleCodec.DecodeBlob
        (referenceTransport "maltcp://127.0.0.1:16003").dfltAuthenticationId d7 [] [1, 2, 3] :=
  decode_optional_fields sampleCodec (referenceTransport "maltcp://127.0.0.1:16003") 7
    (sampleFrame 96 [6, 98, 114, 111, 107, 101, 114, 0, 0, 0, 5, 1, 2, 3]) "127.0.0.1:16002"
    { UriFrom := none, UriTo := some "maltcp://127.0.0.1:16003/broker",
      AuthenticationId := [], EncodingId := 0, Timestamp := 7, QoSLevel := 0, Priority := 5,
      Domain := [], NetworkZone := "", Session := 0, SessionName := "", InteractionType := 6,
      InteractionStage := 5, TransactionId := 1, ServiceArea := 200, Service := 1,
      Operation := 1, AreaVersion := 1, IsErrorMessage := false, Body := [1, 2, 3] }
    (by decide)

/-- The sample frame whose only optional field is the source URI "publisher", received
from the peer 127.0.0.1:16002. -/
theorem decode_bare_source :
    (referenceTransport "maltcp://127.0.0.1:16003").decode sampleCodec 7
        (sampleFrame 128 [9, 112, 117, 98, 108, 105, 115, 104, 101, 114, 1, 2, 3])
        "127.0.0.1:16002" =
      .ok { UriFrom := some "maltcp://127.0.0.1:16002/publisher", UriTo := none,
            AuthenticationId := [], EncodingId := 0, Timestamp := 7, QoSLevel := 0,
            Priority := 0, Domain := [], NetworkZone := "", Session := 0, SessionName := "",
            InteractionType := 6, InteractionStage := 5, TransactionId := 1,
            ServiceArea := 200, Service := 1, Operation := 1, AreaVersion := 1,
            IsErrorMessage := false, Body := [1, 2, 3] } := by
  decide

/-- C25. Optimized URI on receive. In every accepted frame whose source bit (bit 7 of
byte 17) is set, the source field read after the fixed header is returned unchanged when
it starts with the scheme name "maltcp", and is otherwise put after
maltcp://<peer>/; the destination field, when its bit (bit 6) is set, is returned
unchanged when it starts with the scheme name and is otherwise put after the URI of the
receiver and "/". A source field "publisher" received from the peer 127.0.0.1:16002 thus
gives the source URI "maltcp://127.0.0.1:16002/publisher". -/
theorem decode_completes_uris (codec : LeafCodec) (t : TCPTransport) (now : Nat)
    (buf : Body) (peer : String) (m : Message) (h : t.decode codec now buf peer = .ok m) :
    ∃ f d1, buf[17]? = some f ∧
      (((f / 128) % 2 == 1) = true →
        ∃ field, codec.DecodeURI (buf.drop 23) = .ok (field, d1) ∧
          m.UriFrom = some (if HasPrefix field "maltcp" then field
            else "maltcp://" ++ peer ++ "/" ++ field)) ∧
      (((f / 128) % 2 == 1) = false → d1 = buf.drop 23 ∧ m.UriFrom = t.sourceId) ∧
      (((f / 64) % 2 == 1) = true →
        ∃ field d2, codec.DecodeURI d1 = .ok (field, d2) ∧
          m.UriTo = some (if HasPrefix field "maltcp" then field
            else t.uri ++ "/" ++ field)) ∧
      (((f / 64) % 2 == 1) = false → m.UriTo = t.destinationId) := by
  obtain ⟨f, d1, d2, d3, d4, hrest⟩ := decode_ok_optional codec t now buf peer m h
  obtain ⟨d5, d6, d7, _, hf, r1, r2, _⟩ := hrest
  refine ⟨f, d1, hf, ?_, ?_, ?_, ?_⟩
  · intro hb
    unfold uriRead at r1
    rw [if_pos hb] at r1
    exact r1
  · intro hb
    unfold uriRead at r1
    rw [if_neg (by simp [hb])] at r1
    exact ⟨r1.2, r1.1⟩
  · intro hb
    unfold uriRead at r2
    rw [if_pos hb] at r2
    obtain ⟨field, h1, h2⟩ := r2
    exact ⟨field, d2, h1, h2⟩
  · intro hb
    unfold uriRead at r2
    rw [if_neg (by simp [hb])] at r2
    exact r2.1

/-- Witness of `decode_completes_uris`: the sample frame whose source field is
"publisher", received from the peer 127.0.0.1:16002 by the transport of the broker. -/
theorem decode_completes_uris_witness :
    ∃ f d1, (sampleFrame 128 [9, 112, 117, 98, 108, 105, 115, 104, 101, 114, 1, 2, 3])[17]? =
        some f ∧
      (((f / 128) % 2 == 1) = true →
        ∃ field, sampleCodec.DecodeURI
            ((sampleFrame 128 [9, 112, 117, 98, 108, 105, 115, 104, 101, 114, 1, 2, 3]).drop
              23) = .ok (field, d1) ∧
          some "maltcp://127.0.0.1:16002/publisher" =
            some (if HasPrefix field "maltcp" then field
              else "maltcp://" ++ "127.0.0.1:16002" ++ "/" ++ field)) ∧
      (((f / 128) % 2 == 1) = false →
        d1 = (sampleFrame 128 [9, 112, 117, 98, 108, 105, 115, 104, 101, 114, 1, 2, 3]).drop
            23 ∧
          some "maltcp://127.0.0.1:16002/publisher" =
            (referenceTransport "maltcp://127.0.0.1:16003").sourceId) ∧
      (((f / 64) % 2 == 1) = true →
        ∃ field d2, sampleCodec.DecodeURI d1 = .ok (field, d2) ∧
          none = some (if HasPrefix field "maltcp" then field
            else (referenceTransport "maltcp://127.0.0.1:16003").uri ++ "/" ++ field)) ∧
      (((f / 64) % 2 == 1) = false →
        none = (referenceTransport "maltcp://127.0.0.1:16003").destinationId) :=
  decode_completes_uris sampleCodec (referenceTransport "maltcp://127.0.0.1:16003") 7
    (sampleFrame 128 [9, 112, 117, 98, 108, 105, 115, 104, 101, 114, 1, 2, 3])
    "127.0.0.1:16002" _ decode_bare_source

/-- C25, counterexample. The sample frame whose source field is the bare path
"/publisher", received from the peer 127.0.0.1:16002: the source URI of the message is
"maltcp://127.0.0.1:16002//publisher", with two slashes, and not
"maltcp://127.0.0.1:16002/publisher". -/
theorem decode_slash_source_counterexample :
    ((referenceTransport "maltcp://127.0.0.1:16003").decode sampleCodec 7
        (sampleFrame 128 [10, 47, 112, 117, 98, 108, 105, 115, 104, 101, 114, 1, 2, 3])
        "127.0.0.1:16002" =
      .ok { UriFrom := some "maltcp://127.0.0.1:16002//publisher", UriTo := none,
            AuthenticationId := [], EncodingId := 0, Timestamp := 7, QoSLevel := 0,
            Priority := 0, Domain := [], NetworkZone := "", Session := 0, SessionName := "",
            InteractionType := 6, InteractionStage := 5, TransactionId := 1,
            ServiceArea := 200, Service := 1, Operation := 1, AreaVersion := 1,
            IsErrorMessage := false, Body := [1, 2, 3] }) ∧
      sampleCodec.DecodeURI [10, 47, 112, 117, 98, 108, 105, 115, 104, 101, 114, 1, 2, 3] =
        .ok ("/publisher", [1, 2, 3]) ∧
      ¬ ∃ m, (referenceTransport "maltcp://127.0.0.1:16003").decode sampleCodec 7
          (sampleFrame 128 [10, 47, 112, 117, 98, 108, 105, 115, 104, 101, 114, 1, 2, 3])
          "127.0.0.1:16002" = .ok m ∧
        m.UriFrom = some "maltcp://127.0.0.1:16002/publisher" := by
  have h1 : (referenceTransport "maltcp://127.0.0.1:16003").decode sampleCodec 7
        (sampleFrame 128 [10, 47, 112, 117, 98, 108, 105, 115, 104, 101, 114, 1, 2, 3])
        "127.0.0.1:16002" =
      .ok { UriFrom := some "maltcp://127.0.0.1:16002//publisher", UriTo := none,
            AuthenticationId := [], EncodingId := 0, Timestamp := 7, QoSLevel := 0,
            Priority := 0, Domain := [], NetworkZone := "", Session := 0, SessionName := "",
            InteractionType := 6, InteractionStage := 5, TransactionId := 1,
            ServiceArea := 200, Service := 1, Operation := 1, AreaVersion := 1,
            IsErrorMessage := false, Body := [1, 2, 3] } := by decide
  refine ⟨h1, rfl, ?_⟩
  rintro ⟨m, h2, h3⟩
  rw [h1] at h2
  have h4 := Res.ok.inj h2
  rw [← h4] at h3
  exact absurd h3 (by decide)

/-- C26. A frame that ends inside the source URI or inside the destination URI makes
decode panic instead of returning an error: the sample frames whose presence flags are
128 (source) and 64 (destination), followed by a URI field that announces ten bytes and
holds three. DecodeURI fails there, and the pointer it returns is dereferenced by the
Debugf call of line 132 (line 150 for the destination) before the error is tested. -/
theorem decode_truncated_uri_panics :
    sampleCodec.DecodeURI [10, 47, 112, 117] = .error "truncated" ∧
      (referenceTransport "maltcp://127.0.0.1:16003").decode sampleCodec 7
        (sampleFrame 128 [10, 47, 112, 117]) "127.0.0.1:16002" = .panic ∧
      (referenceTransport "maltcp://127.0.0.1:16003").decode sampleCodec 7
        (sampleFrame 64 [10, 47, 112, 117]) "127.0.0.1:16002" = .panic := by
  refine ⟨rfl, by decide, by decide⟩

/-- A frame that ends inside an optional field other than a URI makes decode return an
error: the sample frame whose presence flags are 32 (priority) followed by two bytes of
the four of the priority. -/
theorem decode_truncated_priority_error :
    (referenceTransport "maltcp://127.0.0.1:16003").decode sampleCodec 7
        (sampleFrame 32 [0, 0]) "127.0.0.1:16002" = .error "truncated" := by
  decide

/-! ## Framing on read -/

/-- A read loop on chunks that hold the bytes `data` needed to fill the buffer, followed
by `rest`: the buffer is filled with `data` and the connection keeps `rest`. -/
theorem readLoop_flatten (len : Nat) (chunks : List (List Nat)) :
    ∀ (filled data rest : List Nat), chunks.flatten = data ++ rest →
      filled.length + data.length = len →
      ∃ chunks1, readLoop len chunks filled = .ok (filled ++ data, chunks1) ∧
        chunks1.flatten = rest := by
  induction chunks with
  | nil =>
    intro filled data rest hf hl
    have h1 : data = [] ∧ rest = [] := by
      simpa using hf.symm
    obtain ⟨hd, hr⟩ := h1
    subst hd
    subst hr
    refine ⟨[], ?_, rfl⟩
    simp only [readLoop, List.length_nil, Nat.add_zero] at hl ⊢
    rw [if_pos (by omega)]
    simp
  | cons c cs ih =>
    intro filled data rest hf hl
    simp only [List.flatten_cons] at hf
    by_cases h1 : len ≤ filled.length
    · have hd : data = [] := List.length_eq_zero.mp (by omega)
      subst hd
      refine ⟨c :: cs, ?_, ?_⟩
      · simp only [readLoop, if_pos h1, List.append_nil]
      · simpa using hf
    · by_cases h2 : c.length ≤ len - filled.length
      · have hcl : c.length ≤ data.length := by omega
        have hc : c = data.take c.length := by
          have := congrArg (List.take c.length) hf
          rw [List.take_left, List.take_append_of_le_length hcl] at this
          exact this
        have hcs : cs.flatten = data.drop c.length ++ rest := by
          have := congrArg (List.drop c.length) hf
          rw [List.drop_left, List.drop_append_of_le_length hcl] at this
          exact this
        obtain ⟨chunks1, hr, hfl⟩ := ih (filled ++ c) (data.drop c.length) rest hcs
          (by simp only [List.length_append, List.length_drop]; omega)
        refine ⟨chunks1, ?_, hfl⟩
        simp only [readLoop, if_neg h1, if_pos h2]
        rw [hr, List.append_assoc]
        congr 3
        conv_rhs => rw [← List.take_append_drop c.length data, ← hc]
      · have hn : len - filled.length = data.length := by omega
        have hcl : data.length ≤ c.length := by omega
        have hd : data = c.take data.length := by
          have := congrArg (List.take data.length) hf
          rw [List.take_left, List.take_append_of_le_length hcl] at this
          exact this.symm
        have hrest : c.drop data.length ++ cs.flatten = rest := by
          have := congrArg (List.drop data.length) hf
          rw [List.drop_left, List.drop_append_of_le_length hcl] at this
          exact this
        refine ⟨c.drop data.length :: cs, ?_, ?_⟩
        · simp only [readLoop, if_neg h1]
          rw [if_neg h2, hn, ← hd]
        · simpa using hrest

/-- The frame read when the header announces a length that fits 32 bits with the 23 bytes
of the header. -/
theorem readFrame_fits (cnx : Conn) (hdr payload rest : List Nat)
    (hc : cnx.chunks.flatten = hdr ++ payload ++ rest) (hh : hdr.length = 23)
    (hvl : payload.length =
      read32 (hdr.getD 19 0) (hdr.getD 20 0) (hdr.getD 21 0) (hdr.getD 22 0))
    (hfit : 23 + payload.length < 2 ^ 32) :
    ∃ cnx1, readFrame cnx = .ok (hdr ++ payload, cnx1) ∧ cnx1.chunks.flatten = rest ∧
      cnx1.remoteAddr = cnx.remoteAddr := by
  obtain ⟨chunks1, h1, hf1⟩ := readLoop_flatten 23 cnx.chunks [] hdr (payload ++ rest)
    (by rw [hc, List.append_assoc]) (by simp [hh])
  have hlen : frameLength hdr = 23 + payload.length := by
    unfold frameLength FIXED_HEADER_LENGTH VARIABLE_LENGTH_OFFSET
    rw [← hvl]
    exact Nat.mod_eq_of_lt hfit
  have htake : hdr.take (23 + payload.length) = hdr := List.take_of_length_le (by omega)
  obtain ⟨chunks2, h2, hf2⟩ := readLoop_flatten (23 + payload.length) chunks1 hdr payload rest
    hf1 (by omega)
  refine ⟨{ cnx with chunks := chunks2 }, ?_, hf2, rfl⟩
  unfold readFrame
  simp only [FIXED_HEADER_LENGTH, h1, List.nil_append, hlen, htake, h2]

/-- The frame read when the announced length does not fit 32 bits with the 23 bytes of
the header: the sum wraps, the buffer holds fewer than 23 bytes, all of the header, and
no further byte is read. -/
theorem readFrame_wraps (cnx : Conn) (hdr rest : List Nat)
    (hc : cnx.chunks.flatten = hdr ++ rest) (hh : hdr.length = 23)
    (hbig : 2 ^ 32 ≤ 23 +
      read32 (hdr.getD 19 0) (hdr.getD 20 0) (hdr.getD 21 0) (hdr.getD 22 0)) :
    ∃ cnx1, readFrame cnx =
        .ok (hdr.take (23 + read32 (hdr.getD 19 0) (hdr.getD 20 0) (hdr.getD 21 0)
          (hdr.getD 22 0) - 2 ^ 32), cnx1) ∧
      cnx1.chunks.flatten = rest ∧
      23 + read32 (hdr.getD 19 0) (hdr.getD 20 0) (hdr.getD 21 0) (hdr.getD 22 0) - 2 ^ 32 <
        23 := by
  obtain ⟨chunks1, h1, hf1⟩ := readLoop_flatten 23 cnx.chunks [] hdr rest hc (by simp [hh])
  have hlt : read32 (hdr.getD 19 0) (hdr.getD 20 0) (hdr.getD 21 0) (hdr.getD 22 0) < 2 ^ 32 :=
    Nat.mod_lt _ (by norm_num)
  have hlen : frameLength hdr =
      23 + read32 (hdr.getD 19 0) (hdr.getD 20 0) (hdr.getD 21 0) (hdr.getD 22 0) - 2 ^ 32 := by
    show (23 + read32 (hdr.getD 19 0) (hdr.getD 20 0) (hdr.getD 21 0) (hdr.getD 22 0)) %
      2 ^ 32 = _
    omega
  have hsmall : 23 + read32 (hdr.getD 19 0) (hdr.getD 20 0) (hdr.getD 21 0) (hdr.getD 22 0) -
      2 ^ 32 < 23 := by omega
  obtain ⟨chunks2, h2, hf2⟩ := readLoop_flatten
    (23 + read32 (hdr.getD 19 0) (hdr.getD 20 0) (hdr.getD 21 0) (hdr.getD 22 0) - 2 ^ 32)
    chunks1 (hdr.take (23 + read32 (hdr.getD 19 0) (hdr.getD 20 0) (hdr.getD 21 0)
      (hdr.getD 22 0) - 2 ^ 32)) [] rest (by simpa using hf1)
    (by simp only [List.length_take, List.length_nil]; omega)
  refine ⟨{ cnx with chunks := chunks2 }, ?_, hf2, hsmall⟩
  unfold readFrame
  simp only [FIXED_HEADER_LENGTH, h1, List.nil_append, hlen, h2, List.append_nil]

/-- C27. Framing on read. For every connection that delivers, in chunks of any sizes, a
fixed header of 23 bytes whose variable length (the big-endian number of its bytes 19 to
22) added to 23 is below 2^32, followed by at least that many bytes: the buffer that
readMessage hands to decode has exactly 23 + variable_length bytes, starts with the 23
bytes of the header, and holds after them the variable_length bytes that follow on the
connection; exactly these bytes have been read from the connection. -/
theorem readFrame_framing (cnx : Conn) (hdr payload rest : List Nat)
    (hc : cnx.chunks.flatten = hdr ++ payload ++ rest) (hh : hdr.length = 23)
    (hvl : payload.length =
      read32 (hdr.getD 19 0) (hdr.getD 20 0) (hdr.getD 21 0) (hdr.getD 22 0))
    (hfit : 23 + payload.length < 2 ^ 32) :
    ∃ frame cnx1, readFrame cnx = .ok (frame, cnx1) ∧
      frame.length =
        23 + read32 (hdr.getD 19 0) (hdr.getD 20 0) (hdr.getD 21 0) (hdr.getD 22 0) ∧
      frame.take 23 = hdr ∧ frame.drop 23 = payload ∧ cnx1.chunks.flatten = rest := by
  obtain ⟨cnx1, h1, h2, _⟩ := readFrame_fits cnx hdr payload rest hc hh hvl hfit
  refine ⟨hdr ++ payload, cnx1, h1, ?_, ?_, ?_, h2⟩
  · rw [List.length_append, hh, hvl]
  · rw [← hh, List.take_left]
  · rw [← hh, List.drop_left]

/-- Witness of `readFrame_framing`: a header announcing three bytes, delivered in two
chunks, the second of which also holds the payload and the start of the next frame. -/
theorem readFrame_framing_witness :
    ∃ frame cnx1,
      readFrame
          { remoteAddr := "127.0.0.1:16002",
            chunks := [[48, 0, 200, 0, 1, 0, 1, 1, 0, 0],
              [0, 0, 0, 0, 0, 0, 1, 0, 0, 0, 0, 0, 3, 1, 2, 3, 48, 0]] } =
        .ok (frame, cnx1) ∧
      frame.length = 23 + read32 0 0 0 3 ∧
      frame.take 23 = [48, 0, 200, 0, 1, 0, 1, 1, 0, 0, 0, 0, 0, 0, 0, 0, 1, 0, 0, 0, 0, 0, 3] ∧
      frame.drop 23 = [1, 2, 3] ∧ cnx1.chunks.flatten = [48, 0] :=
  readFrame_framing
    { remoteAddr := "127.0.0.1:16002",
      chunks := [[48, 0, 200, 0, 1, 0, 1, 1, 0, 0],
        [0, 0, 0, 0, 0, 0, 1, 0, 0, 0, 0, 0, 3, 1, 2, 3, 48, 0]] }
    [48, 0, 200, 0, 1, 0, 1, 1, 0, 0, 0, 0, 0, 0, 0, 0, 1, 0, 0, 0, 0, 0, 3] [1, 2, 3] [48, 0]
    (by decide) (by decide) (by decide) (by decide)

/-- C27, counterexample. A header whose variable length is 2^32 - 1: the 32-bit sum
23 + variable_length wraps to 22, the buffer handed to decode has 22 bytes, not
23 + variable_length, it does not hold the whole header, and no byte after the header is
read. -/
theorem readFrame_wrap_counterexample :
    ∃ frame cnx1,
      readFrame
          { remoteAddr := "127.0.0.1:16002",
            chunks := [[48, 0, 200, 0, 1, 0, 1, 1, 0, 0, 0, 0, 0, 0, 0, 0, 1, 0, 0,
              255, 255, 255, 255], [1, 2, 3]] } = .ok (frame, cnx1) ∧
      frame.length = 22 ∧ frame.length ≠ 23 + read32 255 255 255 255 ∧
      cnx1.chunks = [[1, 2, 3]] :=
  ⟨_, _, rfl, by decide, by decide, by decide⟩

/-! ## The write pump -/

theorem mapDelete_mapSet {K V : Type} [DecidableEq K] (m : List (K × V)) (k : K) (v : V) :
    mapDelete (mapSet m k v) k = mapDelete m k := by
  unfold mapSet mapDelete
  rw [List.filter_append, List.filter_filter]
  simp

/-- A turn of the loop that starts with no message takes the next message of the channel
and goes on as a turn that holds it. -/
theorem handleOutStep_receive (env : PumpEnv) (s : PumpState) (m : Message)
    (rest : List Message) (hm : s.msg = none) (hch : s.ch = m :: rest) :
    handleOutStep env s =
      handleOutStep env
        { s with msg := some m, nbtry := 0, ch := rest, trace := s.trace ++ [.receive m] } := by
  unfold handleOutStep
  simp only [hm, hch]

/-- A turn of the loop that holds a message whose write succeeds. -/
theorem handleOutStep_write_ok (env : PumpEnv) (s : PumpState) (m : Message) (u : URI)
    (host : String) (hm : s.msg = some m) (hu : m.UriTo = some u)
    (hp : env.parseHost u = .ok host) (hd : ∀ n, env.dialOk n = true)
    (hw : env.writeOk s.writes = true) :
    ∃ s1, handleOutStep env s = some s1 ∧ s1.msg = none ∧ s1.ch = s.ch ∧
      s1.writes = s.writes + 1 ∧
      s1.trace = s.trace ++ attemptEvents host m (mapGet s.conns host) s.dials true := by
  unfold handleOutStep
  simp only [hm, hu, hp]
  cases hc : mapGet s.conns host with
  | some c =>
    refine ⟨_, rfl, ?_, ?_, ?_, ?_⟩ <;> simp [pumpWrite, hw, attemptEvents]
  | none =>
    simp only [hd, if_true]
    refine ⟨_, rfl, ?_, ?_, ?_, ?_⟩ <;> simp [pumpWrite, hw, attemptEvents]

/-- A turn of the loop that holds a message whose write fails: the connection is closed
and removed, and the message is kept while fewer than three writes have failed. -/
theorem handleOutStep_write_fails (env : PumpEnv) (s : PumpState) (m : Message) (u : URI)
    (host : String) (hm : s.msg = some m) (hu : m.UriTo = some u)
    (hp : env.parseHost u = .ok host) (hd : ∀ n, env.dialOk n = true)
    (hw : env.writeOk s.writes = false) :
    ∃ s1, handleOutStep env s = some s1 ∧
      s1.msg = (if (s.nbtry + 1) % 2 ^ 64 < 3 then some m else none) ∧
      s1.nbtry = (s.nbtry + 1) % 2 ^ 64 ∧ s1.ch = s.ch ∧ mapGet s1.conns host = none ∧
      s1.dials = (match mapGet s.conns host with
        | some _ => s.dials
        | none => s.dials + 1) ∧
      s1.writes = s.writes + 1 ∧
      s1.trace = s.trace ++ attemptEvents host m (mapGet s.conns host) s.dials false := by
  unfold handleOutStep
  simp only [hm, hu, hp]
  cases hc : mapGet s.conns host with
  | some c =>
    by_cases hn : (s.nbtry + 1) % 2 ^ 64 < 3
    · have hn2 : (s.nbtry + 1) % 18446744073709551616 < 3 := hn
      refine ⟨_, rfl, ?_, ?_, ?_, ?_, ?_, ?_, ?_⟩ <;>
        simp [pumpWrite, hw, attemptEvents, hn2, hm, mapGet_mapDelete_self, mapDelete_mapSet]
    · have hn2 : ¬ (s.nbtry + 1) % 18446744073709551616 < 3 := hn
      refine ⟨_, rfl, ?_, ?_, ?_, ?_, ?_, ?_, ?_⟩ <;>
        simp [pumpWrite, hw, attemptEvents, hn2, hm, mapGet_mapDelete_self, mapDelete_mapSet]
  | none =>
    simp only [hd, if_true]
    by_cases hn : (s.nbtry + 1) % 2 ^ 64 < 3
    · have hn2 : (s.nbtry + 1) % 18446744073709551616 < 3 := hn
      refine ⟨_, rfl, ?_, ?_, ?_, ?_, ?_, ?_, ?_⟩ <;>
        simp [pumpWrite, hw, attemptEvents, hn2, hm, mapGet_mapDelete_self, mapDelete_mapSet]
    · have hn2 : ¬ (s.nbtry + 1) % 18446744073709551616 < 3 := hn
      refine ⟨_, rfl, ?_, ?_, ?_, ?_, ?_, ?_, ?_⟩ <;>
        simp [pumpWrite, hw, attemptEvents, hn2, hm, mapGet_mapDelete_self, mapDelete_mapSet]

/-- The turns of the loop that hold one message, for write outcomes that are failures
up to the last one and end with a success or with the third failure in all: the message
is then dropped, and the events are those of the attempts. -/
theorem handleOutRun_holding (env : PumpEnv) (m : Message) (u : URI) (host : String)
    (hu : m.UriTo = some u) (hp : env.parseHost u = .ok host)
    (hd : ∀ n, env.dialOk n = true) :
    ∀ (os : List Bool) (s : PumpState), s.msg = some m → os ≠ [] →
      (∀ i, i + 1 < os.length → os.getD i true = false) →
      s.nbtry + os.length ≤ 3 →
      (os.getLast? = some true ∨ s.nbtry + os.length = 3) →
      (∀ i, i < os.length → env.writeOk (s.writes + i) = os.getD i true) →
      ∃ s1, handleOutRun env os.length s = some s1 ∧ s1.msg = none ∧ s1.ch = s.ch ∧
        s1.writes = s.writes + os.length ∧
        s1.trace = s.trace ++ attemptsTrace host m (mapGet s.conns host) s.dials os := by
  intro os
  induction os with
  | nil => intro s _ h; exact absurd rfl h
  | cons o rest ih =>
    intro s hm _ h2 h3 h4 hw
    have hw0 : env.writeOk s.writes = o := by
      have := hw 0 (by simp)
      simpa using this
    cases rest with
    | nil =>
      cases o with
      | true =>
        obtain ⟨s1, e1, e2, e3, e4, e5⟩ := handleOutStep_write_ok env s m u host hm hu hp hd hw0
        refine ⟨s1, ?_, e2, e3, e4, ?_⟩
        · simp only [List.length_singleton, handleOutRun, e1]
        · rw [e5]
          simp [attemptsTrace]
      | false =>
        obtain ⟨s1, e1, e2, e3, e4, e5, e6, e7, e8⟩ :=
          handleOutStep_write_fails env s m u host hm hu hp hd hw0
        have hn : s.nbtry + 1 = 3 := by
          rcases h4 with h4 | h4
          · simp at h4
          · simpa using h4
        refine ⟨s1, ?_, ?_, e4, e7, ?_⟩
        · simp only [List.length_singleton, handleOutRun, e1]
        · rw [e2, hn]
          simp
        · rw [e8]
          simp [attemptsTrace]
    | cons o2 rest2 =>
      have ho : o = false := by
        have := h2 0 (by simp)
        simpa using this
      subst ho
      obtain ⟨s1, e1, e2, e3, e4, e5, e6, e7, e8⟩ :=
        handleOutStep_write_fails env s m u host hm hu hp hd hw0
      simp only [List.length_cons] at h3 h4
      have hlt : (s.nbtry + 1) % 2 ^ 64 = s.nbtry + 1 := Nat.mod_eq_of_lt (by omega)
      have hm1 : s1.msg = some m := by
        rw [e2, hlt, if_pos (by omega)]
      obtain ⟨s2, f1, f2, f3, f4, f5⟩ := ih s1 hm1 (by simp)
        (by
          intro i hi
          have := h2 (i + 1) (by simp only [List.length_cons] at hi ⊢; omega)
          simpa using this)
        (by rw [e3, hlt]; simp only [List.length_cons]; omega)
        (by
          rcases h4 with h4 | h4
          · left
            simpa [List.getLast?_cons_cons] using h4
          · right
            rw [e3, hlt]
            simp only [List.length_cons]
            omega)
        (by
          intro i hi
          have := hw (i + 1) (by simp only [List.length_cons] at hi ⊢; omega)
          rw [e7, Nat.add_assoc, Nat.add_comm 1 i]
          simpa using this)
      refine ⟨s2, ?_, f2, by rw [f3, e4], ?_, ?_⟩
      · show handleOutRun env ((o2 :: rest2).length + 1) s = some s2
        simp only [handleOutRun, e1]
        exact f1
      · rw [f4, e7]
        simp only [List.length_cons]
        omega
      · rw [f5, e8, e5, e6, List.append_assoc]
        rfl

theorem attemptsTrace_writes (host : String) (m : Message) :
    ∀ (os : List Bool) (cached : Option Nat) (dials : Nat),
      (attemptsTrace host m cached dials os).filterMap writeOutcome =
        os.map (fun ok => (m, ok)) := by
  intro os
  induction os with
  | nil => intro cached dials; rfl
  | cons o rest ih =>
    intro cached dials
    simp only [attemptsTrace, List.filterMap_append, ih, List.map_cons]
    cases cached <;> cases o <;> simp [attemptEvents, writeOutcome]

/-- Bounded send retries when every dial succeeds. The pump takes a message from the
channel; its destination URI parses and every dial succeeds. If the writes of the message fail up to a
successful one, which is at most the third, or if the first three writes fail, then after
as many turns of the loop as there are writes the message has been given up (`msg` is
nil, so the next turn takes the next message of the channel), the writes made are exactly
these writes of that message, in order (a successful write is the last one, so the
message is written once; three failed writes are three attempts), and after each failed
write the connection is closed and removed, a new connection being dialled for the next
attempt. -/
theorem handleOut_bounded_retries (env : PumpEnv) (s : PumpState) (m : Message)
    (rest : List Message) (u : URI) (host : String) (os : List Bool)
    (hmsg : s.msg = none) (hch : s.ch = m :: rest) (hu : m.UriTo = some u)
    (hp : env.parseHost u = .ok host) (hd : ∀ n, env.dialOk n = true)
    (hos : boundedAttempts os)
    (hw : ∀ i, i < os.length → env.writeOk (s.writes + i) = os.getD i true) :
    ∃ s1, handleOutRun env os.length s = some s1 ∧ s1.msg = none ∧ s1.ch = rest ∧
      s1.writes = s.writes + os.length ∧
      s1.trace = s.trace ++ [.receive m] ++
        attemptsTrace host m (mapGet s.conns host) s.dials os ∧
      s1.trace.filterMap writeOutcome =
        s.trace.filterMap writeOutcome ++ os.map (fun ok => (m, ok)) ∧
      (∀ m2 rest2, rest = m2 :: rest2 →
        handleOutStep env s1 =
          handleOutStep env { s1 with msg := some m2, nbtry := 0, ch := rest2,
                                      trace := s1.trace ++ [.receive m2] }) := by
  have hne : os ≠ [] := by
    rcases hos with h | h | h | h <;> rw [h] <;> simp
  obtain ⟨s1, e1, e2, e3, e4, e5⟩ := handleOutRun_holding env m u host hu hp hd os
    { s with msg := some m, nbtry := 0, ch := rest, trace := s.trace ++ [.receive m] } rfl hne
    (by
      intro i hi
      rcases hos with h | h | h | h <;> subst h <;> simp only [List.length_cons,
        List.length_nil] at hi
      · omega
      · have : i = 0 := by omega
        subst this
        rfl
      · have : i = 0 ∨ i = 1 := by omega
        rcases this with h | h <;> subst h <;> rfl
      · have : i = 0 ∨ i = 1 := by omega
        rcases this with h | h <;> subst h <;> rfl)
    (by rcases hos with h | h | h | h <;> subst h <;> simp)
    (by rcases hos with h | h | h | h <;> subst h <;> simp)
    hw
  refine ⟨s1, ?_, e2, e3, e4, e5, ?_, ?_⟩
  rotate_left
  · rw [e5]
    simp only [List.filterMap_append, attemptsTrace_writes]
    simp [writeOutcome]
  · intro m2 rest2 hr
    exact handleOutStep_receive env s1 m2 rest2 e2 (by rw [e3]; exact hr)
  · obtain ⟨n, hn⟩ : ∃ n, os.length = n + 1 := by
      cases os with
      | nil => exact absurd rfl hne
      | cons o r => exact ⟨r.length, rfl⟩
    rw [hn] at e1 ⊢
    simp only [handleOutRun] at e1 ⊢
    rw [handleOutStep_receive env s m rest hmsg hch]
    exact e1

/-- Sample run of `handleOut_bounded_retries`: the pump starts with two messages for the
broker in the channel, every dial succeeds and the first three writes fail. -/
theorem handleOut_bounded_retries_witness :
    ∃ s1, handleOutRun (sampleEnv true [false, false, false]) [false, false, false].length
        (pumpStart [testPublish [1], testPublish [2]]) = some s1 ∧
      s1.msg = none ∧ s1.ch = [testPublish [2]] ∧
      s1.writes = (pumpStart [testPublish [1], testPublish [2]]).writes +
        [false, false, false].length ∧
      s1.trace = (pumpStart [testPublish [1], testPublish [2]]).trace ++
        [.receive (testPublish [1])] ++
        attemptsTrace "127.0.0.1:16003" (testPublish [1])
          (mapGet (pumpStart [testPublish [1], testPublish [2]]).conns "127.0.0.1:16003")
          (pumpStart [testPublish [1], testPublish [2]]).dials [false, false, false] ∧
      s1.trace.filterMap writeOutcome =
        (pumpStart [testPublish [1], testPublish [2]]).trace.filterMap writeOutcome ++
          [false, false, false].map (fun ok => (testPublish [1], ok)) ∧
      (∀ m2 rest2, [testPublish [2]] = m2 :: rest2 →
        handleOutStep (sampleEnv true [false, false, false]) s1 =
          handleOutStep (sampleEnv true [false, false, false])
            { s1 with msg := some m2, nbtry := 0, ch := rest2,
                      trace := s1.trace ++ [.receive m2] }) :=
  handleOut_bounded_retries (sampleEnv true [false, false, false])
    (pumpStart [testPublish [1], testPublish [2]]) (testPublish [1]) [testPublish [2]]
    "maltcp://127.0.0.1:16003/broker" "127.0.0.1:16003" [false, false, false] rfl rfl rfl rfl
    (fun _ => rfl) (Or.inr (Or.inr (Or.inr rfl)))
    (by
      intro i hi
      have : i = 0 ∨ i = 1 ∨ i = 2 := by
        simp only [List.length_cons, List.length_nil] at hi
        omega
      rcases this with h | h | h <;> subst h <;> rfl)

/-- The events of the sample run in which the three writes of the first message fail. -/
theorem handleOut_three_failures :
    (handleOutRun (sampleEnv true [false, false, false]) 3
        (pumpStart [testPublish [1], testPublish [2]])).map (fun s => s.trace) =
      some [.receive (testPublish [1]),
        .dial "127.0.0.1:16003" (some 0), .addConnection "127.0.0.1:16003" 0, .handleIn 0,
        .writeMessage 0 (testPublish [1]) false, .close 0, .delConnection "127.0.0.1:16003",
        .dial "127.0.0.1:16003" (some 1), .addConnection "127.0.0.1:16003" 1, .handleIn 1,
        .writeMessage 1 (testPublish [1]) false, .close 1, .delConnection "127.0.0.1:16003",
        .dial "127.0.0.1:16003" (some 2), .addConnection "127.0.0.1:16003" 2, .handleIn 2,
        .writeMessage 2 (testPublish [1]) false, .close 2,
        .delConnection "127.0.0.1:16003"] := by
  decide

/-- A turn of the loop that holds a message for a host without a cached connection, when
the dial fails: nothing changes but the count of dials and the trace. -/
theorem handleOutStep_dial_fails (env : PumpEnv) (s : PumpState) (m : Message) (u : URI)
    (host : String) (hm : s.msg = some m) (hu : m.UriTo = some u)
    (hp : env.parseHost u = .ok host) (hc : mapGet s.conns host = none)
    (hd : env.dialOk s.dials = false) :
    handleOutStep env s =
      some { s with dials := s.dials + 1, trace := s.trace ++ [.dial host none] } := by
  unfold handleOutStep
  simp only [hm, hu, hp, hc, hd, Bool.false_eq_true, if_false]

/-- While every dial fails, the pump holds the same message turn after turn: after `n`
turns it has made `n` dials and nothing else. -/
theorem handleOutRun_dial_fails (env : PumpEnv) (m : Message) (u : URI) (host : String)
    (hu : m.UriTo = some u) (hp : env.parseHost u = .ok host)
    (hd : ∀ n, env.dialOk n = false) :
    ∀ (n : Nat) (s : PumpState), s.msg = some m → mapGet s.conns host = none →
      handleOutRun env n s =
        some { s with dials := s.dials + n,
                      trace := s.trace ++ List.replicate n (.dial host none) } := by
  intro n
  induction n with
  | zero => intro s _ _; simp [handleOutRun]
  | succ n ih =>
    intro s hm hc
    simp only [handleOutRun, handleOutStep_dial_fails env s m u host hm hu hp hc (hd _)]
    rw [ih { s with dials := s.dials + 1, trace := s.trace ++ [.dial host none] } hm hc]
    simp only [List.replicate_succ, List.append_assoc, List.singleton_append, Option.some.injEq]
    congr 1
    omega

/-- C29. A message for a destination without a cached connection, when every dial fails,
is never discarded: the sample pump, started with a message for the broker and another
one behind it in the channel, after any number n + 1 of turns of the loop still holds
the first message with `nbtry = 0`, has made n + 1 dials and no write, and has not taken
the second message. -/
theorem handleOut_dial_failure_unbounded (n : Nat) :
    handleOutRun (sampleEnv false []) (n + 1) (pumpStart [testPublish [1], testPublish [2]]) =
      some { msg := some (testPublish [1]), nbtry := 0, ch := [testPublish [2]], conns := [],
             dials := n + 1, writes := 0,
             trace := .receive (testPublish [1]) ::
               List.replicate (n + 1) (.dial "127.0.0.1:16003" none) } := by
  have h1 : handleOutRun (sampleEnv false []) (n + 1)
      (pumpStart [testPublish [1], testPublish [2]]) =
      handleOutRun (sampleEnv false []) (n + 1)
        { msg := some (testPublish [1]), nbtry := 0, ch := [testPublish [2]], conns := [],
          dials := 0, writes := 0, trace := [.receive (testPublish [1])] } := by
    simp only [handleOutRun]
    rw [handleOutStep_receive (sampleEnv false [])
      (pumpStart [testPublish [1], testPublish [2]]) (testPublish [1]) [testPublish [2]] rfl
      rfl]
    rfl
  rw [h1, handleOutRun_dial_fails (sampleEnv false []) (testPublish [1])
    "maltcp://127.0.0.1:16003/broker" "127.0.0.1:16003" rfl rfl (fun _ => rfl) (n + 1)
    { msg := some (testPublish [1]), nbtry := 0, ch := [testPublish [2]], conns := [],
      dials := 0, writes := 0, trace := [.receive (testPublish [1])] } rfl rfl]
  simp

/-! ## The write pump: a failed dial after a failed write -/

/-- A turn of the loop that holds a message for a host without a cached connection, when
the dial succeeds and the first write of the message fails: the connection made is closed
and removed, and the message is kept with `nbtry = 1`. -/
theorem handleOutStep_dial_write_fails (env : PumpEnv) (s : PumpState) (m : Message) (u : URI)
    (host : String) (hm : s.msg = some m) (hn : s.nbtry = 0) (hu : m.UriTo = some u)
    (hp : env.parseHost u = .ok host) (hc : mapGet s.conns host = none)
    (hd : env.dialOk s.dials = true) (hw : env.writeOk s.writes = false) :
    handleOutStep env s =
      some { s with nbtry := 1, dials := s.dials + 1, writes := s.writes + 1,
                    trace := s.trace ++ attemptEvents host m none s.dials false } := by
  unfold handleOutStep
  simp only [hm, hu, hp, hc, hd, if_true]
  simp [pumpWrite, hw, hn, attemptEvents, mapDelete_mapSet, mapDelete_of_absent _ _ hc]

/-- While the dials fail from the next one on, the pump holds the same message turn after
turn: after `n` turns it has made `n` dials and nothing else. -/
theorem handleOutRun_dial_fails_from (env : PumpEnv) (m : Message) (u : URI) (host : String)
    (hu : m.UriTo = some u) (hp : env.parseHost u = .ok host) :
    ∀ (n : Nat) (s : PumpState), s.msg = some m → mapGet s.conns host = none →
      (∀ i, s.dials ≤ i → env.dialOk i = false) →
      handleOutRun env n s =
        some { s with dials := s.dials + n,
                      trace := s.trace ++ List.replicate n (.dial host none) } := by
  intro n
  induction n with
  | zero => intro s _ _ _; simp [handleOutRun]
  | succ n ih =>
    intro s hm hc hd
    simp only [handleOutRun,
      handleOutStep_dial_fails env s m u host hm hu hp hc (hd _ (le_refl _))]
    rw [ih { s with dials := s.dials + 1, trace := s.trace ++ [.dial host none] } hm hc
      (fun i hi => hd i (by simp only at hi; omega))]
    simp only [List.replicate_succ, List.append_assoc, List.singleton_append, Option.some.injEq]
    congr 1
    omega

/-- C28. Send retries are not bounded when a new dial fails. The pump takes a message
from the channel for a host without a cached connection; its destination URI parses, the
dial succeeds and the write fails, so the connection is closed and removed and the
message is kept with `nbtry = 1`. If the dials fail from then on, the pump never writes
the message again and never gives it up: after any number k + 1 of turns of the loop it
still holds the message, has written it once, has made k failed dials, and has not taken
the next message of the channel. -/
theorem handleOut_failed_redial_holds_message (env : PumpEnv) (s : PumpState) (m : Message)
    (rest : List Message) (u : URI) (host : String)
    (hmsg : s.msg = none) (hch : s.ch = m :: rest) (hu : m.UriTo = some u)
    (hp : env.parseHost u = .ok host) (hc : mapGet s.conns host = none)
    (hd0 : env.dialOk s.dials = true) (hw : env.writeOk s.writes = false)
    (hd : ∀ i, s.dials < i → env.dialOk i = false) (k : Nat) :
    handleOutRun env (k + 1) s =
        some { msg := some m, nbtry := 1, ch := rest, conns := s.conns,
               dials := s.dials + 1 + k, writes := s.writes + 1,
               trace := s.trace ++ [PumpEvent.receive m] ++
                 attemptEvents host m none s.dials false ++
                 List.replicate k (PumpEvent.dial host none) } ∧
      (s.trace ++ [PumpEvent.receive m] ++ attemptEvents host m none s.dials false ++
          List.replicate k (PumpEvent.dial host none)).filterMap writeOutcome =
        s.trace.filterMap writeOutcome ++ [(m, false)] := by
  constructor
  · simp only [handleOutRun]
    rw [handleOutStep_receive env s m rest hmsg hch,
      handleOutStep_dial_write_fails env
        { s with msg := some m, nbtry := 0, ch := rest, trace := s.trace ++ [.receive m] }
        m u host rfl rfl hu hp hc hd0 hw]
    simp only
    rw [handleOutRun_dial_fails_from env m u host hu hp k
      { msg := some m, nbtry := 1, ch := rest, conns := s.conns, dials := s.dials + 1,
        writes := s.writes + 1,
        trace := s.trace ++ [.receive m] ++ attemptEvents host m none s.dials false }
      rfl hc (fun i hi => hd i (by simp only at hi; omega))]
  · simp only [List.filterMap_append, attemptEvents, List.nil_append]
    have hrep : (List.replicate k (PumpEvent.dial host none)).filterMap writeOutcome = [] := by
      induction k with
      | zero => rfl
      | succ k ih => simp [List.replicate_succ, writeOutcome, ih]
    rw [hrep]
    simp [writeOutcome]

/-- Witness of `handleOut_failed_redial_holds_message`: the pump starts with two messages
for the broker in the channel; the first dial succeeds, the write fails, and the peer
cannot be dialled again. After eight turns the first message has been written once and is
still held, and the second message is still in the channel. -/
theorem handleOut_failed_redial_holds_message_witness :
    handleOutRun lostPeerEnv (7 + 1) (pumpStart [testPublish [1], testPublish [2]]) =
        some { msg := some (testPublish [1]), nbtry := 1, ch := [testPublish [2]],
               conns := (pumpStart [testPublish [1], testPublish [2]]).conns,
               dials := (pumpStart [testPublish [1], testPublish [2]]).dials + 1 + 7,
               writes := (pumpStart [testPublish [1], testPublish [2]]).writes + 1,
               trace := (pumpStart [testPublish [1], testPublish [2]]).trace ++
                 [PumpEvent.receive (testPublish [1])] ++
                 attemptEvents "127.0.0.1:16003" (testPublish [1]) none
                   (pumpStart [testPublish [1], testPublish [2]]).dials false ++
                 List.replicate 7 (PumpEvent.dial "127.0.0.1:16003" none) } ∧
      ((pumpStart [testPublish [1], testPublish [2]]).trace ++
          [PumpEvent.receive (testPublish [1])] ++
          attemptEvents "127.0.0.1:16003" (testPublish [1]) none
            (pumpStart [testPublish [1], testPublish [2]]).dials false ++
          List.replicate 7 (PumpEvent.dial "127.0.0.1:16003" none)).filterMap writeOutcome =
        (pumpStart [testPublish [1], testPublish [2]]).trace.filterMap writeOutcome ++
          [(testPublish [1], false)] :=
  handleOut_failed_redial_holds_message lostPeerEnv
    (pumpStart [testPublish [1], testPublish [2]]) (testPublish [1]) [testPublish [2]]
    "maltcp://127.0.0.1:16003/broker" "127.0.0.1:16003" rfl rfl rfl rfl rfl rfl rfl
    (fun i hi => by
      have : i ≠ 0 := by
        have h0 : (pumpStart [testPublish [1], testPublish [2]]).dials = 0 := rfl
        omega
      simp [lostPeerEnv, this]) 7

/-- The events of the sample run in which the peer cannot be dialled again after the
first failed write: one write, then failed dials. -/
theorem handleOut_lost_peer_trace :
    (handleOutRun lostPeerEnv 4
        (pumpStart [testPublish [1], testPublish [2]])).map (fun s => (s.msg, s.ch, s.trace)) =
      some (some (testPublish [1]), [testPublish [2]],
        [.receive (testPublish [1]),
          .dial "127.0.0.1:16003" (some 0), .addConnection "127.0.0.1:16003" 0, .handleIn 0,
          .writeMessage 0 (testPublish [1]) false, .close 0, .delConnection "127.0.0.1:16003",
          .dial "127.0.0.1:16003" none, .dial "127.0.0.1:16003" none,
          .dial "127.0.0.1:16003" none]) := by
  decide

/-! ## Entity keys: specific values and wildcards -/

theorem subKeyMatch_specific_null {α : Type} [DecidableEq α] (wildcard v : α)
    (hv : v ≠ wildcard) : subKeyMatch wildcard (some v) none = none := by
  simp [subKeyMatch, hv]

theorem subKeyMatch_specific {α : Type} [DecidableEq α] (wildcard v kv : α)
    (hv : v ≠ wildcard) : subKeyMatch wildcard (some v) (some kv) = some (decide (v = kv)) := by
  by_cases h : v = kv <;> simp [subKeyMatch, hv, h]

theorem subKeyMatch_true_of_specific {α : Type} [DecidableEq α] (wildcard v : α)
    (k : Option α) (hv : v ≠ wildcard) (h : subKeyMatch wildcard (some v) k = some true) :
    k = some v := by
  cases k with
  | none => rw [subKeyMatch_specific_null wildcard v hv] at h; cases h
  | some kv =>
    rw [subKeyMatch_specific wildcard v kv hv] at h
    simp only [Option.some.injEq, decide_eq_true_eq] at h
    rw [h]

theorem subKeyMatch_wildcard {α : Type} [DecidableEq α] (wildcard : α) (k : Option α) :
    subKeyMatch wildcard (some wildcard) k = some true := by
  simp [subKeyMatch]

/-- C31. The specific-value rule of EntityKey.Match. When Match returns true, each
sub-key of the update key that faces a specific value of the request key holds the same
value. But Match does not return false when such a sub-key of the update key is NULL: it
dereferences the nil pointer and panics, at the first sub-key, and at each other sub-key
once the sub-keys before it have matched. -/
theorem Match_specific_value_null_panics (rkey key : EntityKey) :
    (rkey.Match key = some true →
        (∀ v, rkey.FirstSubKey = some v → v ≠ "*" → key.FirstSubKey = some v) ∧
        (∀ v, rkey.SecondSubKey = some v → v ≠ 0 → key.SecondSubKey = some v) ∧
        (∀ v, rkey.ThirdSubKey = some v → v ≠ 0 → key.ThirdSubKey = some v) ∧
        (∀ v, rkey.FourthSubKey = some v → v ≠ 0 → key.FourthSubKey = some v)) ∧
      (∀ v, rkey.FirstSubKey = some v → v ≠ "*" → key.FirstSubKey = none →
        rkey.Match key = none) ∧
      (∀ v, rkey.SecondSubKey = some v → v ≠ 0 → key.SecondSubKey = none →
        subKeyMatch "*" rkey.FirstSubKey key.FirstSubKey = some true →
        rkey.Match key = none) ∧
      (∀ v, rkey.ThirdSubKey = some v → v ≠ 0 → key.ThirdSubKey = none →
        subKeyMatch "*" rkey.FirstSubKey key.FirstSubKey = some true →
        subKeyMatch 0 rkey.SecondSubKey key.SecondSubKey = some true →
        rkey.Match key = none) ∧
      (∀ v, rkey.FourthSubKey = some v → v ≠ 0 → key.FourthSubKey = none →
        subKeyMatch "*" rkey.FirstSubKey key.FirstSubKey = some true →
        subKeyMatch 0 rkey.SecondSubKey key.SecondSubKey = some true →
        subKeyMatch 0 rkey.ThirdSubKey key.ThirdSubKey = some true →
        rkey.Match key = none) := by
  refine ⟨?_, ?_, ?_, ?_, ?_⟩
  · intro h
    obtain ⟨h1, h2, h3, h4⟩ := (Match_true_iff rkey key).mp h
    refine ⟨?_, ?_, ?_, ?_⟩
    · intro v hr hv; rw [hr] at h1; exact subKeyMatch_true_of_specific _ v _ hv h1
    · intro v hr hv; rw [hr] at h2; exact subKeyMatch_true_of_specific _ v _ hv h2
    · intro v hr hv; rw [hr] at h3; exact subKeyMatch_true_of_specific _ v _ hv h3
    · intro v hr hv; rw [hr] at h4; exact subKeyMatch_true_of_specific _ v _ hv h4
  · intro v hr hv hk
    unfold EntityKey.Match
    rw [hr, hk, subKeyMatch_specific_null _ v hv]
  · intro v hr hv hk h1
    unfold EntityKey.Match
    rw [h1, hr, hk, subKeyMatch_specific_null _ v hv]
  · intro v hr hv hk h1 h2
    unfold EntityKey.Match
    rw [h1, h2, hr, hk, subKeyMatch_specific_null _ v hv]
  · intro v hr hv hk h1 h2 h3
    unfold EntityKey.Match
    rw [h1, h2, h3, hr, hk, subKeyMatch_specific_null _ v hv]

/-- The request key `(key1, 0, 0, 0)` of broker_test.go against an update key whose first
sub-key is NULL: Match panics. -/
theorem Match_key1_null_update_panics :
    (mkKey "key1" 0 0 0).Match nullKey = none ∧
      (mkKey "key1" 0 0 0).Match { mkKey "key1" 0 0 0 with FirstSubKey := none } = none ∧
      (mkKey "*" 5 0 0).Match { mkKey "key1" 0 0 0 with SecondSubKey := none } = none := by
  decide

theorem subKeyMatch_nonnull {α : Type} [DecidableEq α] (wildcard r k : α) :
    subKeyMatch wildcard (some r) (some k) = some (decide (r = wildcard ∨ r = k)) := by
  by_cases a : r = wildcard <;> by_cases b : r = k <;> simp [subKeyMatch, a, b]

/-- On an update key without a NULL sub-key, Match never panics and decides the sub-key
rule. -/
theorem Match_nonnull_update (r1 : Identifier) (r2 r3 r4 : Long) (k1 : Identifier)
    (k2 k3 k4 : Long) :
    (mkKey r1 r2 r3 r4).Match (mkKey k1 k2 k3 k4) =
      some (decide ((r1 = "*" ∨ r1 = k1) ∧ (r2 = 0 ∨ r2 = k2) ∧ (r3 = 0 ∨ r3 = k3) ∧
        (r4 = 0 ∨ r4 = k4))) := by
  unfold EntityKey.Match mkKey
  simp only [subKeyMatch_nonnull]
  by_cases a1 : r1 = "*" ∨ r1 = k1 <;> by_cases a2 : r2 = 0 ∨ r2 = k2 <;>
    by_cases a3 : r3 = 0 ∨ r3 = k3 <;> by_cases a4 : r4 = 0 ∨ r4 = k4 <;>
    simp [a1, a2, a3, a4]

/-- C32. The wildcard rule of EntityKey.Match. The request key `("*", 0, 0, 0)` matches
every update key, NULL sub-keys included, without a panic; and when Match returns true
for a request key, it still returns true after any of the sub-keys of the request key
are replaced by their wildcards ("*" for the first, 0 for the others). -/
theorem Match_wildcard_rule (rkey key : EntityKey) :
    wildcardKey.Match key = some true ∧
      (rkey.Match key = some true →
        ∀ w1 w2 w3 w4, (withWildcards w1 w2 w3 w4 rkey).Match key = some true) := by
  constructor
  · rw [Match_true_iff]
    exact ⟨subKeyMatch_wildcard _ _, subKeyMatch_wildcard _ _, subKeyMatch_wildcard _ _,
      subKeyMatch_wildcard _ _⟩
  · intro h w1 w2 w3 w4
    obtain ⟨h1, h2, h3, h4⟩ := (Match_true_iff rkey key).mp h
    rw [Match_true_iff]
    refine ⟨?_, ?_, ?_, ?_⟩
    · cases w1
      · exact h1
      · exact subKeyMatch_wildcard _ _
    · cases w2
      · exact h2
      · exact subKeyMatch_wildcard _ _
    · cases w3
      · exact h3
      · exact subKeyMatch_wildcard _ _
    · cases w4
      · exact h4
      · exact subKeyMatch_wildcard _ _

/-- A wildcard in the request key also turns a panic or a false result into a match of
that sub-key: the request key `("*", 0, 0, 0)` matches the key whose sub-keys are all
NULL, which the request key `(key1, 0, 0, 0)` cannot be matched against. -/
theorem Match_wildcard_null_update :
    wildcardKey.Match nullKey = some true ∧ (mkKey "key1" 0 0 0).Match nullKey = none := by
  decide

/-! ## Nullable encoding -/

/-- C33. Nullable encoding. For every implementation of the Encoder interface and each of
the eighteen attribute types with a method GenEncoder.EncodeNullableX (Boolean, Float,
Double, Octet, UOctet, Short, UShort, Integer, UInteger, Long, ULong, String, Blob,
Identifier, Duration, Time, FineTime, URI), the method follows the nullable rule: on a null
value it is the call of EncodeNull alone; on a value that is not null it calls
EncodeNotNull, returns its error without encoding the value when it fails, and is
otherwise the call of EncodeX on the value, in the state left by EncodeNotNull. -/
theorem EncodeNullable_rule {σ : Type} (encoder : Encoder σ) :
    NullableRule encoder.EncodeNull encoder.EncodeNotNull encoder.EncodeBoolean
        (GenEncoder.EncodeNullableBoolean encoder) ∧
      NullableRule encoder.EncodeNull encoder.EncodeNotNull encoder.EncodeFloat
        (GenEncoder.EncodeNullableFloat encoder) ∧
      NullableRule encoder.EncodeNull encoder.EncodeNotNull encoder.EncodeDouble
        (GenEncoder.EncodeNullableDouble encoder) ∧
      NullableRule encoder.EncodeNull encoder.EncodeNotNull encoder.EncodeOctet
        (GenEncoder.EncodeNullableOctet encoder) ∧
      NullableRule encoder.EncodeNull encoder.EncodeNotNull encoder.EncodeUOctet
        (GenEncoder.EncodeNullableUOctet encoder) ∧
      NullableRule encoder.EncodeNull encoder.EncodeNotNull encoder.EncodeShort
        (GenEncoder.EncodeNullableShort encoder) ∧
      NullableRule encoder.EncodeNull encoder.EncodeNotNull encoder.EncodeUShort
        (GenEncoder.EncodeNullableUShort encoder) ∧
      NullableRule encoder.EncodeNull encoder.EncodeNotNull encoder.EncodeInteger
        (GenEncoder.EncodeNullableInteger encoder) ∧
      NullableRule encoder.EncodeNull encoder.EncodeNotNull encoder.EncodeUInteger
        (GenEncoder.EncodeNullableUInteger encoder) ∧
      NullableRule encoder.EncodeNull encoder.EncodeNotNull encoder.EncodeLong
        (GenEncoder.EncodeNullableLong encoder) ∧
      NullableRule encoder.EncodeNull encoder.EncodeNotNull encoder.EncodeULong
        (GenEncoder.EncodeNullableULong encoder) ∧
      NullableRule encoder.EncodeNull encoder.EncodeNotNull encoder.EncodeString
        (GenEncoder.EncodeNullableString encoder) ∧
      NullableRule encoder.EncodeNull encoder.EncodeNotNull encoder.EncodeBlob
        (GenEncoder.EncodeNullableBlob encoder) ∧
      NullableRule encoder.EncodeNull encoder.EncodeNotNull encoder.EncodeIdentifier
        (GenEncoder.EncodeNullableIdentifier encoder) ∧
      NullableRule encoder.EncodeNull encoder.EncodeNotNull encoder.EncodeDuration
        (GenEncoder.EncodeNullableDuration encoder) ∧
      NullableRule encoder.EncodeNull encoder.EncodeNotNull encoder.EncodeTime
        (GenEncoder.EncodeNullableTime encoder) ∧
      NullableRule encoder.EncodeNull encoder.EncodeNotNull encoder.EncodeFineTime
        (GenEncoder.EncodeNullableFineTime encoder) ∧
      NullableRule encoder.EncodeNull encoder.EncodeNotNull encoder.EncodeURI
        (GenEncoder.EncodeNullableURI encoder) := by
  refine ⟨?_, ?_, ?_, ?_, ?_, ?_, ?_, ?_, ?_, ?_, ?_, ?_, ?_, ?_, ?_, ?_, ?_, ?_⟩ <;>
    exact ⟨fun _ => rfl, fun s v s1 err h => by
      simp only [GenEncoder.EncodeNullableBoolean, GenEncoder.EncodeNullableFloat,
        GenEncoder.EncodeNullableDouble, GenEncoder.EncodeNullableOctet,
        GenEncoder.EncodeNullableUOctet, GenEncoder.EncodeNullableShort,
        GenEncoder.EncodeNullableUShort, GenEncoder.EncodeNullableInteger,
        GenEncoder.EncodeNullableUInteger, GenEncoder.EncodeNullableLong,
        GenEncoder.EncodeNullableULong, GenEncoder.EncodeNullableString,
        GenEncoder.EncodeNullableBlob, GenEncoder.EncodeNullableIdentifier,
        GenEncoder.EncodeNullableDuration, GenEncoder.EncodeNullableTime,
        GenEncoder.EncodeNullableFineTime, GenEncoder.EncodeNullableURI, h],
      fun s v s1 h => by
      simp only [GenEncoder.EncodeNullableBoolean, GenEncoder.EncodeNullableFloat,
        GenEncoder.EncodeNullableDouble, GenEncoder.EncodeNullableOctet,
        GenEncoder.EncodeNullableUOctet, GenEncoder.EncodeNullableShort,
        GenEncoder.EncodeNullableUShort, GenEncoder.EncodeNullableInteger,
        GenEncoder.EncodeNullableUInteger, GenEncoder.EncodeNullableLong,
        GenEncoder.EncodeNullableULong, GenEncoder.EncodeNullableString,
        GenEncoder.EncodeNullableBlob, GenEncoder.EncodeNullableIdentifier,
        GenEncoder.EncodeNullableDuration, GenEncoder.EncodeNullableTime,
        GenEncoder.EncodeNullableFineTime, GenEncoder.EncodeNullableURI, h]⟩

/-- The calls recorded for a nullable UOctet and a nullable URI: EncodeNull alone for a
null value; EncodeNotNull then the value for a value; EncodeNotNull alone, with its error,
when EncodeNotNull fails; and the error of the value when the value fails. -/
theorem EncodeNullable_recorded :
    GenEncoder.EncodeNullableUOctet (recordingEncoder []) [] none = (["EncodeNull"], none) ∧
      GenEncoder.EncodeNullableUOctet (recordingEncoder []) [] (some 7) =
        (["EncodeNotNull", "EncodeUOctet"], none) ∧
      GenEncoder.EncodeNullableUOctet (recordingEncoder ["EncodeNotNull"]) [] (some 7) =
        (["EncodeNotNull"], some "EncodeNotNull failed") ∧
      GenEncoder.EncodeNullableURI (recordingEncoder ["EncodeURI"]) [] (some "a") =
        (["EncodeNotNull", "EncodeURI"], some "EncodeURI failed") ∧
      GenEncoder.EncodeNullableURI (recordingEncoder ["EncodeNull"]) [] none =
        (["EncodeNull"], some "EncodeNull failed") := by
  decide

/-- The encoding of a nullable identifier on a byte buffer is the method
GenEncoder.EncodeNullableIdentifier on every encoder whose three calls append the bytes of
the codec. -/
theorem EncodeNullableIdentifier_eq_gen (codec : LeafCodec) (encoder : Encoder Body)
    (hnull : encoder.EncodeNull = fun buf => emit buf codec.nullBytes)
    (hmark : encoder.EncodeNotNull = fun buf => emit buf codec.notNullBytes)
    (hval : encoder.EncodeIdentifier = fun buf v => emit buf (codec.identifierBytes v))
    (buf : Body) (att : Option Identifier) :
    EncodeNullableIdentifier codec buf att =
      GenEncoder.EncodeNullableIdentifier encoder buf att := by
  cases att with
  | none => simp only [EncodeNullableIdentifier, GenEncoder.EncodeNullableIdentifier, hnull]
  | some v =>
    simp only [EncodeNullableIdentifier, GenEncoder.EncodeNullableIdentifier, hmark, hval]
    generalize emit buf codec.notNullBytes = x
    rcases x with ⟨b, _ | e⟩ <;> rfl

/-- The same for a nullable UOctet. -/
theorem EncodeNullableUOctet_eq_gen (codec : ListCodec) (encoder : Encoder Body)
    (hnull : encoder.EncodeNull = fun buf => emit buf codec.nullBytes)
    (hmark : encoder.EncodeNotNull = fun buf => emit buf codec.notNullBytes)
    (hval : encoder.EncodeUOctet = fun buf v => emit buf (codec.uoctetBytes v))
    (buf : Body) (att : Option UOctet) :
    EncodeNullableUOctet codec buf att = GenEncoder.EncodeNullableUOctet encoder buf att := by
  cases att with
  | none => simp only [EncodeNullableUOctet, GenEncoder.EncodeNullableUOctet, hnull]
  | some v =>
    simp only [EncodeNullableUOctet, GenEncoder.EncodeNullableUOctet, hmark, hval]
    generalize emit buf codec.notNullBytes = x
    rcases x with ⟨b, _ | e⟩ <;> rfl

/-- The same for a nullable URI. -/
theorem EncodeNullableURI_eq_gen (codec : ListCodec) (encoder : Encoder Body)
    (hnull : encoder.EncodeNull = fun buf => emit buf codec.nullBytes)
    (hmark : encoder.EncodeNotNull = fun buf => emit buf codec.notNullBytes)
    (hval : encoder.EncodeURI = fun buf v => emit buf (codec.uriBytes v))
    (buf : Body) (att : Option URI) :
    EncodeNullableURI codec buf att = GenEncoder.EncodeNullableURI encoder buf att := by
  cases att with
  | none => simp only [EncodeNullableURI, GenEncoder.EncodeNullableURI, hnull]
  | some v =>
    simp only [EncodeNullableURI, GenEncoder.EncodeNullableURI, hmark, hval]
    generalize emit buf codec.notNullBytes = x
    rcases x with ⟨b, _ | e⟩ <;> rfl

/-! ## The length field of a frame -/

theorem read32_write32 (v : Nat) (hv : v < 2 ^ 32) :
    write32 v = [v / 2 ^ 24, (v / 2 ^ 16) % 256, (v / 2 ^ 8) % 256, v % 256] ∧
      read32 (v / 2 ^ 24) ((v / 2 ^ 16) % 256) ((v / 2 ^ 8) % 256) (v % 256) = v := by
  have h0 : v / 2 ^ 24 % 256 = v / 2 ^ 24 := Nat.mod_eq_of_lt (by omega)
  refine ⟨by simp only [write32, h0], ?_⟩
  unfold read32
  omega

theorem writeMessage_of_encode (codec : LeafCodec) (t : TCPTransport) (msg : Message)
    (buf : Body) (henc : t.encode codec msg = .ok buf) (h23 : 23 ≤ buf.length)
    (hL : buf.length < 2 ^ 32) :
    t.writeMessage codec msg =
      .ok (buf.take 19 ++ write32 (buf.length - 23) ++ buf.drop 23) := by
  unfold TCPTransport.writeMessage
  rw [henc]
  simp only [bind, Res.bind]
  rw [if_neg (by omega)]
  have h : (buf.length % 2 ^ 32 + 2 ^ 32 - 23) % 2 ^ 32 = buf.length - 23 := by omega
  rw [h]
  rfl

theorem frameLength_stamped (pre post : Body) (n : Nat) (hpre : pre.length = 19)
    (hn : 23 + n < 2 ^ 32) : frameLength (pre ++ write32 n ++ post) = 23 + n := by
  have hv : n < 2 ^ 32 := by omega
  obtain ⟨hw, hr⟩ := read32_write32 n hv
  have h19 : ∀ i, i < 4 → (pre ++ write32 n ++ post).getD (19 + i) 0 = (write32 n).getD i 0 := by
    intro i hi
    rw [List.append_assoc, List.getD_eq_getElem?_getD, List.getD_eq_getElem?_getD,
      List.getElem?_append_right (by omega), hpre, Nat.add_sub_cancel_left,
      List.getElem?_append_left (by simp [write32]; omega)]
  unfold frameLength FIXED_HEADER_LENGTH VARIABLE_LENGTH_OFFSET
  have e0 := h19 0 (by omega)
  rw [Nat.add_zero] at e0
  rw [e0, h19 1 (by omega), h19 2 (by omega), h19 3 (by omega), hw]
  simp only [List.getD_cons_zero, List.getD_cons_succ]
  rw [hr]
  exact Nat.mod_eq_of_lt hn

/-- C34. Round trip of the length field. For every 32-bit value `v`, write32 stores the
four bytes of `v` with the most significant byte first, and read32 on these four bytes
returns `v`. For every message whose encoding is a buffer of `L` bytes with
`23 <= L < 2^32`, writeMessage hands to the connection a frame of `L` bytes that is the
buffer with the bytes of `L - 23` at offsets 19 to 22, and the frame length that
readMessage computes from this frame is `L`. -/
theorem length_field_round_trip (codec : LeafCodec) (t : TCPTransport) (msg : Message) :
    (∀ v, v < 2 ^ 32 →
        write32 v = [v / 2 ^ 24, (v / 2 ^ 16) % 256, (v / 2 ^ 8) % 256, v % 256] ∧
        read32 (v / 2 ^ 24) ((v / 2 ^ 16) % 256) ((v / 2 ^ 8) % 256) (v % 256) = v) ∧
      (∀ buf, t.encode codec msg = .ok buf → 23 ≤ buf.length → buf.length < 2 ^ 32 →
        ∃ frame, t.writeMessage codec msg = .ok frame ∧
          frame = buf.take 19 ++ write32 (buf.length - 23) ++ buf.drop 23 ∧
          frame.length = buf.length ∧
          frameLength frame = buf.length) := by
  refine ⟨read32_write32, ?_⟩
  intro buf henc h23 hL
  refine ⟨_, writeMessage_of_encode codec t msg buf henc h23 hL, rfl, ?_, ?_⟩
  · simp only [List.length_append, List.length_take, List.length_drop, write32,
      List.length_cons, List.length_nil]
    omega
  · rw [frameLength_stamped _ _ _ (by simp only [List.length_take]; omega) (by omega)]
    omega

/-- Witness of `length_field_round_trip`: the value 0x01020304, and the PUBLISH message
of broker_test.go with a body of three bytes sent over the sample codec, whose encoding
holds 142 bytes. -/
theorem length_field_round_trip_witness :
    (write32 16909060 = [1, 2, 3, 4] ∧ read32 1 2 3 4 = 16909060) ∧
      ∃ frame, (referenceTransport "maltcp://127.0.0.1:16002").writeMessage sampleCodec
          (testPublish [1, 2, 3]) = .ok frame ∧
        frame.length = 142 ∧ frameLength frame = 142 := by
  have h := length_field_round_trip sampleCodec (referenceTransport "maltcp://127.0.0.1:16002")
    (testPublish [1, 2, 3])
  refine ⟨h.1 16909060 (by decide), ?_⟩
  have henc : ∃ buf, (referenceTransport "maltcp://127.0.0.1:16002").encode sampleCodec
      (testPublish [1, 2, 3]) = .ok buf ∧ buf.length = 142 := ⟨_, rfl, rfl⟩
  obtain ⟨buf, henc, hlen⟩ := henc
  obtain ⟨frame, h1, _, h3, h4⟩ := h.2 buf henc (by omega) (by omega)
  exact ⟨frame, h1, h3.trans hlen, h4.trans hlen⟩

/-! ## Acknowledgement of a deregistration -/

theorem OnRegister_acks (broker : BrokerImpl)
    (dec : Body → Except String (Subscription × Body)) (ackResult : Ack → Option String)
    (msg : Message) (transaction : Nat) (broker1 : BrokerImpl)
    (h : broker.register dec msg transaction = some (none, broker1)) :
    (broker.OnRegister dec ackResult msg transaction).acks =
      [{ transaction := transaction, kind := .register, isError := false }] := by
  simp only [BrokerImpl.OnRegister, h]

theorem OnPublishRegister_acks (broker : BrokerImpl)
    (dec : Body → Except String (List (Option EntityKey) × Body))
    (ackResult : Ack → Option String) (msg : Message) (transaction : Nat)
    (broker1 : BrokerImpl) (h : broker.publishRegister dec msg transaction = some (none, broker1)) :
    (broker.OnPublishRegister dec ackResult msg transaction).acks =
      [{ transaction := transaction, kind := .publishRegister, isError := false }] := by
  simp only [BrokerImpl.OnPublishRegister, h]

theorem OnDeregister_acks (broker : BrokerImpl) (codec : LeafCodec)
    (ackResult : Ack → Option String) (msg : Message) (transaction : Nat)
    (r : Option String × BrokerImpl) (h : broker.deregister codec msg = some r) :
    (broker.OnDeregister codec ackResult msg transaction).acks =
      [{ transaction := transaction, kind := .deregister, isError := true }] := by
  obtain ⟨e, b⟩ := r
  simp only [BrokerImpl.OnDeregister, h]

theorem OnPublishDeregister_acks (broker : BrokerImpl) (ackResult : Ack → Option String)
    (msg : Message) (transaction : Nat) (pubid : URI) (h : msg.UriFrom = some pubid) :
    (broker.OnPublishDeregister ackResult msg transaction).acks =
      [{ transaction := transaction, kind := .publishDeregister, isError := true }] ∧
      (broker.OnPublishDeregister ackResult msg transaction).broker =
        { broker with pubs := mapDelete broker.pubs pubid } := by
  simp only [BrokerImpl.OnPublishDeregister, BrokerImpl.publishDeregister, h, and_self]

/-- C35. The flag of the acknowledgement of a deregistration. After a successful
registration OnRegister and OnPublishRegister call AckRegister with the flag false.
OnDeregister, for a DEREGISTER whose identifier list decodes and whose source URI is set,
and OnPublishDeregister, for a PUBLISH_DEREGISTER whose source URI is set, remove the
entries and call AckDeregister once, with the flag true: a successful deregistration is
acknowledged with the error flag. -/
theorem deregister_ack_has_error_flag (broker : BrokerImpl) (codec : LeafCodec)
    (ackResult : Ack → Option String) (msg : Message) (transaction : Nat) :
    (∀ dec broker1, broker.register dec msg transaction = some (none, broker1) →
        (broker.OnRegister dec ackResult msg transaction).acks =
          [{ transaction := transaction, kind := .register, isError := false }]) ∧
      (∀ dec broker1, broker.publishRegister dec msg transaction = some (none, broker1) →
        (broker.OnPublishRegister dec ackResult msg transaction).acks =
          [{ transaction := transaction, kind := .publishRegister, isError := false }]) ∧
      (∀ broker1, broker.deregister codec msg = some (none, broker1) →
        (broker.OnDeregister codec ackResult msg transaction).acks =
          [{ transaction := transaction, kind := .deregister, isError := true }]) ∧
      (∀ pubid, msg.UriFrom = some pubid →
        (broker.OnPublishDeregister ackResult msg transaction).acks =
          [{ transaction := transaction, kind := .publishDeregister, isError := true }]) :=
  ⟨fun dec broker1 h => OnRegister_acks broker dec ackResult msg transaction broker1 h,
   fun dec broker1 h => OnPublishRegister_acks broker dec ackResult msg transaction broker1 h,
   fun _ h => OnDeregister_acks broker codec ackResult msg transaction _ h,
   fun pubid h => (OnPublishDeregister_acks broker ackResult msg transaction pubid h).1⟩

/-- The subscriber of broker_test.go registers "MySubscription" and cancels it: the
REGISTER is acknowledged with the flag false; the DEREGISTER removes the subscription,
returns no error, and is acknowledged with the flag true. A publisher that registers is
acknowledged with the flag false, and with the flag true when it deregisters. -/
theorem deregister_ack_sample :
    ((sampleBroker []).OnRegister sampleDecodeSubscription ackOk (testRegister [1]) 9).acks =
        [{ transaction := 9, kind := .register, isError := false }] ∧
      ((sampleBroker [key1Subscription]).deregister sampleCodec testDeregister) =
        some (none, sampleBroker []) ∧
      ((sampleBroker [key1Subscription]).OnDeregister sampleCodec ackOk testDeregister 9).acks =
        [{ transaction := 9, kind := .deregister, isError := true }] ∧
      ((sampleBroker []).OnPublishRegister sampleDecodeEntityKeyList ackOk (testPublish [1])
        7).acks = [{ transaction := 7, kind := .publishRegister, isError := false }] ∧
      ((sampleBroker []).OnPublishDeregister ackOk (testPublish []) 7).acks =
        [{ transaction := 7, kind := .publishDeregister, isError := true }] := by
  decide

/-! ## Injectivity of the service key -/

/-- C36. The service key is injective: for areas, services and operations of 16 bits and
versions of 8 bits, two 4-tuples with the same key are equal, so two different operations
never share a handler slot. -/
theorem key_injective_on_ranges (area version service operation : Nat)
    (area2 version2 service2 operation2 : Nat)
    (ha : area < 2 ^ 16) (hv : version < 2 ^ 8) (hs : service < 2 ^ 16)
    (ho : operation < 2 ^ 16) (ha2 : area2 < 2 ^ 16) (hv2 : version2 < 2 ^ 8)
    (hs2 : service2 < 2 ^ 16) (ho2 : operation2 < 2 ^ 16)
    (h : key area version service operation = key area2 version2 service2 operation2) :
    (area, version, service, operation) = (area2, version2, service2, operation2) := by
  obtain ⟨h1, h2, h3, h4⟩ :=
    key_injective area version service operation area2 version2 service2 operation2
      ha hv hs ho ha2 hv2 hs2 ho2 h
  rw [h1, h2, h3, h4]

/-- Witness of `key_injective_on_ranges`: the operation (200, 1, 1, 1) of broker_test.go
against itself. -/
theorem key_injective_on_ranges_witness :
    key 200 1 1 1 = key 200 1 1 1 ∧ (200, 1, 1, 1) = (200, 1, 1, 1) :=
  ⟨rfl, key_injective_on_ranges 200 1 1 1 200 1 1 1 (by decide) (by decide) (by decide)
    (by decide) (by decide) (by decide) (by decide) (by decide) rfl⟩

/-- Different operations within the ranges have different keys; outside the ranges two
operations may share a key, the bits shifted out of 64 bits being lost. -/
theorem key_distinct_slots :
    key 200 1 1 1 ≠ key 200 1 1 2 ∧ key 200 1 1 1 ≠ key 200 1 2 1 ∧
      key 200 1 1 1 ≠ key 200 2 1 1 ∧ key 200 1 1 1 ≠ key 201 1 1 1 ∧
      key (2 ^ 24) 0 0 0 = key 0 0 0 0 := by
  decide

/-! ## Totality of domainMatches -/

theorem domainMatches_empty_required (s : BrokerSub) (domain : IdentifierList)
    (h : s.domain = []) : s.domainMatches domain (some []) = none := by
  simp [BrokerSub.domainMatches, requiredDomain, h]

/-- C37. Totality of domainMatches on non-null identifiers. For a subscription domain `D`,
a message domain `M` and an optional sub-domain whose identifiers are all non-null,
domainMatches panics exactly when `D` is empty and the sub-domain is present and empty:
line 77 then indexes the empty slice `required` at `len(required)-1`. In every other case
it returns a boolean. -/
theorem domainMatches_panics_iff_empty_required (s : BrokerSub) (D M : List Identifier)
    (o : Option (List Identifier)) (hD : s.domain = D.map some) :
    (s.domainMatches (M.map some) (o.map (List.map some)) = none ↔ D = [] ∧ o = some []) ∧
      (¬ (D = [] ∧ o = some []) →
        ∃ b, s.domainMatches (M.map some) (o.map (List.map some)) = some b) := by
  have hne : ¬ (D = [] ∧ o = some []) → ∀ t, o = some t → D ++ t ≠ [] := by
    intro hn t ht hnil
    rw [List.append_eq_nil] at hnil
    exact hn ⟨hnil.1, by rw [ht, hnil.2]⟩
  refine ⟨⟨?_, ?_⟩, ?_⟩
  · intro h
    by_contra hn
    rw [domainMatches_eq_domainRule s D M o hD (hne hn)] at h
    cases h
  · rintro ⟨hd, ho⟩
    subst hd ho
    exact domainMatches_empty_required s _ (by simpa using hD)
  · intro hn
    exact ⟨_, domainMatches_eq_domainRule s D M o hD (hne hn)⟩

/-- Witness of `domainMatches_panics_iff_empty_required`: a subscriber with an empty
domain and a request whose sub-domain is present and empty, against the domain of the
publisher of broker_test.go. -/
theorem domainMatches_panics_iff_empty_required_witness :
    ({ testSubscriber [] with domain := [] }).domainMatches
        (["spacecraft1", "payload", "camera"].map some) ((some []).map (List.map some)) =
      none := by
  have h := domainMatches_panics_iff_empty_required { testSubscriber [] with domain := [] } []
    ["spacecraft1", "payload", "camera"] (some []) rfl
  exact h.1.mpr ⟨rfl, rfl⟩

/-- An empty sub-domain is harmless under a subscription domain that is not empty, and an
empty subscription domain is harmless without a sub-domain. -/
theorem domainMatches_empty_sides :
    (testSubscriber []).domainMatches [some "spacecraft1", some "payload"] (some []) =
        some true ∧
      ({ testSubscriber [] with domain := [] }).domainMatches [] none = some true ∧
      ({ testSubscriber [] with domain := [] }).domainMatches [some "a"] (some [some "*"]) =
        some true := by
  decide

/-! ## Access to the elements of a list -/

theorem sliceAt_lt {α : Type} (l : List α) (n : Nat) (h : n < l.length) :
    sliceAt l (n : Int) = some l[n] := by
  simp [sliceAt, h]

theorem sliceAt_ge {α : Type} (l : List α) (n : Nat) (h : l.length ≤ n) :
    sliceAt l (n : Int) = none := by
  simp [sliceAt, h]

theorem sliceAt_neg {α : Type} (l : List α) (i : Int) (h : i < 0) : sliceAt l i = none := by
  simp [sliceAt, h]

theorem IdentifierList_GetElementAt_lt (l : IdentifierList) (n : Nat) (h : n < l.length) :
    IdentifierList.GetElementAt (some l) n = .element l[n] := by
  have h1 : (n : Int) ≤ (l.length : Int) := by omega
  simp only [IdentifierList.GetElementAt, IdentifierList.Size, h1, if_true, sliceAt_lt l n h]

theorem IdentifierList_GetElementAt_size (l : IdentifierList) :
    IdentifierList.GetElementAt (some l) l.length = .panic := by
  simp only [IdentifierList.GetElementAt, IdentifierList.Size, le_refl, if_true,
    sliceAt_ge l l.length (le_refl _)]

theorem IdentifierList_GetElementAt_gt (l : IdentifierList) (n : Nat) (h : l.length < n) :
    IdentifierList.GetElementAt (some l) n = .nil := by
  have h1 : ¬ (n : Int) ≤ (l.length : Int) := by omega
  simp only [IdentifierList.GetElementAt, IdentifierList.Size, h1, if_false]

theorem UOctetList_GetElementAt_lt (l : UOctetList) (n : Nat) (h : n < l.length) :
    UOctetList.GetElementAt (some l) n = .element l[n] := by
  have h1 : (n : Int) < (l.length : Int) := by omega
  simp only [UOctetList.GetElementAt, UOctetList.Size, h1, if_true, sliceAt_lt l n h]

theorem UOctetList_GetElementAt_ge (l : UOctetList) (n : Nat) (h : l.length ≤ n) :
    UOctetList.GetElementAt (some l) n = .nil := by
  have h1 : ¬ (n : Int) < (l.length : Int) := by omega
  simp only [UOctetList.GetElementAt, UOctetList.Size, h1, if_false]

theorem URIList_GetElementAt_lt (l : URIList) (n : Nat) (h : n < l.length) :
    URIList.GetElementAt (some l) n = .element l[n] := by
  have h1 : (n : Int) < (l.length : Int) := by omega
  simp only [URIList.GetElementAt, URIList.Size, h1, if_true, sliceAt_lt l n h]

theorem URIList_GetElementAt_ge (l : URIList) (n : Nat) (h : l.length ≤ n) :
    URIList.GetElementAt (some l) n = .nil := by
  have h1 : ¬ (n : Int) < (l.length : Int) := by omega
  simp only [URIList.GetElementAt, URIList.Size, h1, if_false]

/-- C38. IdentifierList.GetElementAt at the index `Size()`. On a non-nil list `l` and an
index `n >= 0`, the three methods return the element `n` when `n < l.Size()`, and the
three return nil when `n > l.Size()`. At `n = l.Size()` UOctetList.GetElementAt and
URIList.GetElementAt return nil, but IdentifierList.GetElementAt, whose test is
`i <= list.Size()`, indexes the slice out of range and panics. -/
theorem IdentifierList_GetElementAt_at_size_panics (l : IdentifierList) (ul : UOctetList)
    (rl : URIList) (n : Nat) :
    (∀ h : n < l.length, IdentifierList.GetElementAt (some l) n = .element l[n]) ∧
      (∀ h : n < ul.length, UOctetList.GetElementAt (some ul) n = .element ul[n]) ∧
      (∀ h : n < rl.length, URIList.GetElementAt (some rl) n = .element rl[n]) ∧
      (l.length < n → IdentifierList.GetElementAt (some l) n = .nil) ∧
      (ul.length ≤ n → UOctetList.GetElementAt (some ul) n = .nil) ∧
      (rl.length ≤ n → URIList.GetElementAt (some rl) n = .nil) ∧
      IdentifierList.GetElementAt (some l) l.length = .panic ∧
      UOctetList.GetElementAt (some ul) ul.length = .nil ∧
      URIList.GetElementAt (some rl) rl.length = .nil :=
  ⟨IdentifierList_GetElementAt_lt l n, UOctetList_GetElementAt_lt ul n,
    URIList_GetElementAt_lt rl n, IdentifierList_GetElementAt_gt l n,
    UOctetList_GetElementAt_ge ul n, URIList_GetElementAt_ge rl n,
    IdentifierList_GetElementAt_size l, UOctetList_GetElementAt_ge ul _ (le_refl _),
    URIList_GetElementAt_ge rl _ (le_refl _)⟩

/-- The domain `[spacecraft1, payload]` of broker_test.go read at the indexes 0 to 3, and
the list of the UOctets 1 and 2 at the same indexes; a nil list gives nil. -/
theorem GetElementAt_sample :
    IdentifierList.GetElementAt (some [some "spacecraft1", some "payload"]) 1 =
        .element (some "payload") ∧
      IdentifierList.GetElementAt (some [some "spacecraft1", some "payload"]) 2 = .panic ∧
      IdentifierList.GetElementAt (some [some "spacecraft1", some "payload"]) 3 = .nil ∧
      IdentifierList.GetElementAt (some []) 0 = .panic ∧
      UOctetList.GetElementAt (some [some 1, some 2]) 1 = .element (some 2) ∧
      UOctetList.GetElementAt (some [some 1, some 2]) 2 = .nil ∧
      UOctetList.GetElementAt (some []) 0 = .nil ∧
      URIList.GetElementAt (some [some "a", none]) 1 = .element none ∧
      URIList.GetElementAt (some [some "a", none]) 2 = .nil ∧
      IdentifierList.GetElementAt none 0 = .nil ∧
      UOctetList.GetElementAt none 0 = .nil := by
  decide

/-! ## Encoding of the lists: errors -/

theorem emit_some (buf bs : Body) : emit buf (some bs) = (buf ++ bs, none) := rfl

theorem emit_none (buf : Body) : emit buf none = (buf, some "encoding error") := rfl

theorem EncodeNullableIdentifier_fails (codec : LeafCodec) (buf : Body)
    (att : Option Identifier) (h : nullableIdentifierBytes codec att = none) :
    (EncodeNullableIdentifier codec buf att).2 = some "encoding error" := by
  cases att with
  | none =>
    simp only [nullableIdentifierBytes] at h
    simp only [EncodeNullableIdentifier, h, emit_none]
  | some v =>
    simp only [nullableIdentifierBytes] at h
    cases h1 : codec.notNullBytes with
    | none => simp only [EncodeNullableIdentifier, h1, emit_none]
    | some b1 =>
      cases h2 : codec.identifierBytes v with
      | none => simp only [EncodeNullableIdentifier, h1, h2, emit_some, emit_none]
      | some b2 => simp [h1, h2] at h

theorem EncodeNullableUOctet_ok (codec : ListCodec) (buf : Body) (att : Option UOctet)
    (bs : Body) (h : nullableUOctetBytes codec att = some bs) :
    EncodeNullableUOctet codec buf att = (buf ++ bs, none) := by
  cases att with
  | none =>
    simp only [nullableUOctetBytes] at h
    simp only [EncodeNullableUOctet, h, emit_some]
  | some v =>
    simp only [nullableUOctetBytes] at h
    cases h1 : codec.notNullBytes with
    | none => simp [h1] at h
    | some b1 =>
      cases h2 : codec.uoctetBytes v with
      | none => simp [h1, h2] at h
      | some b2 =>
        simp only [h1, h2, Option.some.injEq] at h
        subst h
        simp only [EncodeNullableUOctet, h1, h2, emit_some, List.append_assoc]

theorem EncodeNullableUOctet_fails (codec : ListCodec) (buf : Body) (att : Option UOctet)
    (h : nullableUOctetBytes codec att = none) :
    ∃ buf1, EncodeNullableUOctet codec buf att = (buf1, some "encoding error") := by
  cases att with
  | none =>
    simp only [nullableUOctetBytes] at h
    exact ⟨buf, by simp only [EncodeNullableUOctet, h, emit_none]⟩
  | some v =>
    simp only [nullableUOctetBytes] at h
    cases h1 : codec.notNullBytes with
    | none => exact ⟨buf, by simp only [EncodeNullableUOctet, h1, emit_none]⟩
    | some b1 =>
      cases h2 : codec.uoctetBytes v with
      | none =>
        exact ⟨buf ++ b1, by simp only [EncodeNullableUOctet, h1, h2, emit_some, emit_none]⟩
      | some b2 => simp [h1, h2] at h

theorem EncodeNullableURI_ok (codec : ListCodec) (buf : Body) (att : Option URI)
    (bs : Body) (h : nullableURIBytes codec att = some bs) :
    EncodeNullableURI codec buf att = (buf ++ bs, none) := by
  cases att with
  | none =>
    simp only [nullableURIBytes] at h
    simp only [EncodeNullableURI, h, emit_some]
  | some v =>
    simp only [nullableURIBytes] at h
    cases h1 : codec.notNullBytes with
    | none => simp [h1] at h
    | some b1 =>
      cases h2 : codec.uriBytes v with
      | none => simp [h1, h2] at h
      | some b2 =>
        simp only [h1, h2, Option.some.injEq] at h
        subst h
        simp only [EncodeNullableURI, h1, h2, emit_some, List.append_assoc]

theorem EncodeNullableURI_fails (codec : ListCodec) (buf : Body) (att : Option URI)
    (h : nullableURIBytes codec att = none) :
    ∃ buf1, EncodeNullableURI codec buf att = (buf1, some "encoding error") := by
  cases att with
  | none =>
    simp only [nullableURIBytes] at h
    exact ⟨buf, by simp only [EncodeNullableURI, h, emit_none]⟩
  | some v =>
    simp only [nullableURIBytes] at h
    cases h1 : codec.notNullBytes with
    | none => exact ⟨buf, by simp only [EncodeNullableURI, h1, emit_none]⟩
    | some b1 =>
      cases h2 : codec.uriBytes v with
      | none =>
        exact ⟨buf ++ b1, by simp only [EncodeNullableURI, h1, h2, emit_some, emit_none]⟩
      | some b2 => simp [h1, h2] at h

/-- The loop of UOctetList.Encode returns an error exactly when an element fails. -/
theorem encodeUOctets_error_iff (codec : ListCodec) (l : UOctetList) :
    ∀ buf, (encodeUOctets codec buf l).2 ≠ none ↔ ∃ e ∈ l, nullableUOctetBytes codec e = none := by
  induction l with
  | nil => intro buf; simp [encodeUOctets]
  | cons e rest ih =>
    intro buf
    cases he : nullableUOctetBytes codec e with
    | none =>
      obtain ⟨buf1, h1⟩ := EncodeNullableUOctet_fails codec buf e he
      simp only [encodeUOctets, h1]
      simp only [ne_eq, reduceCtorEq, not_false_eq_true, List.mem_cons, exists_eq_or_imp, he,
        true_or]
    | some bs =>
      simp only [encodeUOctets, EncodeNullableUOctet_ok codec buf e bs he]
      rw [ih]
      simp only [List.mem_cons, exists_eq_or_imp, he, reduceCtorEq, false_or]

/-- The loop of UOctetList.Encode stops at the first element that fails: what follows it
in the list has no effect on the result. -/
theorem encodeUOctets_stops (codec : ListCodec) (pre : UOctetList) (e : Option UOctet)
    (post : UOctetList) (he : nullableUOctetBytes codec e = none) :
    ∀ buf, (∀ x ∈ pre, ∃ bs, nullableUOctetBytes codec x = some bs) →
      encodeUOctets codec buf (pre ++ e :: post) = encodeUOctets codec buf (pre ++ [e]) := by
  induction pre with
  | nil =>
    intro buf _
    obtain ⟨buf1, h1⟩ := EncodeNullableUOctet_fails codec buf e he
    simp only [List.nil_append, encodeUOctets, h1]
  | cons x pre ih =>
    intro buf h
    obtain ⟨bs, hbs⟩ := h x (List.mem_cons_self _ _)
    simp only [List.cons_append, encodeUOctets, EncodeNullableUOctet_ok codec buf x bs hbs]
    exact ih _ (fun y hy => h y (List.mem_cons_of_mem _ hy))

/-- The loop of URIList.Encode returns an error exactly when an element fails. -/
theorem encodeURIs_error_iff (codec : ListCodec) (l : URIList) :
    ∀ buf, (encodeURIs codec buf l).2 ≠ none ↔ ∃ e ∈ l, nullableURIBytes codec e = none := by
  induction l with
  | nil => intro buf; simp [encodeURIs]
  | cons e rest ih =>
    intro buf
    cases he : nullableURIBytes codec e with
    | none =>
      obtain ⟨buf1, h1⟩ := EncodeNullableURI_fails codec buf e he
      simp only [encodeURIs, h1]
      simp only [ne_eq, reduceCtorEq, not_false_eq_true, List.mem_cons, exists_eq_or_imp, he,
        true_or]
    | some bs =>
      simp only [encodeURIs, EncodeNullableURI_ok codec buf e bs he]
      rw [ih]
      simp only [List.mem_cons, exists_eq_or_imp, he, reduceCtorEq, false_or]

/-- The loop of URIList.Encode stops at the first element that fails. -/
theorem encodeURIs_stops (codec : ListCodec) (pre : URIList) (e : Option URI)
    (post : URIList) (he : nullableURIBytes codec e = none) :
    ∀ buf, (∀ x ∈ pre, ∃ bs, nullableURIBytes codec x = some bs) →
      encodeURIs codec buf (pre ++ e :: post) = encodeURIs codec buf (pre ++ [e]) := by
  induction pre with
  | nil =>
    intro buf _
    obtain ⟨buf1, h1⟩ := EncodeNullableURI_fails codec buf e he
    simp only [List.nil_append, encodeURIs, h1]
  | cons x pre ih =>
    intro buf h
    obtain ⟨bs, hbs⟩ := h x (List.mem_cons_self _ _)
    simp only [List.cons_append, encodeURIs, EncodeNullableURI_ok codec buf x bs hbs]
    exact ih _ (fun y hy => h y (List.mem_cons_of_mem _ hy))

theorem UOctetList_Encode_error_iff (codec : ListCodec) (buf : Body) (l : UOctetList) :
    (UOctetList.Encode codec buf l).2 ≠ none ↔
      codec.uintegerBytes (l.length % 2 ^ 32) = none ∨
        ∃ e ∈ l, nullableUOctetBytes codec e = none := by
  unfold UOctetList.Encode
  cases h : codec.uintegerBytes (l.length % 2 ^ 32) with
  | none => simp [emit_none]
  | some bs => simp only [emit_some, encodeUOctets_error_iff, reduceCtorEq, false_or]

theorem URIList_Encode_error_iff (codec : ListCodec) (buf : Body) (l : URIList) :
    (URIList.Encode codec buf l).2 ≠ none ↔
      codec.uintegerBytes (l.length % 2 ^ 32) = none ∨
        ∃ e ∈ l, nullableURIBytes codec e = none := by
  unfold URIList.Encode
  cases h : codec.uintegerBytes (l.length % 2 ^ 32) with
  | none => simp [emit_none]
  | some bs => simp only [emit_some, encodeURIs_error_iff, reduceCtorEq, false_or]

theorem IdentifierList_Encode_error_iff (codec : LeafCodec) (buf : Body) (l : IdentifierList) :
    (IdentifierList.Encode codec buf l).2 ≠ none ↔
      codec.uintegerBytes (l.length % 2 ^ 32) = none := by
  unfold IdentifierList.Encode
  cases h : codec.uintegerBytes (l.length % 2 ^ 32) with
  | none => simp [emit_none]
  | some bs => simp [emit_some]

/-- The loop of IdentifierList.Encode goes on after an element that fails: the elements
that follow it are still encoded. -/
theorem encodeIdentifiers_append (codec : LeafCodec) (pre post : IdentifierList) :
    ∀ buf, encodeIdentifiers codec buf (pre ++ post) =
      encodeIdentifiers codec (encodeIdentifiers codec buf pre) post := by
  induction pre with
  | nil => intro buf; rfl
  | cons x pre ih =>
    intro buf
    show encodeIdentifiers codec (EncodeNullableIdentifier codec buf x).1 (pre ++ post) = _
    rw [ih]
    rfl

/-- C40. Errors of IdentifierList.Encode. UOctetList.Encode and URIList.Encode return an
error exactly when the encoding of the length or of one of the elements fails.
IdentifierList.Encode returns an error exactly when the encoding of the length fails: the
error of EncodeNullableIdentifier is dropped at line 113, so that with a length that
encodes and an element that fails the method returns nil, and the loop goes on with the
elements that follow. -/
theorem IdentifierList_Encode_drops_element_errors (codec : ListCodec) (buf : Body)
    (l : IdentifierList) (ul : UOctetList) (rl : URIList) :
    ((UOctetList.Encode codec buf ul).2 ≠ none ↔
        codec.uintegerBytes (ul.length % 2 ^ 32) = none ∨
          ∃ e ∈ ul, nullableUOctetBytes codec e = none) ∧
      ((URIList.Encode codec buf rl).2 ≠ none ↔
        codec.uintegerBytes (rl.length % 2 ^ 32) = none ∨
          ∃ e ∈ rl, nullableURIBytes codec e = none) ∧
      ((IdentifierList.Encode codec.toLeafCodec buf l).2 ≠ none ↔
        codec.uintegerBytes (l.length % 2 ^ 32) = none) ∧
      (∀ lenBytes pre e post, codec.uintegerBytes (l.length % 2 ^ 32) = some lenBytes →
        l = pre ++ e :: post → nullableIdentifierBytes codec.toLeafCodec e = none →
        (EncodeNullableIdentifier codec.toLeafCodec
          (encodeIdentifiers codec.toLeafCodec (buf ++ lenBytes) pre) e).2 =
            some "encoding error" ∧
        IdentifierList.Encode codec.toLeafCodec buf l =
          (encodeIdentifiers codec.toLeafCodec
            (EncodeNullableIdentifier codec.toLeafCodec
              (encodeIdentifiers codec.toLeafCodec (buf ++ lenBytes) pre) e).1 post, none)) := by
  refine ⟨UOctetList_Encode_error_iff codec buf ul, URIList_Encode_error_iff codec buf rl,
    IdentifierList_Encode_error_iff codec.toLeafCodec buf l, ?_⟩
  intro lenBytes pre e post hlen hl he
  refine ⟨EncodeNullableIdentifier_fails _ _ e he, ?_⟩
  unfold IdentifierList.Encode
  rw [hlen, emit_some]
  simp only [hl, encodeIdentifiers_append, encodeIdentifiers]

/-- The identifiers "", NULL and "b" under a codec that refuses the empty identifier:
IdentifierList.Encode returns nil and its output holds the length 3, the not-null mark of
the refused element, then the two other elements; the output does not decode. The UOctets
300, NULL and 2 under a codec that refuses 300: UOctetList.Encode returns the error, and
its output stops at the not-null mark of the refused element. -/
theorem Encode_refused_element_sample :
    (IdentifierList.Encode strictCodec.toLeafCodec [] [some "", none, some "b"] =
        ([0, 0, 0, 3, 1, 0, 1, 1, 98], none) ∧
      EncodeNullableIdentifier strictCodec.toLeafCodec [] (some "") =
        ([1], some "encoding error") ∧
      UOctetList.Encode strictCodec [] [some 300, none, some 2] =
        ([0, 0, 0, 3, 1], some "encoding error") ∧
      UOctetList.Encode strictCodec [] [some 30, none, some 2] =
        ([0, 0, 0, 3, 1, 30, 0, 1, 2], none)) ∧
      DecodeIdentifierList strictCodec.toLeafCodec [0, 0, 0, 3, 1, 0, 1, 1, 98] =
        .error "no mark" :=
  ⟨by decide, rfl⟩

/-! ## Round trip of the lists -/

theorem identifiers_round_trip (codec : LeafCodec) (l : IdentifierList) :
    ∀ buf, (∀ e ∈ l, NullableIdentifierRoundTrips codec e) →
      ∃ out, encodeIdentifiers codec buf l = buf ++ out ∧
        ∀ rest, decodeIdentifiers codec l.length (out ++ rest) = .ok (l, rest) := by
  induction l with
  | nil => intro buf _; exact ⟨[], by simp [encodeIdentifiers], fun rest => rfl⟩
  | cons e tl ih =>
    intro buf h
    obtain ⟨bs, hbs, hdec⟩ := h e (List.mem_cons_self _ _)
    obtain ⟨out, henc, hrest⟩ := ih (buf ++ bs) (fun x hx => h x (List.mem_cons_of_mem _ hx))
    refine ⟨bs ++ out, ?_, ?_⟩
    · simp only [encodeIdentifiers, EncodeNullableIdentifier_ok codec buf e bs hbs, henc,
        List.append_assoc]
    · intro rest
      simp only [List.length_cons, decodeIdentifiers, List.append_assoc, hdec, hrest]

theorem uoctets_round_trip (codec : ListCodec) (l : UOctetList) :
    ∀ buf, (∀ e ∈ l, NullableUOctetRoundTrips codec e) →
      ∃ out, encodeUOctets codec buf l = (buf ++ out, none) ∧
        ∀ rest, decodeUOctets codec l.length (out ++ rest) = .ok (l, rest) := by
  induction l with
  | nil => intro buf _; exact ⟨[], by simp [encodeUOctets], fun rest => rfl⟩
  | cons e tl ih =>
    intro buf h
    obtain ⟨bs, hbs, hdec⟩ := h e (List.mem_cons_self _ _)
    obtain ⟨out, henc, hrest⟩ := ih (buf ++ bs) (fun x hx => h x (List.mem_cons_of_mem _ hx))
    refine ⟨bs ++ out, ?_, ?_⟩
    · simp only [encodeUOctets, EncodeNullableUOctet_ok codec buf e bs hbs, henc,
        List.append_assoc]
    · intro rest
      simp only [List.length_cons, decodeUOctets, List.append_assoc, hdec, hrest]

theorem uris_round_trip (codec : ListCodec) (l : URIList) :
    ∀ buf, (∀ e ∈ l, NullableURIRoundTrips codec e) →
      ∃ out, encodeURIs codec buf l = (buf ++ out, none) ∧
        ∀ rest, decodeURIs codec l.length (out ++ rest) = .ok (l, rest) := by
  induction l with
  | nil => intro buf _; exact ⟨[], by simp [encodeURIs], fun rest => rfl⟩
  | cons e tl ih =>
    intro buf h
    obtain ⟨bs, hbs, hdec⟩ := h e (List.mem_cons_self _ _)
    obtain ⟨out, henc, hrest⟩ := ih (buf ++ bs) (fun x hx => h x (List.mem_cons_of_mem _ hx))
    refine ⟨bs ++ out, ?_, ?_⟩
    · simp only [encodeURIs, EncodeNullableURI_ok codec buf e bs hbs, henc, List.append_assoc]
    · intro rest
      simp only [List.length_cons, decodeURIs, List.append_assoc, hdec, hrest]

theorem IdentifierList_round_trip (codec : LeafCodec) (buf : Body) (l : IdentifierList)
    (hlt : l.length < 2 ^ 32) (hlen : UIntegerRoundTrips codec l.length)
    (h : ∀ e ∈ l, NullableIdentifierRoundTrips codec e) :
    ∃ out, IdentifierList.Encode codec buf l = (buf ++ out, none) ∧
      ∀ rest, DecodeIdentifierList codec (out ++ rest) = .ok (l, rest) := by
  obtain ⟨lenBytes, h1, h2⟩ := hlen
  obtain ⟨out, henc, hdec⟩ := identifiers_round_trip codec l (buf ++ lenBytes) h
  refine ⟨lenBytes ++ out, ?_, ?_⟩
  · unfold IdentifierList.Encode
    rw [Nat.mod_eq_of_lt hlt, h1, emit_some]
    simp only [henc, List.append_assoc]
  · intro rest
    unfold DecodeIdentifierList
    rw [List.append_assoc, h2]
    exact hdec rest

theorem UOctetList_round_trip (codec : ListCodec) (buf : Body) (l : UOctetList)
    (hlt : l.length < 2 ^ 32) (hlen : UIntegerRoundTrips codec.toLeafCodec l.length)
    (h : ∀ e ∈ l, NullableUOctetRoundTrips codec e) :
    ∃ out, UOctetList.Encode codec buf l = (buf ++ out, none) ∧
      ∀ rest, DecodeUOctetList codec (out ++ rest) = .ok (l, rest) := by
  obtain ⟨lenBytes, h1, h2⟩ := hlen
  obtain ⟨out, henc, hdec⟩ := uoctets_round_trip codec l (buf ++ lenBytes) h
  refine ⟨lenBytes ++ out, ?_, ?_⟩
  · unfold UOctetList.Encode
    rw [Nat.mod_eq_of_lt hlt, h1, emit_some]
    simp only [henc, List.append_assoc]
  · intro rest
    unfold DecodeUOctetList
    rw [List.append_assoc, h2]
    exact hdec rest

theorem URIList_round_trip (codec : ListCodec) (buf : Body) (l : URIList)
    (hlt : l.length < 2 ^ 32) (hlen : UIntegerRoundTrips codec.toLeafCodec l.length)
    (h : ∀ e ∈ l, NullableURIRoundTrips codec e) :
    ∃ out, URIList.Encode codec buf l = (buf ++ out, none) ∧
      ∀ rest, DecodeURIList codec (out ++ rest) = .ok (l, rest) := by
  obtain ⟨lenBytes, h1, h2⟩ := hlen
  obtain ⟨out, henc, hdec⟩ := uris_round_trip codec l (buf ++ lenBytes) h
  refine ⟨lenBytes ++ out, ?_, ?_⟩
  · unfold URIList.Encode
    rw [Nat.mod_eq_of_lt hlt, h1, emit_some]
    simp only [henc, List.append_assoc]
  · intro rest
    unfold DecodeURIList
    rw [List.append_assoc, h2]
    exact hdec rest

/-- C39. Round trip of the list codecs. Over every codec, for every IdentifierList `l` of
fewer than 2^32 elements, null elements included, such that the UInteger primitives
round-trip on its length and the nullable Identifier primitives round-trip on each of its
elements: `l.Encode` returns no error and appends some bytes `out` to the buffer, and
DecodeIdentifierList, applied to `out` followed by any bytes `rest`, returns `l` (same
length, same elements, nulls at the same positions) and leaves `rest`. The same holds for
UOctetList and URIList with their nullable primitives. -/
theorem list_codec_round_trip (codec : ListCodec) (buf : Body) :
    (∀ l : IdentifierList, l.length < 2 ^ 32 → UIntegerRoundTrips codec.toLeafCodec l.length →
        (∀ e ∈ l, NullableIdentifierRoundTrips codec.toLeafCodec e) →
        ∃ out, IdentifierList.Encode codec.toLeafCodec buf l = (buf ++ out, none) ∧
          ∀ rest, DecodeIdentifierList codec.toLeafCodec (out ++ rest) = .ok (l, rest)) ∧
      (∀ l : UOctetList, l.length < 2 ^ 32 → UIntegerRoundTrips codec.toLeafCodec l.length →
        (∀ e ∈ l, NullableUOctetRoundTrips codec e) →
        ∃ out, UOctetList.Encode codec buf l = (buf ++ out, none) ∧
          ∀ rest, DecodeUOctetList codec (out ++ rest) = .ok (l, rest)) ∧
      (∀ l : URIList, l.length < 2 ^ 32 → UIntegerRoundTrips codec.toLeafCodec l.length →
        (∀ e ∈ l, NullableURIRoundTrips codec e) →
        ∃ out, URIList.Encode codec buf l = (buf ++ out, none) ∧
          ∀ rest, DecodeURIList codec (out ++ rest) = .ok (l, rest)) :=
  ⟨fun l hlt hlen h => IdentifierList_round_trip codec.toLeafCodec buf l hlt hlen h,
   fun l hlt hlen h => UOctetList_round_trip codec buf l hlt hlen h,
   fun l hlt hlen h => URIList_round_trip codec buf l hlt hlen h⟩

theorem sampleCodec_uinteger_roundTrips (n : Nat) (h : n < 2 ^ 32) :
    UIntegerRoundTrips sampleCodec n :=
  ⟨beBytes 4 n, by simp only [sampleCodec, h, if_true],
    fun rest => sampleCodec_roundTrips.uinteger n _ rest (by simp only [sampleCodec, h, if_true])⟩

theorem sampleCodec_identifier_roundTrips (e : Option Identifier) :
    NullableIdentifierRoundTrips sampleCodec e := by
  cases e with
  | none => exact ⟨[0], rfl, fun rest => sampleCodec_roundTrips.nullable none _ rest rfl⟩
  | some v =>
    exact ⟨[1] ++ (v.data.length :: v.data.map Char.toNat), rfl,
      fun rest => sampleCodec_roundTrips.nullable (some v) _ rest rfl⟩

theorem sampleListCodec_uri_roundTrips (e : Option URI) :
    NullableURIRoundTrips sampleListCodec e := by
  cases e with
  | none => exact ⟨[0], rfl, fun rest => sampleCodec_roundTrips.nullable none _ rest rfl⟩
  | some v =>
    exact ⟨[1] ++ (v.data.length :: v.data.map Char.toNat), rfl,
      fun rest => sampleCodec_roundTrips.nullable (some v) _ rest rfl⟩

theorem sampleListCodec_uoctet_roundTrips (e : Option UOctet) (h : ∀ v, e = some v → v < 256) :
    NullableUOctetRoundTrips sampleListCodec e := by
  cases e with
  | none => exact ⟨[0], rfl, fun rest => rfl⟩
  | some v =>
    have hv : v < 256 := h v rfl
    refine ⟨[1, v], by simp [nullableUOctetBytes, sampleListCodec, sampleCodec, hv],
      fun rest => rfl⟩

/-- Witness of `list_codec_round_trip`: over the sample codec, the domain
`[spacecraft1, NULL, payload]`, the UOctets `[1, NULL, 255]` and the URIs of the publisher
of broker_test.go and NULL are written after the bytes `[9]` and read back, the bytes
`[7, 7]` that follow being left. -/
theorem list_codec_round_trip_witness :
    (∃ out, IdentifierList.Encode sampleCodec [9] [some "spacecraft1", none, some "payload"] =
          ([9] ++ out, none) ∧
        DecodeIdentifierList sampleCodec (out ++ [7, 7]) =
          .ok ([some "spacecraft1", none, some "payload"], [7, 7])) ∧
      (∃ out, UOctetList.Encode sampleListCodec [9] [some 1, none, some 255] =
          ([9] ++ out, none) ∧
        DecodeUOctetList sampleListCodec (out ++ [7, 7]) =
          .ok ([some 1, none, some 255], [7, 7])) ∧
      (∃ out, URIList.Encode sampleListCodec [9]
          [some "maltcp://127.0.0.1:16002/publisher", none] = ([9] ++ out, none) ∧
        DecodeURIList sampleListCodec (out ++ [7, 7]) =
          .ok ([some "maltcp://127.0.0.1:16002/publisher", none], [7, 7])) := by
  have h := list_codec_round_trip sampleListCodec [9]
  refine ⟨?_, ?_, ?_⟩
  · obtain ⟨out, h1, h2⟩ := h.1 [some "spacecraft1", none, some "payload"] (by decide)
      (sampleCodec_uinteger_roundTrips 3 (by decide))
      (fun e _ => sampleCodec_identifier_roundTrips e)
    exact ⟨out, h1, h2 [7, 7]⟩
  · obtain ⟨out, h1, h2⟩ := h.2.1 [some 1, none, some 255] (by decide)
      (sampleCodec_uinteger_roundTrips 3 (by decide))
      (fun e he => sampleListCodec_uoctet_roundTrips e (by
        intro v hv
        subst hv
        simp only [List.mem_cons, Option.some.injEq, reduceCtorEq, List.mem_singleton,
          List.not_mem_nil, or_false, false_or] at he
        rcases he with rfl | rfl <;> decide))
    exact ⟨out, h1, h2 [7, 7]⟩
  · obtain ⟨out, h1, h2⟩ := h.2.2 [some "maltcp://127.0.0.1:16002/publisher", none] (by decide)
      (sampleCodec_uinteger_roundTrips 2 (by decide))
      (fun e _ => sampleListCodec_uri_roundTrips e)
    exact ⟨out, h1, h2 [7, 7]⟩

/-- The bytes of the three sample lists. -/
theorem list_codec_sample_bytes :
    (UOctetList.Encode sampleListCodec [9] [some 1, none, some 255]).1 =
        [9, 0, 0, 0, 3, 1, 1, 0, 1, 255] ∧
      (IdentifierList.Encode sampleCodec [] [some "ab", none]).1 =
        [0, 0, 0, 2, 1, 2, 97, 98, 0] ∧
      (URIList.Encode sampleListCodec [] [none, some "a"]).1 = [0, 0, 0, 2, 0, 1, 1, 97] := by
  decide

/-! ## Classification of the messages that decode delivers -/

/-- The SDU table gives a PUB/SUB message one of the ten PUB/SUB stages. -/
theorem decodeSDU_pubsub_stage (sdu it st : Nat) (h : decodeSDU sdu = .ok (it, st)) :
    it = MAL_INTERACTIONTYPE_PUBSUB → 1 ≤ st ∧ st ≤ 10 := by
  unfold decodeSDU at h
  unfold MAL_INTERACTIONTYPE_PUBSUB
  split_ifs at h <;> simp only [Res.ok.injEq, Prod.mk.injEq, reduceCtorEq] at h <;>
    obtain ⟨h1, h2⟩ := h <;> omega

/-- A message of a legal pair of interaction type and stage, which is what encodeSDU
accepts, has one of the ten PUB/SUB stages when its pattern is PUB/SUB. -/
theorem encodeSDU_pubsub_stage (it st sdu : Nat) (h : encodeSDU it st = .ok sdu) :
    it = MAL_INTERACTIONTYPE_PUBSUB → 1 ≤ st ∧ st ≤ 10 := by
  unfold encodeSDU at h
  unfold MAL_INTERACTIONTYPE_PUBSUB
  split_ifs at h <;> omega

/-- Every message that decode delivers is classified by the names of the stages: it is
handled as a provider-side initial message exactly when it is one by name, and is
otherwise looked up among the outstanding operations. -/
theorem OnMessage_decoded_classification (codec : LeafCodec) (t : TCPTransport) (now : Nat)
    (buf : Body) (peer : String) (cctx : ClientContext) (cb : Callbacks) (msg : Message)
    (h : t.decode codec now buf peer = .ok msg) :
    (handledAsInitial msg (cctx.OnMessage cb msg) ↔ initialByName msg = true) ∧
      (initialByName msg = false → handledAsContinuation msg (cctx.OnMessage cb msg)) := by
  obtain ⟨b0, b1, b2, b3, b4, b5, hrest⟩ := decode_ok_fields codec t now buf peer msg h
  obtain ⟨b6, b7, b8, b9, b10, b11, hrest⟩ := hrest
  obtain ⟨b12, b13, b14, b15, b16, f, hrest⟩ := hrest
  obtain ⟨b18, b19, b20, b21, b22, rest, hrest⟩ := hrest
  obtain ⟨_, _, hsdu, _⟩ := hrest
  have hs := decodeSDU_pubsub_stage _ _ _ hsdu
  have h1 := handledAsInitial_iff cctx cb msg
  rw [routesToHandler_eq_initialByParity, initialByParity_eq_initialByName msg hs] at h1
  refine ⟨h1, fun hn => handledAsContinuation_of_not_routes cctx cb msg ?_⟩
  rw [routesToHandler_eq_initialByParity, initialByParity_eq_initialByName msg hs]
  exact hn

/-- Witness of `OnMessage_classification`: the REGISTER of the subscriber of
broker_test.go is handled as a provider-side initial message; the PUBLISH of the publisher
with the error flag set, and a NOTIFY, are looked up among the outstanding operations. -/
theorem OnMessage_classification_witness :
    handledAsInitial (testRegister [])
        ((sampleContext [] []).OnMessage idleCallbacks (testRegister [])) ∧
      handledAsContinuation { testPublish [] with IsErrorMessage := true }
        ((sampleContext [] []).OnMessage idleCallbacks
          { testPublish [] with IsErrorMessage := true }) ∧
      handledAsContinuation { testPublish [] with InteractionStage := 6 }
        ((sampleContext [] []).OnMessage idleCallbacks
          { testPublish [] with InteractionStage := 6 }) :=
  ⟨((OnMessage_classification (sampleContext [] []) idleCallbacks (testRegister [])).2.2
      (fun _ => by decide)).1.mpr (by decide),
    ((OnMessage_classification (sampleContext [] []) idleCallbacks
      { testPublish [] with IsErrorMessage := true }).2.2 (fun _ => by decide)).2 (by decide),
    ((OnMessage_classification (sampleContext [] []) idleCallbacks
      { testPublish [] with InteractionStage := 6 }).2.2 (fun _ => by decide)).2 (by decide)⟩

end Malgo
